import Mathlib

/-!
# Frame pool state machine of `VideoOutputXv` (libs/libmythtv/videoout_xv.cpp)

A shallow embedding of the frame lifecycle code of `VideoOutputXv`, built with
`USING_XVMC` defined.  `VideoFrame*` pointers are addresses (`Nat`), a null
pointer is `none`.  The frame pool `vbuffers` (class `VideoBuffers`) is kept as
explicit state; every call that `VideoOutputXv` makes on it is appended to a
call trace, so that properties about which calls are made can be stated next to
properties about the queues.
-/

namespace MythTV

/-- A `VideoFrame*` that is not null: the address of the frame. -/
abbrev VideoFrame := Nat

/-- Modelled from the spec: the enumeration `VOSType` is declared in
videoout_xv.h, which is not part of the sources.  The tiers are the ones of the
class comment (plain Xlib, X shared memory, XVideo, XvMC, XvMC-IDCT, XvMC-VLD),
in the order that the comparisons `<= XVideo`, `> XVideo`, `>= XVideoMC` of the
source rely on. -/
inductive VOSType where
  | XVUnknown
  | Xlib
  | XShm
  | XVideo
  | XVideoMC
  | XVideoIDCT
  | XVideoVLD
  deriving DecidableEq, Repr

/-- Numeric value of a `VOSType` enumerator. -/
def VOSType.toNat : VOSType → Nat
  | .XVUnknown => 0
  | .Xlib => 1
  | .XShm => 2
  | .XVideo => 3
  | .XVideoMC => 4
  | .XVideoIDCT => 5
  | .XVideoVLD => 6

/-- Modelled from the spec: the queue names of the Frame Registry
(`free`, `limbo`, `used`, `pause`, `displayed`), under the enumerator names the
source uses for them (videobuffers.h is not part of the sources). -/
inductive BufferType where
  | kVideoBuffer_avail
  | kVideoBuffer_limbo
  | kVideoBuffer_used
  | kVideoBuffer_pause
  | kVideoBuffer_displayed
  deriving DecidableEq, Repr

/-- Modelled from the spec: the Frame Registry (class `VideoBuffers`, whose
implementation videobuffers.cpp is not part of the sources).  It holds the named
queues, the overlay attachment relation (`childId` / `parentId`), the
inheritance relation that `Children`, `HasChildren` and `RemoveInheritence`
work on (`children p` lists the frames that still reference `p`), and the
advisory per-frame `lockCount`. -/
structure VideoBuffers where
  available : List VideoFrame
  limbo : List VideoFrame
  used : List VideoFrame
  pause : List VideoFrame
  displayed : List VideoFrame
  children : VideoFrame → List VideoFrame
  osd_child : VideoFrame → Option VideoFrame
  osd_parent : VideoFrame → Option VideoFrame
  lockCount : VideoFrame → Nat

namespace VideoBuffers

/-- The frames of one named queue, head first. -/
def queue (vb : VideoBuffers) : BufferType → List VideoFrame
  | .kVideoBuffer_avail => vb.available
  | .kVideoBuffer_limbo => vb.limbo
  | .kVideoBuffer_used => vb.used
  | .kVideoBuffer_pause => vb.pause
  | .kVideoBuffer_displayed => vb.displayed

/-- Replaces the contents of one named queue. -/
def setQueue (vb : VideoBuffers) (t : BufferType) (q : List VideoFrame) : VideoBuffers :=
  match t with
  | .kVideoBuffer_avail => { vb with available := q }
  | .kVideoBuffer_limbo => { vb with limbo := q }
  | .kVideoBuffer_used => { vb with used := q }
  | .kVideoBuffer_pause => { vb with pause := q }
  | .kVideoBuffer_displayed => { vb with displayed := q }

/-- Modelled from the spec: `vbuffers.size(queue)`, the number of frames in a
named queue. -/
def size (vb : VideoBuffers) (t : BufferType) : Nat := (vb.queue t).length

/-- Modelled from the spec: `vbuffers.head(queue)`, the oldest frame of a named
queue, null when the queue is empty. -/
def head (vb : VideoBuffers) (t : BufferType) : Option VideoFrame := (vb.queue t).head?

/-- Modelled from the spec: `vbuffers.tail(queue)`, the frame most recently
added to a named queue, null when the queue is empty. -/
def tail (vb : VideoBuffers) (t : BufferType) : Option VideoFrame := (vb.queue t).getLast?

/-- Removes a frame from every named queue. -/
def removeAll (vb : VideoBuffers) (f : VideoFrame) : VideoBuffers :=
  { vb with
    available := vb.available.filter (fun g => g != f)
    limbo := vb.limbo.filter (fun g => g != f)
    used := vb.used.filter (fun g => g != f)
    pause := vb.pause.filter (fun g => g != f)
    displayed := vb.displayed.filter (fun g => g != f) }

/-- Appends a frame at the tail of a named queue. -/
def enqueue (vb : VideoBuffers) (t : BufferType) (f : VideoFrame) : VideoBuffers :=
  vb.setQueue t (vb.queue t ++ [f])

/-- Modelled from the spec: `vbuffers.safeEnqueue(queue, frame)`, the queue
transition of the Frame Registry.  A frame belongs to exactly one named queue,
so the frame leaves whatever queue it is in and joins the tail of the
destination.  The callers pass null frames (`ShowXvMC`), for which nothing
happens. -/
def safeEnqueue (vb : VideoBuffers) (dst : BufferType) (frame : Option VideoFrame) :
    VideoBuffers :=
  match frame with
  | none => vb
  | some f => (vb.removeAll f).enqueue dst f

/-- Modelled from the spec: the state change of `vbuffers.dequeue(queue)`, which
takes the head frame out of a named queue (the frame returned is `head`, null on
an empty queue). -/
def dequeue (vb : VideoBuffers) (t : BufferType) : VideoBuffers :=
  vb.setQueue t (vb.queue t).tail

/-- Modelled from the spec: `vbuffers.GetOSDFrame(frame)`, the `childId` of the
overlay attachment relation; a null frame has no child. -/
def GetOSDFrame (vb : VideoBuffers) (frame : Option VideoFrame) : Option VideoFrame :=
  match frame with
  | none => none
  | some f => vb.osd_child f

/-- Modelled from the spec: `vbuffers.GetOSDParent(frame)`, the `parentId` of the
overlay attachment relation; a null frame has no parent. -/
def GetOSDParent (vb : VideoBuffers) (frame : Option VideoFrame) : Option VideoFrame :=
  match frame with
  | none => none
  | some f => vb.osd_parent f

/-- Modelled from the spec: `vbuffers.SetOSDFrame(frame, osd)`.  With a null
`osd` it is `detach(parent)`, which clears the relation on both sides and is a
no-op on a parent without child.  With a frame it is `attach(parent, child)`,
which fails (nothing changes) if the parent already has a child and otherwise
sets the symmetric relation. -/
def SetOSDFrame (vb : VideoBuffers) (f : VideoFrame) (osd : Option VideoFrame) : VideoBuffers :=
  match osd with
  | none =>
    match vb.osd_child f with
    | none => vb
    | some c =>
      { vb with
        osd_child := fun g => if g = f then none else vb.osd_child g
        osd_parent := fun g => if g = c then none else vb.osd_parent g }
  | some c =>
    match vb.osd_child f with
    | some _ => vb
    | none =>
      { vb with
        osd_child := fun g => if g = f then some c else vb.osd_child g
        osd_parent := fun g => if g = c then some f else vb.osd_parent g }

/-- Modelled from the spec: `vbuffers.Children(frame)`, the frames that still
reference `frame`. -/
def Children (vb : VideoBuffers) (f : VideoFrame) : List VideoFrame := vb.children f

/-- Modelled from the spec: `vbuffers.HasChildren(frame)`. -/
def HasChildren (vb : VideoBuffers) (f : VideoFrame) : Bool := !(vb.children f).isEmpty

/-- Modelled from the spec: `vbuffers.RemoveInheritence(frame)`.  The frame
stops referencing other frames: it is taken out of the children of every frame
(the aggressive sweep of the source relies on this when it re-reads
`Children(frame)` after `RemoveInheritence(cframe)`). -/
def RemoveInheritence (vb : VideoBuffers) (f : VideoFrame) : VideoBuffers :=
  { vb with children := fun p => (vb.children p).filter (fun c => c != f) }

/-- Modelled from the spec: `lock(frame, tag)`, which adds one to the advisory
`lockCount` (the diagnostic tag is not modelled). -/
def LockFrame (vb : VideoBuffers) (f : VideoFrame) : VideoBuffers :=
  { vb with lockCount := fun g => if g = f then vb.lockCount g + 1 else vb.lockCount g }

/-- Modelled from the spec: `unlock(frame, tag)`.  `lockCount` is never
negative; unlocking a null frame does nothing (`ShowXvMC` does so). -/
def UnlockFrame (vb : VideoBuffers) (frame : Option VideoFrame) : VideoBuffers :=
  match frame with
  | none => vb
  | some f =>
    { vb with lockCount := fun g => if g = f then vb.lockCount g - 1 else vb.lockCount g }

/-- Modelled from the spec: `discard(frame)`, the forced transition to `free`
that still enforces the lock-count invariant: it fails (`FrameBusy`, nothing
changes) if `lockCount > 0`. -/
def DiscardFrame (vb : VideoBuffers) (f : VideoFrame) : VideoBuffers :=
  if vb.lockCount f = 0 then vb.safeEnqueue .kVideoBuffer_avail (some f) else vb

/-- Modelled from the spec: the frame that `acquireFree` hands out, the first
frame of `free` that passes the lock-safety check (`lockCount = 0`); the check
is bypassed only with `allow_unsafe`.  Null when there is none
(`PoolExhausted`). -/
def nextFree (vb : VideoBuffers) ( allow_unsafe : Bool) : Option VideoFrame :=
  vb.available.find? (fun f => allow_unsafe || vb.lockCount f == 0)

/-- Modelled from the spec: the state change of
`vbuffers.GetNextFreeFrame(with_lock, allow_unsafe)` (`acquireFree`), which moves
the frame handed out from `free` to `limbo`, locked if `with_lock`. -/
def GetNextFreeFrame (vb : VideoBuffers) (with_lock allow_unsafe : Bool) : VideoBuffers :=
  match vb.nextFree allow_unsafe with
  | none => vb
  | some f =>
    let vb1 := vb.safeEnqueue .kVideoBuffer_limbo (some f)
    if with_lock then vb1.LockFrame f else vb1

end VideoBuffers

/-- The calls that `VideoOutputXv` makes on `vbuffers` and on the X server,
recorded in the order they are made.  `begin_lock` / `end_lock` are the
queue-level lock. -/
inductive Call where
  | LockFrame (f : VideoFrame)
  | TryLockFrame (f : VideoFrame) (ok : Bool)
  | UnlockFrame (f : Option VideoFrame)
  | SetOSDFrame (f : VideoFrame) (osd : Option VideoFrame)
  | RemoveInheritence (f : VideoFrame)
  | safeEnqueue (dst : BufferType) (f : Option VideoFrame)
  | dequeue (t : BufferType)
  | DiscardFrame (f : VideoFrame)
  | DiscardFrames (next_frame_keyframe : Bool)
  | DoneDisplayingFrame
  | GetNextFreeFrame (with_lock allow_unsafe : Bool)
  | begin_lock (t : BufferType)
  | end_lock
  | SyncSurface (f : Option VideoFrame) (past_future : Int)
  | XvMCPutSurface (surf : Option Nat)
  | XvMCHideSurface (surf : Option Nat)
  | CompositeOSD (f : VideoFrame) (osd : Option VideoFrame)
  deriving DecidableEq

/-- Render state of a frame (`xvmc_render_state_t`): the fields that the frame
lifecycle code reads.  `disp` and `p_surface` are assigned when the surfaces are
created and are constant through the operations below. -/
structure xvmc_render_state_t where
  disp : Option Nat
  p_surface : Option Nat

/-- An OSD surface object (`XvMCOSD`, osdxvmc.h) as far as `ProcessFrameXvMC`
looks at it: the answers of `IsValid()` and `NeedFrame()`. -/
structure XvMCOSD where
  IsValid : Bool
  NeedFrame : Bool

/-- What the operations take from outside the pool, held fixed during a call:
the render state behind each frame, the answer of the X server to
`XvMCGetSurfaceStatus(disp, surf, &status)` as the pair `(res, status)`, whether
a `TryLockFrame` on a frame succeeds (it fails when another actor holds the
lock), the two pool operations of the
XVideo-or-lower path whose implementation is not part of the sources
(`vbuffers.DiscardFrames(bool)` and `vbuffers.DoneDisplayingFrame()`), and what
`ProcessFrameXvMC` reads: whether `chroma_osd` is set, `embedding`, the object
that `GetAvailableOSD()` hands out and the value returned by `DisplayOSD`. -/
structure Env where
  render : VideoFrame → Option xvmc_render_state_t
  XvMCGetSurfaceStatus : Nat → Nat → Int × Nat
  TryLockFrame : VideoFrame → Bool
  poolDiscardFrames : Bool → VideoBuffers → VideoBuffers
  poolDoneDisplayingFrame : VideoBuffers → VideoBuffers
  chroma_osd : Bool
  embedding : Bool
  GetAvailableOSD : Option XvMCOSD
  DisplayOSD : Int

/-- The state change that a recorded call makes on the pool. -/
def Call.apply (env : Env) : Call → VideoBuffers → VideoBuffers
  | .LockFrame f, vb => vb.LockFrame f
  | .TryLockFrame f ok, vb => if ok then vb.LockFrame f else vb
  | .UnlockFrame f, vb => vb.UnlockFrame f
  | .SetOSDFrame f osd, vb => vb.SetOSDFrame f osd
  | .RemoveInheritence f, vb => vb.RemoveInheritence f
  | .safeEnqueue dst f, vb => vb.safeEnqueue dst f
  | .dequeue t, vb => vb.dequeue t
  | .DiscardFrame f, vb => vb.DiscardFrame f
  | .DiscardFrames k, vb => env.poolDiscardFrames k vb
  | .DoneDisplayingFrame, vb => env.poolDoneDisplayingFrame vb
  | .GetNextFreeFrame l u, vb => vb.GetNextFreeFrame l u
  | .begin_lock _, vb => vb
  | .end_lock, vb => vb
  | .SyncSurface _ _, vb => vb
  | .XvMCPutSurface _, vb => vb
  | .XvMCHideSurface _, vb => vb
  | .CompositeOSD _ _, vb => vb

/-- The class `XvMCBufferSettings`: the buffer settings object of the source. -/
structure XvMCBufferSettings where
  num_xvmc_surf : Nat
  needed_for_display : Nat
  min_num_xvmc_surfaces : Nat
  max_num_xvmc_surfaces : Nat
  num_xvmc_surfaces : Nat
  aggressive : Bool
  deriving DecidableEq, Repr

namespace XvMCBufferSettings

/-- The constructor `XvMCBufferSettings()`. -/
def new : XvMCBufferSettings :=
  { num_xvmc_surf := 1
    needed_for_display := 1
    min_num_xvmc_surfaces := 8
    max_num_xvmc_surfaces := 16
    num_xvmc_surfaces := 8
    aggressive := false }

/-- Method `SetOSDNum(uint val)`. -/
def SetOSDNum (b : XvMCBufferSettings) (val : Nat) : XvMCBufferSettings :=
  { b with num_xvmc_surf := val % 2 ^ 32 }

/-- Method `SetNumSurf(uint val)`. -/
def SetNumSurf (b : XvMCBufferSettings) (val : Nat) : XvMCBufferSettings :=
  { b with
    num_xvmc_surfaces := min (max (val % 2 ^ 32) b.min_num_xvmc_surfaces) b.max_num_xvmc_surfaces }

/-- Method `GetOSDNum()`. -/
def GetOSDNum (b : XvMCBufferSettings) : Nat := b.num_xvmc_surf

/-- Method `GetMinSurf()`. -/
def GetMinSurf (b : XvMCBufferSettings) : Nat := b.min_num_xvmc_surfaces

/-- Method `GetMaxSurf()`. -/
def GetMaxSurf (b : XvMCBufferSettings) : Nat := b.max_num_xvmc_surfaces

/-- Method `GetNumSurf()`. -/
def GetNumSurf (b : XvMCBufferSettings) : Nat := b.num_xvmc_surfaces

/-- Method `IsAggressive()`. -/
def IsAggressive (b : XvMCBufferSettings) : Bool := b.aggressive

end XvMCBufferSettings

/-- Contents of a frame as far as `CopyFrame` is concerned: the frame number and
the pixel storage. -/
structure FrameData where
  frameNumber : Int
  pixels : Nat
  deriving DecidableEq, Repr

/-- The part of a `VideoOutputXv` object that the frame lifecycle code works
on.  `p_past_surface` / `p_future_surface` are the two render-state fields that
this code assigns; `mem` is the contents of each frame by address;
`av_pause_frame` is the address of the member of that name; `trace` is the
record of the calls made so far. -/
structure VideoOutputXv where
  video_output_subtype : VOSType
  vbuffers : VideoBuffers
  xvmc_buf_attr : XvMCBufferSettings
  p_past_surface : VideoFrame → Option Nat
  p_future_surface : VideoFrame → Option Nat
  av_pause_frame : VideoFrame
  scratch_frame : VideoFrame
  mem : VideoFrame → FrameData
  framesPlayed : Int
  trace : List Call

/-- Constant `Success` of X.h. -/
def Success : Int := 0

/-- Constant `XVMC_RENDERING` of XvMClib.h. -/
def XVMC_RENDERING : Nat := 1

/-- Constant `XVMC_DISPLAYING` of XvMClib.h. -/
def XVMC_DISPLAYING : Nat := 2

/-- The static function `GetRender(frame)`: null for a null frame, else the
render state behind `frame->buf`. -/
def GetRender (env : Env) (frame : Option VideoFrame) : Option xvmc_render_state_t :=
  match frame with
  | none => none
  | some f => env.render f

/-- The pair `(res, status)` after the guarded status query that `IsDisplaying`
and `IsRendering` share: both start at 0 and the X server is asked only when
`disp` and `surf` are non-null. -/
def surfaceStatus (env : Env) (render : xvmc_render_state_t) : Int × Nat :=
  match render.disp, render.p_surface with
  | some disp, some surf => env.XvMCGetSurfaceStatus disp surf
  | _, _ => (0, 0)

/-- The function `VideoOutputXv::IsDisplaying(frame)`. -/
def IsDisplaying (env : Env) (frame : Option VideoFrame) : Bool :=
  match GetRender env frame with
  | none => false
  | some render =>
    let rs := surfaceStatus env render
    if Success = rs.1 then decide (rs.2 &&& XVMC_DISPLAYING ≠ 0) else false

/-- The function `VideoOutputXv::IsRendering(frame)`. -/
def IsRendering (env : Env) (frame : Option VideoFrame) : Bool :=
  match GetRender env frame with
  | none => false
  | some render =>
    let rs := surfaceStatus env render
    if Success = rs.1 then decide (rs.2 &&& XVMC_RENDERING ≠ 0) else false

namespace VideoOutputXv

/-- Method `VideoOutputSubType()`. -/
def VideoOutputSubType (s : VideoOutputXv) : VOSType := s.video_output_subtype

/-- One call on `vbuffers` (or on the X server): the pool changes as the call
says and the call is recorded. -/
def vcall (env : Env) (s : VideoOutputXv) (c : Call) : VideoOutputXv :=
  { s with vbuffers := c.apply env s.vbuffers, trace := s.trace ++ [c] }

/-- The state in which `VideoOutputXv::SyncSurface(frame, past_future)`
(`past_future` defaults to 0) returns.  The function waits for the back-end to
finish rendering the surface; it changes neither the pool nor the render fields
modelled here, so that the state at return is the state at entry with the call
recorded (the record stands for the status query, `XvMCFlushSurface` and the wait
loop).  Whether the call returns is what `SyncSurface_wait` below models; the
operations built on `SyncSurface` give the state in which they return. -/
def SyncSurface (env : Env) (frame : Option VideoFrame) (past_future : Int)
    (s : VideoOutputXv) : VideoOutputXv :=
  s.vcall env (.SyncSurface frame past_future)

/-- The two assignments `GetRender(frame)->p_past_surface = NULL;
GetRender(frame)->p_future_surface = NULL;`. -/
def clearPastFuture (f : VideoFrame) (s : VideoOutputXv) : VideoOutputXv :=
  { s with
    p_past_surface := fun g => if g = f then none else s.p_past_surface g
    p_future_surface := fun g => if g = f then none else s.p_future_surface g }

/-- The function `VideoOutputXv::GetNextFreeFrame(bool allow_unsafe)`: the
frame returned and the state afterwards.  The parameter is unnamed in the
source. -/
def GetNextFreeFrame (env : Env) ( _allow_unsafe : Bool) (s : VideoOutputXv) :
    Option VideoFrame × VideoOutputXv :=
  (s.vbuffers.nextFree false, s.vcall env (.GetNextFreeFrame false false))

/-- The XvMC block of `VideoOutputXv::DiscardFrame` (between `#ifdef USING_XVMC`
and `#endif`): returns `displaying` and the state. -/
def DiscardFrame_check (env : Env) (f : VideoFrame) (s : VideoOutputXv) :
    Bool × VideoOutputXv :=
  let s := s.vcall env (.LockFrame f)
  if s.VideoOutputSubType.toNat ≥ VOSType.XVideoMC.toNat then
    let osdframe := s.vbuffers.GetOSDFrame (some f)
    let pframe := match osdframe with
      | some _ => none
      | none => s.vbuffers.GetOSDParent (some f)
    let s := match osdframe with
      | some _ => s.vcall env (.SetOSDFrame f none)
      | none => s
    let s := s.SyncSurface env (some f) 0
    let displaying := IsDisplaying env (some f)
    let s := s.vcall env (.UnlockFrame (some f))
    let s := s.SyncSurface env osdframe 0
    let displaying := displaying || IsDisplaying env osdframe
    let s := if !displaying && pframe.isSome then s.vcall env (.SetOSDFrame f none) else s
    (displaying, s)
  else
    (false, s.vcall env (.UnlockFrame (some f)))

/-- The function `VideoOutputXv::DiscardFrame(VideoFrame *frame)`. -/
def DiscardFrame (env : Env) (frame : Option VideoFrame) (s : VideoOutputXv) : VideoOutputXv :=
  match frame with
  | none => s
  | some f =>
    let r := DiscardFrame_check env f s
    let displaying := r.1
    let s := r.2
    if displaying || s.vbuffers.HasChildren f then
      s.vcall env (.safeEnqueue .kVideoBuffer_displayed (some f))
    else
      let s := s.vcall env (.LockFrame f)
      let s := if s.VideoOutputSubType.toNat ≥ VOSType.XVideoMC.toNat
        then s.clearPastFuture f else s
      let s := s.vcall env (.UnlockFrame (some f))
      let s := s.vcall env (.RemoveInheritence f)
      s.vcall env (.DiscardFrame f)

/-- The inner `for (; cit != c.end(); ++cit)` loop of the aggressive branch of
`CheckDisplayedFramesForAvailability`, for one displayed `frame`.  `c` is the
local copy of the children and `cit` the position in it.  After a child that is
not rendering was detached, the source re-reads `c`, sets `cit = c.begin()` and
the loop increment then moves to position 1.  The first argument bounds the
number of iterations. -/
def aggressiveChildren (env : Env) (frame : VideoFrame) :
    Nat → List VideoFrame → Nat → VideoOutputXv → VideoOutputXv
  | 0, _, _, s => s
  | fuel + 1, c, cit, s =>
    match c.get? cit with
    | none => s
    | some cframe =>
      let s := s.vcall env (.LockFrame cframe)
      if !IsRendering env (some cframe) then
        let s := s.clearPastFuture cframe
        let s := s.vcall env (.RemoveInheritence cframe)
        let s := s.vcall env (.UnlockFrame (some cframe))
        if !s.vbuffers.HasChildren frame then s
        else aggressiveChildren env frame fuel (s.vbuffers.Children frame) (0 + 1) s
      else
        let s := s.vcall env (.UnlockFrame (some cframe))
        aggressiveChildren env frame fuel c (cit + 1) s

/-- The aggressive branch of `CheckDisplayedFramesForAvailability`
(`if (xvmc_buf_attr->IsAggressive())`).  The outer loop walks the displayed
queue, which its body does not change.  The inner loop restarts at most once per
child, and a pass is at most as long as the children list, so
`(n + 1) * (n + 1)` iterations are enough for `n` children
(`aggressiveChildren_fuel` below). -/
def aggressiveSweep (env : Env) (s : VideoOutputXv) : VideoOutputXv :=
  let s := s.vcall env (.begin_lock .kVideoBuffer_displayed)
  let s := s.vbuffers.displayed.foldl
    (fun s frame =>
      let c := s.vbuffers.Children frame
      aggressiveChildren env frame ((c.length + 1) * (c.length + 1)) c 0 s) s
  s.vcall env .end_lock

/-- The second loop of `CheckDisplayedFramesForAvailability`:
`RemoveInheritence(*it)` for every frame of the displayed queue (which the body
does not change). -/
def removeDisplayedInheritence (env : Env) (s : VideoOutputXv) : VideoOutputXv :=
  let s := s.vcall env (.begin_lock .kVideoBuffer_displayed)
  let s := s.vbuffers.displayed.foldl (fun s f => s.vcall env (.RemoveInheritence f)) s
  s.vcall env .end_lock

/-- The final `while (it != vbuffers.end(kVideoBuffer_displayed))` loop of
`CheckDisplayedFramesForAvailability`; `it` is the position in the displayed
queue.  A frame that is not displaying and has no children is moved to the
available queue and the iteration restarts at the beginning; for a frame with
children the source only writes a log record.  The first argument bounds the
number of loop tests; `none` means the bound was reached before `it` reached the
end. -/
def sweepLoop (env : Env) : Nat → Nat → VideoOutputXv → Option VideoOutputXv
  | 0, _, _ => none
  | fuel + 1, it, s =>
    match s.vbuffers.displayed.get? it with
    | none => some s
    | some pframe =>
      let s := s.SyncSurface env (some pframe) 0
      if !IsDisplaying env (some pframe) then
        let children := s.vbuffers.Children pframe
        if !children.isEmpty then
          sweepLoop env fuel (it + 1) s
        else
          let s := s.vcall env (.RemoveInheritence pframe)
          let s := s.vcall env (.safeEnqueue .kVideoBuffer_avail (some pframe))
          let s := s.vcall env .end_lock
          let s := s.vcall env (.begin_lock .kVideoBuffer_displayed)
          sweepLoop env fuel 0 s
      else
        sweepLoop env fuel (it + 1) s

/-- A number of loop tests that is enough for the final loop of the sweep on a
displayed queue of `n` frames: a pass makes at most `n + 1` tests and every
restart follows the removal of a frame. -/
def sweepBound (n : Nat) : Nat := (n + 1) * (n + 1)

/-- The third part of `CheckDisplayedFramesForAvailability`: the final loop
between its `begin_lock` and `end_lock`. -/
def sweepDisplayed (env : Env) (s : VideoOutputXv) : VideoOutputXv :=
  let s := s.vcall env (.begin_lock .kVideoBuffer_displayed)
  let s := (sweepLoop env (sweepBound s.vbuffers.displayed.length) 0 s).getD s
  s.vcall env .end_lock

/-- The function `VideoOutputXv::CheckDisplayedFramesForAvailability()`. -/
def CheckDisplayedFramesForAvailability (env : Env) (s : VideoOutputXv) : VideoOutputXv :=
  let s := if s.xvmc_buf_attr.IsAggressive then aggressiveSweep env s else s
  let s := removeDisplayedInheritence env s
  sweepDisplayed env s

end VideoOutputXv

/-- The loop `while (IsRendering(frame)) usleep(50);` of `SyncSurface`: whether
it has ended after at most `sleeps` calls of `usleep`.  The test reads the render
state of the frame and the status function, which are held fixed, and `usleep`
changes nothing. -/
def waitWhileRendering (env : Env) (frame : Option VideoFrame) : Nat → Bool
  | 0 => !IsRendering env frame
  | sleeps + 1 => if IsRendering env frame then waitWhileRendering env frame sleeps else true

namespace VideoOutputXv

/-- The surface that `SyncSurface(frame, past_future)` asks the status of:
`render->p_past_surface` for `past_future == -1`, `render->p_future_surface` for
`past_future == +1`, and `render->p_surface` otherwise. -/
def syncedSurface (s : VideoOutputXv) (f : VideoFrame) (render : xvmc_render_state_t)
    (past_future : Int) : Option Nat :=
  if past_future = -1 then s.p_past_surface f
  else if past_future = 1 then s.p_future_surface f
  else render.p_surface

/-- The function `VideoOutputXv::SyncSurface(frame, past_future)` with its wait.
With a render state, a display and a surface it asks for the status of the
surface; if the status has the bit `XVMC_RENDERING` it calls `XvMCFlushSurface`
and then runs `while (IsRendering(frame)) usleep(50);`.  The result is `none` if
that loop has not ended after `sleeps` sleeps, and otherwise the state at return,
which is the one of `SyncSurface`. -/
def SyncSurface_wait (env : Env) (frame : Option VideoFrame) (past_future : Int)
    (sleeps : Nat) (s : VideoOutputXv) : Option VideoOutputXv :=
  match frame, GetRender env frame with
  | some f, some render =>
    match render.disp, s.syncedSurface f render past_future with
    | some disp, some surf =>
      let status := (env.XvMCGetSurfaceStatus disp surf).2
      if status &&& XVMC_RENDERING ≠ 0 then
        if waitWhileRendering env frame sleeps
        then some (s.SyncSurface env frame past_future) else none
      else some (s.SyncSurface env frame past_future)
    | _, _ => some (s.SyncSurface env frame past_future)
  | _, _ => some (s.SyncSurface env frame past_future)

/-- The XvMC block of `VideoOutputXv::DiscardFrame` with the waits of its two
`SyncSurface` calls: `none` if one of them has not ended after `sleeps` sleeps. -/
def DiscardFrame_check_wait (env : Env) (sleeps : Nat) (f : VideoFrame) (s : VideoOutputXv) :
    Option (Bool × VideoOutputXv) :=
  let s := s.vcall env (.LockFrame f)
  if s.VideoOutputSubType.toNat ≥ VOSType.XVideoMC.toNat then
    let osdframe := s.vbuffers.GetOSDFrame (some f)
    let pframe := match osdframe with
      | some _ => none
      | none => s.vbuffers.GetOSDParent (some f)
    let s := match osdframe with
      | some _ => s.vcall env (.SetOSDFrame f none)
      | none => s
    (s.SyncSurface_wait env (some f) 0 sleeps).bind fun s =>
    let displaying := IsDisplaying env (some f)
    let s := s.vcall env (.UnlockFrame (some f))
    (s.SyncSurface_wait env osdframe 0 sleeps).bind fun s =>
    let displaying := displaying || IsDisplaying env osdframe
    let s := if !displaying && pframe.isSome then s.vcall env (.SetOSDFrame f none) else s
    some (displaying, s)
  else
    some (false, s.vcall env (.UnlockFrame (some f)))

/-- The function `VideoOutputXv::DiscardFrame(VideoFrame *frame)` with the waits
of `SyncSurface`. -/
def DiscardFrame_wait (env : Env) (sleeps : Nat) (frame : Option VideoFrame)
    (s : VideoOutputXv) : Option VideoOutputXv :=
  match frame with
  | none => some s
  | some f =>
    (DiscardFrame_check_wait env sleeps f s).bind fun r =>
    let displaying := r.1
    let s := r.2
    if displaying || s.vbuffers.HasChildren f then
      some (s.vcall env (.safeEnqueue .kVideoBuffer_displayed (some f)))
    else
      let s := s.vcall env (.LockFrame f)
      let s := if s.VideoOutputSubType.toNat ≥ VOSType.XVideoMC.toNat
        then s.clearPastFuture f else s
      let s := s.vcall env (.UnlockFrame (some f))
      let s := s.vcall env (.RemoveInheritence f)
      some (s.vcall env (.DiscardFrame f))

/-- The loop `while (vbuffers.size(kVideoBuffer_pause))
DiscardFrame(vbuffers.dequeue(kVideoBuffer_pause));` with the waits of
`SyncSurface`.  The second argument bounds the number of iterations as in
`discardPause`. -/
def discardPause_wait (env : Env) (sleeps : Nat) : Nat → VideoOutputXv → Option VideoOutputXv
  | 0, s => some s
  | fuel + 1, s =>
    if s.vbuffers.size .kVideoBuffer_pause ≠ 0 then
      let frame := s.vbuffers.head .kVideoBuffer_pause
      let s := s.vcall env (.dequeue .kVideoBuffer_pause)
      (DiscardFrame_wait env sleeps frame s).bind fun s => discardPause_wait env sleeps fuel s
    else some s

/-- The final `while (it != vbuffers.end(kVideoBuffer_displayed))` loop of
`CheckDisplayedFramesForAvailability` with the wait of the `SyncSurface(pframe)`
that opens its body.  The second argument bounds the number of loop tests;
`none` means that this bound was reached before `it` reached the end, or that a
wait had not ended after `sleeps` sleeps. -/
def sweepLoop_wait (env : Env) (sleeps : Nat) :
    Nat → Nat → VideoOutputXv → Option VideoOutputXv
  | 0, _, _ => none
  | fuel + 1, it, s =>
    match s.vbuffers.displayed.get? it with
    | none => some s
    | some pframe =>
      match s.SyncSurface_wait env (some pframe) 0 sleeps with
      | none => none
      | some s =>
        if !IsDisplaying env (some pframe) then
          let children := s.vbuffers.Children pframe
          if !children.isEmpty then
            sweepLoop_wait env sleeps fuel (it + 1) s
          else
            let s := s.vcall env (.RemoveInheritence pframe)
            let s := s.vcall env (.safeEnqueue .kVideoBuffer_avail (some pframe))
            let s := s.vcall env .end_lock
            let s := s.vcall env (.begin_lock .kVideoBuffer_displayed)
            sweepLoop_wait env sleeps fuel 0 s
        else
          sweepLoop_wait env sleeps fuel (it + 1) s

/-- The third part of `CheckDisplayedFramesForAvailability` with the waits of
`SyncSurface`. -/
def sweepDisplayed_wait (env : Env) (sleeps : Nat) (s : VideoOutputXv) :
    Option VideoOutputXv :=
  let s := s.vcall env (.begin_lock .kVideoBuffer_displayed)
  (sweepLoop_wait env sleeps (sweepBound s.vbuffers.displayed.length) 0 s).bind fun s =>
  some (s.vcall env .end_lock)

/-- The function `VideoOutputXv::CheckDisplayedFramesForAvailability()` with the
waits of `SyncSurface`; its first two loops call no `SyncSurface`. -/
def CheckDisplayedFramesForAvailability_wait (env : Env) (sleeps : Nat) (s : VideoOutputXv) :
    Option VideoOutputXv :=
  let s := if s.xvmc_buf_attr.IsAggressive then aggressiveSweep env s else s
  let s := removeDisplayedInheritence env s
  sweepDisplayed_wait env sleeps s

end VideoOutputXv

namespace VideoOutputXv

/-- The statement `DQ_COPY(DST, SRC)`: appends the frames of queue `SRC` to the
local list `DST` under the queue lock. -/
def DQ_COPY (env : Env) (dst : List VideoFrame) (src : BufferType) (s : VideoOutputXv) :
    List VideoFrame × VideoOutputXv :=
  let s := s.vcall env (.begin_lock src)
  (dst ++ s.vbuffers.queue src, s.vcall env .end_lock)

/-- The loop `for (it = syncs.begin(); it != syncs.end(); ++it)` of
`DiscardFrames`: syncs the past, future and current surface of every frame of
the local list. -/
def syncAll (env : Env) (syncs : List VideoFrame) (s : VideoOutputXv) : VideoOutputXv :=
  syncs.foldl
    (fun s f =>
      let s := s.SyncSurface env (some f) (-1)
      let s := s.SyncSurface env (some f) 1
      s.SyncSurface env (some f) 0) s

/-- The sync block of `DiscardFrames` (it occurs twice): the local list `syncs`
is filled with the displayed and the pause queue, and every frame of it is
synced. -/
def syncDisplayedPause (env : Env) (s : VideoOutputXv) : VideoOutputXv :=
  let r := DQ_COPY env [] .kVideoBuffer_displayed s
  let r := DQ_COPY env r.1 .kVideoBuffer_pause r.2
  syncAll env r.1 r.2

/-- The XvMC path of `DiscardFrames` up to the end of the block marked "Lock Y":
the reclaim sweep, the first sync block, and the local list `discards` made of
the used and the limbo queue. -/
def DiscardFrames_collect (env : Env) (s : VideoOutputXv) :
    List VideoFrame × VideoOutputXv :=
  let s := s.vcall env (.begin_lock .kVideoBuffer_displayed)
  let s := s.vcall env .end_lock
  let s := CheckDisplayedFramesForAvailability env s
  let s := s.vcall env (.begin_lock .kVideoBuffer_displayed)
  let s := syncDisplayedPause env s
  let r := DQ_COPY env [] .kVideoBuffer_used s
  let r := DQ_COPY env r.1 .kVideoBuffer_limbo r.2
  (r.1, r.2.vcall env .end_lock)

/-- The function `VideoOutputXv::DiscardFrames(bool next_frame_keyframe)`. -/
def DiscardFrames (env : Env) (next_frame_keyframe : Bool) (s : VideoOutputXv) :
    VideoOutputXv :=
  if s.VideoOutputSubType.toNat ≤ VOSType.XVideo.toNat then
    s.vcall env (.DiscardFrames next_frame_keyframe)
  else
    let r := DiscardFrames_collect env s
    let discards := r.1
    let s := discards.foldl (fun s f => DiscardFrame env (some f) s) r.2
    let s := s.vcall env (.begin_lock .kVideoBuffer_displayed)
    let s := syncDisplayedPause env s
    s.vcall env .end_lock

/-- The function `VideoOutputXv::DoneDisplayingFrame()`. -/
def DoneDisplayingFrame (env : Env) (s : VideoOutputXv) : VideoOutputXv :=
  if s.VideoOutputSubType.toNat ≤ VOSType.XVideo.toNat then
    s.vcall env .DoneDisplayingFrame
  else
    let s :=
      if s.vbuffers.size .kVideoBuffer_used ≠ 0 then
        let frame := s.vbuffers.head .kVideoBuffer_used
        let s := DiscardFrame env frame s
        let osdframe := s.vbuffers.GetOSDFrame frame
        match osdframe with
        | some o => DiscardFrame env (some o) s
        | none => s
      else s
    CheckDisplayedFramesForAvailability env s

/-- The loop `while (vbuffers.size(kVideoBuffer_pause))
DiscardFrame(vbuffers.dequeue(kVideoBuffer_pause));`.  The first argument bounds
the number of iterations; the callers pass the size of the pause queue, which
every iteration reduces by one. -/
def discardPause (env : Env) : Nat → VideoOutputXv → VideoOutputXv
  | 0, s => s
  | fuel + 1, s =>
    if s.vbuffers.size .kVideoBuffer_pause ≠ 0 then
      let frame := s.vbuffers.head .kVideoBuffer_pause
      let s := s.vcall env (.dequeue .kVideoBuffer_pause)
      discardPause env fuel (DiscardFrame env frame s)
    else s

/-- Modelled from the spec: `CopyFrame(dst, src)` (declared outside the
sources), which copies the contents of frame `src` into frame `dst`. -/
def CopyFrame (dst src : VideoFrame) (s : VideoOutputXv) : VideoOutputXv :=
  { s with mem := fun g => if g = dst then s.mem src else s.mem g }

/-- The assignment `frame->frameNumber = n`. -/
def setFrameNumber (f : VideoFrame) (n : Int) (s : VideoOutputXv) : VideoOutputXv :=
  { s with mem := fun g => if g = f then { frameNumber := n, pixels := (s.mem g).pixels }
                           else s.mem g }

/-- The branch of `VideoOutputXv::UpdatePauseFrame` for
`VideoOutputSubType() <= XVideo`. -/
def UpdatePauseFrame_XVideo (env : Env) (s : VideoOutputXv) : VideoOutputXv :=
  let s := s.vcall env (.LockFrame s.av_pause_frame)
  let s := s.vcall env (.begin_lock .kVideoBuffer_used)
  let r : Option VideoFrame × VideoOutputXv :=
    if s.vbuffers.size .kVideoBuffer_used > 0 then
      match s.vbuffers.head .kVideoBuffer_used with
      | none => (none, s)
      | some u =>
        let ok := env.TryLockFrame u
        let s := s.vcall env (.TryLockFrame u ok)
        (if ok then some u else none, s)
    else (none, s)
  let used_frame := r.1
  let s := r.2
  let s := match used_frame with
    | some u =>
      let s := s.CopyFrame s.av_pause_frame u
      s.vcall env (.UnlockFrame (some u))
    | none => s
  let s := s.vcall env .end_lock
  let s :=
    if used_frame.isNone then
      let ok := env.TryLockFrame s.scratch_frame
      let s := s.vcall env (.TryLockFrame s.scratch_frame ok)
      if ok then
        let s := s.setFrameNumber s.scratch_frame (s.framesPlayed - 1)
        let s := s.CopyFrame s.av_pause_frame s.scratch_frame
        s.vcall env (.UnlockFrame (some s.scratch_frame))
      else s
    else s
  s.vcall env (.UnlockFrame (some s.av_pause_frame))

/-- The last part of the XvMC branch of `UpdatePauseFrame`: looks for a pause
frame in the displayed queue. -/
def UpdatePauseFrame_displayed (env : Env) (s : VideoOutputXv) : VideoOutputXv :=
  let s := s.vcall env (.begin_lock .kVideoBuffer_displayed)
  let s :=
    if s.vbuffers.size .kVideoBuffer_displayed ≠ 0 then
      let frame := s.vbuffers.tail .kVideoBuffer_displayed
      let frame := if (s.vbuffers.GetOSDParent frame).isSome
        then s.vbuffers.GetOSDParent frame else frame
      s.vcall env (.safeEnqueue .kVideoBuffer_pause frame)
    else s
  s.vcall env .end_lock

/-- The function `VideoOutputXv::UpdatePauseFrame()`. -/
def UpdatePauseFrame (env : Env) (s : VideoOutputXv) : VideoOutputXv :=
  if s.VideoOutputSubType.toNat ≤ VOSType.XVideo.toNat then
    UpdatePauseFrame_XVideo env s
  else if s.vbuffers.size .kVideoBuffer_pause > 1 then
    let s := discardPause env (s.vbuffers.size .kVideoBuffer_pause) s
    let s := CheckDisplayedFramesForAvailability env s
    UpdatePauseFrame_displayed env s
  else if 1 = s.vbuffers.size .kVideoBuffer_pause then
    let frame := s.vbuffers.head .kVideoBuffer_used
    let s := s.vcall env (.dequeue .kVideoBuffer_used)
    match frame with
    | some f =>
      let s := discardPause env (s.vbuffers.size .kVideoBuffer_pause) s
      s.vcall env (.safeEnqueue .kVideoBuffer_pause (some f))
    | none => s
  else
    UpdatePauseFrame_displayed env s

/-- The frame that `ShowXvMC` selects under the queue lock, and whether it is
the pause frame (`using_pause_frame`). -/
def ShowXvMC_select (s : VideoOutputXv) : Option VideoFrame × Bool :=
  if s.vbuffers.size .kVideoBuffer_pause ≠ 0 then
    (s.vbuffers.head .kVideoBuffer_pause, true)
  else if s.vbuffers.size .kVideoBuffer_used ≠ 0 then
    (s.vbuffers.head .kVideoBuffer_used, false)
  else (none, false)

/-- The surface that `ShowXvMC` passes to `XvMCPutSurface`:
`showingsurface->p_surface`, where `showingsurface` is the render state of the
OSD frame if there is one and of the frame otherwise. -/
def showingSurface (env : Env) (frame : VideoFrame) (osdframe : Option VideoFrame) :
    Option Nat :=
  let showingsurface := match osdframe with
    | some o => GetRender env (some o)
    | none => GetRender env (some frame)
  showingsurface.bind (fun r => r.p_surface)

/-- The step of `ShowXvMC` commented "get and try to lock OSD frame, if it
exists": returns the OSD frame to show (null if there is none or its lock could
not be taken, in which case it is queued for later discarding). -/
def ShowXvMC_lockOSD (env : Env) (frame : VideoFrame) (s : VideoOutputXv) :
    Option VideoFrame × VideoOutputXv :=
  match s.vbuffers.GetOSDFrame (some frame) with
  | some o =>
    let ok := env.TryLockFrame o
    let s := s.vcall env (.TryLockFrame o ok)
    if !ok then (none, s.vcall env (.safeEnqueue .kVideoBuffer_displayed (some o)))
    else (some o, s)
  | none => (none, s)

/-- The part of `ShowXvMC` after the frame was selected: lock, present, clear the
old pause frame, sweep, unlock. -/
def ShowXvMC_show (env : Env) (frame : VideoFrame) (using_pause_frame : Bool)
    (s : VideoOutputXv) : VideoOutputXv :=
  let s := s.vcall env (.LockFrame frame)
  let r := ShowXvMC_lockOSD env frame s
  let osdframe := r.1
  let s := r.2.vcall env (.XvMCPutSurface (showingSurface env frame osdframe))
  let s := if !using_pause_frame
    then discardPause env (s.vbuffers.size .kVideoBuffer_pause) s else s
  let s := CheckDisplayedFramesForAvailability env s
  let s := s.vcall env (.UnlockFrame osdframe)
  let s := s.vcall env (.UnlockFrame (some frame))
  s.vcall env (.safeEnqueue .kVideoBuffer_displayed osdframe)

/-- The function `VideoOutputXv::ShowXvMC(FrameScanType scan)`.  The bobbing
parameters only select the source and destination lines passed to
`XvMCPutSurface`; they are not modelled. -/
def ShowXvMC (env : Env) (s : VideoOutputXv) : VideoOutputXv :=
  let s := s.vcall env (.begin_lock .kVideoBuffer_pause)
  let sel := ShowXvMC_select s
  let s := s.vcall env .end_lock
  match sel.1 with
  | none => s
  | some frame => ShowXvMC_show env frame sel.2 s

/-- The part of `ShowXvMC` after the frame was selected, with the waits of
`SyncSurface` in the discards and in the sweep. -/
def ShowXvMC_show_wait (env : Env) (sleeps : Nat) (frame : VideoFrame)
    (using_pause_frame : Bool) (s : VideoOutputXv) : Option VideoOutputXv :=
  let s := s.vcall env (.LockFrame frame)
  let r := ShowXvMC_lockOSD env frame s
  let osdframe := r.1
  let s := r.2.vcall env (.XvMCPutSurface (showingSurface env frame osdframe))
  (if !using_pause_frame
    then discardPause_wait env sleeps (s.vbuffers.size .kVideoBuffer_pause) s
    else some s).bind fun s =>
  (CheckDisplayedFramesForAvailability_wait env sleeps s).bind fun s =>
  let s := s.vcall env (.UnlockFrame osdframe)
  let s := s.vcall env (.UnlockFrame (some frame))
  some (s.vcall env (.safeEnqueue .kVideoBuffer_displayed osdframe))

/-- The function `VideoOutputXv::ShowXvMC(FrameScanType scan)` with the waits of
`SyncSurface`: `none` if one of them has not ended after `sleeps` sleeps, and
otherwise the state at return.  As in `ShowXvMC`, the bobbing parameters are not
modelled and `LockFrame` counts the lock of the frame without waiting for it. -/
def ShowXvMC_wait (env : Env) (sleeps : Nat) (s : VideoOutputXv) : Option VideoOutputXv :=
  let s := s.vcall env (.begin_lock .kVideoBuffer_pause)
  let sel := ShowXvMC_select s
  let s := s.vcall env .end_lock
  match sel.1 with
  | none => some s
  | some frame => ShowXvMC_show_wait env sleeps frame sel.2 s

/-- The block of `ProcessFrameXvMC` between `begin_lock(kVideoBuffer_pause)` and
`end_lock()`, run when no frame was passed: the head of the pause queue (null if
the queue is empty), `success` of the `TryLockFrame` on it, and the state. -/
def ProcessFrameXvMC_reuse (env : Env) (s : VideoOutputXv) :
    Option VideoFrame × Bool × VideoOutputXv :=
  let s := s.vcall env (.begin_lock .kVideoBuffer_pause)
  let r : Option VideoFrame × Bool × VideoOutputXv :=
    if s.vbuffers.size .kVideoBuffer_pause ≠ 0 then
      match s.vbuffers.head .kVideoBuffer_pause with
      | some p =>
        let ok := env.TryLockFrame p
        (some p, ok, s.vcall env (.TryLockFrame p ok))
      | none => (none, false, s)
    else (none, false, s)
  (r.1, r.2.1, r.2.2.vcall env .end_lock)

/-- The first part of `VideoOutputXv::ProcessFrameXvMC`: the frame that the
rest of the function works on (locked), null if there is none.  With a frame it
clears the pause queue; without one it tries to reuse the pause frame. -/
def ProcessFrameXvMC_frame (env : Env) (frame : Option VideoFrame) (s : VideoOutputXv) :
    Option VideoFrame × VideoOutputXv :=
  match frame with
  | some f =>
    let s := s.vcall env (.LockFrame f)
    (some f, discardPause env (s.vbuffers.size .kVideoBuffer_pause) s)
  | none =>
    let r := ProcessFrameXvMC_reuse env s
    match r.1, r.2.1 with
    | some p, true => (some p, r.2.2.vcall env (.SetOSDFrame p none))
    | _, _ => (none, r.2.2)

/-- The loop of `ProcessFrameXvMC` that hides every displayed surface except the
one of `frame`. -/
def hideDisplayed (env : Env) (frame : VideoFrame) (s : VideoOutputXv) : VideoOutputXv :=
  let s := s.vcall env (.begin_lock .kVideoBuffer_displayed)
  let s := s.vbuffers.displayed.foldl
    (fun s g =>
      if g ≠ frame
      then s.vcall env (.XvMCHideSurface ((GetRender env (some g)).bind (fun r => r.p_surface)))
      else s) s
  s.vcall env .end_lock

/-- The first two steps of the block of `ProcessFrameXvMC` under
`if (ret >= 0 && xvmc_osd->NeedFrame())`: if there is no available buffer, toss
old displayed frames; if that does not help, hide the displayed surfaces and
toss again.  `envHidden` is the environment after the surfaces were hidden. -/
def ProcessFrameXvMC_makeRoom (env envHidden : Env) (frame : VideoFrame) (s : VideoOutputXv) :
    VideoOutputXv :=
  let s := if s.vbuffers.size .kVideoBuffer_avail = 0
    then CheckDisplayedFramesForAvailability env s else s
  if s.vbuffers.size .kVideoBuffer_avail = 0
  then CheckDisplayedFramesForAvailability envHidden (hideDisplayed env frame s) else s

/-- The step of `ProcessFrameXvMC` commented "If there is an available buffer
grab it": the OSD frame obtained (null if there is none, or if the pool handed
back `frame` itself) and the state. -/
def ProcessFrameXvMC_grab (env : Env) (frame : VideoFrame) (s : VideoOutputXv) :
    Option VideoFrame × VideoOutputXv :=
  if s.vbuffers.size .kVideoBuffer_avail ≠ 0 then
    let osdframe := s.vbuffers.nextFree false
    let s := s.vcall env (.GetNextFreeFrame false false)
    (if some frame = osdframe then none else osdframe, s)
  else (none, s)

/-- The last step of the block: composite the OSD onto `osdframe` and attach it
to `frame` if its lock can be taken, otherwise discard it. -/
def ProcessFrameXvMC_attach (env : Env) (frame : VideoFrame) (osdframe : Option VideoFrame)
    (s : VideoOutputXv) : VideoOutputXv :=
  match osdframe with
  | some o =>
    let ok := env.TryLockFrame o
    let s := s.vcall env (.TryLockFrame o ok)
    if ok then
      let s := s.vcall env (.SetOSDFrame o none)
      let s := s.vcall env (.CompositeOSD frame (some o))
      let s := s.vcall env (.UnlockFrame (some o))
      s.vcall env (.SetOSDFrame frame (some o))
    else DiscardFrame env (some o) s
  | none => DiscardFrame env none s

/-- The block of `ProcessFrameXvMC` under `if (ret >= 0 && xvmc_osd->NeedFrame())`:
finds a free frame for the OSD, composites onto it and attaches it to `frame`. -/
def ProcessFrameXvMC_osdframe (env envHidden : Env) (frame : VideoFrame) (s : VideoOutputXv) :
    VideoOutputXv :=
  let s := ProcessFrameXvMC_makeRoom env envHidden frame s
  let r := ProcessFrameXvMC_grab env frame s
  ProcessFrameXvMC_attach env frame r.1 r.2

/-- The part of `ProcessFrameXvMC` that runs when there are OSD surfaces and no
chroma-key OSD: detach a stale OSD frame, obtain an OSD object, display the OSD
into it and composite. -/
def ProcessFrameXvMC_osd (env envHidden : Env) (frame : VideoFrame) (osd : Bool)
    (s : VideoOutputXv) : VideoOutputXv :=
  let old_osdframe := s.vbuffers.GetOSDFrame (some frame)
  let s := if old_osdframe.isSome then s.vcall env (.SetOSDFrame frame none) else s
  let xvmc_osd := if !env.embedding && osd then env.GetAvailableOSD else none
  match xvmc_osd with
  | some x =>
    if x.IsValid then
      let ret := env.DisplayOSD
      let s := if ret ≥ 0 && x.NeedFrame
        then ProcessFrameXvMC_osdframe env envHidden frame s else s
      if ret ≥ 0 && !x.NeedFrame then s.vcall env (.CompositeOSD frame none) else s
    else s
  | none => s

/-- The function `VideoOutputXv::ProcessFrameXvMC(VideoFrame *frame, OSD *osd)`;
`osd` says whether the OSD pointer is non-null. -/
def ProcessFrameXvMC (env envHidden : Env) (frame : Option VideoFrame) (osd : Bool)
    (s : VideoOutputXv) : VideoOutputXv :=
  let r := ProcessFrameXvMC_frame env frame s
  let s := r.2
  match r.1 with
  | none => s
  | some frame =>
    if env.chroma_osd then
      s.vcall env (.UnlockFrame (some frame))
    else if s.xvmc_buf_attr.GetOSDNum = 0 then
      s.vcall env (.UnlockFrame (some frame))
    else
      let s := ProcessFrameXvMC_osd env envHidden frame osd s
      s.vcall env (.UnlockFrame (some frame))

end VideoOutputXv

/-- Calls that change the membership of the named queues. -/
def Call.movesFrames : Call → Bool
  | .safeEnqueue _ (some _) => true
  | .dequeue _ => true
  | .DiscardFrame _ => true
  | .DiscardFrames _ => true
  | .DoneDisplayingFrame => true
  | .GetNextFreeFrame _ _ => true
  | _ => false

/-- The condition under which `VideoOutputXv::DiscardFrame` keeps a frame for
later: the value of `displaying || vbuffers.HasChildren(frame)` in terms of the
state at entry.  `displaying` is obtained from the back-end for the frame and
for its OSD frame when the subtype is `XVideoMC` or above, and is false below
(no surface status is queried there). -/
def keptForLater (env : Env) (s : VideoOutputXv) (f : VideoFrame) : Bool :=
  (decide (s.VideoOutputSubType.toNat ≥ VOSType.XVideoMC.toNat) &&
    (IsDisplaying env (some f) || IsDisplaying env (s.vbuffers.GetOSDFrame (some f)))) ||
  s.vbuffers.HasChildren f

/-- The pool after a list of recorded calls, made in order. -/
def runCalls (env : Env) (l : List Call) (vb : VideoBuffers) : VideoBuffers :=
  l.foldl (fun vb c => c.apply env vb) vb

/-- Calls that present a surface on screen. -/
def Call.isPut : Call → Bool
  | .XvMCPutSurface _ => true
  | _ => false

/-- Calls that can add a frame to the pause queue: a `safeEnqueue` into it, and
the two pool operations of the XVideo-or-lower path, of which nothing is
known. -/
def Call.growsPause : Call → Bool
  | .safeEnqueue .kVideoBuffer_pause (some _) => true
  | .DiscardFrames _ => true
  | .DoneDisplayingFrame => true
  | _ => false

/-- Calls that reclaim at most the frames selected by `F`: every frame moved
satisfies `F` and goes to the available queue or, with `td`, to the displayed
queue; with `dq` the call may also be a `dequeue` of the pause queue; nothing is
presented. -/
def Call.within (F : VideoFrame → Prop) (dq td : Bool) : Call → Prop
  | .safeEnqueue dst (some f) =>
    (dst = .kVideoBuffer_avail ∨ (dst = .kVideoBuffer_displayed ∧ td = true)) ∧ F f
  | .DiscardFrame f => F f
  | .dequeue t => t = .kVideoBuffer_pause ∧ dq = true
  | .DiscardFrames _ => False
  | .DoneDisplayingFrame => False
  | .GetNextFreeFrame _ _ => False
  | .XvMCPutSurface _ => False
  | _ => True

/-- State `s2` is reached from state `s1` by making calls that all satisfy `P`
(and by assignments to fields outside the pool); the subtype and the buffer
settings are the same. -/
def Steps (env : Env) (P : Call → Prop) (s1 s2 : VideoOutputXv) : Prop :=
  s2.video_output_subtype = s1.video_output_subtype ∧
  s2.xvmc_buf_attr = s1.xvmc_buf_attr ∧
  ∃ l : List Call, s2.trace = s1.trace ++ l ∧ s2.vbuffers = runCalls env l s1.vbuffers ∧
    ∀ c ∈ l, P c

/-- The rule of the reclaim sweep for one call made in pool state `vb`: a frame
is moved into the available queue only if it is in the displayed queue, the
back-end reports it not displaying and it has no children in `vb`; nothing else
moves a frame. -/
def Call.reclaimOK (env : Env) (vb : VideoBuffers) : Call → Prop
  | .safeEnqueue .kVideoBuffer_avail (some f) =>
    f ∈ vb.displayed ∧ IsDisplaying env (some f) = false ∧ vb.HasChildren f = false
  | c => c.movesFrames = false

/-- Every call of the list respects the rule of the reclaim sweep in the pool
state in which it is made, starting from `vb`. -/
def reclaimsOK (env : Env) : VideoBuffers → List Call → Prop
  | _, [] => True
  | vb, c :: l => c.reclaimOK env vb ∧ reclaimsOK env (c.apply env vb) l

/-- The number of loop tests that the final loop of the sweep needs at most from
position `it` of a displayed queue of `n` frames. -/
def sweepNeed (n it : Nat) : Nat := n * (n + 1) + (n - it) + 1

/-- State `s2` is reached from state `s1` by calls that present exactly one
surface: the surface of frame `x`, or the one of its OSD frame. -/
def presents (env : Env) (s1 s2 : VideoOutputXv) (x : VideoFrame) : Prop :=
  ∃ (l : List Call) (osd : Option VideoFrame),
    s2.trace = s1.trace ++ l ∧
    l.filter Call.isPut = [Call.XvMCPutSurface (VideoOutputXv.showingSurface env x osd)] ∧
    (osd = none ∨ osd = s1.vbuffers.GetOSDFrame (some x))

/-- The locks held at a point of a call trace: the nesting depth of the
queue-level lock (`begin_lock` / `end_lock`, a recursive lock) and the frame locks
acquired and not yet released. -/
structure LockState where
  depth : Nat
  held : List VideoFrame
  deriving DecidableEq, Repr

/-- One call checked against the locks held; `none` if the call breaks the lock
discipline: an `UnlockFrame` of a frame whose lock is not held, an `end_lock`
without queue-level lock, a blocking `LockFrame` while a queue-level lock is held
(tolerated with `aggr`), or a call whose locking is not visible in the trace (a
locking `GetNextFreeFrame`, the bulk operations of the pool). -/
def Call.lockStep (aggr : Bool) : Call → LockState → Option LockState
  | .LockFrame f, st =>
    if st.depth = 0 ∨ aggr = true then some { st with held := f :: st.held } else none
  | .TryLockFrame f ok, st => some (if ok then { st with held := f :: st.held } else st)
  | .UnlockFrame (some f), st =>
    if f ∈ st.held then some { st with held := st.held.erase f } else none
  | .begin_lock _, st => some { st with depth := st.depth + 1 }
  | .end_lock, st => if st.depth = 0 then none else some { st with depth := st.depth - 1 }
  | .GetNextFreeFrame with_lock _, st => if with_lock then none else some st
  | .DiscardFrames _, _ => none
  | .DoneDisplayingFrame, _ => none
  | _, st => some st

/-- A call trace checked against the locks held, call by call. -/
def lockScan (aggr : Bool) : LockState → List Call → Option LockState
  | st, [] => some st
  | st, c :: l => (c.lockStep aggr st).bind (fun st2 => lockScan aggr st2 l)

/-- Lock ordering along a trace that starts with `d` queue-level locks held:
false as soon as a frame lock is acquired while a queue-level lock is held.
`LockFrame` and a locking `GetNextFreeFrame` always count as acquisitions; a
successful `TryLockFrame` counts unless `tryOK`. -/
def lockOrdered (tryOK : Bool) : Nat → List Call → Bool
  | _, [] => true
  | d, c :: l =>
    match c with
    | .begin_lock _ => lockOrdered tryOK (d + 1) l
    | .end_lock => lockOrdered tryOK (d - 1) l
    | .LockFrame _ => d == 0 && lockOrdered tryOK d l
    | .TryLockFrame _ ok => (tryOK || !ok || d == 0) && lockOrdered tryOK d l
    | .GetNextFreeFrame with_lock _ => (!with_lock || d == 0) && lockOrdered tryOK d l
    | _ => lockOrdered tryOK d l

/-- Frame locks along a trace: starting with the locks `held`, the locks held at
the end (`LockFrame` and a successful `TryLockFrame` acquire, `UnlockFrame`
releases); `none` if a frame is unlocked whose lock is not held, or if a lock is
taken by a call that does not name the frame (a locking `GetNextFreeFrame`). -/
def locksHeld : List VideoFrame → List Call → Option (List VideoFrame)
  | held, [] => some held
  | held, c :: l =>
    match c with
    | .LockFrame f => locksHeld (f :: held) l
    | .TryLockFrame f ok => locksHeld (if ok then f :: held else held) l
    | .UnlockFrame (some f) => if f ∈ held then locksHeld (held.erase f) l else none
    | .GetNextFreeFrame true _ => none
    | _ => locksHeld held l

/-- The number of times the lock of frame `f` is acquired along a trace, by
`LockFrame` or by a successful `TryLockFrame`. -/
def lockAcquisitions (f : VideoFrame) (l : List Call) : Nat :=
  l.countP (fun c => c == Call.LockFrame f || c == Call.TryLockFrame f true)

/-- The number of calls `UnlockFrame(f)` along a trace. -/
def lockReleases (f : VideoFrame) (l : List Call) : Nat :=
  l.countP (fun c => c == Call.UnlockFrame (some f))

/-- Per-frame lock balance of a trace: every frame is unlocked as often as its
lock was acquired, and at no point of the trace was a frame unlocked more often
than its lock had been acquired until then. -/
def lockBalanced (l : List Call) : Prop :=
  (∀ f : VideoFrame, lockAcquisitions f l = lockReleases f l) ∧
  ∀ l1 l2 : List Call, l = l1 ++ l2 →
    ∀ f : VideoFrame, lockReleases f l1 ≤ lockAcquisitions f l1

/-- Whether, along a trace that starts in pool `vb`, some call adds to the
available queue a frame whose lock count is greater than 0 at the time of the
call. -/
def enqueuesLocked (env : Env) : VideoBuffers → List Call → Bool
  | _, [] => false
  | vb, c :: l =>
    (c.apply env vb).available.any
      (fun f => !vb.available.contains f && decide (0 < vb.lockCount f)) ||
    enqueuesLocked env (c.apply env vb) l

/-- The frames of all the queues, queue after queue. -/
def VideoBuffers.allQueues (vb : VideoBuffers) : List VideoFrame :=
  vb.available ++ vb.limbo ++ vb.used ++ vb.pause ++ vb.displayed

/-- The number of queue positions that frame `f` occupies: 1 when `f` is in
exactly one queue (once), 0 when it is in none. -/
def VideoBuffers.memberships (vb : VideoBuffers) (f : VideoFrame) : Nat :=
  vb.allQueues.count f

/-- Calls that take no frame out of the queues: every call other than `dequeue`
and the two bulk operations of the pool on the XVideo-or-lower path, of which
nothing is known. -/
def Call.keepsQueued : Call → Bool
  | .dequeue _ => false
  | .DiscardFrames _ => false
  | .DoneDisplayingFrame => false
  | _ => true

/-- Modelled from the spec: the invariant that the spec states for the
operations of the pool ("every Frame Resource is, at every instant, a member of
exactly one queue"), for the two pool operations whose implementation is not part
of the sources (`vbuffers.DiscardFrames(bool)` and
`vbuffers.DoneDisplayingFrame()`, called on the XVideo-or-lower path only): a
frame `g` that is in exactly one queue with no lock held is so afterwards. -/
def Env.keepsQueued (env : Env) (g : VideoFrame) : Prop :=
  ∀ vb : VideoBuffers, vb.memberships g = 1 → vb.lockCount g = 0 →
    (∀ k : Bool, (env.poolDiscardFrames k vb).memberships g = 1 ∧
      (env.poolDiscardFrames k vb).lockCount g = 0) ∧
    (env.poolDoneDisplayingFrame vb).memberships g = 1 ∧
    (env.poolDoneDisplayingFrame vb).lockCount g = 0

/-- The operations of `VideoOutputXv` on the frame pool that the decoder and the
presenter call. -/
inductive PoolOp where
  | GetNextFreeFrame ( allow_unsafe : Bool)
  | DiscardFrame (frame : Option VideoFrame)
  | DoneDisplayingFrame
  | DiscardFrames (next_frame_keyframe : Bool)
  | UpdatePauseFrame
  | ShowXvMC
  deriving DecidableEq

/-- One operation applied to the video output. -/
def PoolOp.run (env : Env) : PoolOp → VideoOutputXv → VideoOutputXv
  | .GetNextFreeFrame u, s => (VideoOutputXv.GetNextFreeFrame env u s).2
  | .DiscardFrame frame, s => VideoOutputXv.DiscardFrame env frame s
  | .DoneDisplayingFrame, s => VideoOutputXv.DoneDisplayingFrame env s
  | .DiscardFrames k, s => VideoOutputXv.DiscardFrames env k s
  | .UpdatePauseFrame, s => VideoOutputXv.UpdatePauseFrame env s
  | .ShowXvMC, s => VideoOutputXv.ShowXvMC env s

/-- A sequence of operations applied in order. -/
def runOps (env : Env) (ops : List PoolOp) (s : VideoOutputXv) : VideoOutputXv :=
  ops.foldl (fun s op => op.run env s) s

/-- Calls that do not attach an OSD frame. -/
def Call.noAttach : Call → Prop
  | .SetOSDFrame _ (some _) => False
  | _ => True

/-- Calls that do not attach a frame to itself. -/
def Call.noSelfAttach : Call → Prop
  | .SetOSDFrame p (some o) => o ≠ p
  | _ => True

/-- The attachments made along a trace: the pairs `(parent, osd)` of the calls
`SetOSDFrame(parent, osd)` with a non-null `osd`, in order. -/
def attachments : List Call → List (VideoFrame × VideoFrame)
  | [] => []
  | .SetOSDFrame p (some o) :: l => (p, o) :: attachments l
  | _ :: l => attachments l

/-- What a trace `l` ending in pool `vb` has done to the overlay of frame `f`:
either it made no attachment and `f` has no OSD child, or its only attachment is
of a frame `q` other than `f` to `f`, and `q` is the OSD child of `f`. -/
def attachOutcome (f : VideoFrame) (l : List Call) (vb : VideoBuffers) : Prop :=
  (attachments l = [] ∧ vb.osd_child f = none) ∨
  ∃ q : VideoFrame, attachments l = [(f, q)] ∧ q ≠ f ∧
    vb.osd_child f = some q ∧ vb.osd_parent q = some f

/-- State `s2` is reached from state `s1` by calls whose outcome for the overlay
of frame `f` is `attachOutcome`. -/
def Attaches (f : VideoFrame) (s1 s2 : VideoOutputXv) : Prop :=
  ∃ l : List Call, s2.trace = s1.trace ++ l ∧ attachOutcome f l s2.vbuffers

/-- State `s2` is reached from state `s1` by calls that all satisfy `P` and that
keep the lock discipline, leading from `d1` queue-level locks and the frame locks
`a1` to `d2` and `a2`, whatever other frame locks are held; the subtype and the
buffer settings are the same. -/
def Traced (env : Env) (aggr : Bool) (P : Call → Prop) (d1 : Nat) (a1 : List VideoFrame)
    (d2 : Nat) (a2 : List VideoFrame) (s1 s2 : VideoOutputXv) : Prop :=
  s2.video_output_subtype = s1.video_output_subtype ∧
  s2.xvmc_buf_attr = s1.xvmc_buf_attr ∧
  ∃ l : List Call, s2.trace = s1.trace ++ l ∧ s2.vbuffers = runCalls env l s1.vbuffers ∧
    (∀ c ∈ l, P c) ∧
    ∀ h : List VideoFrame,
      lockScan aggr { depth := d1, held := a1 ++ h } l = some { depth := d2, held := a2 ++ h }

/-- The members of `XvMCBufferSettings` that change the object: `SetOSDNum` and
`SetNumSurf`.  Every other public member is a `const` getter. -/
inductive XvMCBufferSettings.Op where
  | SetOSDNum (val : Nat)
  | SetNumSurf (val : Nat)
  deriving DecidableEq, Repr

/-- One operation applied to the buffer settings. -/
def XvMCBufferSettings.Op.apply : XvMCBufferSettings.Op → XvMCBufferSettings → XvMCBufferSettings
  | .SetOSDNum val, b => b.SetOSDNum val
  | .SetNumSurf val, b => b.SetNumSurf val

/-- The buffer settings reached from the constructor by a sequence of
operations, made in order. -/
def XvMCBufferSettings.after (ops : List XvMCBufferSettings.Op) : XvMCBufferSettings :=
  ops.foldl (fun b op => op.apply b) XvMCBufferSettings.new

/-- The function `VideoOutputXv::ApproveDeintFilter(const QString& filtername)`.
The argument `base` is `VideoOutput::ApproveDeintFilter`, the method of the base
class, whose code is not part of the sources. -/
def VideoOutputXv.ApproveDeintFilter (base : String → Bool) (s : VideoOutputXv)
    (filtername : String) : Bool :=
  let vos := s.VideoOutputSubType
  if filtername = "bobdeint" ∧ vos.toNat ≥ VOSType.XVideo.toNat then true
  else if vos.toNat > VOSType.XVideo.toNat then false
  else base filtername

/-- The constant `XVMC_CHROMA_FORMAT_420` of X11/extensions/XvMC.h. -/
def XVMC_CHROMA_FORMAT_420 : Int := 1

/-- The constant `XVMC_CHROMA_FORMAT_422` of X11/extensions/XvMC.h. -/
def XVMC_CHROMA_FORMAT_422 : Int := 2

/-- The constant `XVMC_CHROMA_FORMAT_444` of X11/extensions/XvMC.h. -/
def XVMC_CHROMA_FORMAT_444 : Int := 3

/-- The statements of the `switch` of `calcBPM` in the order they are written:
the values assigned to `ret` under the labels `XVMC_CHROMA_FORMAT_420`,
`XVMC_CHROMA_FORMAT_422`, `XVMC_CHROMA_FORMAT_444` and `default`. -/
def calcBPM_statements : List Nat := [6, 4 + 2, 4 + 4, 6]

/-- The position in `calcBPM_statements` of the label that the `switch` of
`calcBPM` jumps to. -/
def calcBPM_label (chroma : Int) : Nat :=
  if chroma = XVMC_CHROMA_FORMAT_420 then 0
  else if chroma = XVMC_CHROMA_FORMAT_422 then 1
  else if chroma = XVMC_CHROMA_FORMAT_444 then 2
  else 3

/-- The function `calcBPM(int chroma)`.  No case of the `switch` ends in
`break`, so control enters at the label selected by `chroma` and runs every
assignment from there to the end of the `switch`; `ret` holds the value of the
last one.  The first argument of the fold stands for the uninitialised `ret`. -/
def calcBPM (chroma : Int) : Nat :=
  (calcBPM_statements.drop (calcBPM_label chroma)).foldl (fun _ v => v) 0

/-- The local `num_mv_blocks` of `CreateXvMCSurfaces`:
`((XJ_width + 15) / 16) * ((XJ_height + 15) / 16)` stored in a `uint`. -/
def num_mv_blocks (XJ_width XJ_height : Nat) : Nat :=
  (((XJ_width + 15) / 16) * ((XJ_height + 15) / 16)) % 2 ^ 32

/-- The local `num_data_blocks` of `CreateXvMCSurfaces`:
`num_mv_blocks * blocks_per_macroblock` in `uint` arithmetic, where
`blocks_per_macroblock = calcBPM(xvmc_chroma)`. -/
def num_data_blocks (xvmc_chroma : Int) (XJ_width XJ_height : Nat) : Nat :=
  (num_mv_blocks XJ_width XJ_height * calcBPM xvmc_chroma) % 2 ^ 32

/-- The enumeration `FrameScanType`.  It is declared in videoouttypes.h, which
is not part of the sources; `calc_bob` names `kScan_Interlaced` and
`kScan_Intr2ndField` and treats every other enumerator alike. -/
inductive FrameScanType where
  | kScan_Ignore
  | kScan_Progressive
  | kScan_Interlaced
  | kScan_Intr2ndField
  | kScan_Detect
  deriving DecidableEq, Repr

/-- The value of an `int` expression (32 bits): `none` when the mathematical
result is not representable, in which case the behaviour of the program is
undefined (signed overflow). -/
def int32 (x : Int) : Option Int :=
  if -2147483648 ≤ x ∧ x ≤ 2147483647 then some x else none

/-- The `int` division `a / b`, which truncates toward zero: `none` for a zero
divisor and for `INT_MIN / -1`, where the program traps. -/
def int32_div (a b : Int) : Option Int :=
  if b = 0 then none else int32 (a.tdiv b)

/-- The three conversions to `int` of a `double` expression that `calc_bob`
makes, as evaluated by the floating-point unit and the C library (`round`), each
`none` where the converted value is not an `int` (a division by zero gives an
infinity or a NaN):
`half_incr dest_y_incr imgh disphoff` is `(int) (0.5 * dest_y_incr * imgh / disphoff)`,
`half_line disphoff imgh` is `(int) round((((double)disphoff)/imgh) - 0.00001)` and
`threshold imgh frame_height` is `(int)(imgh+(0.05*frame_height))`. -/
structure BobFloat where
  half_incr : Int → Int → Int → Option Int
  half_line : Int → Int → Option Int
  threshold : Int → Int → Option Int

/-- The five output parameters of `calc_bob`. -/
structure BobParams where
  field : Int
  src_y : Int
  dest_y : Int
  xv_src_y_incr : Int
  xv_dest_y_incr : Int
  deriving DecidableEq, Repr

/-- The block of `calc_bob` under `if (dispyoff < 0)`: the values of
`dest_y_incr`, `src_y_incr` and `xv_src_y_incr` after it (all three are 0 before
it). -/
def calc_bob_offset (fp : BobFloat) (imgh disphoff dispyoff : Int) :
    Option (Int × Int × Int) :=
  if dispyoff < 0 then
    (int32 (-dispyoff)).bind fun dest_y_incr =>
    (int32 (dest_y_incr * imgh)).bind fun prod =>
    (int32_div prod disphoff).bind fun src_y_incr =>
    (fp.half_incr dest_y_incr imgh disphoff).bind fun half =>
    (int32 (0 - half)).bind fun xv_src_y_incr =>
    some (dest_y_incr, src_y_incr, xv_src_y_incr)
  else some (0, 0, 0)

/-- The two branches of `calc_bob` that choose the field: the values of `field`,
`xv_src_y_incr` and `dst_half_line_in_src` after them (`field` is 3 and
`dst_half_line_in_src` is 0 before them). -/
def calc_bob_select (fp : BobFloat) (scan : FrameScanType)
    (imgh disphoff imgy frame_height top_field_first xv_src_y_incr : Int) :
    Option (Int × Int × Int) :=
  if (scan = .kScan_Interlaced ∧ top_field_first = 1) ∨
      (scan = .kScan_Intr2ndField ∧ top_field_first = 0) then
    (int32 (-imgy)).bind fun neg =>
    (int32 (xv_src_y_incr + neg.tdiv 2)).bind fun xv_src_y_incr =>
    some (1, xv_src_y_incr, 0)
  else if (scan = .kScan_Interlaced ∧ top_field_first = 0) ∨
      (scan = .kScan_Intr2ndField ∧ top_field_first = 1) then
    (int32 (frame_height - imgy)).bind fun diff =>
    (int32 (xv_src_y_incr + diff.tdiv 2)).bind fun xv_src_y_incr =>
    (fp.half_line disphoff imgh).bind fun half_line =>
    some (2, xv_src_y_incr, max half_line 0)
  else some (3, xv_src_y_incr, 0)

/-- The function `calc_bob`: the output parameters, `none` if an operation of
the function is not defined on the arguments (signed overflow, a trapping
division, a floating-point value that is not an `int`).  The arguments are the
`int` values passed; `NVIDIA_6629` is defined. -/
def calc_bob (fp : BobFloat) (scan : FrameScanType)
    (imgh disphoff imgy dispyoff frame_height top_field_first : Int) : Option BobParams :=
  let src_y := imgy
  let dest_y := dispyoff
  (calc_bob_offset fp imgh disphoff dispyoff).bind fun o =>
  let dest_y_incr := o.1
  let src_y_incr := o.2.1
  (calc_bob_select fp scan imgh disphoff imgy frame_height top_field_first o.2.2).bind fun c =>
  let field := c.1
  let xv_src_y_incr := c.2.1
  let dst_half_line_in_src := c.2.2
  (int32 (src_y + src_y_incr)).bind fun src_y =>
  (int32 (dest_y + dest_y_incr)).bind fun dest_y =>
  let xv_dest_y_incr := dst_half_line_in_src
  (fp.threshold imgh frame_height).bind fun t =>
  if frame_height ≥ t ∧ 2 = field then
    (int32 (-dst_half_line_in_src)).bind fun mod =>
    (int32 (dest_y + mod)).bind fun dest_y =>
    (int32 (xv_dest_y_incr - mod)).bind fun xv_dest_y_incr =>
    some { field := field, src_y := src_y, dest_y := dest_y,
           xv_src_y_incr := xv_src_y_incr, xv_dest_y_incr := xv_dest_y_incr }
  else
    some { field := field, src_y := src_y, dest_y := dest_y,
           xv_src_y_incr := xv_src_y_incr, xv_dest_y_incr := xv_dest_y_incr }

/-- The painting calls that `ChromaKeyOSD::ProcessOSD` makes on buffer `i`:
`Reinit(i)`, which paints the blank chroma-key frame, and
`osdsurf->BlendToARGB(...)` onto `shm_infos[i]`. -/
inductive ChromaKeyCall where
  | Reinit (i : Int)
  | BlendToARGB (i : Int)
  deriving DecidableEq, Repr

/-- The class `ChromaKeyOSD` as far as `ProcessOSD` reads and writes it: the
members `current` and `revision`; the contents of the two image buffers are
represented by the painting calls made so far. -/
structure ChromaKeyOSD where
  current : Int
  revision : Int
  painted : List ChromaKeyCall
  deriving DecidableEq, Repr

/-- The constructor `ChromaKeyOSD(VideoOutputXv *vo)`. -/
def ChromaKeyOSD.new : ChromaKeyOSD :=
  { current := -1, revision := -1, painted := [] }

/-- Method `ChromaKeyOSD::Reset()`. -/
def ChromaKeyOSD.Reset (c : ChromaKeyOSD) : ChromaKeyOSD :=
  { c with current := -1, revision := -1 }

/-- The first statements of `ChromaKeyOSD::ProcessOSD`:
`OSDSurface *osdsurf = NULL; if (osd) osdsurf = osd->Display();`.  The argument
is `none` for a null `osd`, `some none` when `osd->Display()` returns null, and
`some (some r)` when it returns a surface whose `GetRevision()` is `r`; the
result is the revision of the surface, `none` if there is no surface. -/
def ChromaKeyOSD.osdsurf (osd : Option (Option Int)) : Option Int :=
  match osd with
  | some d => d
  | none => none

/-- The function `ChromaKeyOSD::ProcessOSD(OSD *osd)`: the value returned and
the object afterwards.  The expression `(current+1) & 0x1` is bit 0 of
`current + 1`. -/
def ChromaKeyOSD.ProcessOSD (osd : Option (Option Int)) (c : ChromaKeyOSD) :
    Bool × ChromaKeyOSD :=
  let osdsurf := ChromaKeyOSD.osdsurf osd
  let next := (c.current + 1) % 2
  if osdsurf = none ∧ c.current ≥ 0 then (true, c.Reset)
  else
    match osdsurf with
    | none => (false, c)
    | some GetRevision =>
      if c.revision = GetRevision then (false, c)
      else
        let c := { c with
          painted := c.painted ++ [ChromaKeyCall.Reinit next, ChromaKeyCall.BlendToARGB next] }
        (true, { c with revision := GetRevision, current := next })

/-- The bytes of the two buffers that the colour conversion of `PrepareFrameXv`
works on: `image->data` and the scratch buffer `xv_color_conv_buf`, by byte
offset. -/
structure XvImageMem where
  data : Nat → Nat
  xv_color_conv_buf : Nat → Nat

/-- The call `memcpy(dst + d, src + s, n)`: the bytes of the destination buffer
afterwards, given the bytes of the two buffers before the call. -/
def memcpy (dst : Nat → Nat) (d : Nat) (src : Nat → Nat) (s n : Nat) : Nat → Nat :=
  fun i => if d ≤ i ∧ i < d + n then src (s + (i - d)) else dst i

/-- The constant `GUID_YV12_PLANAR`. -/
def GUID_YV12_PLANAR : Nat := 0x32315659

/-- The three `memcpy` calls of `VideoOutputXv::PrepareFrameXv` for a frame of
`width` by `height` pixels, `none` if the `int` expressions `width * height` and
`(width * height) * 5 / 4` are not computable (negative size or overflow of
`int`). -/
def PrepareFrameXv_swap (width height : Int) (m : XvImageMem) : Option XvImageMem :=
  if 0 ≤ width * height ∧ width * height * 5 < 2 ^ 31 then
    let wh := (width * height).toNat
    let m := { m with
      xv_color_conv_buf := memcpy m.xv_color_conv_buf 0 m.data wh (wh / 4) }
    let m := { m with data := memcpy m.data wh m.data (wh * 5 / 4) (wh / 4) }
    some { m with data := memcpy m.data (wh * 5 / 4) m.xv_color_conv_buf 0 (wh / 4) }
  else none

/-- The block `if (image && (GUID_YV12_PLANAR == xv_chroma))` of
`VideoOutputXv::PrepareFrameXv`: the image bytes are converted only for an
existing image in the YV12 format. -/
def PrepareFrameXv_convert (image : Bool) (xv_chroma : Nat) (width height : Int)
    (m : XvImageMem) : Option XvImageMem :=
  if image = true ∧ GUID_YV12_PLANAR = xv_chroma then PrepareFrameXv_swap width height m
  else some m

/-- The output methods that `InitVideoBuffers` can set up, named after the
member functions `InitXvMC`, `InitXVideo`, `InitXShm` and `InitXlib`. -/
inductive Backend where
  | XvMC
  | XVideo
  | XShm
  | Xlib
  deriving DecidableEq, Repr

/-- The picture attributes that `InitVideoBuffers` passes to
`ChangePictureAttribute`. -/
inductive PictureAttribute where
  | kPictureAttribute_Brightness
  | kPictureAttribute_Contrast
  | kPictureAttribute_Colour
  | kPictureAttribute_Hue
  deriving DecidableEq, Repr

/-- The calls that `InitVideoBuffers` makes, recorded in the order they are
made: `xvmc_buf_attr->SetNumSurf(val)`, `vbuffers.Init(...)` (with the XvMC
buffer settings or with the fixed numbers `31, true, 1, 12, 4, 2, false`),
`vbuffers.Reset()`, one of the four `Init...` member functions with the value it
returned, and `ChangePictureAttribute`. -/
inductive InitCall where
  | SetNumSurf (val : Nat)
  | vbuffersInit (xvmc : Bool)
  | vbuffersReset
  | Init (b : Backend) (ok : Bool)
  | ChangePictureAttribute (attr : PictureAttribute)
  deriving DecidableEq, Repr

/-- What `InitVideoBuffers` takes from outside.  `kCodec_NORMAL_END` is the
enumerator of `MythCodecID` (mythcodecid.h, not part of the sources) that the
codec id is compared with.  `vld` is the flag that
`myth2av_codecid(myth_codec_id, vld, idct, mc)` sets.  Each of the four `Init...`
member functions is called at most once, so what it does is represented by the
value it returns when it is called.  `pictureControls` is the value of
`VideoOutputSubType() >= XVideo && gContext->GetNumSetting("UseOutputPictureControls", 0)`
at the end of the function. -/
structure InitEnv where
  kCodec_NORMAL_END : Nat
  vld : Bool
  InitXvMC : Bool
  InitXVideo : Bool
  InitXShm : Bool
  InitXlib : Bool
  pictureControls : Bool

/-- The value returned by the `Init...` member function of an output method. -/
def InitEnv.Init (env : InitEnv) : Backend → Bool
  | .XvMC => env.InitXvMC
  | .XVideo => env.InitXVideo
  | .XShm => env.InitXShm
  | .Xlib => env.InitXlib

/-- The local `done` of `InitVideoBuffers` and the calls made so far. -/
structure InitRun where
  done : Bool
  trace : List InitCall
  deriving DecidableEq, Repr

/-- One call that does not change `done`. -/
def InitRun.call (r : InitRun) (c : InitCall) : InitRun :=
  { r with trace := r.trace ++ [c] }

/-- The statement `done = Init...();` for one output method. -/
def InitRun.init (env : InitEnv) (r : InitRun) (b : Backend) : InitRun :=
  { done := env.Init b, trace := r.trace ++ [InitCall.Init b (env.Init b)] }

/-- The function `VideoOutputXv::InitVideoBuffers(MythCodecID mcodecid, bool
use_xv, bool use_shm)` in the build with `USING_XVMC`: the value returned
(`done`) and the calls made. -/
def InitVideoBuffers (env : InitEnv) (mcodecid : Nat) (use_xv use_shm : Bool) : InitRun :=
  let r : InitRun := { done := false, trace := [] }
  let r :=
    if mcodecid > env.kCodec_NORMAL_END then
      let r := if env.vld then r.call (.SetNumSurf 16) else r
      let r := r.call (.vbuffersInit true)
      let r := r.init env .XvMC
      if !r.done then r.call .vbuffersReset else r
    else r
  let r := if !r.done then r.call (.vbuffersInit false) else r
  let r := if !r.done && use_xv then r.init env .XVideo else r
  let r := if !r.done && use_shm then r.init env .XShm else r
  let r := if !r.done then r.init env .Xlib else r
  if r.done && env.pictureControls then
    let r := r.call (.ChangePictureAttribute .kPictureAttribute_Brightness)
    let r := r.call (.ChangePictureAttribute .kPictureAttribute_Contrast)
    let r := r.call (.ChangePictureAttribute .kPictureAttribute_Colour)
    r.call (.ChangePictureAttribute .kPictureAttribute_Hue)
  else r

/-- The output methods tried along a trace of `InitVideoBuffers`, in order, each
with the value its `Init...` function returned. -/
def tried : List InitCall → List (Backend × Bool)
  | [] => []
  | .Init b ok :: l => (b, ok) :: tried l
  | _ :: l => tried l

/-- The output methods that `InitVideoBuffers` tries as a function of its
inputs: whether the codec id is above `kCodec_NORMAL_END`, `use_xv`, `use_shm`,
and the values that the four `Init...` functions return. -/
def fallbackChain (xvmc use_xv use_shm o1 o2 o3 o4 : Bool) : List (Backend × Bool) :=
  let l1 : List (Backend × Bool) := if xvmc then [(.XvMC, o1)] else []
  let d1 := xvmc && o1
  let l2 : List (Backend × Bool) := if !d1 && use_xv then [(.XVideo, o2)] else []
  let d2 := d1 || (use_xv && o2)
  let l3 : List (Backend × Bool) := if !d2 && use_shm then [(.XShm, o3)] else []
  let d3 := d2 || (use_shm && o3)
  let l4 : List (Backend × Bool) := if !d3 then [(.Xlib, o4)] else []
  l1 ++ l2 ++ l3 ++ l4

/-- The structure `XvAdaptorInfo` of X11/extensions/Xvlib.h as far as
`GrabSuitableXvPort` reads it.  Port numbers (`XvPortID`) are X resource ids:
non-zero numbers of at most 29 bits, so that the `unsigned long` expression
`base_id + num_ports - 1` does not wrap around; they are modelled as natural
numbers. -/
structure XvAdaptorInfo where
  base_id : Nat
  num_ports : Nat
  type : Nat
  deriving DecidableEq, Repr

/-- The constant `XvInputMask` of X11/extensions/Xv.h. -/
def XvInputMask : Nat := 0x01

/-- The constant `XvImageMask` of X11/extensions/Xv.h. -/
def XvImageMask : Nat := 0x10

/-- The enumerators of `MythCodecID` (declared in mythcodecid.h, which is not
part of the sources) that the `switch` of `GrabSuitableXvPort` names; `other`
stands for every other enumerator, such as the `kCodec_MPEG2` that `InitXVideo`
passes. -/
inductive MythCodecID where
  | kCodec_MPEG1_XVMC
  | kCodec_MPEG2_XVMC
  | kCodec_H263_XVMC
  | kCodec_MPEG4_XVMC
  | kCodec_MPEG1_IDCT
  | kCodec_MPEG2_IDCT
  | kCodec_H263_IDCT
  | kCodec_MPEG4_IDCT
  | kCodec_MPEG1_VLD
  | kCodec_MPEG2_VLD
  | kCodec_H263_VLD
  | kCodec_MPEG4_VLD
  | other
  deriving DecidableEq, Repr

/-- What `GrabSuitableXvPort` takes from the X server, held fixed during the
call: the answer of `XvQueryAdaptors` (the value returned and the adaptor
array), the value that `XvGrabPort(disp, p, CurrentTime)` returns for a port, the
answer of `XvMCSurfaceTypes::find(width, height, xvmc_chroma, useVLD, useIDCT,
stream_type, 0, 0, disp, firstPort, lastPort, p, surfNum)` as the pair
`(p, surfNum)`, and the `size()` of `XvMCSurfaceTypes surf(disp, p)`.  The code of
`XvMCSurfaceTypes` is not part of the sources. -/
structure XvEnv where
  XvQueryAdaptors : Int × List XvAdaptorInfo
  XvGrabPort : Nat → Int
  find : Bool → Bool → Int → Nat → Nat → Nat × Int
  surfSize : Nat → Nat

/-- The conversion of an `XvPortID` to `int`, as in `port = p` and in the call
`add_open_xv_port(disp, p)`. -/
def toInt32 (p : Nat) : Int := ((p + 2 ^ 31) % 2 ^ 32 : Nat) - 2 ^ 31

/-- The function `add_open_xv_port(Display *disp, int port)` on the keys of the
map `open_xv_ports`. -/
def add_open_xv_port (port : Int) (open_xv_ports : List Int) : List Int :=
  if port ≥ 0 then
    if port ∈ open_xv_ports then open_xv_ports else open_xv_ports ++ [port]
  else open_xv_ports

/-- The function `has_open_xv_port(int port)`. -/
def has_open_xv_port (port : Int) (open_xv_ports : List Int) : Bool :=
  decide (port ∈ open_xv_ports)

/-- The variables that `GrabSuitableXvPort` works on: its local `port` (the
value it returns), the keys of the static map `open_xv_ports`, and the ports
passed to `XvGrabPort` so far, in order. -/
structure PortSearch where
  port : Int
  open_xv_ports : List Int
  grabs : List Nat
  deriving DecidableEq, Repr

/-- The block `X11L; ret = XvGrabPort(disp, p, CurrentTime); if (Success == ret)
{ port = p; add_open_xv_port(disp, p); } X11U;`, which occurs twice in
`GrabSuitableXvPort`: the value of `ret` and the variables afterwards. -/
def PortSearch.grab (env : XvEnv) (p : Nat) (st : PortSearch) : Int × PortSearch :=
  let ret := env.XvGrabPort p
  let st := { st with grabs := st.grabs ++ [p] }
  (ret,
    if Success = ret then
      { st with
        port := toInt32 p
        open_xv_ports := add_open_xv_port (toInt32 p) st.open_xv_ports }
    else st)

/-- The loop `for (p = firstPort; (p <= lastPort) && (port == -1); ++p)` of the
plain XVideo tier.  The first argument bounds the number of iterations; the
caller passes the number of ports from `firstPort` to `lastPort`. -/
def grabLoop (env : XvEnv) : Nat → Nat → Nat → PortSearch → PortSearch
  | 0, _, _, st => st
  | fuel + 1, p, lastPort, st =>
    if p ≤ lastPort ∧ st.port = -1 then
      grabLoop env fuel (p + 1) lastPort (st.grab env p).2
    else st

/-- The array `neededFlags` of `GrabSuitableXvPort`. -/
def neededFlags : List Nat :=
  [XvInputMask, XvInputMask, XvInputMask, XvInputMask ||| XvImageMask]

/-- The array `useXVMC` of `GrabSuitableXvPort`. -/
def useXVMC : List Bool := [true, true, true, false]

/-- The array `useVLD` of `GrabSuitableXvPort`. -/
def useVLD : List Bool := [true, false, false, false]

/-- The array `useIDCT` of `GrabSuitableXvPort`. -/
def useIDCT : List Bool := [false, true, false, false]

/-- The body of the loop over the adaptors in `GrabSuitableXvPort`, for tier `j`
and adaptor `a`.  An adaptor without the needed flags is skipped.  In an XvMC
tier the port is the one that `XvMCSurfaceTypes::find` names; in the plain
XVideo tier the ports of the adaptor are tried in order.  After the grab of the
XvMC tier the source either moves on to the next adaptor (`continue`, when the
grab failed) or calls `surf.set(surfNum, xvmc_surf_info)`, which fills the
surface description for the caller; neither touches the variables modelled. -/
def tryAdaptor (env : XvEnv) (j : Nat) (stream_type : Int) (a : XvAdaptorInfo)
    (st : PortSearch) : PortSearch :=
  if (a.type &&& neededFlags.getD j 0) ≠ neededFlags.getD j 0 then st
  else
    let firstPort := a.base_id
    let lastPort := a.base_id + a.num_ports - 1
    if useXVMC.getD j false then
      let r := env.find (useVLD.getD j false) (useIDCT.getD j false) stream_type
        firstPort lastPort
      let p := r.1
      let surfNum := r.2
      if surfNum < 0 then st
      else if env.surfSize p = 0 then st
      else (st.grab env p).2
    else grabLoop env (lastPort + 1 - firstPort) firstPort lastPort st

/-- The loop `for (uint i = 0; i < p_num_adaptors && (port == -1); ++i)`. -/
def adaptorLoop (env : XvEnv) (j : Nat) (stream_type : Int) :
    List XvAdaptorInfo → PortSearch → PortSearch
  | [], st => st
  | a :: ai, st =>
    if st.port = -1 then adaptorLoop env j stream_type ai (tryAdaptor env j stream_type a st)
    else st

/-- The loop `for (uint j = begin; j < end; ++j)` of `GrabSuitableXvPort` with
its `break` once a port was found.  The first argument bounds the number of
iterations; the caller passes `end - begin`. -/
def tierLoop (env : XvEnv) (stream_type : Int) (ai : List XvAdaptorInfo) :
    Nat → Nat → Nat → PortSearch → PortSearch
  | 0, _, _, st => st
  | fuel + 1, j, e, st =>
    if j < e then
      let st := adaptorLoop env j stream_type ai st
      if st.port ≠ -1 then st
      else tierLoop env stream_type ai fuel (j + 1) e st
    else st

/-- The `switch (mcodecid)` of `GrabSuitableXvPort`: the values of
`stream_type`, `begin` and `end` after it. -/
def codecTier : MythCodecID → Int × Nat × Nat
  | .kCodec_MPEG1_XVMC => (1, 2, 3)
  | .kCodec_MPEG2_XVMC => (2, 2, 3)
  | .kCodec_H263_XVMC => (3, 2, 3)
  | .kCodec_MPEG4_XVMC => (4, 2, 3)
  | .kCodec_MPEG1_IDCT => (1, 1, 2)
  | .kCodec_MPEG2_IDCT => (2, 1, 2)
  | .kCodec_H263_IDCT => (3, 1, 2)
  | .kCodec_MPEG4_IDCT => (4, 1, 2)
  | .kCodec_MPEG1_VLD => (1, 0, 1)
  | .kCodec_MPEG2_VLD => (2, 0, 1)
  | .kCodec_H263_VLD => (3, 0, 1)
  | .kCodec_MPEG4_VLD => (4, 0, 1)
  | .other => (0, 3, 4)

/-- The function `VideoOutputXv::GrabSuitableXvPort` in the build with
`USING_XVMC`; the value returned is the `port` of the result. -/
def GrabSuitableXvPort (env : XvEnv) (mcodecid : MythCodecID) (st : PortSearch) : PortSearch :=
  let q := env.XvQueryAdaptors
  if Success ≠ q.1 then { st with port := -1 }
  else
    let st := { st with port := -1 }
    let t := codecTier mcodecid
    tierLoop env t.1 q.2 (t.2.2 - t.2.1) t.2.1 t.2.2 st

/-- The loop shape shared by the searches of `GrabSuitableXvPort`: the ports of
a list are passed to `XvGrabPort` in order for as long as `port` is -1. -/
def firstGrab (env : XvEnv) : List Nat → PortSearch → PortSearch
  | [], st => st
  | p :: l, st => if st.port = -1 then firstGrab env l (st.grab env p).2 else st

/-- The ports that tier `j` considers in adaptor `a`, in the order they are
tried: none if the adaptor lacks the needed flags; in an XvMC tier the port
named by `XvMCSurfaceTypes::find`, if it names one with a surface type; in the
plain XVideo tier the ports `firstPort` to `lastPort`. -/
def adaptorCandidates (env : XvEnv) (j : Nat) (stream_type : Int) (a : XvAdaptorInfo) :
    List Nat :=
  if (a.type &&& neededFlags.getD j 0) ≠ neededFlags.getD j 0 then []
  else if useXVMC.getD j false then
    let r := env.find (useVLD.getD j false) (useIDCT.getD j false) stream_type
      a.base_id (a.base_id + a.num_ports - 1)
    if r.2 < 0 then [] else if env.surfSize r.1 = 0 then [] else [r.1]
  else List.range' a.base_id (a.base_id + a.num_ports - 1 + 1 - a.base_id)

/-- The ports of the plain XVideo tier in adaptor-then-port order: for every
adaptor that has both `XvInputMask` and `XvImageMask`, in the order of the
adaptor array, its ports `base_id` to `base_id + num_ports - 1`. -/
def plainPorts (ai : List XvAdaptorInfo) : List Nat :=
  (ai.filter (fun a => a.type &&& (XvInputMask ||| XvImageMask) = XvInputMask ||| XvImageMask)).flatMap
    (fun a => List.range' a.base_id a.num_ports)

/-! ## Example states -/

/-- An environment in which every frame has a surface, the back-end answers
every status query with `Success` and no status bit, and every `TryLockFrame`
succeeds. -/
def idleEnv : Env :=
  { render := fun f => some { disp := some 1, p_surface := some f }
    XvMCGetSurfaceStatus := fun _ _ => (0, 0)
    TryLockFrame := fun _ => true
    poolDiscardFrames := fun _ vb => vb
    poolDoneDisplayingFrame := fun vb => vb
    chroma_osd := false
    embedding := false
    GetAvailableOSD := none
    DisplayOSD := 0 }

/-- A pool with empty queues, no attachment, no inheritance and no lock held. -/
def emptyPool : VideoBuffers :=
  { available := []
    limbo := []
    used := []
    pause := []
    displayed := []
    children := fun _ => []
    osd_child := fun _ => none
    osd_parent := fun _ => none
    lockCount := fun _ => 0 }

/-- A video output of the given subtype over the given pool, with freshly
constructed buffer settings and an empty call trace. -/
def outputOver (vos : VOSType) (vb : VideoBuffers) : VideoOutputXv :=
  { video_output_subtype := vos
    vbuffers := vb
    xvmc_buf_attr := XvMCBufferSettings.new
    p_past_surface := fun _ => none
    p_future_surface := fun _ => none
    av_pause_frame := 1000
    scratch_frame := 1001
    mem := fun f => { frameNumber := 0, pixels := f }
    framesPlayed := 0
    trace := [] }

/-- XvMC state in which frame 1 is the head of the used queue and frame 2, in
limbo since it was taken from the pool for the OSD, is attached to it as OSD
child. -/
def osdAttachedState : VideoOutputXv :=
  outputOver .XVideoMC
    { emptyPool with
      used := [1]
      limbo := [2]
      osd_child := fun f => if f = 1 then some 2 else none
      osd_parent := fun f => if f = 2 then some 1 else none }

/-- XvMC state with frames 1 and 4 in used, frame 2 in limbo and frame 3 in
pause, where the pause frame 3 still references frame 1. -/
def seekState : VideoOutputXv :=
  outputOver .XVideoMC
    { emptyPool with
      used := [1, 4]
      limbo := [2]
      pause := [3]
      children := fun p => if p = 1 then [3] else [] }

/-- Scenario D: XvMC state with three frames in used, two in displayed and a
pause frame; no frame is locked or referenced. -/
def scenarioD : VideoOutputXv :=
  outputOver .XVideoMC { emptyPool with used := [1, 2, 3], displayed := [4, 5], pause := [6] }

/-- Scenario D in which the used frame 2 still references the used frame 1. -/
def scenarioD_referenced : VideoOutputXv :=
  outputOver .XVideoMC
    { emptyPool with
      used := [1, 2, 3]
      displayed := [4, 5]
      children := fun p => if p = 1 then [2] else [] }

/-- Scenario D in which the used frame 1 is locked. -/
def scenarioD_locked : VideoOutputXv :=
  outputOver .XVideoMC
    { emptyPool with
      used := [1, 2, 3]
      displayed := [4, 5]
      lockCount := fun f => if f = 1 then 1 else 0 }

/-- XvMC state with two pause frames (which the check at the start of
`UpdatePauseFrame` is there for) and two displayed frames. -/
def twoPauseState : VideoOutputXv :=
  outputOver .XVideoMC { emptyPool with pause := [1, 2], displayed := [3, 4], used := [5] }

/-- XvMC state with an empty pause queue whose most recently displayed frame 4
is the OSD child of frame 3. -/
def freezeOsdState : VideoOutputXv :=
  outputOver .XVideoMC
    { emptyPool with
      used := [3]
      displayed := [2, 4]
      osd_child := fun f => if f = 3 then some 4 else none
      osd_parent := fun f => if f = 4 then some 3 else none }

/-- Scenario C on the XvMC path: nothing was displayed yet, the pause queue is
empty and two frames are in used. -/
def scenarioC_XvMC : VideoOutputXv :=
  outputOver .XVideoMC { emptyPool with used := [1, 2] }

/-- Scenario C on the XVideo path. -/
def scenarioC_XVideo : VideoOutputXv :=
  outputOver .XVideo { emptyPool with used := [1, 2] }

/-- XvMC state that is paused on frame 1 (with OSD child 2 in the displayed
queue) while frame 3 waits in used. -/
def pausedState : VideoOutputXv :=
  outputOver .XVideoMC
    { emptyPool with
      pause := [1]
      used := [3]
      displayed := [2]
      osd_child := fun f => if f = 1 then some 2 else none
      osd_parent := fun f => if f = 2 then some 1 else none }

/-- XvMC state with two displayed frames, of which frame 1 is still referenced
by the used frame 5. -/
def sweepState : VideoOutputXv :=
  outputOver .XVideoMC
    { emptyPool with
      used := [5]
      displayed := [1, 2]
      children := fun p => if p = 1 then [5] else [] }

/-- State whose available queue holds the locked frame 7 before the unlocked
frame 8. -/
def lockedFreeState : VideoOutputXv :=
  outputOver .XVideoMC
    { emptyPool with
      available := [7, 8]
      lockCount := fun f => if f = 7 then 1 else 0 }

/-- An environment like `idleEnv` in which the back-end reports the surface of
frame 2, and no other, as displaying. -/
def childDisplayingEnv : Env :=
  { idleEnv with
    XvMCGetSurfaceStatus := fun _ surf => (0, if surf = 2 then XVMC_DISPLAYING else 0) }

/-- Scenario B: XvMC state in which frame 1 is the head of used and its OSD child,
frame 2, was shown and is in the displayed queue. -/
def scenarioB : VideoOutputXv :=
  outputOver .XVideoMC
    { emptyPool with
      used := [1]
      displayed := [2]
      osd_child := fun f => if f = 1 then some 2 else none
      osd_parent := fun f => if f = 2 then some 1 else none }

/-- An environment like `idleEnv` in which every status query fails (the X
server answers `BadRequest`) while leaving both status bits set. -/
def failingStatusEnv : Env :=
  { idleEnv with XvMCGetSurfaceStatus := fun _ _ => (1, 3) }

/-- An environment like `idleEnv` in which the lock of frame 2 cannot be
taken. -/
def busyOsdEnv : Env :=
  { idleEnv with TryLockFrame := fun f => f != 2 }

/-- A video output in XvMC mode whose buffer settings were configured with two
OSD surfaces and twelve surfaces. -/
def configuredOutput : VideoOutputXv :=
  { outputOver .XVideoMC { emptyPool with displayed := [1, 2] } with
    xvmc_buf_attr := XvMCBufferSettings.after [.SetOSDNum 2, .SetNumSurf 12] }

/-- An environment like `idleEnv` in which an OSD surface object is available
that is valid and needs a frame. -/
def osdEnv : Env :=
  { idleEnv with GetAvailableOSD := some { IsValid := true, NeedFrame := true } }

/-- XvMC state in which the used frame 1 is still marked as having the OSD
frame 2, which was shown and is in the displayed queue, while frame 3 is free. -/
def staleOsdState : VideoOutputXv :=
  outputOver .XVideoMC
    { emptyPool with
      used := [1]
      displayed := [2]
      available := [3]
      osd_child := fun f => if f = 1 then some 2 else none
      osd_parent := fun f => if f = 2 then some 1 else none }

/-- XvMC state in which the frame 1, about to be processed, is the only frame of
the available queue. -/
def selfFreeState : VideoOutputXv :=
  outputOver .XVideoMC { emptyPool with available := [1] }

/-- The state `pausedState` as the reclaim sweep called by `ShowXvMC` finds it:
the pause frame 1 and its OSD frame 2 are locked. -/
def pausedLockedState : VideoOutputXv :=
  outputOver .XVideoMC
    { emptyPool with
      pause := [1]
      used := [3]
      displayed := [2]
      osd_child := fun f => if f = 1 then some 2 else none
      osd_parent := fun f => if f = 2 then some 1 else none
      lockCount := fun f => if f = 1 ∨ f = 2 then 1 else 0 }

/-- XvMC state with two frames in the pause queue, of which frame 1 is locked
by another actor. -/
def lockedPauseState : VideoOutputXv :=
  outputOver .XVideoMC
    { emptyPool with
      pause := [1, 2]
      lockCount := fun f => if f = 1 then 1 else 0 }

/-- An image of a 4 by 2 frame in which the byte at offset `i` is `i`: luma at
offsets 0 to 7, the two chroma planes at offsets 8, 9 and 10, 11. -/
def rampImage : XvImageMem :=
  { data := fun i => i, xv_color_conv_buf := fun _ => 0 }

/-- An environment of `InitVideoBuffers` in which XvMC and XVideo cannot be set
up and X shared memory can; the codec ids up to 4 are the normal ones. -/
def shmOnlyEnv : InitEnv :=
  { kCodec_NORMAL_END := 5
    vld := false
    InitXvMC := false
    InitXVideo := false
    InitXShm := true
    InitXlib := true
    pictureControls := false }

/-- An X server with two adaptors: ports 10 and 11 of an adaptor that takes
input but no images, and ports 20 to 22 of an adaptor with both flags, of which
port 20 is already grabbed by another client (`XvAlreadyGrabbed`); no XvMC
surface type is available. -/
def twoAdaptorEnv : XvEnv :=
  { XvQueryAdaptors := (0, [{ base_id := 10, num_ports := 2, type := 0x01 },
      { base_id := 20, num_ports := 3, type := 0x11 }])
    XvGrabPort := fun p => if p = 20 then 2 else 0
    find := fun _ _ _ _ _ => (0, -1)
    surfSize := fun _ => 0 }

/-- The variables of `GrabSuitableXvPort` before any port was opened. -/
def noOpenPorts : PortSearch :=
  { port := -1, open_xv_ports := [], grabs := [] }

/-- An environment like `idleEnv` in which the back-end reports the surface of
frame 2, and no other, as rendering. -/
def renderingEnv : Env :=
  { idleEnv with
    XvMCGetSurfaceStatus := fun _ surf => (0, if surf = 2 then XVMC_RENDERING else 0) }

/-- An environment like `renderingEnv` in which the lock of frame 2 cannot be
taken. -/
def busyRenderingEnv : Env :=
  { renderingEnv with TryLockFrame := fun f => f != 2 }

/-- XvMC state whose displayed queue holds frame 2 only. -/
def oneDisplayedState : VideoOutputXv :=
  outputOver .XVideoMC { emptyPool with displayed := [2] }

/-- A floating-point evaluation for examples: the three expressions of
`calc_bob` computed without rounding error, for non-negative heights and non-zero
divisors.  This is what `double` arithmetic gives on the picture sizes of the
examples below. -/
def exactBobFloat : BobFloat :=
  { half_incr := fun dest_y_incr imgh disphoff =>
      if disphoff = 0 then none else some ((dest_y_incr * imgh).tdiv (2 * disphoff))
    half_line := fun disphoff imgh =>
      if 0 < imgh ∧ 0 ≤ disphoff then some ((200000 * disphoff + 99998 * imgh) / (200000 * imgh))
      else none
    threshold := fun imgh frame_height =>
      if 0 ≤ imgh ∧ 0 ≤ frame_height then some ((20 * imgh + frame_height) / 20) else none }

/-- An environment like `osdEnv` in which a chroma-key OSD is in use. -/
def chromaOsdEnv : Env :=
  { osdEnv with chroma_osd := true }

/-! ## Basic facts about recorded calls -/

section Basic

variable (env : Env)

@[simp] theorem vcall_vbuffers (s : VideoOutputXv) (c : Call) :
    (s.vcall env c).vbuffers = c.apply env s.vbuffers := rfl

@[simp] theorem vcall_trace (s : VideoOutputXv) (c : Call) :
    (s.vcall env c).trace = s.trace ++ [c] := rfl

@[simp] theorem vcall_subtype (s : VideoOutputXv) (c : Call) :
    (s.vcall env c).video_output_subtype = s.video_output_subtype := rfl

@[simp] theorem vcall_attr (s : VideoOutputXv) (c : Call) :
    (s.vcall env c).xvmc_buf_attr = s.xvmc_buf_attr := rfl

@[simp] theorem vcall_mem (s : VideoOutputXv) (c : Call) :
    (s.vcall env c).mem = s.mem := rfl

@[simp] theorem vcall_av_pause_frame (s : VideoOutputXv) (c : Call) :
    (s.vcall env c).av_pause_frame = s.av_pause_frame := rfl

@[simp] theorem vcall_scratch_frame (s : VideoOutputXv) (c : Call) :
    (s.vcall env c).scratch_frame = s.scratch_frame := rfl

@[simp] theorem vcall_framesPlayed (s : VideoOutputXv) (c : Call) :
    (s.vcall env c).framesPlayed = s.framesPlayed := rfl

@[simp] theorem clearPastFuture_vbuffers (s : VideoOutputXv) (f : VideoFrame) :
    (s.clearPastFuture f).vbuffers = s.vbuffers := rfl

@[simp] theorem clearPastFuture_trace (s : VideoOutputXv) (f : VideoFrame) :
    (s.clearPastFuture f).trace = s.trace := rfl

@[simp] theorem clearPastFuture_subtype (s : VideoOutputXv) (f : VideoFrame) :
    (s.clearPastFuture f).video_output_subtype = s.video_output_subtype := rfl

@[simp] theorem clearPastFuture_attr (s : VideoOutputXv) (f : VideoFrame) :
    (s.clearPastFuture f).xvmc_buf_attr = s.xvmc_buf_attr := rfl

@[simp] theorem SyncSurface_eq (s : VideoOutputXv) (f : Option VideoFrame) (pf : Int) :
    s.SyncSurface env f pf = s.vcall env (.SyncSurface f pf) := rfl

@[simp] theorem VideoOutputSubType_eq (s : VideoOutputXv) :
    s.VideoOutputSubType = s.video_output_subtype := rfl

@[simp] theorem IsDisplaying_none : IsDisplaying env none = false := rfl

@[simp] theorem IsRendering_none : IsRendering env none = false := rfl

end Basic

/-! ## Frame conditions of the pool operations -/

section PoolFrame

variable (vb : VideoBuffers) (f : VideoFrame)

@[simp] theorem LockFrame_available : (vb.LockFrame f).available = vb.available := rfl
@[simp] theorem LockFrame_limbo : (vb.LockFrame f).limbo = vb.limbo := rfl
@[simp] theorem LockFrame_used : (vb.LockFrame f).used = vb.used := rfl
@[simp] theorem LockFrame_pause : (vb.LockFrame f).pause = vb.pause := rfl
@[simp] theorem LockFrame_displayed : (vb.LockFrame f).displayed = vb.displayed := rfl
@[simp] theorem LockFrame_children : (vb.LockFrame f).children = vb.children := rfl
@[simp] theorem LockFrame_osd_child : (vb.LockFrame f).osd_child = vb.osd_child := rfl
@[simp] theorem LockFrame_osd_parent : (vb.LockFrame f).osd_parent = vb.osd_parent := rfl

@[simp] theorem LockFrame_lockCount (g : VideoFrame) :
    (vb.LockFrame f).lockCount g = if g = f then vb.lockCount g + 1 else vb.lockCount g := rfl

@[simp] theorem UnlockFrame_available (o : Option VideoFrame) :
    (vb.UnlockFrame o).available = vb.available := by cases o <;> rfl
@[simp] theorem UnlockFrame_limbo (o : Option VideoFrame) :
    (vb.UnlockFrame o).limbo = vb.limbo := by cases o <;> rfl
@[simp] theorem UnlockFrame_used (o : Option VideoFrame) :
    (vb.UnlockFrame o).used = vb.used := by cases o <;> rfl
@[simp] theorem UnlockFrame_pause (o : Option VideoFrame) :
    (vb.UnlockFrame o).pause = vb.pause := by cases o <;> rfl
@[simp] theorem UnlockFrame_displayed (o : Option VideoFrame) :
    (vb.UnlockFrame o).displayed = vb.displayed := by cases o <;> rfl
@[simp] theorem UnlockFrame_children (o : Option VideoFrame) :
    (vb.UnlockFrame o).children = vb.children := by cases o <;> rfl
@[simp] theorem UnlockFrame_osd_child (o : Option VideoFrame) :
    (vb.UnlockFrame o).osd_child = vb.osd_child := by cases o <;> rfl
@[simp] theorem UnlockFrame_osd_parent (o : Option VideoFrame) :
    (vb.UnlockFrame o).osd_parent = vb.osd_parent := by cases o <;> rfl

@[simp] theorem UnlockFrame_none_lockCount : (vb.UnlockFrame none).lockCount = vb.lockCount := rfl

@[simp] theorem UnlockFrame_some_lockCount (g : VideoFrame) :
    (vb.UnlockFrame (some f)).lockCount g =
      if g = f then vb.lockCount g - 1 else vb.lockCount g := rfl

@[simp] theorem SetOSDFrame_available (o : Option VideoFrame) :
    (vb.SetOSDFrame f o).available = vb.available := by
  unfold VideoBuffers.SetOSDFrame; cases o <;> cases vb.osd_child f <;> rfl
@[simp] theorem SetOSDFrame_limbo (o : Option VideoFrame) :
    (vb.SetOSDFrame f o).limbo = vb.limbo := by
  unfold VideoBuffers.SetOSDFrame; cases o <;> cases vb.osd_child f <;> rfl
@[simp] theorem SetOSDFrame_used (o : Option VideoFrame) :
    (vb.SetOSDFrame f o).used = vb.used := by
  unfold VideoBuffers.SetOSDFrame; cases o <;> cases vb.osd_child f <;> rfl
@[simp] theorem SetOSDFrame_pause (o : Option VideoFrame) :
    (vb.SetOSDFrame f o).pause = vb.pause := by
  unfold VideoBuffers.SetOSDFrame; cases o <;> cases vb.osd_child f <;> rfl
@[simp] theorem SetOSDFrame_displayed (o : Option VideoFrame) :
    (vb.SetOSDFrame f o).displayed = vb.displayed := by
  unfold VideoBuffers.SetOSDFrame; cases o <;> cases vb.osd_child f <;> rfl
@[simp] theorem SetOSDFrame_children (o : Option VideoFrame) :
    (vb.SetOSDFrame f o).children = vb.children := by
  unfold VideoBuffers.SetOSDFrame; cases o <;> cases vb.osd_child f <;> rfl
@[simp] theorem SetOSDFrame_lockCount (o : Option VideoFrame) :
    (vb.SetOSDFrame f o).lockCount = vb.lockCount := by
  unfold VideoBuffers.SetOSDFrame; cases o <;> cases vb.osd_child f <;> rfl

/-- Detaching clears the child of the parent. -/
@[simp] theorem SetOSDFrame_none_osd_child_self :
    (vb.SetOSDFrame f none).osd_child f = none := by
  unfold VideoBuffers.SetOSDFrame
  cases h : vb.osd_child f <;> simp [h]

@[simp] theorem RemoveInheritence_available : (vb.RemoveInheritence f).available = vb.available := rfl
@[simp] theorem RemoveInheritence_limbo : (vb.RemoveInheritence f).limbo = vb.limbo := rfl
@[simp] theorem RemoveInheritence_used : (vb.RemoveInheritence f).used = vb.used := rfl
@[simp] theorem RemoveInheritence_pause : (vb.RemoveInheritence f).pause = vb.pause := rfl
@[simp] theorem RemoveInheritence_displayed : (vb.RemoveInheritence f).displayed = vb.displayed := rfl
@[simp] theorem RemoveInheritence_osd_child : (vb.RemoveInheritence f).osd_child = vb.osd_child := rfl
@[simp] theorem RemoveInheritence_osd_parent : (vb.RemoveInheritence f).osd_parent = vb.osd_parent := rfl
@[simp] theorem RemoveInheritence_lockCount : (vb.RemoveInheritence f).lockCount = vb.lockCount := rfl

@[simp] theorem RemoveInheritence_children (p : VideoFrame) :
    (vb.RemoveInheritence f).children p = (vb.children p).filter (fun c => c != f) := rfl

@[simp] theorem safeEnqueue_none (dst : BufferType) : vb.safeEnqueue dst none = vb := rfl

@[simp] theorem safeEnqueue_children (dst : BufferType) (o : Option VideoFrame) :
    (vb.safeEnqueue dst o).children = vb.children := by
  cases o <;> cases dst <;> rfl
@[simp] theorem safeEnqueue_osd_child (dst : BufferType) (o : Option VideoFrame) :
    (vb.safeEnqueue dst o).osd_child = vb.osd_child := by
  cases o <;> cases dst <;> rfl
@[simp] theorem safeEnqueue_osd_parent (dst : BufferType) (o : Option VideoFrame) :
    (vb.safeEnqueue dst o).osd_parent = vb.osd_parent := by
  cases o <;> cases dst <;> rfl
@[simp] theorem safeEnqueue_lockCount (dst : BufferType) (o : Option VideoFrame) :
    (vb.safeEnqueue dst o).lockCount = vb.lockCount := by
  cases o <;> cases dst <;> rfl

@[simp] theorem dequeue_children (t : BufferType) : (vb.dequeue t).children = vb.children := by
  cases t <;> rfl
@[simp] theorem dequeue_osd_child (t : BufferType) : (vb.dequeue t).osd_child = vb.osd_child := by
  cases t <;> rfl
@[simp] theorem dequeue_osd_parent (t : BufferType) :
    (vb.dequeue t).osd_parent = vb.osd_parent := by
  cases t <;> rfl
@[simp] theorem dequeue_lockCount (t : BufferType) : (vb.dequeue t).lockCount = vb.lockCount := by
  cases t <;> rfl

@[simp] theorem poolDiscardFrame_children : (vb.DiscardFrame f).children = vb.children := by
  unfold VideoBuffers.DiscardFrame; split <;> simp
@[simp] theorem poolDiscardFrame_osd_child : (vb.DiscardFrame f).osd_child = vb.osd_child := by
  unfold VideoBuffers.DiscardFrame; split <;> simp
@[simp] theorem poolDiscardFrame_osd_parent : (vb.DiscardFrame f).osd_parent = vb.osd_parent := by
  unfold VideoBuffers.DiscardFrame; split <;> simp
@[simp] theorem poolDiscardFrame_lockCount : (vb.DiscardFrame f).lockCount = vb.lockCount := by
  unfold VideoBuffers.DiscardFrame; split <;> simp

end PoolFrame

/-! ## Sequences of calls -/

section StepsFacts

variable (env : Env)

@[simp] theorem runCalls_nil (vb : VideoBuffers) : runCalls env [] vb = vb := rfl

@[simp] theorem runCalls_cons (c : Call) (l : List Call) (vb : VideoBuffers) :
    runCalls env (c :: l) vb = runCalls env l (c.apply env vb) := rfl

theorem runCalls_append (l1 l2 : List Call) (vb : VideoBuffers) :
    runCalls env (l1 ++ l2) vb = runCalls env l2 (runCalls env l1 vb) := by
  simp [runCalls, List.foldl_append]

theorem Steps.refl (P : Call → Prop) (s : VideoOutputXv) : Steps env P s s :=
  ⟨rfl, rfl, [], by simp, rfl, by simp⟩

theorem Steps.trans {P : Call → Prop} {s1 s2 s3 : VideoOutputXv}
    (h12 : Steps env P s1 s2) (h23 : Steps env P s2 s3) : Steps env P s1 s3 := by
  obtain ⟨a1, b1, l1, t1, v1, p1⟩ := h12
  obtain ⟨a2, b2, l2, t2, v2, p2⟩ := h23
  refine ⟨a2.trans a1, b2.trans b1, l1 ++ l2, ?_, ?_, ?_⟩
  · rw [t2, t1, List.append_assoc]
  · rw [v2, v1, runCalls_append]
  · intro c hc
    rcases List.mem_append.1 hc with h | h
    · exact p1 c h
    · exact p2 c h

theorem Steps.mono {P Q : Call → Prop} {s1 s2 : VideoOutputXv}
    (h : Steps env P s1 s2) (hPQ : ∀ c, P c → Q c) : Steps env Q s1 s2 := by
  obtain ⟨a, b, l, t, v, p⟩ := h
  exact ⟨a, b, l, t, v, fun c hc => hPQ c (p c hc)⟩

theorem Steps.vcall {P : Call → Prop} (s : VideoOutputXv) (c : Call) (h : P c) :
    Steps env P s (s.vcall env c) :=
  ⟨rfl, rfl, [c], rfl, rfl, by simpa using h⟩

theorem Steps.clearPastFuture (P : Call → Prop) (s : VideoOutputXv) (f : VideoFrame) :
    Steps env P s (s.clearPastFuture f) :=
  ⟨rfl, rfl, [], by simp, rfl, by simp⟩

/-- A step followed by one more call. -/
theorem Steps.then_vcall {P : Call → Prop} {s1 s2 : VideoOutputXv}
    (h : Steps env P s1 s2) (c : Call) (hc : P c) : Steps env P s1 (s2.vcall env c) :=
  Steps.trans env h (Steps.vcall env s2 c hc)

end StepsFacts

/-! ## Queue effects of the pool operations -/

section QueueEffects

variable (env : Env) (vb : VideoBuffers)

theorem safeEnqueue_queue (dst : BufferType) (f : VideoFrame) (t : BufferType) :
    (vb.safeEnqueue dst (some f)).queue t =
      if t = dst then (vb.queue t).filter (fun g => g != f) ++ [f]
      else (vb.queue t).filter (fun g => g != f) := by
  cases dst <;> cases t <;> rfl

theorem dequeue_queue (t t2 : BufferType) :
    (vb.dequeue t).queue t2 = if t2 = t then (vb.queue t2).tail else vb.queue t2 := by
  cases t <;> cases t2 <;> rfl

theorem poolDiscardFrame_queue (f : VideoFrame) (t : BufferType) :
    (vb.DiscardFrame f).queue t =
      if vb.lockCount f = 0 then (vb.safeEnqueue .kVideoBuffer_avail (some f)).queue t
      else vb.queue t := by
  unfold VideoBuffers.DiscardFrame
  split <;> rfl

theorem LockFrame_queue (f : VideoFrame) (t : BufferType) :
    (vb.LockFrame f).queue t = vb.queue t := by
  cases t <;> rfl

theorem UnlockFrame_queue (o : Option VideoFrame) (t : BufferType) :
    (vb.UnlockFrame o).queue t = vb.queue t := by
  cases o <;> cases t <;> rfl

theorem SetOSDFrame_queue (f : VideoFrame) (o : Option VideoFrame) (t : BufferType) :
    (vb.SetOSDFrame f o).queue t = vb.queue t := by
  cases t <;> simp [VideoBuffers.queue]

theorem RemoveInheritence_queue (f : VideoFrame) (t : BufferType) :
    (vb.RemoveInheritence f).queue t = vb.queue t := by
  cases t <;> rfl

theorem poolGetNextFreeFrame_queue (l u : Bool) (t : BufferType) :
    (vb.GetNextFreeFrame l u).queue t =
      match vb.nextFree u with
      | none => vb.queue t
      | some f => (vb.safeEnqueue .kVideoBuffer_limbo (some f)).queue t := by
  unfold VideoBuffers.GetNextFreeFrame
  cases vb.nextFree u with
  | none => rfl
  | some f => cases l <;> simp [LockFrame_queue]

/-- A call that is not a `safeEnqueue` into the pause queue (nor one of the two
unmodelled pool operations) can only take frames out of the pause queue. -/
theorem apply_pause_sublist (c : Call) (h : c.growsPause = false) :
    List.Sublist ((c.apply env vb).queue .kVideoBuffer_pause)
      (vb.queue .kVideoBuffer_pause) := by
  cases c with
  | LockFrame f => simp [Call.apply, LockFrame_queue]
  | TryLockFrame f ok => cases ok <;> simp [Call.apply, LockFrame_queue]
  | UnlockFrame f => simp [Call.apply, UnlockFrame_queue]
  | SetOSDFrame f o => simp [Call.apply, SetOSDFrame_queue]
  | RemoveInheritence f => simp [Call.apply, RemoveInheritence_queue]
  | safeEnqueue dst o =>
    cases o with
    | none => simp [Call.apply]
    | some f =>
      have hd : dst ≠ .kVideoBuffer_pause := by
        intro hd
        subst hd
        simp [Call.growsPause] at h
      simp only [Call.apply, safeEnqueue_queue, if_neg (Ne.symm hd)]
      exact List.filter_sublist _
  | dequeue t =>
    simp only [Call.apply, dequeue_queue]
    split
    · exact List.tail_sublist _
    · exact List.Sublist.refl _
  | DiscardFrame f =>
    simp only [Call.apply, poolDiscardFrame_queue]
    split
    · simp only [safeEnqueue_queue]
      simp only [reduceCtorEq, if_false]
      exact List.filter_sublist _
    · exact List.Sublist.refl _
  | DiscardFrames k => simp [Call.growsPause] at h
  | DoneDisplayingFrame => simp [Call.growsPause] at h
  | GetNextFreeFrame l u =>
    simp only [Call.apply, poolGetNextFreeFrame_queue]
    split
    · exact List.Sublist.refl _
    · simp only [safeEnqueue_queue]
      simp only [reduceCtorEq, if_false]
      exact List.filter_sublist _
  | begin_lock t => exact List.Sublist.refl _
  | end_lock => exact List.Sublist.refl _
  | SyncSurface f pf => exact List.Sublist.refl _
  | XvMCPutSurface sf => exact List.Sublist.refl _
  | XvMCHideSurface sf => exact List.Sublist.refl _
  | CompositeOSD f o => exact List.Sublist.refl _

theorem runCalls_pause_sublist (l : List Call) :
    ∀ vb : VideoBuffers, (∀ c ∈ l, c.growsPause = false) →
      List.Sublist ((runCalls env l vb).queue .kVideoBuffer_pause)
        (vb.queue .kVideoBuffer_pause) := by
  induction l with
  | nil => intro vb _; exact List.Sublist.refl _
  | cons c l ih =>
    intro vb h
    simp only [runCalls_cons]
    exact (ih _ (fun c2 hc2 => h c2 (List.mem_cons_of_mem _ hc2))).trans
      (apply_pause_sublist env vb c (h c (List.mem_cons_self _ _)))

/-- Steps that make no pause-growing call leave a sublist of the pause queue. -/
theorem Steps.pause_sublist {s1 s2 : VideoOutputXv}
    (h : Steps env (fun c => c.growsPause = false) s1 s2) :
    List.Sublist s2.vbuffers.pause s1.vbuffers.pause := by
  obtain ⟨-, -, l, -, v, p⟩ := h
  rw [v]
  exact runCalls_pause_sublist env l s1.vbuffers p

theorem within_not_growsPause (F : VideoFrame → Prop) (dq td : Bool) (c : Call)
    (h : c.within F dq td) : c.growsPause = false := by
  cases c with
  | safeEnqueue dst o =>
    cases o with
    | none => cases dst <;> rfl
    | some f =>
      simp only [Call.within] at h
      rcases h.1 with h1 | h1
      · subst h1; rfl
      · rw [h1.1]; rfl
  | DiscardFrames k => exact absurd h (by simp [Call.within])
  | DoneDisplayingFrame => exact absurd h (by simp [Call.within])
  | _ => rfl

/-- A call that reclaims only frames selected by `F` can only take frames out of
a queue that is not one of its destinations. -/
theorem apply_queue_sublist (F : VideoFrame → Prop) (dq td : Bool) (c : Call)
    (h : c.within F dq td) (t : BufferType)
    (ht1 : t ≠ .kVideoBuffer_avail) (ht2 : td = true → t ≠ .kVideoBuffer_displayed) :
    List.Sublist ((c.apply env vb).queue t) (vb.queue t) := by
  cases c with
  | LockFrame f => simp [Call.apply, LockFrame_queue]
  | TryLockFrame f ok => cases ok <;> simp [Call.apply, LockFrame_queue]
  | UnlockFrame f => simp [Call.apply, UnlockFrame_queue]
  | SetOSDFrame f o => simp [Call.apply, SetOSDFrame_queue]
  | RemoveInheritence f => simp [Call.apply, RemoveInheritence_queue]
  | safeEnqueue dst o =>
    cases o with
    | none => simp [Call.apply]
    | some f =>
      simp only [Call.within] at h
      have hd : t ≠ dst := by
        rcases h.1 with h1 | h1
        · subst h1; assumption
        · rw [h1.1]; exact ht2 h1.2
      simp only [Call.apply, safeEnqueue_queue, if_neg hd]
      exact List.filter_sublist _
  | dequeue t2 =>
    simp only [Call.apply, dequeue_queue]
    split
    · exact List.tail_sublist _
    · exact List.Sublist.refl _
  | DiscardFrame f =>
    simp only [Call.apply, poolDiscardFrame_queue]
    split
    · simp only [safeEnqueue_queue, if_neg ht1]
      exact List.filter_sublist _
    · exact List.Sublist.refl _
  | DiscardFrames k => exact absurd h (by simp [Call.within])
  | DoneDisplayingFrame => exact absurd h (by simp [Call.within])
  | GetNextFreeFrame l u => exact absurd h (by simp [Call.within])
  | begin_lock t => exact List.Sublist.refl _
  | end_lock => exact List.Sublist.refl _
  | SyncSurface f pf => exact List.Sublist.refl _
  | XvMCPutSurface sf => exact List.Sublist.refl _
  | XvMCHideSurface sf => exact List.Sublist.refl _
  | CompositeOSD f o => exact List.Sublist.refl _

theorem runCalls_queue_sublist (F : VideoFrame → Prop) (dq td : Bool) (t : BufferType)
    (ht1 : t ≠ .kVideoBuffer_avail) (ht2 : td = true → t ≠ .kVideoBuffer_displayed)
    (l : List Call) :
    ∀ vb : VideoBuffers, (∀ c ∈ l, c.within F dq td) →
      List.Sublist ((runCalls env l vb).queue t) (vb.queue t) := by
  induction l with
  | nil => intro vb _; exact List.Sublist.refl _
  | cons c l ih =>
    intro vb h
    simp only [runCalls_cons]
    exact (ih _ (fun c2 hc2 => h c2 (List.mem_cons_of_mem _ hc2))).trans
      (apply_queue_sublist env vb F dq td c (h c (List.mem_cons_self _ _)) t ht1 ht2)

/-- Steps that reclaim frames can only take frames out of a queue that is not
one of their destinations. -/
theorem Steps.queue_sublist {F : VideoFrame → Prop} {dq td : Bool} {s1 s2 : VideoOutputXv}
    (h : Steps env (Call.within F dq td) s1 s2) (t : BufferType)
    (ht1 : t ≠ .kVideoBuffer_avail) (ht2 : td = true → t ≠ .kVideoBuffer_displayed) :
    List.Sublist (s2.vbuffers.queue t) (s1.vbuffers.queue t) := by
  obtain ⟨-, -, l, -, v, p⟩ := h
  rw [v]
  exact runCalls_queue_sublist env F dq td t ht1 ht2 l s1.vbuffers p

/-- A call that reclaims only frames selected by `F` leaves alone every queue
that is not one of its destinations and holds no such frame (the pause queue
only if the call is no `dequeue`). -/
theorem apply_queue_of_within (F : VideoFrame → Prop) (dq td : Bool) (c : Call)
    (h : c.within F dq td) (t : BufferType)
    (ht1 : t ≠ .kVideoBuffer_avail) (ht2 : td = true → t ≠ .kVideoBuffer_displayed)
    (ht3 : dq = true → t ≠ .kVideoBuffer_pause)
    (hF : ∀ f ∈ vb.queue t, ¬ F f) :
    (c.apply env vb).queue t = vb.queue t := by
  have hfilter : ∀ f, F f → (vb.queue t).filter (fun g => g != f) = vb.queue t := by
    intro f hf
    apply List.filter_eq_self.2
    intro g hg
    have : g ≠ f := fun hgf => hF g hg (hgf ▸ hf)
    simpa using this
  cases c with
  | LockFrame f => simp [Call.apply, LockFrame_queue]
  | TryLockFrame f ok => cases ok <;> simp [Call.apply, LockFrame_queue]
  | UnlockFrame f => simp [Call.apply, UnlockFrame_queue]
  | SetOSDFrame f o => simp [Call.apply, SetOSDFrame_queue]
  | RemoveInheritence f => simp [Call.apply, RemoveInheritence_queue]
  | safeEnqueue dst o =>
    cases o with
    | none => simp [Call.apply]
    | some f =>
      simp only [Call.within] at h
      have hd : t ≠ dst := by
        rcases h.1 with h1 | h1
        · subst h1; assumption
        · rw [h1.1]; exact ht2 h1.2
      simp only [Call.apply, safeEnqueue_queue, if_neg hd]
      exact hfilter f h.2
  | dequeue t2 =>
    simp only [Call.within] at h
    have hd : t ≠ t2 := by
      rw [h.1]
      exact ht3 h.2
    simp only [Call.apply, dequeue_queue, if_neg hd]
  | DiscardFrame f =>
    simp only [Call.within] at h
    simp only [Call.apply, poolDiscardFrame_queue]
    split
    · simp only [safeEnqueue_queue, if_neg ht1]
      exact hfilter f h
    · rfl
  | DiscardFrames k => exact absurd h (by simp [Call.within])
  | DoneDisplayingFrame => exact absurd h (by simp [Call.within])
  | GetNextFreeFrame l u => exact absurd h (by simp [Call.within])
  | begin_lock t => rfl
  | end_lock => rfl
  | SyncSurface f pf => rfl
  | XvMCPutSurface sf => rfl
  | XvMCHideSurface sf => rfl
  | CompositeOSD f o => rfl

theorem runCalls_queue_of_within (F : VideoFrame → Prop) (dq td : Bool) (t : BufferType)
    (ht1 : t ≠ .kVideoBuffer_avail) (ht2 : td = true → t ≠ .kVideoBuffer_displayed)
    (ht3 : dq = true → t ≠ .kVideoBuffer_pause) (l : List Call) :
    ∀ vb : VideoBuffers, (∀ c ∈ l, c.within F dq td) → (∀ f ∈ vb.queue t, ¬ F f) →
      (runCalls env l vb).queue t = vb.queue t := by
  induction l with
  | nil => intro vb _ _; rfl
  | cons c l ih =>
    intro vb h hF
    have h1 := apply_queue_of_within env vb F dq td c (h c (List.mem_cons_self _ _)) t
      ht1 ht2 ht3 hF
    simp only [runCalls_cons]
    rw [ih _ (fun c2 hc2 => h c2 (List.mem_cons_of_mem _ hc2)) (by rw [h1]; exact hF), h1]

/-- Steps that reclaim only frames selected by `F` leave alone every queue that
is not one of their destinations and holds no such frame. -/
theorem Steps.queue_eq {F : VideoFrame → Prop} {dq td : Bool} {s1 s2 : VideoOutputXv}
    (h : Steps env (Call.within F dq td) s1 s2) (t : BufferType)
    (ht1 : t ≠ .kVideoBuffer_avail) (ht2 : td = true → t ≠ .kVideoBuffer_displayed)
    (ht3 : dq = true → t ≠ .kVideoBuffer_pause)
    (hF : ∀ f ∈ s1.vbuffers.queue t, ¬ F f) :
    s2.vbuffers.queue t = s1.vbuffers.queue t := by
  obtain ⟨-, -, l, -, v, p⟩ := h
  rw [v]
  exact runCalls_queue_of_within env F dq td t ht1 ht2 ht3 l s1.vbuffers p hF

/-- A call that moves frames only to the available queue keeps every frame of
the available queue there, and a frame of another queue stays or goes to the
available queue. -/
theorem apply_mem_of_within (F : VideoFrame → Prop) (c : Call)
    (h : c.within F false false) (t : BufferType) (f : VideoFrame) (hf : f ∈ vb.queue t) :
    (t = .kVideoBuffer_avail → f ∈ (c.apply env vb).queue t) ∧
    (f ∈ (c.apply env vb).queue t ∨ f ∈ (c.apply env vb).queue .kVideoBuffer_avail) := by
  have key : ∀ g : VideoFrame,
      (t = .kVideoBuffer_avail →
        f ∈ (vb.safeEnqueue .kVideoBuffer_avail (some g)).queue t) ∧
      (f ∈ (vb.safeEnqueue .kVideoBuffer_avail (some g)).queue t ∨
        f ∈ (vb.safeEnqueue .kVideoBuffer_avail (some g)).queue .kVideoBuffer_avail) := by
    intro g
    simp only [safeEnqueue_queue, if_true]
    by_cases hfg : f = g
    · subst hfg
      refine ⟨fun ht => ?_, Or.inr (by simp)⟩
      rw [if_pos ht]
      simp
    · have hmem : f ∈ (vb.queue t).filter (fun x => x != g) :=
        List.mem_filter.2 ⟨hf, by simpa using hfg⟩
      refine ⟨fun ht => ?_, Or.inl ?_⟩
      · rw [if_pos ht]
        exact List.mem_append_left _ hmem
      · split
        · exact List.mem_append_left _ hmem
        · exact hmem
  cases c with
  | LockFrame g => simp [Call.apply, LockFrame_queue, hf]
  | TryLockFrame g ok => cases ok <;> simp [Call.apply, LockFrame_queue, hf]
  | UnlockFrame g => simp [Call.apply, UnlockFrame_queue, hf]
  | SetOSDFrame g o => simp [Call.apply, SetOSDFrame_queue, hf]
  | RemoveInheritence g => simp [Call.apply, RemoveInheritence_queue, hf]
  | safeEnqueue dst o =>
    cases o with
    | none => simp [Call.apply, hf]
    | some g =>
      simp only [Call.within] at h
      have hd : dst = .kVideoBuffer_avail := by
        rcases h.1 with h1 | h1
        · exact h1
        · exact absurd h1.2 (by simp)
      subst hd
      exact key g
  | dequeue t2 => exact absurd h.2 (by simp)
  | DiscardFrame g =>
    simp only [Call.apply, poolDiscardFrame_queue]
    split
    · exact key g
    · exact ⟨fun _ => hf, Or.inl hf⟩
  | DiscardFrames k => exact absurd h (by simp [Call.within])
  | DoneDisplayingFrame => exact absurd h (by simp [Call.within])
  | GetNextFreeFrame l u => exact absurd h (by simp [Call.within])
  | begin_lock t => exact ⟨fun _ => hf, Or.inl hf⟩
  | end_lock => exact ⟨fun _ => hf, Or.inl hf⟩
  | SyncSurface g pf => exact ⟨fun _ => hf, Or.inl hf⟩
  | XvMCPutSurface sf => exact ⟨fun _ => hf, Or.inl hf⟩
  | XvMCHideSurface sf => exact ⟨fun _ => hf, Or.inl hf⟩
  | CompositeOSD g o => exact ⟨fun _ => hf, Or.inl hf⟩

theorem runCalls_mem_of_within (F : VideoFrame → Prop) (f : VideoFrame) (l : List Call) :
    ∀ (vb : VideoBuffers) (t : BufferType), (∀ c ∈ l, c.within F false false) →
      f ∈ vb.queue t →
      (t = .kVideoBuffer_avail → f ∈ (runCalls env l vb).queue t) ∧
      (f ∈ (runCalls env l vb).queue t ∨
        f ∈ (runCalls env l vb).queue .kVideoBuffer_avail) := by
  induction l with
  | nil => intro vb t _ hf; exact ⟨fun _ => hf, Or.inl hf⟩
  | cons c l ih =>
    intro vb t h hf
    have h1 := apply_mem_of_within env vb F c (h c (List.mem_cons_self _ _)) t f hf
    have hl : ∀ c2 ∈ l, c2.within F false false :=
      fun c2 hc2 => h c2 (List.mem_cons_of_mem _ hc2)
    simp only [runCalls_cons]
    refine ⟨fun ht => (ih _ t hl (h1.1 ht)).1 ht, ?_⟩
    rcases h1.2 with h2 | h2
    · exact (ih _ t hl h2).2
    · exact Or.inr ((ih _ .kVideoBuffer_avail hl h2).1 rfl)

/-- Steps that move frames only to the available queue keep every frame of the
available queue there. -/
theorem Steps.avail_mono {F : VideoFrame → Prop} {s1 s2 : VideoOutputXv}
    (h : Steps env (Call.within F false false) s1 s2) (f : VideoFrame)
    (hf : f ∈ s1.vbuffers.available) : f ∈ s2.vbuffers.available := by
  obtain ⟨-, -, l, -, v, p⟩ := h
  rw [v]
  exact (runCalls_mem_of_within env F f l s1.vbuffers .kVideoBuffer_avail p hf).1 rfl

/-- Under steps that move frames only to the available queue, a frame of a
queue stays in that queue or goes to the available queue. -/
theorem Steps.mem_or_avail {F : VideoFrame → Prop} {s1 s2 : VideoOutputXv}
    (h : Steps env (Call.within F false false) s1 s2) (t : BufferType) (f : VideoFrame)
    (hf : f ∈ s1.vbuffers.queue t) :
    f ∈ s2.vbuffers.queue t ∨ f ∈ s2.vbuffers.available := by
  obtain ⟨-, -, l, -, v, p⟩ := h
  rw [v]
  exact (runCalls_mem_of_within env F f l s1.vbuffers t p hf).2

end QueueEffects

/-! ## DiscardFrame -/

/-- The XvMC block of `DiscardFrame`: its calls move no frame, it computes
`displaying` as described by `keptForLater`, and it leaves the queues, the
inheritance relation and the lock counts as they were. -/
theorem DiscardFrame_check_spec (env : Env) (s : VideoOutputXv) (f : VideoFrame) :
    ∃ pre : List Call,
      (∀ c ∈ pre, c.movesFrames = false) ∧
      (VideoOutputXv.DiscardFrame_check env f s).2.trace = s.trace ++ pre ∧
      (VideoOutputXv.DiscardFrame_check env f s).1 =
        (decide (s.video_output_subtype.toNat ≥ VOSType.XVideoMC.toNat) &&
          (IsDisplaying env (some f) ||
            IsDisplaying env (s.vbuffers.GetOSDFrame (some f)))) ∧
      (VideoOutputXv.DiscardFrame_check env f s).2.vbuffers.children = s.vbuffers.children ∧
      (VideoOutputXv.DiscardFrame_check env f s).2.vbuffers.lockCount = s.vbuffers.lockCount ∧
      (VideoOutputXv.DiscardFrame_check env f s).2.video_output_subtype =
        s.video_output_subtype ∧
      (VideoOutputXv.DiscardFrame_check env f s).2.xvmc_buf_attr = s.xvmc_buf_attr ∧
      (∀ t, (VideoOutputXv.DiscardFrame_check env f s).2.vbuffers.queue t =
        s.vbuffers.queue t) := by
  have hlock2 : ∀ vb : VideoBuffers, ((vb.LockFrame f).UnlockFrame (some f)).lockCount
      = vb.lockCount := by
    intro vb
    funext g
    by_cases hg : g = f <;> simp [hg]
  by_cases hm : s.video_output_subtype.toNat ≥ VOSType.XVideoMC.toNat
  · cases ho : s.vbuffers.osd_child f with
    | none =>
      cases hp : s.vbuffers.osd_parent f with
      | none =>
        refine ⟨[Call.LockFrame f, Call.SyncSurface (some f) 0, Call.UnlockFrame (some f),
          Call.SyncSurface none 0], ?_, ?_⟩
        · intro c hc
          simp at hc
          rcases hc with rfl | rfl | rfl | rfl <;> rfl
        · simp [VideoOutputXv.DiscardFrame_check, hm, ho, hp, VideoBuffers.GetOSDFrame,
            VideoBuffers.GetOSDParent, Call.apply, hlock2]
          intro t
          cases t <;> simp [VideoBuffers.queue]
      | some q =>
        by_cases hd : IsDisplaying env (some f) = true
        · refine ⟨[Call.LockFrame f, Call.SyncSurface (some f) 0, Call.UnlockFrame (some f),
            Call.SyncSurface none 0], ?_, ?_⟩
          · intro c hc
            simp at hc
            rcases hc with rfl | rfl | rfl | rfl <;> rfl
          · simp [VideoOutputXv.DiscardFrame_check, hm, ho, hp, hd, VideoBuffers.GetOSDFrame,
              VideoBuffers.GetOSDParent, Call.apply, hlock2]
            intro t
            cases t <;> simp [VideoBuffers.queue]
        · refine ⟨[Call.LockFrame f, Call.SyncSurface (some f) 0, Call.UnlockFrame (some f),
            Call.SyncSurface none 0, Call.SetOSDFrame f none], ?_, ?_⟩
          · intro c hc
            simp at hc
            rcases hc with rfl | rfl | rfl | rfl | rfl <;> rfl
          · simp [VideoOutputXv.DiscardFrame_check, hm, ho, hp, hd,
              VideoBuffers.GetOSDFrame, VideoBuffers.GetOSDParent, Call.apply, hlock2]
            intro t
            cases t <;> simp [VideoBuffers.queue]
    | some o =>
      refine ⟨[Call.LockFrame f, Call.SetOSDFrame f none, Call.SyncSurface (some f) 0,
        Call.UnlockFrame (some f), Call.SyncSurface (some o) 0], ?_, ?_⟩
      · intro c hc
        simp at hc
        rcases hc with rfl | rfl | rfl | rfl | rfl <;> rfl
      · simp [VideoOutputXv.DiscardFrame_check, hm, ho, VideoBuffers.GetOSDFrame,
          VideoBuffers.GetOSDParent, Call.apply]
        refine ⟨?_, ?_⟩
        · funext g
          by_cases hg : g = f <;> simp [hg]
        · intro t
          cases t <;> simp [VideoBuffers.queue]
  · refine ⟨[Call.LockFrame f, Call.UnlockFrame (some f)], ?_, ?_⟩
    · intro c hc
      simp at hc
      rcases hc with rfl | rfl <;> rfl
    · simp [VideoOutputXv.DiscardFrame_check, hm, Call.apply, hlock2]
      intro t
      cases t <;> simp [VideoBuffers.queue]

/-- The value of `displaying || vbuffers.HasChildren(frame)` that `DiscardFrame`
tests is `keptForLater` of the state at entry. -/
theorem DiscardFrame_test_eq (env : Env) (s : VideoOutputXv) (f : VideoFrame) :
    ((VideoOutputXv.DiscardFrame_check env f s).1 ||
      (VideoOutputXv.DiscardFrame_check env f s).2.vbuffers.HasChildren f) =
      keptForLater env s f := by
  obtain ⟨pre, -, -, h1, h2, -⟩ := DiscardFrame_check_spec env s f
  simp [keptForLater, h1, VideoBuffers.HasChildren, h2]

/-- Unfolding of `DiscardFrame` on a frame that is kept for later. -/
theorem DiscardFrame_kept (env : Env) (s : VideoOutputXv) (f : VideoFrame)
    (h : keptForLater env s f = true) :
    VideoOutputXv.DiscardFrame env (some f) s =
      (VideoOutputXv.DiscardFrame_check env f s).2.vcall env
        (Call.safeEnqueue .kVideoBuffer_displayed (some f)) := by
  have ht := DiscardFrame_test_eq env s f
  rw [h] at ht
  simp only [VideoOutputXv.DiscardFrame]
  rw [if_pos ht]

/-- Unfolding of `DiscardFrame` on a frame that is not kept for later. -/
theorem DiscardFrame_not_kept (env : Env) (s : VideoOutputXv) (f : VideoFrame)
    (h : keptForLater env s f = false) :
    VideoOutputXv.DiscardFrame env (some f) s =
      ((((if s.video_output_subtype.toNat ≥ VOSType.XVideoMC.toNat
          then ((VideoOutputXv.DiscardFrame_check env f s).2.vcall env
            (Call.LockFrame f)).clearPastFuture f
          else (VideoOutputXv.DiscardFrame_check env f s).2.vcall env (Call.LockFrame f)).vcall
        env (Call.UnlockFrame (some f))).vcall env (Call.RemoveInheritence f)).vcall env
        (Call.DiscardFrame f)) := by
  have ht := DiscardFrame_test_eq env s f
  rw [h] at ht
  obtain ⟨pre, -, -, -, -, -, h3, -⟩ := DiscardFrame_check_spec env s f
  simp only [VideoOutputXv.DiscardFrame]
  rw [if_neg (by simp [ht])]
  simp [h3]

/-- C1. `VideoOutputXv::DiscardFrame` does nothing for a null frame.  For a
frame `f` the calls it makes are some calls `pre` that move no frame between
queues, followed by exactly one of two endings: if the back-end reports `f` or
its attached OSD frame as displaying, or `f` still has children
(`keptForLater`), the single call `safeEnqueue(kVideoBuffer_displayed, f)`, so
`f` is not handed to `vbuffers.DiscardFrame` and ends in the displayed queue;
otherwise a lock/unlock pair, `RemoveInheritence(f)` and then
`vbuffers.DiscardFrame(f)`, with no `safeEnqueue`. -/
theorem DiscardFrame_dispatch (env : Env) (s : VideoOutputXv) :
    VideoOutputXv.DiscardFrame env none s = s ∧
    ∀ f : VideoFrame, ∃ pre : List Call,
      (∀ c ∈ pre, c.movesFrames = false) ∧
      (keptForLater env s f = true →
        (VideoOutputXv.DiscardFrame env (some f) s).trace =
          s.trace ++ pre ++ [Call.safeEnqueue .kVideoBuffer_displayed (some f)] ∧
        f ∈ (VideoOutputXv.DiscardFrame env (some f) s).vbuffers.displayed) ∧
      (keptForLater env s f = false →
        (VideoOutputXv.DiscardFrame env (some f) s).trace =
          s.trace ++ pre ++ [Call.LockFrame f, Call.UnlockFrame (some f),
            Call.RemoveInheritence f, Call.DiscardFrame f]) := by
  refine ⟨rfl, fun f => ?_⟩
  obtain ⟨pre, hpre, htr, -, -, -, -, -, -⟩ := DiscardFrame_check_spec env s f
  refine ⟨pre, hpre, ?_, ?_⟩
  · intro hk
    rw [DiscardFrame_kept env s f hk]
    refine ⟨by simp [htr], ?_⟩
    simp [Call.apply, VideoBuffers.safeEnqueue, VideoBuffers.enqueue, VideoBuffers.setQueue,
      VideoBuffers.queue]
  · intro hk
    rw [DiscardFrame_not_kept env s f hk]
    by_cases hm : s.video_output_subtype.toNat ≥ VOSType.XVideoMC.toNat <;> simp [hm, htr]

/-- C1 at a concrete XvMC state: frame 1 is not kept for later, and the calls of
`DiscardFrame(1)` end with the hand-over to the pool. -/
theorem DiscardFrame_dispatch_witness :
    keptForLater idleEnv osdAttachedState 1 = false ∧
    ∃ pre : List Call, (∀ c ∈ pre, c.movesFrames = false) ∧
      (VideoOutputXv.DiscardFrame idleEnv (some 1) osdAttachedState).trace =
        osdAttachedState.trace ++ pre ++ [Call.LockFrame 1, Call.UnlockFrame (some 1),
          Call.RemoveInheritence 1, Call.DiscardFrame 1] := by
  obtain ⟨pre, h1, -, h3⟩ := (DiscardFrame_dispatch idleEnv osdAttachedState).2 1
  exact ⟨by decide, pre, h1, h3 (by decide)⟩

/-! ## Footprints of the operations -/

section Footprints

variable (env : Env)

theorem within_of_not_moves (F : VideoFrame → Prop) (dq td : Bool) (c : Call)
    (h : c.movesFrames = false ∧ c.isPut = false) : c.within F dq td := by
  obtain ⟨h1, h2⟩ := h
  cases c with
  | safeEnqueue dst o =>
    cases o with
    | none => trivial
    | some f => exact absurd h1 (by simp [Call.movesFrames])
  | XvMCPutSurface sf => exact absurd h2 (by simp [Call.isPut])
  | _ => trivial

theorem within_mono {F G : VideoFrame → Prop} {dq dq2 td td2 : Bool} (hFG : ∀ g, F g → G g)
    (hdq : dq = true → dq2 = true) (htd : td = true → td2 = true) (c : Call)
    (h : c.within F dq td) : c.within G dq2 td2 := by
  cases c with
  | safeEnqueue dst o =>
    cases o with
    | none => trivial
    | some g => exact ⟨h.1.imp id (fun h1 => ⟨h1.1, htd h1.2⟩), hFG g h.2⟩
  | DiscardFrame g => exact hFG g h
  | dequeue t => exact ⟨h.1, hdq h.2⟩
  | DiscardFrames k => exact h
  | DoneDisplayingFrame => exact h
  | GetNextFreeFrame l u => exact h
  | XvMCPutSurface sf => exact h
  | _ => trivial

/-- The XvMC block of `DiscardFrame` makes no call that moves a frame or
presents a surface. -/
theorem DiscardFrame_check_steps (s : VideoOutputXv) (f : VideoFrame) :
    Steps env (fun c => c.movesFrames = false ∧ c.isPut = false) s
      (VideoOutputXv.DiscardFrame_check env f s).2 := by
  unfold VideoOutputXv.DiscardFrame_check
  simp only [SyncSurface_eq]
  repeat' (first
    | exact Steps.refl env _ _
    | exact Steps.then_vcall env (by assumption) _ ⟨rfl, rfl⟩
    | refine Steps.then_vcall env ?_ _ ⟨rfl, rfl⟩
    | split)

/-- The function `DiscardFrame(f)` moves no frame other than `f`, and moves it only to the
available or the displayed queue. -/
theorem DiscardFrame_steps (s : VideoOutputXv) (f : VideoFrame) :
    Steps env (Call.within (fun g => g = f) false (keptForLater env s f)) s
      (VideoOutputXv.DiscardFrame env (some f) s) := by
  have h0 := (DiscardFrame_check_steps env s f).mono env
    (within_of_not_moves (fun g => g = f) false (keptForLater env s f))
  cases hk : keptForLater env s f with
  | true =>
    rw [DiscardFrame_kept env s f hk]
    rw [hk] at h0
    exact Steps.then_vcall env h0 _ ⟨Or.inr ⟨rfl, rfl⟩, rfl⟩
  | false =>
    rw [DiscardFrame_not_kept env s f hk]
    rw [hk] at h0
    refine Steps.then_vcall env (Steps.then_vcall env (Steps.then_vcall env ?_ _ trivial) _
      trivial) _ rfl
    split
    · exact Steps.trans env (Steps.then_vcall env h0 (Call.LockFrame f) trivial)
        (Steps.clearPastFuture env _ _ _)
    · exact Steps.then_vcall env h0 (Call.LockFrame f) trivial

/-- The function `DiscardFrame` of a possibly null frame. -/
theorem DiscardFrame_steps_opt (s : VideoOutputXv) (o : Option VideoFrame) :
    Steps env (Call.within (fun g => some g = o) false true) s
      (VideoOutputXv.DiscardFrame env o s) := by
  cases o with
  | none => exact Steps.refl env _ _
  | some f =>
    exact (DiscardFrame_steps env s f).mono env
      (within_mono (fun g hg => congrArg some hg) (fun h => h) (fun _ => rfl))

/-- A loop over a local list whose body always makes steps makes steps. -/
theorem Steps.foldl {α : Type} {P : Call → Prop} (step : VideoOutputXv → α → VideoOutputXv)
    (l : List α) :
    ∀ s : VideoOutputXv, (∀ s2 a, a ∈ l → Steps env P s2 (step s2 a)) →
      Steps env P s (l.foldl step s) := by
  induction l with
  | nil => intro s _; exact Steps.refl env _ _
  | cons a l ih =>
    intro s h
    simp only [List.foldl_cons]
    exact Steps.trans env (h s a (List.mem_cons_self _ _))
      (ih _ (fun s2 b hb => h s2 b (List.mem_cons_of_mem _ hb)))

/-- The loop that empties the pause queue reclaims only frames of the pause
queue. -/
theorem discardPause_steps (P0 : List VideoFrame) (n : Nat) :
    ∀ s : VideoOutputXv, (∀ f ∈ s.vbuffers.pause, f ∈ P0) →
      Steps env (Call.within (fun g => g ∈ P0) true true) s
        (VideoOutputXv.discardPause env n s) := by
  induction n with
  | zero => intro s _; exact Steps.refl env _ _
  | succ n ih =>
    intro s hs
    simp only [VideoOutputXv.discardPause]
    split
    · have h1 : Steps env (Call.within (fun g => g ∈ P0) true true) s
          (s.vcall env (Call.dequeue .kVideoBuffer_pause)) :=
        Steps.vcall env s _ ⟨rfl, rfl⟩
      have h2 : Steps env (Call.within (fun g => g ∈ P0) true true)
          (s.vcall env (Call.dequeue .kVideoBuffer_pause))
          (VideoOutputXv.DiscardFrame env (s.vbuffers.head .kVideoBuffer_pause)
            (s.vcall env (Call.dequeue .kVideoBuffer_pause))) := by
        refine (DiscardFrame_steps_opt env _ _).mono env (within_mono ?_ (by simp) (by simp))
        intro g hg
        apply hs
        have : s.vbuffers.pause.head? = some g := hg.symm
        exact List.mem_of_mem_head? this
      have h12 := Steps.trans env h1 h2
      refine Steps.trans env h12 (ih _ ?_)
      intro f hf
      apply hs
      exact (Steps.pause_sublist env
        (h12.mono env (within_not_growsPause _ _ _))).subset hf
    · exact Steps.refl env _ _

/-- With as many iterations as the pause queue has frames, the loop that empties
the pause queue ends with an empty pause queue (its loop condition is false). -/
theorem discardPause_pause (n : Nat) :
    ∀ s : VideoOutputXv, s.vbuffers.pause.length ≤ n →
      (VideoOutputXv.discardPause env n s).vbuffers.pause = [] := by
  induction n with
  | zero =>
    intro s hs
    simpa [VideoOutputXv.discardPause] using hs
  | succ n ih =>
    intro s hs
    simp only [VideoOutputXv.discardPause]
    split
    · apply ih
      have h2 := (Steps.pause_sublist env ((DiscardFrame_steps_opt env
        (s.vcall env (Call.dequeue .kVideoBuffer_pause))
        (s.vbuffers.head .kVideoBuffer_pause)).mono env
          (within_not_growsPause _ _ _))).length_le
      have h3 : (s.vcall env (Call.dequeue .kVideoBuffer_pause)).vbuffers.pause
          = s.vbuffers.pause.tail := rfl
      rw [h3, List.length_tail] at h2
      omega
    · rename_i h
      simpa [VideoBuffers.size, VideoBuffers.queue] using h

/-- The inner loop of the aggressive branch moves no frame. -/
theorem aggressiveChildren_steps (frame : VideoFrame) (fuel : Nat) :
    ∀ (c : List VideoFrame) (cit : Nat) (s : VideoOutputXv),
      Steps env (Call.within (fun _ => False) false false) s
        (VideoOutputXv.aggressiveChildren env frame fuel c cit s) := by
  induction fuel with
  | zero => intro c cit s; exact Steps.refl env _ _
  | succ fuel ih =>
    intro c cit s
    simp only [VideoOutputXv.aggressiveChildren]
    split
    · exact Steps.refl env _ _
    · rename_i cframe _
      have h1 : Steps env (Call.within (fun _ => False) false false) s
          (s.vcall env (Call.LockFrame cframe)) := Steps.vcall env s _ trivial
      split
      · have h2 := Steps.then_vcall env (Steps.then_vcall env
          (Steps.trans env h1 (Steps.clearPastFuture env _ _ cframe))
          (Call.RemoveInheritence cframe) trivial) (Call.UnlockFrame (some cframe)) trivial
        split
        · exact h2
        · exact Steps.trans env h2 (ih _ _ _)
      · exact Steps.trans env (Steps.then_vcall env h1 (Call.UnlockFrame (some cframe)) trivial)
          (ih _ _ _)

/-- The aggressive branch of the sweep moves no frame. -/
theorem aggressiveSweep_steps (s : VideoOutputXv) :
    Steps env (Call.within (fun _ => False) false false) s (VideoOutputXv.aggressiveSweep env s) := by
  unfold VideoOutputXv.aggressiveSweep
  refine Steps.then_vcall env (Steps.trans env (Steps.vcall env s
    (Call.begin_lock .kVideoBuffer_displayed) trivial) ?_) _ trivial
  exact Steps.foldl env _ _ _ (fun s2 a _ => aggressiveChildren_steps env a _ _ _ s2)

/-- The second loop of the sweep moves no frame. -/
theorem removeDisplayedInheritence_steps (s : VideoOutputXv) :
    Steps env (Call.within (fun _ => False) false false) s
      (VideoOutputXv.removeDisplayedInheritence env s) := by
  unfold VideoOutputXv.removeDisplayedInheritence
  refine Steps.then_vcall env (Steps.trans env (Steps.vcall env s
    (Call.begin_lock .kVideoBuffer_displayed) trivial) ?_) _ trivial
  exact Steps.foldl env _ _ _ (fun s2 a _ => Steps.vcall env s2 _ trivial)

/-- The final loop of the sweep reclaims only frames of the displayed queue, and
moves them to the available queue. -/
theorem sweepLoop_steps (D : List VideoFrame) (fuel : Nat) :
    ∀ (it : Nat) (s s2 : VideoOutputXv), VideoOutputXv.sweepLoop env fuel it s = some s2 →
      (∀ f ∈ s.vbuffers.displayed, f ∈ D) →
      Steps env (Call.within (fun g => g ∈ D) false false) s s2 := by
  induction fuel with
  | zero => intro it s s2 h; simp [VideoOutputXv.sweepLoop] at h
  | succ fuel ih =>
    intro it s s2 h hD
    simp only [VideoOutputXv.sweepLoop, SyncSurface_eq] at h
    split at h
    · cases h
      exact Steps.refl env _ _
    · rename_i pframe hp
      have hmem : pframe ∈ s.vbuffers.displayed := List.get?_mem hp
      have h1 : Steps env (Call.within (fun g => g ∈ D) false false) s
          (s.vcall env (Call.SyncSurface (some pframe) 0)) := Steps.vcall env s _ trivial
      split at h
      · split at h
        · exact Steps.trans env h1 (ih _ _ _ h hD)
        · have h2 := Steps.then_vcall env (Steps.then_vcall env (Steps.then_vcall env
            (Steps.then_vcall env h1 (Call.RemoveInheritence pframe) trivial)
            (Call.safeEnqueue .kVideoBuffer_avail (some pframe)) ⟨Or.inl rfl, hD _ hmem⟩)
            Call.end_lock trivial) (Call.begin_lock .kVideoBuffer_displayed) trivial
          refine Steps.trans env h2 (ih _ _ _ h ?_)
          intro g hg
          apply hD
          have hg2 : g ∈ s.vbuffers.displayed.filter (fun g => g != pframe) := by
            simpa [Call.apply, VideoBuffers.safeEnqueue, VideoBuffers.enqueue,
              VideoBuffers.setQueue, VideoBuffers.queue, VideoBuffers.removeAll] using hg
          exact (List.mem_filter.1 hg2).1
      · exact Steps.trans env h1 (ih _ _ _ h hD)

theorem not_moves_of_within (td : Bool) (c : Call)
    (h : c.within (fun _ => False) false td) : c.movesFrames = false := by
  cases c with
  | safeEnqueue dst o =>
    cases o with
    | none => rfl
    | some f => exact absurd h.2 id
  | DiscardFrame g => exact absurd h id
  | dequeue t => exact absurd h.2 (by simp)
  | DiscardFrames k => exact absurd h id
  | DoneDisplayingFrame => exact absurd h id
  | GetNextFreeFrame l u => exact absurd h id
  | _ => rfl

theorem reclaimOK_of_not_moves (vb : VideoBuffers) (c : Call) (h : c.movesFrames = false) :
    c.reclaimOK env vb := by
  cases c with
  | safeEnqueue dst o =>
    cases o with
    | none => cases dst <;> exact h
    | some f => simp [Call.movesFrames] at h
  | _ => exact h

theorem reclaimsOK_of_not_moves (l : List Call) :
    ∀ vb : VideoBuffers, (∀ c ∈ l, c.movesFrames = false) → reclaimsOK env vb l := by
  induction l with
  | nil => intro vb _; trivial
  | cons c l ih =>
    intro vb h
    exact ⟨reclaimOK_of_not_moves env vb c (h c (List.mem_cons_self _ _)),
      ih _ (fun c2 hc2 => h c2 (List.mem_cons_of_mem _ hc2))⟩

theorem reclaimsOK_append (l1 l2 : List Call) :
    ∀ vb : VideoBuffers, reclaimsOK env vb l1 → reclaimsOK env (runCalls env l1 vb) l2 →
      reclaimsOK env vb (l1 ++ l2) := by
  induction l1 with
  | nil => intro vb _ h2; exact h2
  | cons c l1 ih =>
    intro vb h1 h2
    exact ⟨h1.1, ih _ h1.2 h2⟩

/-- Every move made by the final loop of the sweep respects the reclaim rule in
the state in which it is made. -/
theorem sweepLoop_reclaimsOK (fuel : Nat) :
    ∀ (it : Nat) (s s2 : VideoOutputXv), VideoOutputXv.sweepLoop env fuel it s = some s2 →
      ∃ l : List Call, s2.trace = s.trace ++ l ∧ s2.vbuffers = runCalls env l s.vbuffers ∧
        reclaimsOK env s.vbuffers l := by
  induction fuel with
  | zero => intro it s s2 h; simp [VideoOutputXv.sweepLoop] at h
  | succ fuel ih =>
    intro it s s2 h
    simp only [VideoOutputXv.sweepLoop, SyncSurface_eq] at h
    split at h
    · cases h
      exact ⟨[], by simp, rfl, trivial⟩
    · rename_i pframe hp
      have hmem : pframe ∈ s.vbuffers.displayed := List.get?_mem hp
      split at h
      · rename_i hnd
        split at h
        · obtain ⟨l, ht, hv, hok⟩ := ih _ _ _ h
          refine ⟨Call.SyncSurface (some pframe) 0 :: l, ?_, ?_, ?_⟩
          · rw [ht]; simp
          · rw [hv]; rfl
          · exact ⟨rfl, hok⟩
        · rename_i hch
          obtain ⟨l, ht, hv, hok⟩ := ih _ _ _ h
          refine ⟨[Call.SyncSurface (some pframe) 0, Call.RemoveInheritence pframe,
            Call.safeEnqueue .kVideoBuffer_avail (some pframe), Call.end_lock,
            Call.begin_lock .kVideoBuffer_displayed] ++ l, ?_, ?_, ?_⟩
          · rw [ht]; simp
          · rw [hv]; rfl
          · refine ⟨rfl, rfl, ⟨?_, ?_, ?_⟩, rfl, rfl, hok⟩
            · exact hmem
            · simpa using hnd
            · have hc : s.vbuffers.children pframe = [] := by
                simpa [VideoBuffers.Children, Call.apply] using hch
              simp [Call.apply, VideoBuffers.HasChildren, hc]
      · obtain ⟨l, ht, hv, hok⟩ := ih _ _ _ h
        refine ⟨Call.SyncSurface (some pframe) 0 :: l, ?_, ?_, ?_⟩
        · rw [ht]; simp
        · rw [hv]; rfl
        · exact ⟨rfl, hok⟩

/-- When the final loop of the sweep returns, every frame still in the displayed
queue is reported displaying or has a child, given that this holds for the
frames before position `it`. -/
theorem sweepLoop_fixpoint (fuel : Nat) :
    ∀ (it : Nat) (s s2 : VideoOutputXv), VideoOutputXv.sweepLoop env fuel it s = some s2 →
      (∀ j, j < it → ∀ f, s.vbuffers.displayed.get? j = some f →
        IsDisplaying env (some f) = true ∨ s.vbuffers.HasChildren f = true) →
      ∀ f ∈ s2.vbuffers.displayed,
        IsDisplaying env (some f) = true ∨ s2.vbuffers.HasChildren f = true := by
  induction fuel with
  | zero => intro it s s2 h; simp [VideoOutputXv.sweepLoop] at h
  | succ fuel ih =>
    intro it s s2 h hinv
    simp only [VideoOutputXv.sweepLoop, SyncSurface_eq] at h
    split at h
    · rename_i hnone
      cases h
      intro f hf
      obtain ⟨j, hj⟩ := List.mem_iff_get?.1 hf
      have hlen : s.vbuffers.displayed.length ≤ it := List.get?_eq_none.1 hnone
      have hjlt : j < s.vbuffers.displayed.length := by
        by_contra hcon
        rw [List.get?_eq_none.2 (by omega)] at hj
        cases hj
      exact hinv j (by omega) f hj
    · rename_i pframe hp
      have hstep : ∀ j, j < it + 1 → ∀ f, s.vbuffers.displayed.get? j = some f →
          (IsDisplaying env (some pframe) = true ∨ s.vbuffers.HasChildren pframe = true) →
          IsDisplaying env (some f) = true ∨ s.vbuffers.HasChildren f = true := by
        intro j hj f hjf hp2
        by_cases hji : j = it
        · subst hji
          rw [hp] at hjf
          cases hjf
          exact hp2
        · exact hinv j (by omega) f hjf
      split at h
      · rename_i hnd
        split at h
        · rename_i hch
          refine ih _ _ _ h (fun j hj f hjf => ?_)
          refine hstep j hj f hjf (Or.inr ?_)
          simpa [VideoBuffers.HasChildren, VideoBuffers.Children, Call.apply] using hch
        · exact ih _ _ _ h (fun j hj => absurd hj (by omega))
      · rename_i hd
        refine ih _ _ _ h (fun j hj f hjf => ?_)
        exact hstep j hj f hjf (Or.inl (by simpa using hd))

theorem sweepNeed_restart (n m it : Nat) (hit : it < n) (hm : m < n) :
    sweepNeed m 0 ≤ sweepNeed n it - 1 := by
  unfold sweepNeed
  have h1 : m * (m + 1) ≤ (n - 1) * n := by
    have h2 : m ≤ n - 1 := by omega
    have h3 : m + 1 ≤ n := by omega
    exact Nat.mul_le_mul h2 h3
  have h4 : (n - 1) * n + n = n * n := by
    cases n with
    | zero => omega
    | succ k => simp [Nat.succ_mul]
  have h5 : n * (n + 1) = n * n + n := by ring
  omega

/-- The final loop of the sweep reaches the end of the displayed queue within
`sweepNeed` loop tests. -/
theorem sweepLoop_isSome (fuel : Nat) :
    ∀ (it : Nat) (s : VideoOutputXv), sweepNeed s.vbuffers.displayed.length it ≤ fuel →
      ∃ s2, VideoOutputXv.sweepLoop env fuel it s = some s2 := by
  induction fuel with
  | zero => intro it s h; simp [sweepNeed] at h
  | succ fuel ih =>
    intro it s h
    simp only [VideoOutputXv.sweepLoop, SyncSurface_eq]
    split
    · exact ⟨s, rfl⟩
    · rename_i pframe hp
      have hmem : pframe ∈ s.vbuffers.displayed := List.get?_mem hp
      have hit : it < s.vbuffers.displayed.length := by
        by_contra hcon
        rw [List.get?_eq_none.2 (by omega)] at hp
        cases hp
      have hnext : sweepNeed s.vbuffers.displayed.length (it + 1) ≤ fuel := by
        unfold sweepNeed at h ⊢
        omega
      split
      · split
        · exact ih _ _ hnext
        · apply ih
          have hlen : (s.vbuffers.displayed.filter (fun g => g != pframe)).length
              < s.vbuffers.displayed.length :=
            List.length_filter_lt_length_iff_exists.2 ⟨pframe, hmem, by simp⟩
          have hd : (((((s.vcall env (Call.SyncSurface (some pframe) 0)).vcall env
              (Call.RemoveInheritence pframe)).vcall env
              (Call.safeEnqueue .kVideoBuffer_avail (some pframe))).vcall env
              Call.end_lock).vcall env (Call.begin_lock .kVideoBuffer_displayed)).vbuffers.displayed
              = s.vbuffers.displayed.filter (fun g => g != pframe) := rfl
          rw [hd]
          have := sweepNeed_restart _ _ it hit hlen
          omega
      · exact ih _ _ hnext

/-- The bound used for the inner loop of the aggressive branch is enough: once
the fuel covers `sweepNeed` of the children list, one more unit of fuel changes
nothing, so the loop has ended by its own condition. -/
theorem aggressiveChildren_fuel (frame : VideoFrame) (fuel : Nat) :
    ∀ (c : List VideoFrame) (cit : Nat) (s : VideoOutputXv),
      c = s.vbuffers.Children frame → sweepNeed c.length cit ≤ fuel →
      VideoOutputXv.aggressiveChildren env frame (fuel + 1) c cit s =
        VideoOutputXv.aggressiveChildren env frame fuel c cit s := by
  induction fuel with
  | zero => intro c cit s _ h; simp [sweepNeed] at h
  | succ fuel ih =>
    intro c cit s hc h
    rw [VideoOutputXv.aggressiveChildren]
    conv_rhs => rw [VideoOutputXv.aggressiveChildren]
    cases hg : c.get? cit with
    | none => rfl
    | some cframe =>
      have hmem : cframe ∈ c := List.get?_mem hg
      have hit : cit < c.length := by
        by_contra hcon
        rw [List.get?_eq_none.2 (by omega)] at hg
        cases hg
      simp only []
      split
      · split
        · rfl
        · apply ih
          · rfl
          · have hlen : (((((s.vcall env (Call.LockFrame cframe)).clearPastFuture cframe).vcall env
                (Call.RemoveInheritence cframe)).vcall env
                (Call.UnlockFrame (some cframe))).vbuffers.Children frame).length < c.length := by
              have : ((((s.vcall env (Call.LockFrame cframe)).clearPastFuture cframe).vcall env
                (Call.RemoveInheritence cframe)).vcall env
                (Call.UnlockFrame (some cframe))).vbuffers.Children frame
                  = c.filter (fun x => x != cframe) := by
                rw [hc]
                rfl
              rw [this]
              exact List.length_filter_lt_length_iff_exists.2 ⟨cframe, hmem, by simp⟩
            have h1 := sweepNeed_restart _ _ cit hit hlen
            unfold sweepNeed at h h1 ⊢
            omega
      · apply ih
        · rw [hc]
          rfl
        · unfold sweepNeed at h ⊢
          omega

theorem sweepBound_eq (n : Nat) : VideoOutputXv.sweepBound n = sweepNeed n 0 := by
  unfold VideoOutputXv.sweepBound sweepNeed
  rw [Nat.sub_zero]
  ring

/-- The final part of the sweep runs its loop to the end. -/
theorem sweepDisplayed_eq (s : VideoOutputXv) :
    ∃ s2, VideoOutputXv.sweepLoop env (VideoOutputXv.sweepBound s.vbuffers.displayed.length) 0
        (s.vcall env (Call.begin_lock .kVideoBuffer_displayed)) = some s2 ∧
      VideoOutputXv.sweepDisplayed env s = s2.vcall env Call.end_lock := by
  obtain ⟨s2, h2⟩ := sweepLoop_isSome env (VideoOutputXv.sweepBound s.vbuffers.displayed.length) 0
    (s.vcall env (Call.begin_lock .kVideoBuffer_displayed)) (by
      rw [sweepBound_eq]
      exact Nat.le_refl _)
  refine ⟨s2, h2, ?_⟩
  unfold VideoOutputXv.sweepDisplayed
  have h3 : VideoOutputXv.sweepLoop env
      (VideoOutputXv.sweepBound
        (s.vcall env (Call.begin_lock .kVideoBuffer_displayed)).vbuffers.displayed.length)
      0 (s.vcall env (Call.begin_lock .kVideoBuffer_displayed)) = some s2 := h2
  simp only [h3, Option.getD_some]

/-- The first two parts of the sweep (aggressive branch and removal of the
inheritance of the displayed frames) move no frame. -/
theorem sweepPrepare_steps (s : VideoOutputXv) :
    Steps env (Call.within (fun _ => False) false false) s
      (VideoOutputXv.removeDisplayedInheritence env
        (if s.xvmc_buf_attr.IsAggressive then VideoOutputXv.aggressiveSweep env s else s)) := by
  refine Steps.trans env ?_ (removeDisplayedInheritence_steps env _)
  split
  · exact aggressiveSweep_steps env s
  · exact Steps.refl env _ _

/-- The reclaim sweep reclaims only frames of the displayed queue, and moves
them to the available queue. -/
theorem CheckDisplayedFramesForAvailability_steps (s : VideoOutputXv) :
    Steps env (Call.within (fun g => g ∈ s.vbuffers.displayed) false false) s
      (VideoOutputXv.CheckDisplayedFramesForAvailability env s) := by
  have h1 := sweepPrepare_steps env s
  have hd := Steps.queue_eq env h1 .kVideoBuffer_displayed (by simp) (by simp) (by simp)
    (fun _ _ h => h)
  obtain ⟨s4, h4, heq⟩ := sweepDisplayed_eq env (VideoOutputXv.removeDisplayedInheritence env
    (if s.xvmc_buf_attr.IsAggressive then VideoOutputXv.aggressiveSweep env s else s))
  unfold VideoOutputXv.CheckDisplayedFramesForAvailability
  simp only []
  rw [heq]
  have h5 := sweepLoop_steps env s.vbuffers.displayed _ _ _ _ h4 (by
    intro f hf
    have hf2 : f ∈ (VideoOutputXv.removeDisplayedInheritence env
      (if s.xvmc_buf_attr.IsAggressive then VideoOutputXv.aggressiveSweep env s
        else s)).vbuffers.queue .kVideoBuffer_displayed := hf
    rw [hd] at hf2
    exact hf2)
  refine Steps.then_vcall env (Steps.trans env (Steps.then_vcall env (h1.mono env
    (within_mono (fun _ h => absurd h id) (fun h => h) (fun h => h)))
    (Call.begin_lock .kVideoBuffer_displayed) trivial) h5) Call.end_lock trivial

/-- When the reclaim sweep returns, every frame still in the displayed queue is
reported displaying or has at least one child. -/
theorem CheckDisplayedFramesForAvailability_fixpoint (s : VideoOutputXv) :
    ∀ f ∈ (VideoOutputXv.CheckDisplayedFramesForAvailability env s).vbuffers.displayed,
      IsDisplaying env (some f) = true ∨
      (VideoOutputXv.CheckDisplayedFramesForAvailability env s).vbuffers.HasChildren f
        = true := by
  obtain ⟨s4, h4, heq⟩ := sweepDisplayed_eq env (VideoOutputXv.removeDisplayedInheritence env
    (if s.xvmc_buf_attr.IsAggressive then VideoOutputXv.aggressiveSweep env s else s))
  have hfix := sweepLoop_fixpoint env _ _ _ _ h4 (fun j hj => absurd hj (by omega))
  have hcd : VideoOutputXv.CheckDisplayedFramesForAvailability env s
      = s4.vcall env Call.end_lock := by
    unfold VideoOutputXv.CheckDisplayedFramesForAvailability
    simp only []
    rw [heq]
  rw [hcd]
  exact hfix

/-- In the idle environment the back-end reports no frame as displaying. -/
theorem idleEnv_not_displaying (f : VideoFrame) : IsDisplaying idleEnv (some f) = false := by
  simp [IsDisplaying, GetRender, idleEnv, surfaceStatus, Success]

end Footprints

/-! ## The reclaim sweep -/

/-- C10. The calls that `CheckDisplayedFramesForAvailability` makes (with the
back-end status `env` held fixed) respect the reclaim rule: a frame is moved
into the available queue only by a call made in a pool state in which the frame
is in the displayed queue, is reported not displaying and has no children, and
no other call moves a frame.  When the sweep returns, every frame still in the
displayed queue is reported displaying or has at least one child. -/
theorem CheckDisplayedFramesForAvailability_rule (env : Env) (s : VideoOutputXv) :
    ∃ l : List Call,
      (VideoOutputXv.CheckDisplayedFramesForAvailability env s).trace = s.trace ++ l ∧
      (VideoOutputXv.CheckDisplayedFramesForAvailability env s).vbuffers =
        runCalls env l s.vbuffers ∧
      reclaimsOK env s.vbuffers l ∧
      ∀ f ∈ (VideoOutputXv.CheckDisplayedFramesForAvailability env s).vbuffers.displayed,
        IsDisplaying env (some f) = true ∨
        (VideoOutputXv.CheckDisplayedFramesForAvailability env s).vbuffers.HasChildren f
          = true := by
  obtain ⟨-, -, l1, t1, v1, p1⟩ := sweepPrepare_steps env s
  obtain ⟨s4, h4, heq⟩ := sweepDisplayed_eq env (VideoOutputXv.removeDisplayedInheritence env
    (if s.xvmc_buf_attr.IsAggressive then VideoOutputXv.aggressiveSweep env s else s))
  obtain ⟨l2, t2, v2, p2⟩ := sweepLoop_reclaimsOK env _ _ _ _ h4
  have hfix := sweepLoop_fixpoint env _ _ _ _ h4 (fun j hj => absurd hj (by omega))
  have hcd : VideoOutputXv.CheckDisplayedFramesForAvailability env s
      = s4.vcall env Call.end_lock := by
    unfold VideoOutputXv.CheckDisplayedFramesForAvailability
    simp only []
    rw [heq]
  rw [hcd]
  refine ⟨l1 ++ ([Call.begin_lock .kVideoBuffer_displayed] ++ (l2 ++ [Call.end_lock])),
    ?_, ?_, ?_, ?_⟩
  · simp only [vcall_trace, t2, t1, List.append_assoc]
  · simp only [vcall_vbuffers, v2, v1, runCalls_append]
    rfl
  · refine reclaimsOK_append env _ _ _ (reclaimsOK_of_not_moves env l1 _
      (fun c hc => not_moves_of_within false c (p1 c hc))) ?_
    refine reclaimsOK_append env _ _ _ ⟨rfl, trivial⟩ ?_
    refine reclaimsOK_append env _ _ _ ?_ ⟨rfl, trivial⟩
    rw [← v1]
    exact p2
  · intro f hf
    exact hfix f hf

/-- C10 at a concrete state (frame 1 still referenced, frame 2 free, nothing
displaying): the sweep moves frame 2 to the available queue and keeps frame 1,
which has a child. -/
theorem CheckDisplayedFramesForAvailability_rule_witness :
    (VideoOutputXv.CheckDisplayedFramesForAvailability idleEnv sweepState).vbuffers.displayed
      = [1] ∧
    (VideoOutputXv.CheckDisplayedFramesForAvailability idleEnv sweepState).vbuffers.available
      = [2] ∧
    ∀ f ∈ (VideoOutputXv.CheckDisplayedFramesForAvailability idleEnv
        sweepState).vbuffers.displayed,
      IsDisplaying idleEnv (some f) = true ∨
      (VideoOutputXv.CheckDisplayedFramesForAvailability idleEnv sweepState).vbuffers.HasChildren f
        = true := by
  obtain ⟨l, -, -, -, h⟩ := CheckDisplayedFramesForAvailability_rule idleEnv sweepState
  exact ⟨by decide, by decide, h⟩

section Footprints2

variable (env : Env)

theorem lock_unlock_lockCount (vb : VideoBuffers) (f : VideoFrame) :
    ((vb.LockFrame f).UnlockFrame (some f)).lockCount = vb.lockCount := by
  funext g
  by_cases hg : g = f <;> simp [hg]

/-- The function `DiscardFrame` leaves every lock count as it was. -/
theorem DiscardFrame_lockCount (s : VideoOutputXv) (o : Option VideoFrame) :
    (VideoOutputXv.DiscardFrame env o s).vbuffers.lockCount = s.vbuffers.lockCount := by
  cases o with
  | none => rfl
  | some f =>
    obtain ⟨pre, -, -, -, -, hl, -⟩ := DiscardFrame_check_spec env s f
    cases hk : keptForLater env s f with
    | true =>
      rw [DiscardFrame_kept env s f hk]
      simp [Call.apply, hl]
    | false =>
      rw [DiscardFrame_not_kept env s f hk]
      have h2 := lock_unlock_lockCount (VideoOutputXv.DiscardFrame_check env f s).2.vbuffers f
      split <;> simp [Call.apply, h2, hl]

/-- A loop over a local list whose body preserves a quantity preserves it. -/
theorem foldl_preserves {α β : Type} (q : VideoOutputXv → β)
    (step : VideoOutputXv → α → VideoOutputXv) (h : ∀ s a, q (step s a) = q s)
    (l : List α) : ∀ s : VideoOutputXv, q (l.foldl step s) = q s := by
  induction l with
  | nil => intro s; rfl
  | cons a l ih =>
    intro s
    simp only [List.foldl_cons]
    rw [ih, h]

/-- The loop that empties the pause queue leaves every lock count as it was. -/
theorem discardPause_lockCount (n : Nat) :
    ∀ s : VideoOutputXv,
      (VideoOutputXv.discardPause env n s).vbuffers.lockCount = s.vbuffers.lockCount := by
  induction n with
  | zero => intro s; rfl
  | succ n ih =>
    intro s
    simp only [VideoOutputXv.discardPause]
    split
    · rw [ih, DiscardFrame_lockCount]
      simp [Call.apply]
    · rfl

theorem aggressiveChildren_lockCount (frame : VideoFrame) (fuel : Nat) :
    ∀ (c : List VideoFrame) (cit : Nat) (s : VideoOutputXv),
      (VideoOutputXv.aggressiveChildren env frame fuel c cit s).vbuffers.lockCount
        = s.vbuffers.lockCount := by
  induction fuel with
  | zero => intro c cit s; rfl
  | succ fuel ih =>
    intro c cit s
    simp only [VideoOutputXv.aggressiveChildren]
    split
    · rfl
    · rename_i cframe _
      have h1 : ((((s.vcall env (Call.LockFrame cframe)).clearPastFuture cframe).vcall env
          (Call.RemoveInheritence cframe)).vcall env
          (Call.UnlockFrame (some cframe))).vbuffers.lockCount = s.vbuffers.lockCount := by
        have := lock_unlock_lockCount s.vbuffers cframe
        simpa [Call.apply] using this
      have h2 : ((s.vcall env (Call.LockFrame cframe)).vcall env
          (Call.UnlockFrame (some cframe))).vbuffers.lockCount = s.vbuffers.lockCount := by
        have := lock_unlock_lockCount s.vbuffers cframe
        simpa [Call.apply] using this
      split
      · split
        · exact h1
        · rw [ih, h1]
      · rw [ih, h2]

theorem sweepLoop_lockCount (fuel : Nat) :
    ∀ (it : Nat) (s s2 : VideoOutputXv), VideoOutputXv.sweepLoop env fuel it s = some s2 →
      s2.vbuffers.lockCount = s.vbuffers.lockCount := by
  induction fuel with
  | zero => intro it s s2 h; simp [VideoOutputXv.sweepLoop] at h
  | succ fuel ih =>
    intro it s s2 h
    simp only [VideoOutputXv.sweepLoop, SyncSurface_eq] at h
    split at h
    · cases h; rfl
    · split at h
      · split at h
        · rw [ih _ _ _ h]; rfl
        · rw [ih _ _ _ h]; simp [Call.apply]
      · rw [ih _ _ _ h]; rfl

/-- The reclaim sweep leaves every lock count as it was. -/
theorem CheckDisplayedFramesForAvailability_lockCount (s : VideoOutputXv) :
    (VideoOutputXv.CheckDisplayedFramesForAvailability env s).vbuffers.lockCount
      = s.vbuffers.lockCount := by
  have h1 : (if s.xvmc_buf_attr.IsAggressive then VideoOutputXv.aggressiveSweep env s
      else s).vbuffers.lockCount = s.vbuffers.lockCount := by
    split
    · unfold VideoOutputXv.aggressiveSweep
      simp only [vcall_vbuffers, Call.apply]
      rw [foldl_preserves (fun s => s.vbuffers.lockCount) _
        (fun s2 a => aggressiveChildren_lockCount env a _ _ _ s2)]
      rfl
    · rfl
  have h2 : ∀ s1 : VideoOutputXv,
      (VideoOutputXv.removeDisplayedInheritence env s1).vbuffers.lockCount
        = s1.vbuffers.lockCount := by
    intro s1
    unfold VideoOutputXv.removeDisplayedInheritence
    simp only [vcall_vbuffers, Call.apply]
    rw [foldl_preserves (fun s => s.vbuffers.lockCount)
      (fun s f => s.vcall env (Call.RemoveInheritence f)) (fun s2 a => rfl)]
    rfl
  obtain ⟨s4, h4, heq⟩ := sweepDisplayed_eq env (VideoOutputXv.removeDisplayedInheritence env
    (if s.xvmc_buf_attr.IsAggressive then VideoOutputXv.aggressiveSweep env s else s))
  unfold VideoOutputXv.CheckDisplayedFramesForAvailability
  simp only []
  rw [heq]
  simp only [vcall_vbuffers, Call.apply]
  rw [sweepLoop_lockCount env _ _ _ _ h4]
  simp only [vcall_vbuffers, Call.apply]
  rw [h2, h1]

/-- A call that only reclaims frames can only take frames out of the children
of a frame. -/
theorem apply_children_sublist (F : VideoFrame → Prop) (dq td : Bool) (vb : VideoBuffers)
    (c : Call) (h : c.within F dq td) (p : VideoFrame) :
    List.Sublist ((c.apply env vb).children p) (vb.children p) := by
  cases c with
  | TryLockFrame f ok => cases ok <;> simp [Call.apply]
  | RemoveInheritence f =>
    simp only [Call.apply, RemoveInheritence_children]
    exact List.filter_sublist _
  | DiscardFrames k => exact absurd h (by simp [Call.within])
  | DoneDisplayingFrame => exact absurd h (by simp [Call.within])
  | GetNextFreeFrame l u => exact absurd h (by simp [Call.within])
  | _ => simp [Call.apply]

theorem runCalls_children_sublist (F : VideoFrame → Prop) (dq td : Bool) (p : VideoFrame)
    (l : List Call) :
    ∀ vb : VideoBuffers, (∀ c ∈ l, c.within F dq td) →
      List.Sublist ((runCalls env l vb).children p) (vb.children p) := by
  induction l with
  | nil => intro vb _; exact List.Sublist.refl _
  | cons c l ih =>
    intro vb h
    simp only [runCalls_cons]
    exact (ih _ (fun c2 hc2 => h c2 (List.mem_cons_of_mem _ hc2))).trans
      (apply_children_sublist env F dq td vb c (h c (List.mem_cons_self _ _)) p)

/-- Steps that only reclaim frames can only take frames out of the children of a
frame. -/
theorem Steps.children_sublist {F : VideoFrame → Prop} {dq td : Bool} {s1 s2 : VideoOutputXv}
    (h : Steps env (Call.within F dq td) s1 s2) (p : VideoFrame) :
    List.Sublist (s2.vbuffers.children p) (s1.vbuffers.children p) := by
  obtain ⟨-, -, l, -, v, hp⟩ := h
  rw [v]
  exact runCalls_children_sublist env F dq td p l s1.vbuffers hp

/-- The queues after `DiscardFrame(f)`: a frame kept for later joins the
displayed queue, another frame joins the available queue unless it is locked, in
which case no queue changes. -/
theorem DiscardFrame_queue (s : VideoOutputXv) (f : VideoFrame) (t : BufferType) :
    (VideoOutputXv.DiscardFrame env (some f) s).vbuffers.queue t =
      if keptForLater env s f = true
      then (s.vbuffers.safeEnqueue .kVideoBuffer_displayed (some f)).queue t
      else if s.vbuffers.lockCount f = 0
        then (s.vbuffers.safeEnqueue .kVideoBuffer_avail (some f)).queue t
        else s.vbuffers.queue t := by
  obtain ⟨pre, -, -, -, -, hl, -, -, hq⟩ := DiscardFrame_check_spec env s f
  cases hk : keptForLater env s f with
  | true =>
    rw [DiscardFrame_kept env s f hk]
    simp only [vcall_vbuffers, Call.apply, safeEnqueue_queue, hq, if_true]
  | false =>
    rw [DiscardFrame_not_kept env s f hk]
    have h2 := lock_unlock_lockCount (VideoOutputXv.DiscardFrame_check env f s).2.vbuffers f
    have h3 : ((((if s.video_output_subtype.toNat ≥ VOSType.XVideoMC.toNat
          then ((VideoOutputXv.DiscardFrame_check env f s).2.vcall env
            (Call.LockFrame f)).clearPastFuture f
          else (VideoOutputXv.DiscardFrame_check env f s).2.vcall env (Call.LockFrame f)).vcall
        env (Call.UnlockFrame (some f))).vcall env (Call.RemoveInheritence f))).vbuffers
        = (((VideoOutputXv.DiscardFrame_check env f s).2.vbuffers.LockFrame f).UnlockFrame
            (some f)).RemoveInheritence f := by
      split <;> rfl
    simp only [vcall_vbuffers] at h3 ⊢
    rw [h3]
    simp only [Call.apply, poolDiscardFrame_queue, RemoveInheritence_lockCount, h2, hl,
      safeEnqueue_queue, RemoveInheritence_queue, UnlockFrame_queue, LockFrame_queue, hq]
    simp

theorem syncAll_vbuffers (l : List VideoFrame) (s : VideoOutputXv) :
    (VideoOutputXv.syncAll env l s).vbuffers = s.vbuffers := by
  unfold VideoOutputXv.syncAll
  apply foldl_preserves (fun s => s.vbuffers)
  intro _ _
  rfl

theorem syncAll_subtype (l : List VideoFrame) (s : VideoOutputXv) :
    (VideoOutputXv.syncAll env l s).video_output_subtype = s.video_output_subtype := by
  unfold VideoOutputXv.syncAll
  apply foldl_preserves (fun s => s.video_output_subtype)
  intro _ _
  rfl

theorem syncDisplayedPause_vbuffers (s : VideoOutputXv) :
    (VideoOutputXv.syncDisplayedPause env s).vbuffers = s.vbuffers := by
  unfold VideoOutputXv.syncDisplayedPause
  simp only [syncAll_vbuffers]
  rfl

theorem syncDisplayedPause_subtype (s : VideoOutputXv) :
    (VideoOutputXv.syncDisplayedPause env s).video_output_subtype
      = s.video_output_subtype := by
  unfold VideoOutputXv.syncDisplayedPause
  simp only [syncAll_subtype]
  rfl

/-- The first part of the XvMC path of `DiscardFrames`: the pool is the one left
by the reclaim sweep and the list of frames to discard holds the used and the
limbo queue of that pool. -/
theorem DiscardFrames_collect_spec (s : VideoOutputXv) :
    (VideoOutputXv.DiscardFrames_collect env s).2.vbuffers =
      (VideoOutputXv.CheckDisplayedFramesForAvailability env
        ((s.vcall env (Call.begin_lock .kVideoBuffer_displayed)).vcall env
          Call.end_lock)).vbuffers ∧
    (VideoOutputXv.DiscardFrames_collect env s).2.video_output_subtype =
      s.video_output_subtype ∧
    (VideoOutputXv.DiscardFrames_collect env s).1 =
      (VideoOutputXv.DiscardFrames_collect env s).2.vbuffers.used ++
      (VideoOutputXv.DiscardFrames_collect env s).2.vbuffers.limbo := by
  have hsub := (CheckDisplayedFramesForAvailability_steps env
    ((s.vcall env (Call.begin_lock .kVideoBuffer_displayed)).vcall env Call.end_lock)).1
  unfold VideoOutputXv.DiscardFrames_collect VideoOutputXv.DQ_COPY
  simp only [vcall_vbuffers, Call.apply, syncDisplayedPause_vbuffers, vcall_subtype,
    syncDisplayedPause_subtype, List.nil_append, VideoBuffers.queue]
  exact ⟨trivial, hsub, trivial⟩

/-- On the XvMC path the pool after `DiscardFrames` is the pool after the loop
over the frames to discard. -/
theorem DiscardFrames_XvMC_vbuffers (b : Bool) (s : VideoOutputXv)
    (hm : ¬ s.video_output_subtype.toNat ≤ VOSType.XVideo.toNat) :
    (VideoOutputXv.DiscardFrames env b s).vbuffers =
      ((VideoOutputXv.DiscardFrames_collect env s).1.foldl
        (fun s f => VideoOutputXv.DiscardFrame env (some f) s)
        (VideoOutputXv.DiscardFrames_collect env s).2).vbuffers := by
  unfold VideoOutputXv.DiscardFrames
  simp only [VideoOutputSubType_eq, if_neg hm, vcall_vbuffers, Call.apply,
    syncDisplayedPause_vbuffers]

/-- The loop over the frames to discard: the queues other than available and
displayed only lose frames, and a frame of the list that is still in one of them
afterwards is locked. -/
theorem fold_discard_leaves (l : List VideoFrame) :
    ∀ σ : VideoOutputXv,
      Steps env (Call.within (fun g => g ∈ l) false true) σ
        (l.foldl (fun s f => VideoOutputXv.DiscardFrame env (some f) s) σ) ∧
      (l.foldl (fun s f => VideoOutputXv.DiscardFrame env (some f) s) σ).vbuffers.lockCount
        = σ.vbuffers.lockCount ∧
      ∀ f ∈ l, ∀ t, t ≠ .kVideoBuffer_avail → t ≠ .kVideoBuffer_displayed →
        f ∈ (l.foldl (fun s f => VideoOutputXv.DiscardFrame env (some f) s) σ).vbuffers.queue t →
        σ.vbuffers.lockCount f ≠ 0 := by
  induction l with
  | nil => intro σ; exact ⟨Steps.refl env _ _, rfl, fun f hf => absurd hf (by simp)⟩
  | cons a l ih =>
    intro σ
    simp only [List.foldl_cons]
    obtain ⟨h1, h2, h3⟩ := ih (VideoOutputXv.DiscardFrame env (some a) σ)
    have ha : Steps env (Call.within (fun g => g ∈ a :: l) false true) σ
        (VideoOutputXv.DiscardFrame env (some a) σ) :=
      (DiscardFrame_steps env σ a).mono env
        (within_mono (fun g hg => by simp [hg]) (fun h => h) (fun _ => rfl))
    have h1b := h1.mono env (@within_mono (fun g => g ∈ l) (fun g => g ∈ a :: l)
      false false true true (fun g hg => List.mem_cons_of_mem _ hg) (fun h => h) (fun h => h))
    refine ⟨Steps.trans env ha h1b, by rw [h2, DiscardFrame_lockCount], ?_⟩
    intro f hf t ht1 ht2 hmem
    by_cases hfl : f ∈ l
    · have := h3 f hfl t ht1 ht2 hmem
      rwa [DiscardFrame_lockCount] at this
    · have hfa : f = a := by
        rcases List.mem_cons.1 hf with h | h
        · exact h
        · exact absurd h hfl
      subst hfa
      intro hz
      have hsub := (Steps.queue_sublist env h1 t ht1 (fun _ => ht2)).subset hmem
      rw [DiscardFrame_queue] at hsub
      by_cases hk : keptForLater env σ f = true
      · rw [if_pos hk, safeEnqueue_queue, if_neg ht2] at hsub
        simpa using (List.mem_filter.1 hsub).2
      · rw [if_neg hk, if_pos hz, safeEnqueue_queue, if_neg ht1] at hsub
        simpa using (List.mem_filter.1 hsub).2

/-- The loop over the frames to discard when nothing is displaying, no frame has
children and the frames of the list are unlocked: frames move only to the
available queue, and every frame of the list ends there. -/
theorem fold_discard_free (hnd : ∀ f, IsDisplaying env (some f) = false)
    (l : List VideoFrame) :
    ∀ σ : VideoOutputXv, (∀ p, σ.vbuffers.children p = []) →
      (∀ f ∈ l, σ.vbuffers.lockCount f = 0) →
      Steps env (Call.within (fun g => g ∈ l) false false) σ
        (l.foldl (fun s f => VideoOutputXv.DiscardFrame env (some f) s) σ) ∧
      ∀ f ∈ l,
        f ∈ (l.foldl (fun s f => VideoOutputXv.DiscardFrame env (some f) s) σ).vbuffers.available
    := by
  induction l with
  | nil => intro σ _ _; exact ⟨Steps.refl env _ _, fun f hf => absurd hf (by simp)⟩
  | cons a l ih =>
    intro σ hch hlk
    simp only [List.foldl_cons]
    have hk : keptForLater env σ a = false := by
      have ho : IsDisplaying env (σ.vbuffers.GetOSDFrame (some a)) = false := by
        cases h : σ.vbuffers.GetOSDFrame (some a) with
        | none => rfl
        | some o => exact hnd o
      simp [keptForLater, hnd a, ho, VideoBuffers.HasChildren, hch a]
    have ha0 := DiscardFrame_steps env σ a
    rw [hk] at ha0
    have hch1 : ∀ p, (VideoOutputXv.DiscardFrame env (some a) σ).vbuffers.children p = [] := by
      intro p
      have := Steps.children_sublist env ha0 p
      rw [hch p] at this
      exact List.eq_nil_of_sublist_nil this
    have hlk1 : ∀ f ∈ l, (VideoOutputXv.DiscardFrame env (some a) σ).vbuffers.lockCount f = 0 := by
      intro f hf
      rw [DiscardFrame_lockCount]
      exact hlk f (List.mem_cons_of_mem _ hf)
    obtain ⟨h1, h2⟩ := ih _ hch1 hlk1
    have ha := ha0.mono env (@within_mono (fun g => g = a) (fun g => g ∈ a :: l)
      false false false false (fun g hg => by simp [hg]) (fun h => h) (fun h => h))
    have h1b := h1.mono env (@within_mono (fun g => g ∈ l) (fun g => g ∈ a :: l)
      false false false false (fun g hg => List.mem_cons_of_mem _ hg) (fun h => h) (fun h => h))
    refine ⟨Steps.trans env ha h1b, ?_⟩
    intro f hf
    by_cases hfl : f ∈ l
    · exact h2 f hfl
    · have hfa : f = a := by
        rcases List.mem_cons.1 hf with h | h
        · exact h
        · exact absurd h hfl
      subst hfa
      apply Steps.avail_mono env h1
      have hq := DiscardFrame_queue env σ f .kVideoBuffer_avail
      rw [hk, if_neg (by simp), if_pos (hlk f (List.mem_cons_self _ _)), safeEnqueue_queue,
        if_pos rfl] at hq
      have : f ∈ (VideoOutputXv.DiscardFrame env (some f) σ).vbuffers.queue
          .kVideoBuffer_avail := by
        rw [hq]
        simp
      exact this

end Footprints2

/-! ## The pause queue -/

section PauseQueue

variable (env : Env)

theorem ng_discardPause {s1 s2 : VideoOutputXv}
    (h : Steps env (fun c => c.growsPause = false) s1 s2) (n : Nat) :
    Steps env (fun c => c.growsPause = false) s1 (VideoOutputXv.discardPause env n s2) :=
  Steps.trans env h ((discardPause_steps env s2.vbuffers.pause n s2 (fun _ h => h)).mono env
    (within_not_growsPause _ _ _))

theorem ng_CheckDisplayed {s1 s2 : VideoOutputXv}
    (h : Steps env (fun c => c.growsPause = false) s1 s2) :
    Steps env (fun c => c.growsPause = false) s1
      (VideoOutputXv.CheckDisplayedFramesForAvailability env s2) :=
  Steps.trans env h ((CheckDisplayedFramesForAvailability_steps env s2).mono env
    (within_not_growsPause _ _ _))

theorem ng_DiscardFrame {s1 s2 : VideoOutputXv}
    (h : Steps env (fun c => c.growsPause = false) s1 s2) (o : Option VideoFrame) :
    Steps env (fun c => c.growsPause = false) s1 (VideoOutputXv.DiscardFrame env o s2) :=
  Steps.trans env h ((DiscardFrame_steps_opt env s2 o).mono env (within_not_growsPause _ _ _))

theorem ng_vcall (s : VideoOutputXv) (c : Call) (h : c.growsPause = false) :
    Steps env (fun c => c.growsPause = false) s (s.vcall env c) :=
  Steps.vcall env s c h

theorem ng_then {s1 s2 : VideoOutputXv} (h : Steps env (fun c => c.growsPause = false) s1 s2)
    (c : Call) (hc : c.growsPause = false) :
    Steps env (fun c => c.growsPause = false) s1 (s2.vcall env c) :=
  Steps.then_vcall env h c hc

theorem ShowXvMC_lockOSD_steps (frame : VideoFrame) (s : VideoOutputXv) :
    Steps env (fun c => c.growsPause = false) s
      (VideoOutputXv.ShowXvMC_lockOSD env frame s).2 := by
  unfold VideoOutputXv.ShowXvMC_lockOSD
  split
  · simp only []
    split
    · exact ng_then env (ng_vcall env s _ (by rfl)) _ (by rfl)
    · exact ng_vcall env s _ (by rfl)
  · exact Steps.refl env _ _

theorem ShowXvMC_show_steps (frame : VideoFrame) (u : Bool) (s : VideoOutputXv) :
    Steps env (fun c => c.growsPause = false) s (VideoOutputXv.ShowXvMC_show env frame u s) := by
  unfold VideoOutputXv.ShowXvMC_show
  have h1 : Steps env (fun c => c.growsPause = false) s
      ((VideoOutputXv.ShowXvMC_lockOSD env frame (s.vcall env (Call.LockFrame frame))).2.vcall env
        (Call.XvMCPutSurface (VideoOutputXv.showingSurface env frame
          (VideoOutputXv.ShowXvMC_lockOSD env frame (s.vcall env (Call.LockFrame frame))).1))) :=
    ng_then env (Steps.trans env (ng_vcall env s _ (by rfl))
      (ShowXvMC_lockOSD_steps env frame _)) _ (by rfl)
  refine ng_then env (ng_then env (ng_then env (ng_CheckDisplayed env ?_) _ (by rfl)) _ (by rfl)) _ ?_
  · cases u with
    | true => exact h1
    | false => exact ng_discardPause env h1 _
  · cases (VideoOutputXv.ShowXvMC_lockOSD env frame (s.vcall env (Call.LockFrame frame))).1 <;> rfl

/-- The function `ShowXvMC` makes no call that can add a frame to the pause queue. -/
theorem ShowXvMC_steps (s : VideoOutputXv) :
    Steps env (fun c => c.growsPause = false) s (VideoOutputXv.ShowXvMC env s) := by
  have h0 : Steps env (fun c => c.growsPause = false) s
      ((s.vcall env (Call.begin_lock .kVideoBuffer_pause)).vcall env Call.end_lock) :=
    ng_then env (ng_vcall env s _ (by rfl)) _ (by rfl)
  unfold VideoOutputXv.ShowXvMC
  simp only []
  split
  · exact h0
  · exact Steps.trans env h0 (ShowXvMC_show_steps env _ _ _)

theorem ProcessFrameXvMC_reuse_steps (s : VideoOutputXv) :
    Steps env (fun c => c.growsPause = false) s
      (VideoOutputXv.ProcessFrameXvMC_reuse env s).2.2 := by
  unfold VideoOutputXv.ProcessFrameXvMC_reuse
  simp only []
  refine ng_then env ?_ _ (by rfl)
  have h0 := ng_vcall env s (Call.begin_lock .kVideoBuffer_pause) (by rfl)
  split
  · split
    · exact ng_then env h0 _ (by rfl)
    · exact h0
  · exact h0

theorem ProcessFrameXvMC_frame_steps (frame : Option VideoFrame) (s : VideoOutputXv) :
    Steps env (fun c => c.growsPause = false) s
      (VideoOutputXv.ProcessFrameXvMC_frame env frame s).2 := by
  unfold VideoOutputXv.ProcessFrameXvMC_frame
  cases frame with
  | some f => exact ng_discardPause env (ng_vcall env s _ (by rfl)) _
  | none =>
    simp only []
    have h0 := ProcessFrameXvMC_reuse_steps env s
    split
    · exact ng_then env h0 _ (by rfl)
    · exact h0

theorem hideDisplayed_steps (frame : VideoFrame) (s : VideoOutputXv) :
    Steps env (fun c => c.growsPause = false) s (VideoOutputXv.hideDisplayed env frame s) := by
  unfold VideoOutputXv.hideDisplayed
  simp only []
  refine ng_then env (Steps.trans env
    (ng_vcall env s (Call.begin_lock .kVideoBuffer_displayed) (by rfl)) ?_) Call.end_lock (by rfl)
  refine Steps.foldl env _ _ _ (fun s2 a _ => ?_)
  split
  · exact ng_vcall env s2 _ (by rfl)
  · exact Steps.refl env _ _

theorem makeRoom_second_pause (envHidden : Env) (frame : VideoFrame) (s x : VideoOutputXv)
    (h1 : List.Sublist x.vbuffers.pause s.vbuffers.pause) :
    List.Sublist (if x.vbuffers.size .kVideoBuffer_avail = 0
      then VideoOutputXv.CheckDisplayedFramesForAvailability envHidden
        (VideoOutputXv.hideDisplayed env frame x) else x).vbuffers.pause s.vbuffers.pause := by
  split
  · refine List.Sublist.trans ?_ h1
    exact (Steps.pause_sublist envHidden (ng_CheckDisplayed envHidden
      (Steps.refl envHidden _ _))).trans (Steps.pause_sublist env (hideDisplayed_steps env _ _))
  · exact h1

theorem ProcessFrameXvMC_makeRoom_pause (envHidden : Env) (frame : VideoFrame)
    (s : VideoOutputXv) :
    List.Sublist (VideoOutputXv.ProcessFrameXvMC_makeRoom env envHidden frame s).vbuffers.pause
      s.vbuffers.pause := by
  unfold VideoOutputXv.ProcessFrameXvMC_makeRoom
  simp only []
  apply makeRoom_second_pause
  split
  · exact Steps.pause_sublist env (ng_CheckDisplayed env (Steps.refl env _ s))
  · exact List.Sublist.refl _

theorem ProcessFrameXvMC_grab_steps (frame : VideoFrame) (s : VideoOutputXv) :
    Steps env (fun c => c.growsPause = false) s
      (VideoOutputXv.ProcessFrameXvMC_grab env frame s).2 := by
  unfold VideoOutputXv.ProcessFrameXvMC_grab
  split
  · exact ng_vcall env s _ (by rfl)
  · exact Steps.refl env _ _

theorem ProcessFrameXvMC_attach_steps (frame : VideoFrame) (o : Option VideoFrame)
    (s : VideoOutputXv) :
    Steps env (fun c => c.growsPause = false) s
      (VideoOutputXv.ProcessFrameXvMC_attach env frame o s) := by
  unfold VideoOutputXv.ProcessFrameXvMC_attach
  cases o with
  | none => exact ng_DiscardFrame env (Steps.refl env _ _) _
  | some f =>
    simp only []
    split
    · exact ng_then env (ng_then env (ng_then env (ng_then env (ng_vcall env s _ (by rfl))
        _ (by rfl)) _ (by rfl)) _ (by rfl)) _ (by rfl)
    · exact ng_DiscardFrame env (ng_vcall env s _ (by rfl)) _

theorem ProcessFrameXvMC_osdframe_pause (envHidden : Env) (frame : VideoFrame)
    (s : VideoOutputXv) :
    List.Sublist (VideoOutputXv.ProcessFrameXvMC_osdframe env envHidden frame s).vbuffers.pause
      s.vbuffers.pause := by
  unfold VideoOutputXv.ProcessFrameXvMC_osdframe
  simp only []
  exact (Steps.pause_sublist env (Steps.trans env (ProcessFrameXvMC_grab_steps env frame _)
    (ProcessFrameXvMC_attach_steps env frame _ _))).trans
    (ProcessFrameXvMC_makeRoom_pause env envHidden frame s)

theorem ProcessFrameXvMC_osd_pause (envHidden : Env) (frame : VideoFrame) (osd : Bool)
    (s : VideoOutputXv) :
    List.Sublist (VideoOutputXv.ProcessFrameXvMC_osd env envHidden frame osd s).vbuffers.pause
      s.vbuffers.pause := by
  unfold VideoOutputXv.ProcessFrameXvMC_osd
  simp only []
  have h1 : List.Sublist (if (s.vbuffers.GetOSDFrame (some frame)).isSome
      then s.vcall env (Call.SetOSDFrame frame none) else s).vbuffers.pause
      s.vbuffers.pause := by
    split
    · simp [Call.apply]
    · exact List.Sublist.refl _
  have h2 : ∀ c : Bool, List.Sublist (if c = true
      then VideoOutputXv.ProcessFrameXvMC_osdframe env envHidden frame
        (if (s.vbuffers.GetOSDFrame (some frame)).isSome
          then s.vcall env (Call.SetOSDFrame frame none) else s)
      else (if (s.vbuffers.GetOSDFrame (some frame)).isSome
          then s.vcall env (Call.SetOSDFrame frame none) else s)).vbuffers.pause
      s.vbuffers.pause := by
    intro c
    split
    · exact (ProcessFrameXvMC_osdframe_pause env envHidden frame _).trans h1
    · exact h1
  split
  · split
    · split
      · exact h2 _
      · exact h2 _
    · exact h1
  · exact h1

/-- The function `ProcessFrameXvMC` can only take frames out of the pause queue. -/
theorem ProcessFrameXvMC_pause (envHidden : Env) (frame : Option VideoFrame) (osd : Bool)
    (s : VideoOutputXv) :
    List.Sublist (VideoOutputXv.ProcessFrameXvMC env envHidden frame osd s).vbuffers.pause
      s.vbuffers.pause := by
  have h0 := Steps.pause_sublist env (ProcessFrameXvMC_frame_steps env frame s)
  unfold VideoOutputXv.ProcessFrameXvMC
  simp only []
  split
  · exact h0
  · split
    · exact h0
    · split
      · exact h0
      · exact (ProcessFrameXvMC_osd_pause env envHidden _ osd _).trans h0

/-- The last part of the XvMC branch of `UpdatePauseFrame` on an empty pause
queue: the pause queue receives the tail of the displayed queue, or the OSD
parent of that tail if it has one; it stays empty if the displayed queue is
empty. -/
theorem UpdatePauseFrame_displayed_pause (s : VideoOutputXv) (hp : s.vbuffers.pause = []) :
    (VideoOutputXv.UpdatePauseFrame_displayed env s).vbuffers.pause =
      match s.vbuffers.displayed.getLast? with
      | none => []
      | some d => [(s.vbuffers.osd_parent d).getD d] := by
  unfold VideoOutputXv.UpdatePauseFrame_displayed
  cases hd : s.vbuffers.displayed.getLast? with
  | none =>
    have : s.vbuffers.displayed = [] := List.getLast?_eq_none_iff.1 hd
    simp [VideoBuffers.size, VideoBuffers.queue, this, Call.apply, hp]
  | some d =>
    have hne : s.vbuffers.displayed ≠ [] := by
      intro h
      rw [h] at hd
      cases hd
    cases hpar : s.vbuffers.osd_parent d with
    | none =>
      simp [VideoBuffers.size, VideoBuffers.queue, hne, Call.apply, hp, VideoBuffers.tail, hd,
        VideoBuffers.GetOSDParent, hpar, VideoBuffers.safeEnqueue, VideoBuffers.enqueue,
        VideoBuffers.setQueue, VideoBuffers.removeAll]
    | some q =>
      simp [VideoBuffers.size, VideoBuffers.queue, hne, Call.apply, hp, VideoBuffers.tail, hd,
        VideoBuffers.GetOSDParent, hpar, VideoBuffers.safeEnqueue, VideoBuffers.enqueue,
        VideoBuffers.setQueue, VideoBuffers.removeAll]

end PauseQueue

/-! ## UpdatePauseFrame -/

/-- C6. In XvMC mode `UpdatePauseFrame` always returns with at most one frame in
the pause queue, whether it was called with none, one or more than one; and from
a state with at most one pause frame, `ShowXvMC` and `ProcessFrameXvMC` (for
every frame and OSD argument) leave at most one frame in the pause queue. -/
theorem pause_queue_at_most_one (env envHidden : Env) (s : VideoOutputXv)
    (hm : ¬ s.video_output_subtype.toNat ≤ VOSType.XVideo.toNat) :
    (VideoOutputXv.UpdatePauseFrame env s).vbuffers.pause.length ≤ 1 ∧
    (s.vbuffers.pause.length ≤ 1 →
      (VideoOutputXv.ShowXvMC env s).vbuffers.pause.length ≤ 1 ∧
      ∀ frame osd,
        (VideoOutputXv.ProcessFrameXvMC env envHidden frame osd s).vbuffers.pause.length ≤ 1)
    := by
  have hdisp : ∀ σ : VideoOutputXv, σ.vbuffers.pause = [] →
      (VideoOutputXv.UpdatePauseFrame_displayed env σ).vbuffers.pause.length ≤ 1 := by
    intro σ hσ
    rw [UpdatePauseFrame_displayed_pause env σ hσ]
    cases σ.vbuffers.displayed.getLast? <;> simp
  refine ⟨?_, fun hle => ⟨?_, fun frame osd => ?_⟩⟩
  · unfold VideoOutputXv.UpdatePauseFrame
    simp only [VideoOutputSubType_eq, if_neg hm]
    split
    · apply hdisp
      have h1 := discardPause_pause env (s.vbuffers.size .kVideoBuffer_pause) s (Nat.le_refl _)
      have h2 := Steps.pause_sublist env (ng_CheckDisplayed env (Steps.refl env _
        (VideoOutputXv.discardPause env (s.vbuffers.size .kVideoBuffer_pause) s)))
      rw [h1] at h2
      exact List.eq_nil_of_sublist_nil h2
    · split
      · rename_i h1
        split
        · rename_i f _
          have h2 := discardPause_pause env
            ((s.vcall env (Call.dequeue .kVideoBuffer_used)).vbuffers.size .kVideoBuffer_pause)
            (s.vcall env (Call.dequeue .kVideoBuffer_used)) (Nat.le_refl _)
          simp only [vcall_vbuffers, Call.apply] at h2
          simp [Call.apply, VideoBuffers.safeEnqueue, VideoBuffers.enqueue,
            VideoBuffers.setQueue, VideoBuffers.removeAll, VideoBuffers.queue, h2]
        · have h3 : (s.vcall env (Call.dequeue .kVideoBuffer_used)).vbuffers.pause
              = s.vbuffers.pause := rfl
          rw [h3]
          have h4 : s.vbuffers.size .kVideoBuffer_pause = s.vbuffers.pause.length := rfl
          omega
      · rename_i h1 h2
        apply hdisp
        have h4 : s.vbuffers.size .kVideoBuffer_pause = s.vbuffers.pause.length := rfl
        apply List.eq_nil_of_length_eq_zero
        omega
  · exact Nat.le_trans (Steps.pause_sublist env (ShowXvMC_steps env s)).length_le hle
  · exact Nat.le_trans (ProcessFrameXvMC_pause env envHidden frame osd s).length_le hle

/-- C6 at a concrete XvMC state with two pause frames: `UpdatePauseFrame`
returns with one pause frame. -/
theorem pause_queue_at_most_one_witness :
    ¬ twoPauseState.video_output_subtype.toNat ≤ VOSType.XVideo.toNat ∧
    (VideoOutputXv.UpdatePauseFrame idleEnv twoPauseState).vbuffers.pause.length ≤ 1 :=
  ⟨by decide, (pause_queue_at_most_one idleEnv idleEnv twoPauseState (by decide)).1⟩

/-- C7. In XvMC mode, when `UpdatePauseFrame` is called with an empty pause queue
and `d` is the tail of the displayed queue, afterwards the pause queue holds
exactly one frame: `d`, or the OSD parent of `d` if `d` has one; that frame has
left the displayed queue. -/
theorem UpdatePauseFrame_freeze_selection (env : Env) (s : VideoOutputXv) (d : VideoFrame)
    (hm : ¬ s.video_output_subtype.toNat ≤ VOSType.XVideo.toNat)
    (hp : s.vbuffers.pause = [])
    (hd : s.vbuffers.tail .kVideoBuffer_displayed = some d) :
    (VideoOutputXv.UpdatePauseFrame env s).vbuffers.pause = [(s.vbuffers.osd_parent d).getD d] ∧
    (s.vbuffers.osd_parent d).getD d ∉ (VideoOutputXv.UpdatePauseFrame env s).vbuffers.displayed
    := by
  have hd2 : s.vbuffers.displayed.getLast? = some d := hd
  have hne : s.vbuffers.displayed ≠ [] := by
    intro h
    rw [h] at hd2
    cases hd2
  have hsz : ¬ s.vbuffers.size .kVideoBuffer_pause > 1 := by
    simp [VideoBuffers.size, VideoBuffers.queue, hp]
  have hsz1 : ¬ 1 = s.vbuffers.size .kVideoBuffer_pause := by
    simp [VideoBuffers.size, VideoBuffers.queue, hp]
  have hun : VideoOutputXv.UpdatePauseFrame env s
      = VideoOutputXv.UpdatePauseFrame_displayed env s := by
    unfold VideoOutputXv.UpdatePauseFrame
    simp only [VideoOutputSubType_eq, if_neg hm, if_neg hsz, if_neg hsz1]
  rw [hun]
  refine ⟨?_, ?_⟩
  · rw [UpdatePauseFrame_displayed_pause env s hp, hd2]
  · unfold VideoOutputXv.UpdatePauseFrame_displayed
    cases hpar : s.vbuffers.osd_parent d <;>
      simp [VideoBuffers.size, VideoBuffers.queue, hne, Call.apply, VideoBuffers.tail, hd2,
        VideoBuffers.GetOSDParent, hpar, VideoBuffers.safeEnqueue, VideoBuffers.enqueue,
        VideoBuffers.setQueue, VideoBuffers.removeAll]

/-- C7 at a concrete state whose most recently displayed frame 4 is the OSD
child of frame 3: the pause queue receives frame 3. -/
theorem UpdatePauseFrame_freeze_selection_witness :
    (VideoOutputXv.UpdatePauseFrame idleEnv freezeOsdState).vbuffers.pause = [3] ∧
    3 ∉ (VideoOutputXv.UpdatePauseFrame idleEnv freezeOsdState).vbuffers.displayed :=
  UpdatePauseFrame_freeze_selection idleEnv freezeOsdState 4 (by decide) rfl rfl

/-- C8 (as stated, refuted). Scenario C, with frames 1 and 2 in used and nothing
displayed.  On the XvMC path `UpdatePauseFrame` leaves the pause queue empty and
copies nothing.  On the XVideo path the pause queue also stays empty;
`av_pause_frame` receives the contents of frame 1, the head of used, which
differ from those of the most recently queued frame 2. -/
theorem UpdatePauseFrame_scenario_C_fails :
    (VideoOutputXv.UpdatePauseFrame idleEnv scenarioC_XvMC).vbuffers.pause = [] ∧
    (VideoOutputXv.UpdatePauseFrame idleEnv scenarioC_XvMC).mem scenarioC_XvMC.av_pause_frame
      = scenarioC_XvMC.mem scenarioC_XvMC.av_pause_frame ∧
    (VideoOutputXv.UpdatePauseFrame idleEnv scenarioC_XVideo).vbuffers.pause = [] ∧
    (VideoOutputXv.UpdatePauseFrame idleEnv scenarioC_XVideo).mem
      scenarioC_XVideo.av_pause_frame = scenarioC_XVideo.mem 1 ∧
    scenarioC_XVideo.mem 1 ≠ scenarioC_XVideo.mem 2 := by
  decide

/-- C8 (amended). On the XVideo-or-lower path, if `TryLockFrame` succeeds on the
head `u` of the used queue, `UpdatePauseFrame` copies the contents of `u` into
`av_pause_frame` and changes no queue.  On the XvMC path, with the pause and the
displayed queue empty, `UpdatePauseFrame` changes no queue and copies nothing:
the pause queue stays empty. -/
theorem UpdatePauseFrame_scenario_C (env : Env) (s : VideoOutputXv) :
    (s.video_output_subtype.toNat ≤ VOSType.XVideo.toNat →
      ∀ u, s.vbuffers.head .kVideoBuffer_used = some u → env.TryLockFrame u = true →
        (VideoOutputXv.UpdatePauseFrame env s).mem s.av_pause_frame = s.mem u ∧
        ∀ t, (VideoOutputXv.UpdatePauseFrame env s).vbuffers.queue t = s.vbuffers.queue t) ∧
    (¬ s.video_output_subtype.toNat ≤ VOSType.XVideo.toNat →
      s.vbuffers.pause = [] → s.vbuffers.displayed = [] →
        (VideoOutputXv.UpdatePauseFrame env s).mem = s.mem ∧
        ∀ t, (VideoOutputXv.UpdatePauseFrame env s).vbuffers.queue t = s.vbuffers.queue t) := by
  refine ⟨fun hm u hu hok => ?_, fun hm hp hd => ?_⟩
  · have hsz : s.vbuffers.size .kVideoBuffer_used > 0 := by
      simp only [VideoBuffers.size, VideoBuffers.head] at hu ⊢
      cases hq : s.vbuffers.queue .kVideoBuffer_used with
      | nil => simp [hq] at hu
      | cons a l => simp
    unfold VideoOutputXv.UpdatePauseFrame VideoOutputXv.UpdatePauseFrame_XVideo
    simp only [VideoOutputSubType_eq, if_pos hm, vcall_vbuffers, Call.apply, vcall_av_pause_frame]
    have hu2 : (s.vbuffers.LockFrame s.av_pause_frame).head .kVideoBuffer_used = some u := hu
    have hsz2 : (s.vbuffers.LockFrame s.av_pause_frame).size .kVideoBuffer_used > 0 := hsz
    simp only [hu2, hsz2, if_true, hok]
    refine ⟨?_, fun t => ?_⟩
    · simp [VideoOutputXv.CopyFrame]
    · simp [VideoOutputXv.CopyFrame, Call.apply, UnlockFrame_queue, LockFrame_queue]
  · have hsz : ¬ s.vbuffers.size .kVideoBuffer_pause > 1 := by
      simp [VideoBuffers.size, VideoBuffers.queue, hp]
    have hsz1 : ¬ 1 = s.vbuffers.size .kVideoBuffer_pause := by
      simp [VideoBuffers.size, VideoBuffers.queue, hp]
    unfold VideoOutputXv.UpdatePauseFrame VideoOutputXv.UpdatePauseFrame_displayed
    simp only [VideoOutputSubType_eq, if_neg hm, if_neg hsz, if_neg hsz1]
    simp [VideoBuffers.size, VideoBuffers.queue, hd, Call.apply]

/-- The amended C8 at Scenario C on the XVideo path (used is not empty and the
try-lock succeeds): `av_pause_frame` receives the contents of the head of used
and no queue changes. -/
theorem UpdatePauseFrame_scenario_C_witness :
    (VideoOutputXv.UpdatePauseFrame idleEnv scenarioC_XVideo).mem
        scenarioC_XVideo.av_pause_frame = scenarioC_XVideo.mem 1 ∧
    ∀ t, (VideoOutputXv.UpdatePauseFrame idleEnv scenarioC_XVideo).vbuffers.queue t
      = scenarioC_XVideo.vbuffers.queue t :=
  (UpdatePauseFrame_scenario_C idleEnv scenarioC_XVideo).1 (by decide) 1 rfl rfl

/-! ## ShowXvMC -/

section Show

variable (env : Env)

/-- A frame that is in a queue after a reclaiming call was there before the
call or was moved by it. -/
theorem apply_mem_origin (F : VideoFrame → Prop) (dq td : Bool) (vb : VideoBuffers) (c : Call)
    (h : c.within F dq td) (t : BufferType) (g : VideoFrame)
    (hg : g ∈ (c.apply env vb).queue t) : g ∈ vb.queue t ∨ F g := by
  have key : ∀ (dst : BufferType) (f : VideoFrame), F f →
      g ∈ (vb.safeEnqueue dst (some f)).queue t → g ∈ vb.queue t ∨ F g := by
    intro dst f hf hg
    rw [safeEnqueue_queue] at hg
    split at hg
    · rcases List.mem_append.1 hg with h1 | h1
      · exact Or.inl (List.mem_filter.1 h1).1
      · have : g = f := by simpa using h1
        exact Or.inr (this ▸ hf)
    · exact Or.inl (List.mem_filter.1 hg).1
  cases c with
  | LockFrame f => exact Or.inl (by simpa [Call.apply, LockFrame_queue] using hg)
  | TryLockFrame f ok =>
    cases ok
    · exact Or.inl hg
    · exact Or.inl (by simpa [Call.apply, LockFrame_queue] using hg)
  | UnlockFrame f => exact Or.inl (by simpa [Call.apply, UnlockFrame_queue] using hg)
  | SetOSDFrame f o => exact Or.inl (by simpa [Call.apply, SetOSDFrame_queue] using hg)
  | RemoveInheritence f => exact Or.inl hg
  | safeEnqueue dst o =>
    cases o with
    | none => exact Or.inl hg
    | some f => exact key dst f h.2 hg
  | dequeue t2 =>
    simp only [Call.apply, dequeue_queue] at hg
    split at hg
    · exact Or.inl (List.mem_of_mem_tail hg)
    · exact Or.inl hg
  | DiscardFrame f =>
    simp only [Call.apply, poolDiscardFrame_queue] at hg
    split at hg
    · exact key _ f h hg
    · exact Or.inl hg
  | DiscardFrames k => exact absurd h (by simp [Call.within])
  | DoneDisplayingFrame => exact absurd h (by simp [Call.within])
  | GetNextFreeFrame l u => exact absurd h (by simp [Call.within])
  | begin_lock t => exact Or.inl hg
  | end_lock => exact Or.inl hg
  | SyncSurface f pf => exact Or.inl hg
  | XvMCPutSurface sf => exact Or.inl hg
  | XvMCHideSurface sf => exact Or.inl hg
  | CompositeOSD f o => exact Or.inl hg

theorem runCalls_mem_origin (F : VideoFrame → Prop) (dq td : Bool) (t : BufferType)
    (g : VideoFrame) (l : List Call) :
    ∀ vb : VideoBuffers, (∀ c ∈ l, c.within F dq td) → g ∈ (runCalls env l vb).queue t →
      g ∈ vb.queue t ∨ F g := by
  induction l with
  | nil => intro vb _ hg; exact Or.inl hg
  | cons c l ih =>
    intro vb h hg
    simp only [runCalls_cons] at hg
    rcases ih _ (fun c2 hc2 => h c2 (List.mem_cons_of_mem _ hc2)) hg with h1 | h1
    · exact apply_mem_origin env F dq td vb c (h c (List.mem_cons_self _ _)) t g h1
    · exact Or.inr h1

/-- A frame that is in a queue after reclaiming steps was there before or was
moved by them. -/
theorem Steps.mem_origin {F : VideoFrame → Prop} {dq td : Bool} {s1 s2 : VideoOutputXv}
    (h : Steps env (Call.within F dq td) s1 s2) (t : BufferType) (g : VideoFrame)
    (hg : g ∈ s2.vbuffers.queue t) : g ∈ s1.vbuffers.queue t ∨ F g := by
  obtain ⟨-, -, l, -, v, p⟩ := h
  rw [v] at hg
  exact runCalls_mem_origin env F dq td t g l s1.vbuffers p hg

theorem within_not_isPut (F : VideoFrame → Prop) (dq td : Bool) (c : Call)
    (h : c.within F dq td) : c.isPut = false := by
  cases c with
  | XvMCPutSurface sf => exact absurd h id
  | _ => rfl

/-- Steps that present nothing add no presentation call to the trace. -/
theorem Steps.no_put {s1 s2 : VideoOutputXv} (h : Steps env (fun c => c.isPut = false) s1 s2) :
    ∃ l : List Call, s2.trace = s1.trace ++ l ∧ l.filter Call.isPut = [] := by
  obtain ⟨-, -, l, t, -, p⟩ := h
  refine ⟨l, t, ?_⟩
  apply List.filter_eq_nil_iff.2
  intro c hc
  simp [p c hc]

theorem ShowXvMC_lockOSD_fst (frame : VideoFrame) (s : VideoOutputXv) :
    (VideoOutputXv.ShowXvMC_lockOSD env frame s).1 = none ∨
    (VideoOutputXv.ShowXvMC_lockOSD env frame s).1 = s.vbuffers.GetOSDFrame (some frame) := by
  unfold VideoOutputXv.ShowXvMC_lockOSD
  split
  · rename_i o ho
    simp only []
    split
    · exact Or.inl rfl
    · exact Or.inr ho.symm
  · exact Or.inl rfl

theorem ShowXvMC_lockOSD_within (frame : VideoFrame) (s : VideoOutputXv) :
    Steps env (Call.within (fun g => some g = s.vbuffers.GetOSDFrame (some frame)) false true) s
      (VideoOutputXv.ShowXvMC_lockOSD env frame s).2 := by
  unfold VideoOutputXv.ShowXvMC_lockOSD
  split
  · rename_i o ho
    simp only []
    split
    · exact Steps.then_vcall env (Steps.vcall env s _ trivial) _ ⟨Or.inr ⟨rfl, rfl⟩, ho.symm⟩
    · exact Steps.vcall env s _ trivial
  · exact Steps.refl env _ _

/-- The part of `ShowXvMC` after the selection presents the selected frame, and
nothing else. -/
theorem ShowXvMC_show_presents (frame : VideoFrame) (u : Bool) (s : VideoOutputXv) :
    presents env s (VideoOutputXv.ShowXvMC_show env frame u s) frame := by
  have hpre : Steps env (fun c => c.isPut = false) s
      (VideoOutputXv.ShowXvMC_lockOSD env frame (s.vcall env (Call.LockFrame frame))).2 :=
    Steps.trans env (Steps.vcall env s (Call.LockFrame frame) rfl)
      ((ShowXvMC_lockOSD_within env frame _).mono env (within_not_isPut _ _ _))
  obtain ⟨l1, t1, f1⟩ := Steps.no_put env hpre
  have hpost : ∀ σ : VideoOutputXv, Steps env (fun c => c.isPut = false) σ
      ((((VideoOutputXv.CheckDisplayedFramesForAvailability env
        (if !u then VideoOutputXv.discardPause env (σ.vbuffers.size .kVideoBuffer_pause) σ
          else σ)).vcall env (Call.UnlockFrame (VideoOutputXv.ShowXvMC_lockOSD env frame
            (s.vcall env (Call.LockFrame frame))).1)).vcall env
        (Call.UnlockFrame (some frame))).vcall env
        (Call.safeEnqueue .kVideoBuffer_displayed (VideoOutputXv.ShowXvMC_lockOSD env frame
            (s.vcall env (Call.LockFrame frame))).1)) := by
    intro σ
    refine Steps.then_vcall env (Steps.then_vcall env (Steps.then_vcall env
      (Steps.trans env ?_ ((CheckDisplayedFramesForAvailability_steps env _).mono env
        (within_not_isPut _ _ _))) _ (by rfl)) _ (by rfl)) _ (by rfl)
    cases u with
    | true => exact Steps.refl env _ _
    | false =>
      exact (discardPause_steps env σ.vbuffers.pause _ σ (fun _ h => h)).mono env
        (within_not_isPut _ _ _)
  obtain ⟨l2, t2, f2⟩ := Steps.no_put env (hpost
    ((VideoOutputXv.ShowXvMC_lockOSD env frame (s.vcall env (Call.LockFrame frame))).2.vcall env
      (Call.XvMCPutSurface (VideoOutputXv.showingSurface env frame
        (VideoOutputXv.ShowXvMC_lockOSD env frame (s.vcall env (Call.LockFrame frame))).1))))
  refine ⟨l1 ++ ([Call.XvMCPutSurface (VideoOutputXv.showingSurface env frame
    (VideoOutputXv.ShowXvMC_lockOSD env frame (s.vcall env (Call.LockFrame frame))).1)] ++ l2),
    (VideoOutputXv.ShowXvMC_lockOSD env frame (s.vcall env (Call.LockFrame frame))).1,
    ?_, ?_, ShowXvMC_lockOSD_fst env frame _⟩
  · unfold VideoOutputXv.ShowXvMC_show
    simp only []
    rw [t2, vcall_trace, t1]
    simp
  · simp [List.filter_append, f1, f2, Call.isPut]

/-- When the pause frame is shown, `ShowXvMC` takes nothing out of the pause
queue, provided no pause frame is also in the displayed queue or is the OSD
frame of the frame shown. -/
theorem ShowXvMC_show_pause (frame : VideoFrame) (s : VideoOutputXv)
    (h : ∀ f ∈ s.vbuffers.pause,
      f ∉ s.vbuffers.displayed ∧ some f ≠ s.vbuffers.GetOSDFrame (some frame)) :
    (VideoOutputXv.ShowXvMC_show env frame true s).vbuffers.pause = s.vbuffers.pause := by
  have hpre : Steps env
      (Call.within (fun g => some g = s.vbuffers.GetOSDFrame (some frame)) false true) s
      (VideoOutputXv.ShowXvMC_lockOSD env frame (s.vcall env (Call.LockFrame frame))).2 :=
    Steps.trans env (Steps.vcall env s (Call.LockFrame frame) trivial)
      (ShowXvMC_lockOSD_within env frame _)
  have hp1 := Steps.queue_eq env hpre .kVideoBuffer_pause (by simp) (by simp) (by simp)
    (fun f hf => (h f hf).2)
  have hsw := CheckDisplayedFramesForAvailability_steps env
    ((VideoOutputXv.ShowXvMC_lockOSD env frame (s.vcall env (Call.LockFrame frame))).2.vcall env
      (Call.XvMCPutSurface (VideoOutputXv.showingSurface env frame
        (VideoOutputXv.ShowXvMC_lockOSD env frame (s.vcall env (Call.LockFrame frame))).1)))
  have hp2 := Steps.queue_eq env hsw .kVideoBuffer_pause (by simp) (by simp) (by simp)
    (fun f hf hfd => by
      have hf1 : f ∈ s.vbuffers.pause := by
        have : f ∈ (VideoOutputXv.ShowXvMC_lockOSD env frame
          (s.vcall env (Call.LockFrame frame))).2.vbuffers.queue .kVideoBuffer_pause := hf
        rw [hp1] at this
        exact this
      rcases Steps.mem_origin env hpre .kVideoBuffer_displayed f hfd with h1 | h1
      · exact (h f hf1).1 h1
      · exact (h f hf1).2 h1)
  unfold VideoOutputXv.ShowXvMC_show
  simp only [Bool.not_true, Bool.false_eq_true, if_false, vcall_vbuffers, Call.apply,
    UnlockFrame_pause]
  have hfin : ∀ (vb : VideoBuffers) (o : Option VideoFrame),
      (o = none ∨ o = s.vbuffers.GetOSDFrame (some frame)) → vb.pause = s.vbuffers.pause →
      (vb.safeEnqueue .kVideoBuffer_displayed o).pause = s.vbuffers.pause := by
    intro vb o ho hvb
    cases o with
    | none => exact hvb
    | some g =>
      have hg : some g = s.vbuffers.GetOSDFrame (some frame) := by
        rcases ho with h1 | h1
        · cases h1
        · exact h1
      have hq := safeEnqueue_queue vb .kVideoBuffer_displayed g .kVideoBuffer_pause
      simp only [reduceCtorEq, if_false] at hq
      have hq2 : (vb.safeEnqueue .kVideoBuffer_displayed (some g)).pause
          = vb.pause.filter (fun x => x != g) := hq
      rw [hq2, hvb]
      apply List.filter_eq_self.2
      intro x hx
      have : x ≠ g := fun hxg => (h x hx).2 (hxg ▸ hg)
      simpa using this
  have hfst : (VideoOutputXv.ShowXvMC_lockOSD env frame (s.vcall env (Call.LockFrame frame))).1
      = none ∨
      (VideoOutputXv.ShowXvMC_lockOSD env frame (s.vcall env (Call.LockFrame frame))).1
      = s.vbuffers.GetOSDFrame (some frame) :=
    ShowXvMC_lockOSD_fst env frame (s.vcall env (Call.LockFrame frame))
  refine hfin _ _ hfst ?_
  simp only [UnlockFrame_pause]
  exact (hp2.trans hp1)

end Show

/-- C9. `ShowXvMC` shows the head of the pause queue whenever the pause queue is
not empty, whatever the used queue holds: it presents exactly one surface, the
one of that frame or of its OSD frame; and then it takes nothing out of the
pause queue (for a pool in which no pause frame is also in the displayed queue
or is the OSD frame of the frame shown, as the invariants of the pool have it).
With an empty pause queue it shows the head of the used queue.  When both queues
are empty it presents nothing and changes nothing in the pool: its only calls
are the queue lock and unlock. -/
theorem ShowXvMC_selection (env : Env) (s : VideoOutputXv) :
    (∀ p, s.vbuffers.head .kVideoBuffer_pause = some p →
      presents env s (VideoOutputXv.ShowXvMC env s) p ∧
      ((∀ f ∈ s.vbuffers.pause,
          f ∉ s.vbuffers.displayed ∧ some f ≠ s.vbuffers.GetOSDFrame (some p)) →
        (VideoOutputXv.ShowXvMC env s).vbuffers.pause = s.vbuffers.pause)) ∧
    (s.vbuffers.pause = [] → ∀ u, s.vbuffers.head .kVideoBuffer_used = some u →
      presents env s (VideoOutputXv.ShowXvMC env s) u) ∧
    (s.vbuffers.pause = [] → s.vbuffers.used = [] →
      (VideoOutputXv.ShowXvMC env s).vbuffers = s.vbuffers ∧
      (VideoOutputXv.ShowXvMC env s).trace =
        s.trace ++ [Call.begin_lock .kVideoBuffer_pause, Call.end_lock]) := by
  have hwrap : ∀ (x : VideoFrame) (u : Bool),
      presents env s (VideoOutputXv.ShowXvMC_show env x u
        ((s.vcall env (Call.begin_lock .kVideoBuffer_pause)).vcall env Call.end_lock)) x := by
    intro x u
    obtain ⟨l, osd, t, f, ho⟩ := ShowXvMC_show_presents env x u
      ((s.vcall env (Call.begin_lock .kVideoBuffer_pause)).vcall env Call.end_lock)
    refine ⟨[Call.begin_lock .kVideoBuffer_pause, Call.end_lock] ++ l, osd, ?_, ?_, ho⟩
    · rw [t]
      simp
    · simpa [List.filter_append, Call.isPut] using f
  refine ⟨fun p hp => ?_, fun hp u hu => ?_, fun hp hu => ?_⟩
  · have hne : s.vbuffers.size .kVideoBuffer_pause ≠ 0 := by
      simp only [VideoBuffers.size, VideoBuffers.head] at hp ⊢
      cases hq : s.vbuffers.queue .kVideoBuffer_pause with
      | nil => simp [hq] at hp
      | cons a l => simp
    have hsel : VideoOutputXv.ShowXvMC_select
        (s.vcall env (Call.begin_lock .kVideoBuffer_pause)) = (some p, true) := by
      unfold VideoOutputXv.ShowXvMC_select
      simp only [vcall_vbuffers, Call.apply, if_pos hne, hp]
    have hun : VideoOutputXv.ShowXvMC env s = VideoOutputXv.ShowXvMC_show env p true
        ((s.vcall env (Call.begin_lock .kVideoBuffer_pause)).vcall env Call.end_lock) := by
      unfold VideoOutputXv.ShowXvMC
      simp only [hsel]
    rw [hun]
    exact ⟨hwrap p true, fun h => ShowXvMC_show_pause env p _ h⟩
  · have hpz : s.vbuffers.size .kVideoBuffer_pause = 0 := by
      simp [VideoBuffers.size, VideoBuffers.queue, hp]
    have hne : s.vbuffers.size .kVideoBuffer_used ≠ 0 := by
      simp only [VideoBuffers.size, VideoBuffers.head] at hu ⊢
      cases hq : s.vbuffers.queue .kVideoBuffer_used with
      | nil => simp [hq] at hu
      | cons a l => simp
    have hsel : VideoOutputXv.ShowXvMC_select
        (s.vcall env (Call.begin_lock .kVideoBuffer_pause)) = (some u, false) := by
      unfold VideoOutputXv.ShowXvMC_select
      simp only [vcall_vbuffers, Call.apply, hpz, ne_eq, not_true_eq_false, if_false,
        if_pos hne, hu]
    have hun : VideoOutputXv.ShowXvMC env s = VideoOutputXv.ShowXvMC_show env u false
        ((s.vcall env (Call.begin_lock .kVideoBuffer_pause)).vcall env Call.end_lock) := by
      unfold VideoOutputXv.ShowXvMC
      simp only [hsel]
    rw [hun]
    exact hwrap u false
  · have hsel : VideoOutputXv.ShowXvMC_select
        (s.vcall env (Call.begin_lock .kVideoBuffer_pause)) = (none, false) := by
      unfold VideoOutputXv.ShowXvMC_select
      simp [VideoBuffers.size, VideoBuffers.queue, hp, hu, Call.apply]
    have hun : VideoOutputXv.ShowXvMC env s =
        (s.vcall env (Call.begin_lock .kVideoBuffer_pause)).vcall env Call.end_lock := by
      unfold VideoOutputXv.ShowXvMC
      simp only [hsel]
    rw [hun]
    exact ⟨rfl, by simp⟩

/-- C9 at a concrete paused state (pause frame 1, frame 3 waiting in used): the
frame presented is frame 1 and the pause queue is left as it was. -/
theorem ShowXvMC_selection_witness :
    presents idleEnv pausedState (VideoOutputXv.ShowXvMC idleEnv pausedState) 1 ∧
    (VideoOutputXv.ShowXvMC idleEnv pausedState).vbuffers.pause = pausedState.vbuffers.pause :=
  ⟨((ShowXvMC_selection idleEnv pausedState).1 1 rfl).1,
    ((ShowXvMC_selection idleEnv pausedState).1 1 rfl).2 (by decide)⟩

/-! ## DiscardFrames -/

/-- C4 (as stated, refuted). In XvMC mode `DiscardFrames(false)` does not only
sync: on a state with frames 1 and 4 in used and frame 2 in limbo it takes every
frame out of used and limbo, frame 1 included although the pause frame still
references it, hands frames 4 and 2 to the pool, and makes exactly the calls
that `DiscardFrames(true)` makes. -/
theorem DiscardFrames_false_discards :
    (VideoOutputXv.DiscardFrames idleEnv false seekState).vbuffers.used = [] ∧
    (VideoOutputXv.DiscardFrames idleEnv false seekState).vbuffers.limbo = [] ∧
    (VideoOutputXv.DiscardFrames idleEnv false seekState).vbuffers.available = [4, 2] ∧
    (VideoOutputXv.DiscardFrames idleEnv false seekState).vbuffers.displayed = [1] ∧
    Call.DiscardFrame 4 ∈ (VideoOutputXv.DiscardFrames idleEnv false seekState).trace ∧
    (VideoOutputXv.DiscardFrames idleEnv false seekState).trace =
      (VideoOutputXv.DiscardFrames idleEnv true seekState).trace := by
  decide

/-- C4 (amended). On the XVideo-or-lower path `DiscardFrames` only forwards
`next_frame_keyframe` to the pool.  On the XvMC path the flag is not used: both
values give the same result, in which the used and the limbo queue have only
lost frames and every frame left in them is locked. -/
theorem DiscardFrames_modes (env : Env) (s : VideoOutputXv) :
    (s.video_output_subtype.toNat ≤ VOSType.XVideo.toNat →
      ∀ b, VideoOutputXv.DiscardFrames env b s = s.vcall env (Call.DiscardFrames b)) ∧
    (¬ s.video_output_subtype.toNat ≤ VOSType.XVideo.toNat →
      VideoOutputXv.DiscardFrames env false s = VideoOutputXv.DiscardFrames env true s ∧
      ∀ b t, t = BufferType.kVideoBuffer_used ∨ t = BufferType.kVideoBuffer_limbo →
        List.Sublist ((VideoOutputXv.DiscardFrames env b s).vbuffers.queue t)
          (s.vbuffers.queue t) ∧
        ∀ f ∈ (VideoOutputXv.DiscardFrames env b s).vbuffers.queue t,
          s.vbuffers.lockCount f ≠ 0) := by
  refine ⟨fun hm b => ?_, fun hm => ⟨?_, fun b t ht => ?_⟩⟩
  · simp only [VideoOutputXv.DiscardFrames, VideoOutputSubType_eq, if_pos hm]
  · simp only [VideoOutputXv.DiscardFrames, VideoOutputSubType_eq, if_neg hm]
  · have ht1 : t ≠ .kVideoBuffer_avail := by rcases ht with h | h <;> subst h <;> simp
    have ht2 : t ≠ .kVideoBuffer_displayed := by rcases ht with h | h <;> subst h <;> simp
    obtain ⟨hv, -, hl⟩ := DiscardFrames_collect_spec env s
    obtain ⟨h1, h2, h3⟩ := fold_discard_leaves env (VideoOutputXv.DiscardFrames_collect env s).1
      (VideoOutputXv.DiscardFrames_collect env s).2
    have hsw := CheckDisplayedFramesForAvailability_steps env
      ((s.vcall env (Call.begin_lock .kVideoBuffer_displayed)).vcall env Call.end_lock)
    have hsub1 := Steps.queue_sublist env h1 t ht1 (fun _ => ht2)
    have hsub2 := Steps.queue_sublist env hsw t ht1 (by simp)
    rw [← hv] at hsub2
    rw [DiscardFrames_XvMC_vbuffers env b s hm]
    refine ⟨hsub1.trans hsub2, fun f hf => ?_⟩
    have hfl : f ∈ (VideoOutputXv.DiscardFrames_collect env s).1 := by
      rw [hl]
      have := hsub1.subset hf
      rcases ht with h | h <;> subst h
      · exact List.mem_append_left _ this
      · exact List.mem_append_right _ this
    have h4 := h3 f hfl t ht1 ht2 hf
    rw [hv, CheckDisplayedFramesForAvailability_lockCount] at h4
    exact h4

/-- The amended C4 at a concrete XvMC state: the state is on the XvMC path and
both flag values give the same result. -/
theorem DiscardFrames_modes_witness :
    ¬ seekState.video_output_subtype.toNat ≤ VOSType.XVideo.toNat ∧
    VideoOutputXv.DiscardFrames idleEnv false seekState =
      VideoOutputXv.DiscardFrames idleEnv true seekState :=
  ⟨by decide, ((DiscardFrames_modes idleEnv seekState).2 (by decide)).1⟩

/-- C5 (as stated, refuted). After `DiscardFrames(true)` on Scenario D (three
frames in used, two in displayed, nothing displaying) the pause queue still
holds its frame.  If the used frame 2 still references the used frame 1, frame 1
ends in the displayed queue and not in the available queue; if frame 1 is
locked, it stays in used. -/
theorem DiscardFrames_scenario_D_fails :
    (VideoOutputXv.DiscardFrames idleEnv true scenarioD).vbuffers.pause = [6] ∧
    (VideoOutputXv.DiscardFrames idleEnv true scenarioD).vbuffers.available
      = [4, 5, 1, 2, 3] ∧
    (VideoOutputXv.DiscardFrames idleEnv true scenarioD_referenced).vbuffers.available
      = [4, 5, 2, 3] ∧
    (VideoOutputXv.DiscardFrames idleEnv true scenarioD_referenced).vbuffers.displayed = [1] ∧
    (VideoOutputXv.DiscardFrames idleEnv true scenarioD_locked).vbuffers.available
      = [4, 5, 2, 3] ∧
    (VideoOutputXv.DiscardFrames idleEnv true scenarioD_locked).vbuffers.used = [1] := by
  decide

/-- C5 (amended). In XvMC mode, when the back-end reports no frame displaying,
no frame has children and the frames of used and limbo are unlocked, after
`DiscardFrames(true)` every frame that was in used, displayed or limbo is in the
available queue and those three queues are empty; the pause queue is not
cleared: if its frames are in none of the three queues it is left as it was. -/
theorem DiscardFrames_scenario_D (env : Env) (s : VideoOutputXv)
    (hm : ¬ s.video_output_subtype.toNat ≤ VOSType.XVideo.toNat)
    (hnd : ∀ f, IsDisplaying env (some f) = false)
    (hch : ∀ p, s.vbuffers.children p = [])
    (hlk : ∀ f, f ∈ s.vbuffers.used ∨ f ∈ s.vbuffers.limbo → s.vbuffers.lockCount f = 0) :
    (∀ f, f ∈ s.vbuffers.used ∨ f ∈ s.vbuffers.displayed ∨ f ∈ s.vbuffers.limbo →
      f ∈ (VideoOutputXv.DiscardFrames env true s).vbuffers.available) ∧
    (VideoOutputXv.DiscardFrames env true s).vbuffers.used = [] ∧
    (VideoOutputXv.DiscardFrames env true s).vbuffers.displayed = [] ∧
    (VideoOutputXv.DiscardFrames env true s).vbuffers.limbo = [] ∧
    ((∀ f ∈ s.vbuffers.pause,
        f ∉ s.vbuffers.used ∧ f ∉ s.vbuffers.displayed ∧ f ∉ s.vbuffers.limbo) →
      (VideoOutputXv.DiscardFrames env true s).vbuffers.pause = s.vbuffers.pause) := by
  obtain ⟨hv, -, hl⟩ := DiscardFrames_collect_spec env s
  have hsw := CheckDisplayedFramesForAvailability_steps env
    ((s.vcall env (Call.begin_lock .kVideoBuffer_displayed)).vcall env Call.end_lock)
  have hfix := CheckDisplayedFramesForAvailability_fixpoint env
    ((s.vcall env (Call.begin_lock .kVideoBuffer_displayed)).vcall env Call.end_lock)
  have hlc := CheckDisplayedFramesForAvailability_lockCount env
    ((s.vcall env (Call.begin_lock .kVideoBuffer_displayed)).vcall env Call.end_lock)
  rw [← hv] at hfix hlc
  -- the state before the loop over the frames to discard
  have hch2 : ∀ p, (VideoOutputXv.DiscardFrames_collect env s).2.vbuffers.children p = [] := by
    intro p
    have := Steps.children_sublist env hsw p
    rw [← hv] at this
    have h0 : ((s.vcall env (Call.begin_lock .kVideoBuffer_displayed)).vcall env
        Call.end_lock).vbuffers.children p = [] := hch p
    rw [h0] at this
    exact List.eq_nil_of_sublist_nil this
  have hd2 : (VideoOutputXv.DiscardFrames_collect env s).2.vbuffers.displayed = [] := by
    apply List.eq_nil_iff_forall_not_mem.2
    intro f hf
    rcases hfix f hf with h | h
    · rw [hnd f] at h
      cases h
    · simp [VideoBuffers.HasChildren, hch2 f] at h
  have hq : ∀ t, t ≠ BufferType.kVideoBuffer_avail →
      List.Sublist ((VideoOutputXv.DiscardFrames_collect env s).2.vbuffers.queue t)
        (s.vbuffers.queue t) := by
    intro t ht
    have := Steps.queue_sublist env hsw t ht (by simp)
    rw [← hv] at this
    exact this
  have hlk2 : ∀ f ∈ (VideoOutputXv.DiscardFrames_collect env s).1,
      (VideoOutputXv.DiscardFrames_collect env s).2.vbuffers.lockCount f = 0 := by
    intro f hf
    rw [hl] at hf
    rw [hlc]
    rcases List.mem_append.1 hf with h | h
    · exact hlk f (Or.inl ((hq .kVideoBuffer_used (by simp)).subset h))
    · exact hlk f (Or.inr ((hq .kVideoBuffer_limbo (by simp)).subset h))
  obtain ⟨hfree, hav⟩ := fold_discard_free env hnd _ _ hch2 hlk2
  obtain ⟨-, -, hleave⟩ := fold_discard_leaves env (VideoOutputXv.DiscardFrames_collect env s).1
    (VideoOutputXv.DiscardFrames_collect env s).2
  rw [DiscardFrames_XvMC_vbuffers env true s hm]
  have hmove : ∀ (t : BufferType) (f : VideoFrame), f ∈ s.vbuffers.queue t →
      f ∈ (VideoOutputXv.DiscardFrames_collect env s).2.vbuffers.queue t ∨
      f ∈ (VideoOutputXv.DiscardFrames_collect env s).2.vbuffers.available := by
    intro t f hf
    have := Steps.mem_or_avail env hsw t f hf
    rw [← hv] at this
    exact this
  have hempty : ∀ t, t = BufferType.kVideoBuffer_used ∨ t = BufferType.kVideoBuffer_limbo →
      ((VideoOutputXv.DiscardFrames_collect env s).1.foldl
        (fun s f => VideoOutputXv.DiscardFrame env (some f) s)
        (VideoOutputXv.DiscardFrames_collect env s).2).vbuffers.queue t = [] := by
    intro t ht
    have ht1 : t ≠ .kVideoBuffer_avail := by rcases ht with h | h <;> subst h <;> simp
    have ht2 : t ≠ .kVideoBuffer_displayed := by rcases ht with h | h <;> subst h <;> simp
    apply List.eq_nil_iff_forall_not_mem.2
    intro f hf
    have hf2 := (Steps.queue_sublist env hfree t ht1 (by simp)).subset hf
    have hfl : f ∈ (VideoOutputXv.DiscardFrames_collect env s).1 := by
      rw [hl]
      rcases ht with h | h <;> subst h
      · exact List.mem_append_left _ hf2
      · exact List.mem_append_right _ hf2
    exact hleave f hfl t ht1 ht2 hf (hlk2 f hfl)
  refine ⟨?_, hempty _ (Or.inl rfl), ?_, hempty _ (Or.inr rfl), ?_⟩
  · intro f hf
    have hdisc : f ∈ (VideoOutputXv.DiscardFrames_collect env s).1 ∨
        f ∈ (VideoOutputXv.DiscardFrames_collect env s).2.vbuffers.available := by
      rcases hf with h | h | h
      · rcases hmove .kVideoBuffer_used f h with h2 | h2
        · exact Or.inl (by rw [hl]; exact List.mem_append_left _ h2)
        · exact Or.inr h2
      · rcases hmove .kVideoBuffer_displayed f h with h2 | h2
        · have h3 : f ∈ (VideoOutputXv.DiscardFrames_collect env s).2.vbuffers.displayed := h2
          rw [hd2] at h3
          cases h3
        · exact Or.inr h2
      · rcases hmove .kVideoBuffer_limbo f h with h2 | h2
        · exact Or.inl (by rw [hl]; exact List.mem_append_right _ h2)
        · exact Or.inr h2
    rcases hdisc with h | h
    · exact hav f h
    · exact Steps.avail_mono env hfree f h
  · have := Steps.queue_sublist env hfree .kVideoBuffer_displayed (by simp) (by simp)
    have h2 : (VideoOutputXv.DiscardFrames_collect env s).2.vbuffers.queue
        .kVideoBuffer_displayed = [] := hd2
    rw [h2] at this
    exact List.eq_nil_of_sublist_nil this
  · intro hp
    have hp1 : (VideoOutputXv.DiscardFrames_collect env s).2.vbuffers.queue .kVideoBuffer_pause
        = s.vbuffers.queue .kVideoBuffer_pause := by
      have := Steps.queue_eq env hsw .kVideoBuffer_pause (by simp) (by simp) (by simp)
        (fun f hf => (hp f hf).2.1)
      rw [← hv] at this
      exact this
    have hp2 := Steps.queue_eq env hfree .kVideoBuffer_pause (by simp) (by simp) (by simp)
      (fun f hf hfl => by
        rw [hp1] at hf
        rw [hl] at hfl
        rcases List.mem_append.1 hfl with h | h
        · exact (hp f hf).1 ((hq .kVideoBuffer_used (by simp)).subset h)
        · exact (hp f hf).2.2 ((hq .kVideoBuffer_limbo (by simp)).subset h))
    exact hp2.trans hp1

/-- The amended C5 at Scenario D: the hypotheses hold there and the five frames
end in the available queue while the pause queue keeps its frame. -/
theorem DiscardFrames_scenario_D_witness :
    (∀ f, f ∈ scenarioD.vbuffers.used ∨ f ∈ scenarioD.vbuffers.displayed ∨
        f ∈ scenarioD.vbuffers.limbo →
      f ∈ (VideoOutputXv.DiscardFrames idleEnv true scenarioD).vbuffers.available) ∧
    (VideoOutputXv.DiscardFrames idleEnv true scenarioD).vbuffers.used = [] ∧
    (VideoOutputXv.DiscardFrames idleEnv true scenarioD).vbuffers.displayed = [] ∧
    (VideoOutputXv.DiscardFrames idleEnv true scenarioD).vbuffers.limbo = [] ∧
    ((∀ f ∈ scenarioD.vbuffers.pause,
        f ∉ scenarioD.vbuffers.used ∧ f ∉ scenarioD.vbuffers.displayed ∧
        f ∉ scenarioD.vbuffers.limbo) →
      (VideoOutputXv.DiscardFrames idleEnv true scenarioD).vbuffers.pause
        = scenarioD.vbuffers.pause) :=
  DiscardFrames_scenario_D idleEnv scenarioD (by decide) idleEnv_not_displaying
    (fun _ => rfl) (fun _ _ => rfl)

/-! ## DoneDisplayingFrame -/

/-- In XvMC mode `DiscardFrame(frame)` leaves `frame` without OSD child. -/
theorem DiscardFrame_detaches (env : Env) (s : VideoOutputXv) (f : VideoFrame)
    (hm : s.video_output_subtype.toNat ≥ VOSType.XVideoMC.toNat) :
    (VideoOutputXv.DiscardFrame env (some f) s).vbuffers.osd_child f = none := by
  have hc : (VideoOutputXv.DiscardFrame_check env f s).2.vbuffers.osd_child f = none := by
    cases ho : s.vbuffers.osd_child f with
    | none =>
      cases hp : s.vbuffers.osd_parent f <;>
        by_cases hd : IsDisplaying env (some f) = true <;>
        simp [VideoOutputXv.DiscardFrame_check, hm, ho, hp, hd, VideoBuffers.GetOSDFrame,
          VideoBuffers.GetOSDParent, Call.apply]
    | some o =>
      simp [VideoOutputXv.DiscardFrame_check, hm, ho, VideoBuffers.GetOSDFrame,
        VideoBuffers.GetOSDParent, Call.apply]
  cases hk : keptForLater env s f with
  | true =>
    rw [DiscardFrame_kept env s f hk]
    simp [Call.apply, hc]
  | false =>
    rw [DiscardFrame_not_kept env s f hk]
    simp [Call.apply, hm, hc]

/-- In XvMC mode the second `DiscardFrame` of `DoneDisplayingFrame` is never
reached: the OSD frame is looked up after `DiscardFrame(frame)` has detached
it. -/
theorem DoneDisplayingFrame_XvMC (env : Env) (s : VideoOutputXv) (p : VideoFrame)
    (hm : s.video_output_subtype.toNat > VOSType.XVideo.toNat)
    (hu : s.vbuffers.head .kVideoBuffer_used = some p) :
    VideoOutputXv.DoneDisplayingFrame env s =
      VideoOutputXv.CheckDisplayedFramesForAvailability env
        (VideoOutputXv.DiscardFrame env (some p) s) := by
  have hm1 : ¬ s.video_output_subtype.toNat ≤ VOSType.XVideo.toNat := by omega
  have hm2 : s.video_output_subtype.toNat ≥ VOSType.XVideoMC.toNat := by
    simp only [VOSType.toNat] at hm ⊢
    omega
  have hsz : s.vbuffers.size .kVideoBuffer_used ≠ 0 := by
    simp only [VideoBuffers.size, VideoBuffers.head] at hu ⊢
    cases hq : s.vbuffers.queue .kVideoBuffer_used with
    | nil => simp [hq] at hu
    | cons a l => simp
  simp only [VideoOutputXv.DoneDisplayingFrame, VideoOutputSubType_eq, if_neg hm1, hu]
  rw [if_pos hsz]
  simp [VideoBuffers.GetOSDFrame, DiscardFrame_detaches env s p hm2]

/-- C2. At the failing input (XvMC mode, frame 1 at the head of used with OSD
child 2, nothing displaying) `DoneDisplayingFrame` discards frame 1 to the
available queue, but makes no call at all on the OSD child: frame 2 is neither
locked nor discarded and stays in limbo. -/
theorem DoneDisplayingFrame_skips_osd_child :
    (VideoOutputXv.DoneDisplayingFrame idleEnv osdAttachedState).vbuffers.available = [1] ∧
    (VideoOutputXv.DoneDisplayingFrame idleEnv osdAttachedState).vbuffers.limbo = [2] ∧
    Call.LockFrame 2 ∉ (VideoOutputXv.DoneDisplayingFrame idleEnv osdAttachedState).trace ∧
    Call.DiscardFrame 2 ∉ (VideoOutputXv.DoneDisplayingFrame idleEnv osdAttachedState).trace ∧
    Call.DiscardFrame 1 ∈ (VideoOutputXv.DoneDisplayingFrame idleEnv osdAttachedState).trace := by
  decide

/-! ## GetNextFreeFrame -/

/-- C3. `VideoOutputXv::GetNextFreeFrame(allow_unsafe)` makes exactly one call
on the pool, `vbuffers.GetNextFreeFrame(false, false)`, whatever `allow_unsafe`
is; the frame it returns is the one the pool hands out for that request, which
has passed the lock-safety check; and the call with `allow_unsafe = true` is the
same as the call with `allow_unsafe = false`. -/
theorem GetNextFreeFrame_thin_wrapper (env : Env) (s : VideoOutputXv) ( allow_unsafe : Bool) :
    (VideoOutputXv.GetNextFreeFrame env allow_unsafe s).2.trace =
      s.trace ++ [Call.GetNextFreeFrame false false] ∧
    (VideoOutputXv.GetNextFreeFrame env allow_unsafe s).2.vbuffers =
      s.vbuffers.GetNextFreeFrame false false ∧
    (VideoOutputXv.GetNextFreeFrame env allow_unsafe s).1 = s.vbuffers.nextFree false ∧
    (∀ f, (VideoOutputXv.GetNextFreeFrame env allow_unsafe s).1 = some f →
      s.vbuffers.lockCount f = 0) ∧
    VideoOutputXv.GetNextFreeFrame env true s = VideoOutputXv.GetNextFreeFrame env false s := by
  refine ⟨rfl, rfl, rfl, ?_, rfl⟩
  intro f hf
  have h := List.find?_some (show s.vbuffers.available.find? _ = some f from hf)
  simpa using h

/-- C3 at a concrete state, with `allow_unsafe = true`: the frame handed out is
frame 8, which is not locked, although the locked frame 7 is ahead of it in the
available queue. -/
theorem GetNextFreeFrame_thin_wrapper_witness :
    (VideoOutputXv.GetNextFreeFrame idleEnv true lockedFreeState).1 = some 8 ∧
    lockedFreeState.vbuffers.lockCount 8 = 0 :=
  ⟨by decide, (GetNextFreeFrame_thin_wrapper idleEnv lockedFreeState true).2.2.2.1 8 (by decide)⟩

/-! ## Buffer settings -/

/-- No operation of `XvMCBufferSettings` changes `aggressive`, `min_num_xvmc_surfaces`
or `max_num_xvmc_surfaces`. -/
theorem XvMCBufferSettings.after_fixed (ops : List XvMCBufferSettings.Op) :
    ∀ b : XvMCBufferSettings,
      (ops.foldl (fun b op => op.apply b) b).aggressive = b.aggressive ∧
      (ops.foldl (fun b op => op.apply b) b).min_num_xvmc_surfaces = b.min_num_xvmc_surfaces ∧
      (ops.foldl (fun b op => op.apply b) b).max_num_xvmc_surfaces = b.max_num_xvmc_surfaces := by
  induction ops with
  | nil => intro b; exact ⟨rfl, rfl, rfl⟩
  | cons op ops ih =>
    intro b
    simp only [List.foldl_cons]
    obtain ⟨h1, h2, h3⟩ := ih (op.apply b)
    cases op <;> exact ⟨h1, h2, h3⟩

/-- Without the aggressive flag the reclaim sweep is its last two parts. -/
theorem CheckDisplayedFramesForAvailability_default (env : Env) (s : VideoOutputXv)
    (h : s.xvmc_buf_attr.IsAggressive = false) :
    VideoOutputXv.CheckDisplayedFramesForAvailability env s =
      VideoOutputXv.sweepDisplayed env (VideoOutputXv.removeDisplayedInheritence env s) := by
  unfold VideoOutputXv.CheckDisplayedFramesForAvailability
  simp [h]

/-- C19, as stated, fails: no sequence of operations on a freshly constructed
`XvMCBufferSettings` leads to a state in which `IsAggressive()` returns true. -/
theorem XvMCBufferSettings_aggressive_unreachable :
    ¬ ∃ ops : List XvMCBufferSettings.Op,
      (XvMCBufferSettings.after ops).IsAggressive = true := by
  rintro ⟨ops, h⟩
  have h1 := (XvMCBufferSettings.after_fixed ops XvMCBufferSettings.new).1
  unfold XvMCBufferSettings.after XvMCBufferSettings.IsAggressive at h
  rw [h1] at h
  exact absurd h (by decide)

/-- C19, amended.  The buffer settings have no aggressive-reclaim knob: in every
state reached from the constructor through `SetOSDNum` and `SetNumSurf`,
`IsAggressive()` returns false, the surface bounds are 8 and 16 and the number of
surfaces lies between them; a video output with such settings never runs the
aggressive branch of `CheckDisplayedFramesForAvailability`. -/
theorem XvMCBufferSettings_no_aggressive_knob (ops : List XvMCBufferSettings.Op) (env : Env)
    (s : VideoOutputXv) (hs : s.xvmc_buf_attr = XvMCBufferSettings.after ops) :
    (XvMCBufferSettings.after ops).IsAggressive = false ∧
    (XvMCBufferSettings.after ops).GetMinSurf = 8 ∧
    (XvMCBufferSettings.after ops).GetMaxSurf = 16 ∧
    (XvMCBufferSettings.after ops).GetMinSurf ≤ (XvMCBufferSettings.after ops).GetNumSurf ∧
    (XvMCBufferSettings.after ops).GetNumSurf ≤ (XvMCBufferSettings.after ops).GetMaxSurf ∧
    VideoOutputXv.CheckDisplayedFramesForAvailability env s =
      VideoOutputXv.sweepDisplayed env (VideoOutputXv.removeDisplayedInheritence env s) := by
  have hfix := XvMCBufferSettings.after_fixed ops XvMCBufferSettings.new
  have hagg : (XvMCBufferSettings.after ops).IsAggressive = false := hfix.1
  have hmin : (XvMCBufferSettings.after ops).GetMinSurf = 8 := hfix.2.1
  have hmax : (XvMCBufferSettings.after ops).GetMaxSurf = 16 := hfix.2.2
  have hnum : ∀ (l : List XvMCBufferSettings.Op) (b : XvMCBufferSettings),
      b.min_num_xvmc_surfaces = 8 → b.max_num_xvmc_surfaces = 16 →
      8 ≤ b.num_xvmc_surfaces → b.num_xvmc_surfaces ≤ 16 →
      8 ≤ (l.foldl (fun b op => op.apply b) b).num_xvmc_surfaces ∧
      (l.foldl (fun b op => op.apply b) b).num_xvmc_surfaces ≤ 16 := by
    intro l
    induction l with
    | nil => intro b _ _ h3 h4; exact ⟨h3, h4⟩
    | cons op l ih =>
      intro b h1 h2 h3 h4
      simp only [List.foldl_cons]
      cases op with
      | SetOSDNum val => exact ih _ h1 h2 h3 h4
      | SetNumSurf val =>
        refine ih _ h1 h2 ?_ ?_
        · simp only [XvMCBufferSettings.Op.apply, XvMCBufferSettings.SetNumSurf, h1, h2]
          omega
        · simp only [XvMCBufferSettings.Op.apply, XvMCBufferSettings.SetNumSurf, h1, h2]
          omega
  obtain ⟨h8, h16⟩ := hnum ops XvMCBufferSettings.new rfl rfl (by decide) (by decide)
  refine ⟨hagg, hmin, hmax, ?_, ?_, ?_⟩
  · rw [hmin]; exact h8
  · rw [hmax]; exact h16
  · exact CheckDisplayedFramesForAvailability_default env s (by rw [hs]; exact hagg)

/-- C19, amended, at a configured output: after `SetOSDNum(2)` and
`SetNumSurf(12)` the settings are not aggressive. -/
theorem XvMCBufferSettings_no_aggressive_knob_witness :
    configuredOutput.xvmc_buf_attr = XvMCBufferSettings.after [.SetOSDNum 2, .SetNumSurf 12] ∧
    (XvMCBufferSettings.after [.SetOSDNum 2, .SetNumSurf 12]).IsAggressive = false ∧
    (XvMCBufferSettings.after [.SetOSDNum 2, .SetNumSurf 12]).GetNumSurf = 12 ∧
    VideoOutputXv.CheckDisplayedFramesForAvailability idleEnv configuredOutput =
      VideoOutputXv.sweepDisplayed idleEnv
        (VideoOutputXv.removeDisplayedInheritence idleEnv configuredOutput) :=
  ⟨rfl, (XvMCBufferSettings_no_aggressive_knob [.SetOSDNum 2, .SetNumSurf 12] idleEnv
      configuredOutput rfl).1, by decide,
    (XvMCBufferSettings_no_aggressive_knob [.SetOSDNum 2, .SetNumSurf 12] idleEnv
      configuredOutput rfl).2.2.2.2.2⟩

/-! ## Surface status -/

/-- The function `IsDisplaying` returns true exactly when the frame has a render
state with display and surface, the status query succeeds and the displaying bit
is set. -/
theorem IsDisplaying_eq_true_iff (env : Env) (frame : Option VideoFrame) :
    IsDisplaying env frame = true ↔
      ∃ (f : VideoFrame) (r : xvmc_render_state_t) (disp surf : Nat),
        frame = some f ∧ env.render f = some r ∧ r.disp = some disp ∧ r.p_surface = some surf ∧
        (env.XvMCGetSurfaceStatus disp surf).1 = Success ∧
        (env.XvMCGetSurfaceStatus disp surf).2 &&& XVMC_DISPLAYING ≠ 0 := by
  cases frame with
  | none => simp [IsDisplaying, GetRender]
  | some f =>
    cases hr : env.render f with
    | none => simp [IsDisplaying, GetRender, hr]
    | some r =>
      cases hd : r.disp with
      | none => simp [IsDisplaying, GetRender, hr, surfaceStatus, hd, Success]
      | some disp =>
        cases hp : r.p_surface with
        | none => simp [IsDisplaying, GetRender, hr, surfaceStatus, hd, hp, Success]
        | some surf =>
          simp only [IsDisplaying, GetRender, hr, surfaceStatus, hd, hp]
          constructor
          · intro h
            split at h
            · rename_i hres
              exact ⟨f, r, disp, surf, rfl, hr, hd, hp, hres.symm, of_decide_eq_true h⟩
            · cases h
          · rintro ⟨f2, r2, d2, s2, hf, hr2, hd2, hp2, hres, hbit⟩
            cases hf
            rw [hr] at hr2
            cases hr2
            rw [hd] at hd2
            rw [hp] at hp2
            cases hd2
            cases hp2
            rw [if_pos hres.symm]
            exact decide_eq_true hbit

/-- The function `IsRendering` returns true exactly when the frame has a render
state with display and surface, the status query succeeds and the rendering bit
is set. -/
theorem IsRendering_eq_true_iff (env : Env) (frame : Option VideoFrame) :
    IsRendering env frame = true ↔
      ∃ (f : VideoFrame) (r : xvmc_render_state_t) (disp surf : Nat),
        frame = some f ∧ env.render f = some r ∧ r.disp = some disp ∧ r.p_surface = some surf ∧
        (env.XvMCGetSurfaceStatus disp surf).1 = Success ∧
        (env.XvMCGetSurfaceStatus disp surf).2 &&& XVMC_RENDERING ≠ 0 := by
  cases frame with
  | none => simp [IsRendering, GetRender]
  | some f =>
    cases hr : env.render f with
    | none => simp [IsRendering, GetRender, hr]
    | some r =>
      cases hd : r.disp with
      | none => simp [IsRendering, GetRender, hr, surfaceStatus, hd, Success]
      | some disp =>
        cases hp : r.p_surface with
        | none => simp [IsRendering, GetRender, hr, surfaceStatus, hd, hp, Success]
        | some surf =>
          simp only [IsRendering, GetRender, hr, surfaceStatus, hd, hp]
          constructor
          · intro h
            split at h
            · rename_i hres
              exact ⟨f, r, disp, surf, rfl, hr, hd, hp, hres.symm, of_decide_eq_true h⟩
            · cases h
          · rintro ⟨f2, r2, d2, s2, hf, hr2, hd2, hp2, hres, hbit⟩
            cases hf
            rw [hr] at hr2
            cases hr2
            rw [hd] at hd2
            rw [hp] at hp2
            cases hd2
            cases hp2
            rw [if_pos hres.symm]
            exact decide_eq_true hbit

/-- A frame that is not kept for later and is not locked is in the available
queue after `DiscardFrame`, and the calls end with the hand-over to the pool. -/
theorem DiscardFrame_discards (env : Env) (s : VideoOutputXv) (f : VideoFrame)
    (hk : keptForLater env s f = false) :
    (∃ pre : List Call, (VideoOutputXv.DiscardFrame env (some f) s).trace =
      s.trace ++ pre ++ [Call.LockFrame f, Call.UnlockFrame (some f),
        Call.RemoveInheritence f, Call.DiscardFrame f]) ∧
    (s.vbuffers.lockCount f = 0 →
      f ∈ (VideoOutputXv.DiscardFrame env (some f) s).vbuffers.available) := by
  constructor
  · obtain ⟨pre, -, htr, -⟩ := DiscardFrame_check_spec env s f
    refine ⟨pre, ?_⟩
    rw [DiscardFrame_not_kept env s f hk]
    by_cases hm : s.video_output_subtype.toNat ≥ VOSType.XVideoMC.toNat <;> simp [hm, htr]
  · intro hl
    have hq := DiscardFrame_queue env s f .kVideoBuffer_avail
    rw [hk, if_neg (by simp), if_pos hl, safeEnqueue_queue, if_pos rfl] at hq
    have : f ∈ (VideoOutputXv.DiscardFrame env (some f) s).vbuffers.queue
        .kVideoBuffer_avail := by
      rw [hq]
      simp
    exact this

/-- C18. `IsDisplaying(frame)` returns true if and only if the frame has a render
state with non-null display and surface, the status query returns `Success` and
the `XVMC_DISPLAYING` bit is set in the returned status; `IsRendering` is the
same for the `XVMC_RENDERING` bit.  For a null frame and for a failed query both
return false.  A frame for which `IsDisplaying` returns false is treated by
`DiscardFrame` as not displaying: unless its OSD frame is reported displaying or
it has children, the calls of `DiscardFrame` end with the hand-over to the pool
(`vbuffers.DiscardFrame`), which puts an unlocked frame into the available
queue. -/
theorem IsDisplaying_status_failure (env : Env) (s : VideoOutputXv)
    (frame : Option VideoFrame) :
    (IsDisplaying env frame = true ↔
      ∃ (f : VideoFrame) (r : xvmc_render_state_t) (disp surf : Nat),
        frame = some f ∧ env.render f = some r ∧ r.disp = some disp ∧ r.p_surface = some surf ∧
        (env.XvMCGetSurfaceStatus disp surf).1 = Success ∧
        (env.XvMCGetSurfaceStatus disp surf).2 &&& XVMC_DISPLAYING ≠ 0) ∧
    (IsRendering env frame = true ↔
      ∃ (f : VideoFrame) (r : xvmc_render_state_t) (disp surf : Nat),
        frame = some f ∧ env.render f = some r ∧ r.disp = some disp ∧ r.p_surface = some surf ∧
        (env.XvMCGetSurfaceStatus disp surf).1 = Success ∧
        (env.XvMCGetSurfaceStatus disp surf).2 &&& XVMC_RENDERING ≠ 0) ∧
    IsDisplaying env none = false ∧ IsRendering env none = false ∧
    (∀ (f : VideoFrame) (r : xvmc_render_state_t) (disp surf : Nat),
      env.render f = some r → r.disp = some disp → r.p_surface = some surf →
      (env.XvMCGetSurfaceStatus disp surf).1 ≠ Success →
      IsDisplaying env (some f) = false ∧ IsRendering env (some f) = false) ∧
    (∀ f : VideoFrame, frame = some f → IsDisplaying env frame = false →
      IsDisplaying env (s.vbuffers.GetOSDFrame frame) = false →
      s.vbuffers.HasChildren f = false →
      (∃ pre : List Call, (VideoOutputXv.DiscardFrame env frame s).trace =
        s.trace ++ pre ++ [Call.LockFrame f, Call.UnlockFrame (some f),
          Call.RemoveInheritence f, Call.DiscardFrame f]) ∧
      (s.vbuffers.lockCount f = 0 →
        f ∈ (VideoOutputXv.DiscardFrame env frame s).vbuffers.available)) := by
  refine ⟨IsDisplaying_eq_true_iff env frame, IsRendering_eq_true_iff env frame, rfl, rfl,
    ?_, ?_⟩
  · intro f r disp surf hr hd hp hres
    constructor
    · cases h : IsDisplaying env (some f) with
      | false => rfl
      | true =>
        obtain ⟨f2, r2, d2, s2, hf, hr2, hd2, hp2, hres2, -⟩ :=
          (IsDisplaying_eq_true_iff env (some f)).1 h
        cases hf
        rw [hr] at hr2
        cases hr2
        rw [hd] at hd2
        rw [hp] at hp2
        cases hd2
        cases hp2
        exact absurd hres2 hres
    · cases h : IsRendering env (some f) with
      | false => rfl
      | true =>
        obtain ⟨f2, r2, d2, s2, hf, hr2, hd2, hp2, hres2, -⟩ :=
          (IsRendering_eq_true_iff env (some f)).1 h
        cases hf
        rw [hr] at hr2
        cases hr2
        rw [hd] at hd2
        rw [hp] at hp2
        cases hd2
        cases hp2
        exact absurd hres2 hres
  · intro f hf hd ho hc
    subst hf
    have hk : keptForLater env s f = false := by
      simp [keptForLater, hd, ho, hc]
    exact DiscardFrame_discards env s f hk

/-- C18 at a failing back-end: every status query fails with both status bits
set, `IsDisplaying` and `IsRendering` return false, and `DiscardFrame` puts
frame 1 into the available queue. -/
theorem IsDisplaying_status_failure_witness :
    (failingStatusEnv.XvMCGetSurfaceStatus 1 1).1 ≠ Success ∧
    (failingStatusEnv.XvMCGetSurfaceStatus 1 1).2 &&& XVMC_DISPLAYING ≠ 0 ∧
    IsDisplaying failingStatusEnv (some 1) = false ∧
    IsRendering failingStatusEnv (some 1) = false ∧
    1 ∈ (VideoOutputXv.DiscardFrame failingStatusEnv (some 1) scenarioC_XvMC).vbuffers.available :=
  ⟨by decide, by decide,
    ((IsDisplaying_status_failure failingStatusEnv scenarioC_XvMC (some 1)).2.2.2.2.1 1
      { disp := some 1, p_surface := some 1 } 1 1 rfl rfl rfl (by decide)).1,
    ((IsDisplaying_status_failure failingStatusEnv scenarioC_XvMC (some 1)).2.2.2.2.1 1
      { disp := some 1, p_surface := some 1 } 1 1 rfl rfl rfl (by decide)).2,
    ((IsDisplaying_status_failure failingStatusEnv scenarioC_XvMC (some 1)).2.2.2.2.2 1 rfl
      (by decide) (by decide) (by decide)).2 (by decide)⟩

/-! ## Scenario B -/

/-- A frame of the displayed queue that is reported not displaying and has no
children is in the available queue after the reclaim sweep, whatever its lock
count. -/
theorem CheckDisplayedFramesForAvailability_reclaims (env : Env) (s : VideoOutputXv)
    (f : VideoFrame) (hf : f ∈ s.vbuffers.displayed)
    (hd : IsDisplaying env (some f) = false) (hc : s.vbuffers.HasChildren f = false) :
    f ∈ (VideoOutputXv.CheckDisplayedFramesForAvailability env s).vbuffers.available := by
  have hst := CheckDisplayedFramesForAvailability_steps env s
  rcases Steps.mem_or_avail env hst .kVideoBuffer_displayed f hf with h | h
  · exfalso
    rcases CheckDisplayedFramesForAvailability_fixpoint env s f h with h1 | h1
    · rw [hd] at h1
      cases h1
    · have hsub := Steps.children_sublist env hst f
      have hnil : s.vbuffers.children f = [] := by
        simpa [VideoBuffers.HasChildren] using hc
      rw [hnil] at hsub
      have := List.eq_nil_of_sublist_nil hsub
      simp [VideoBuffers.HasChildren, this] at h1
  · exact h

/-- C11, as stated, fails.  In XvMC mode frame 1 is the head of used with the
attached OSD child 2; the back-end reports frame 2 as displaying and frame 1 as
not displaying, and frame 1 has no inheritance children.  After
`DoneDisplayingFrame` frame 1 is in the available queue, while frame 2 is still
reported displaying and still in the displayed queue. -/
theorem DoneDisplayingFrame_scenario_B_frees_parent :
    scenarioB.video_output_subtype.toNat > VOSType.XVideo.toNat ∧
    scenarioB.vbuffers.head .kVideoBuffer_used = some 1 ∧
    scenarioB.vbuffers.GetOSDFrame (some 1) = some 2 ∧
    IsDisplaying childDisplayingEnv (some 2) = true ∧
    IsDisplaying childDisplayingEnv (some 1) = false ∧
    scenarioB.vbuffers.HasChildren 1 = false ∧
    ¬ (1 ∉ (VideoOutputXv.DoneDisplayingFrame childDisplayingEnv scenarioB).vbuffers.available) ∧
    2 ∈ (VideoOutputXv.DoneDisplayingFrame childDisplayingEnv scenarioB).vbuffers.displayed := by
  decide

/-- C11, amended.  In XvMC mode, let `p` be the head of used with attached OSD child `c`,
where the back-end reports `c` as displaying and `p` as not displaying and `p`
has no inheritance children.  `DiscardFrame(p)` keeps `p` in the displayed queue
because `c` is displaying, but it also detaches `c`; the reclaim sweep at the end
of `DoneDisplayingFrame` looks at the status of `p` only, so that `p` is in the
available queue when `DoneDisplayingFrame` returns, although `c` is still
displaying. -/
theorem DoneDisplayingFrame_scenario_B (env : Env) (s : VideoOutputXv) (p c : VideoFrame)
    (hm : s.video_output_subtype.toNat > VOSType.XVideo.toNat)
    (hu : s.vbuffers.head .kVideoBuffer_used = some p)
    (hosd : s.vbuffers.GetOSDFrame (some p) = some c)
    (hcd : IsDisplaying env (some c) = true)
    (hpd : IsDisplaying env (some p) = false)
    (hch : s.vbuffers.HasChildren p = false) :
    keptForLater env s p = true ∧
    p ∈ (VideoOutputXv.DiscardFrame env (some p) s).vbuffers.displayed ∧
    (VideoOutputXv.DiscardFrame env (some p) s).vbuffers.GetOSDFrame (some p) = none ∧
    p ∈ (VideoOutputXv.DoneDisplayingFrame env s).vbuffers.available := by
  have hm2 : s.video_output_subtype.toNat ≥ VOSType.XVideoMC.toNat := by
    simp only [VOSType.toNat] at hm ⊢
    omega
  have hk : keptForLater env s p = true := by
    simp [keptForLater, hm2, hosd, hcd]
  have hdisp : p ∈ (VideoOutputXv.DiscardFrame env (some p) s).vbuffers.displayed := by
    rw [DiscardFrame_kept env s p hk]
    simp [Call.apply, VideoBuffers.safeEnqueue, VideoBuffers.enqueue, VideoBuffers.setQueue,
      VideoBuffers.queue]
  have hchild : (VideoOutputXv.DiscardFrame env (some p) s).vbuffers.HasChildren p = false := by
    obtain ⟨pre, -, -, -, h2, -⟩ := DiscardFrame_check_spec env s p
    rw [DiscardFrame_kept env s p hk]
    simpa [VideoBuffers.HasChildren, Call.apply, h2] using hch
  refine ⟨hk, hdisp, DiscardFrame_detaches env s p hm2, ?_⟩
  rw [DoneDisplayingFrame_XvMC env s p hm hu]
  exact CheckDisplayedFramesForAvailability_reclaims env _ p hdisp hpd hchild

/-- C11, amended, at Scenario B: frame 1 is the head of used, its OSD child 2 is
reported displaying, and `DoneDisplayingFrame` puts frame 1 into the available
queue while frame 2 stays in the displayed queue. -/
theorem DoneDisplayingFrame_scenario_B_witness :
    IsDisplaying childDisplayingEnv (some 2) = true ∧
    (VideoOutputXv.DoneDisplayingFrame childDisplayingEnv scenarioB).vbuffers.displayed = [2] ∧
    (VideoOutputXv.DoneDisplayingFrame childDisplayingEnv scenarioB).vbuffers.available = [1] ∧
    1 ∈ (VideoOutputXv.DoneDisplayingFrame childDisplayingEnv scenarioB).vbuffers.available :=
  ⟨by decide, by decide, by decide,
    (DoneDisplayingFrame_scenario_B childDisplayingEnv scenarioB 1 2 (by decide) (by decide)
      (by decide) (by decide) (by decide) (by decide)).2.2.2⟩

/-! ## ShowXvMC when the OSD frame cannot be locked -/

/-- The step of `ShowXvMC` that tries to lock the OSD frame, when the lock
cannot be taken: the OSD frame is queued for later discarding and is not
shown. -/
theorem ShowXvMC_lockOSD_fail (env : Env) (frame o : VideoFrame) (s : VideoOutputXv)
    (hosd : s.vbuffers.GetOSDFrame (some frame) = some o) (hfail : env.TryLockFrame o = false) :
    VideoOutputXv.ShowXvMC_lockOSD env frame s =
      (none, (s.vcall env (Call.TryLockFrame o false)).vcall env
        (Call.safeEnqueue .kVideoBuffer_displayed (some o))) := by
  unfold VideoOutputXv.ShowXvMC_lockOSD
  rw [hosd]
  simp [hfail]

/-- Unfolding of `ShowXvMC` when a frame is selected whose OSD frame cannot be
locked. -/
theorem ShowXvMC_fail_eq (env : Env) (s : VideoOutputXv) (frame o : VideoFrame) (u : Bool)
    (hsel : VideoOutputXv.ShowXvMC_select s = (some frame, u))
    (hosd : s.vbuffers.GetOSDFrame (some frame) = some o)
    (hfail : env.TryLockFrame o = false) :
    VideoOutputXv.ShowXvMC env s =
      (((VideoOutputXv.CheckDisplayedFramesForAvailability env
        (if !u then VideoOutputXv.discardPause env
            (((((((s.vcall env (Call.begin_lock .kVideoBuffer_pause)).vcall env
              Call.end_lock).vcall env (Call.LockFrame frame)).vcall env
              (Call.TryLockFrame o false)).vcall env
              (Call.safeEnqueue .kVideoBuffer_displayed (some o))).vcall env
              (Call.XvMCPutSurface (VideoOutputXv.showingSurface env frame
                none))).vbuffers.size .kVideoBuffer_pause)
            ((((((s.vcall env (Call.begin_lock .kVideoBuffer_pause)).vcall env
              Call.end_lock).vcall env (Call.LockFrame frame)).vcall env
              (Call.TryLockFrame o false)).vcall env
              (Call.safeEnqueue .kVideoBuffer_displayed (some o))).vcall env
              (Call.XvMCPutSurface (VideoOutputXv.showingSurface env frame none)))
          else ((((((s.vcall env (Call.begin_lock .kVideoBuffer_pause)).vcall env
              Call.end_lock).vcall env (Call.LockFrame frame)).vcall env
              (Call.TryLockFrame o false)).vcall env
              (Call.safeEnqueue .kVideoBuffer_displayed (some o))).vcall env
              (Call.XvMCPutSurface (VideoOutputXv.showingSurface env frame none))))).vcall env
        (Call.UnlockFrame none)).vcall env (Call.UnlockFrame (some frame))).vcall env
        (Call.safeEnqueue .kVideoBuffer_displayed none) := by
  have hsel2 : VideoOutputXv.ShowXvMC_select (s.vcall env (Call.begin_lock .kVideoBuffer_pause))
      = (some frame, u) := hsel
  have hosd2 : (((s.vcall env (Call.begin_lock .kVideoBuffer_pause)).vcall env
      Call.end_lock).vcall env (Call.LockFrame frame)).vbuffers.GetOSDFrame (some frame)
      = some o := hosd
  unfold VideoOutputXv.ShowXvMC
  simp only [hsel2]
  unfold VideoOutputXv.ShowXvMC_show
  simp only [ShowXvMC_lockOSD_fail env frame o _ hosd2 hfail]

/-- The calls of `ShowXvMC` when the frame it selects has an OSD child `o` and
`TryLockFrame(o)` fails: the selection under the queue lock, `LockFrame(frame)`,
the failed `TryLockFrame(o)`, `safeEnqueue(kVideoBuffer_displayed, o)`, after
which `o` is in the displayed queue, `XvMCPutSurface` on the surface of the
primary frame itself, then calls that present nothing, and finally
`UnlockFrame(NULL)`, `UnlockFrame(frame)` and the `safeEnqueue` of a null OSD
frame.  Every lock count is the same at return as at entry. -/
theorem ShowXvMC_fail_trace (env : Env) (s : VideoOutputXv) (frame o : VideoFrame)
    (u : Bool) (hsel : VideoOutputXv.ShowXvMC_select s = (some frame, u))
    (hosd : s.vbuffers.GetOSDFrame (some frame) = some o)
    (hfail : env.TryLockFrame o = false) :
    ∃ rest : List Call,
      (VideoOutputXv.ShowXvMC env s).trace = s.trace ++
        [Call.begin_lock .kVideoBuffer_pause, Call.end_lock, Call.LockFrame frame,
          Call.TryLockFrame o false, Call.safeEnqueue .kVideoBuffer_displayed (some o),
          Call.XvMCPutSurface ((GetRender env (some frame)).bind (fun r => r.p_surface))] ++
        rest ++
        [Call.UnlockFrame none, Call.UnlockFrame (some frame),
          Call.safeEnqueue .kVideoBuffer_displayed none] ∧
      (∀ c ∈ rest, c.isPut = false) ∧
      o ∈ (runCalls env [Call.begin_lock .kVideoBuffer_pause, Call.end_lock,
        Call.LockFrame frame, Call.TryLockFrame o false,
        Call.safeEnqueue .kVideoBuffer_displayed (some o)] s.vbuffers).displayed ∧
      (VideoOutputXv.ShowXvMC env s).vbuffers.lockCount = s.vbuffers.lockCount := by
  have hpost : ∀ σ : VideoOutputXv, Steps env (fun c => c.isPut = false) σ
      (VideoOutputXv.CheckDisplayedFramesForAvailability env
        (if !u then VideoOutputXv.discardPause env (σ.vbuffers.size .kVideoBuffer_pause) σ
          else σ)) := by
    intro σ
    refine Steps.trans env ?_ ((CheckDisplayedFramesForAvailability_steps env _).mono env
      (within_not_isPut _ _ _))
    cases u with
    | true => exact Steps.refl env _ _
    | false =>
      exact (discardPause_steps env σ.vbuffers.pause _ σ (fun _ h => h)).mono env
        (within_not_isPut _ _ _)
  have hlock : ∀ σ : VideoOutputXv,
      (VideoOutputXv.CheckDisplayedFramesForAvailability env
        (if !u then VideoOutputXv.discardPause env (σ.vbuffers.size .kVideoBuffer_pause) σ
          else σ)).vbuffers.lockCount = σ.vbuffers.lockCount := by
    intro σ
    rw [CheckDisplayedFramesForAvailability_lockCount]
    split
    · exact discardPause_lockCount env _ σ
    · rfl
  rw [ShowXvMC_fail_eq env s frame o u hsel hosd hfail]
  obtain ⟨-, -, rest, htr, -, hP⟩ := hpost
    ((((((s.vcall env (Call.begin_lock .kVideoBuffer_pause)).vcall env
      Call.end_lock).vcall env (Call.LockFrame frame)).vcall env
      (Call.TryLockFrame o false)).vcall env
      (Call.safeEnqueue .kVideoBuffer_displayed (some o))).vcall env
      (Call.XvMCPutSurface (VideoOutputXv.showingSurface env frame none)))
  refine ⟨rest, ?_, hP, ?_, ?_⟩
  · simp only [vcall_trace, htr]
    simp [VideoOutputXv.showingSurface]
  · simp [runCalls, Call.apply, VideoBuffers.safeEnqueue, VideoBuffers.enqueue,
      VideoBuffers.setQueue, VideoBuffers.queue]
  · have htail : ∀ σ : VideoOutputXv,
        ((((VideoOutputXv.CheckDisplayedFramesForAvailability env
          (if !u then VideoOutputXv.discardPause env (σ.vbuffers.size .kVideoBuffer_pause) σ
            else σ)).vcall env (Call.UnlockFrame none)).vcall env
          (Call.UnlockFrame (some frame))).vcall env
          (Call.safeEnqueue .kVideoBuffer_displayed none)).vbuffers.lockCount
        = (σ.vbuffers.UnlockFrame (some frame)).lockCount := by
      intro σ
      funext g
      simp only [vcall_vbuffers, Call.apply, UnlockFrame_none_lockCount, safeEnqueue_none,
        UnlockFrame_some_lockCount, VideoBuffers.UnlockFrame, hlock]
    rw [htail]
    funext g
    by_cases hg : g = frame <;> simp [hg, Call.apply]

/-! ## Lock discipline along call traces -/

section Traces

variable (env : Env)

theorem lockScan_append (aggr : Bool) (l1 l2 : List Call) :
    ∀ st : LockState, lockScan aggr st (l1 ++ l2) =
      (lockScan aggr st l1).bind (fun st2 => lockScan aggr st2 l2) := by
  induction l1 with
  | nil => intro st; rfl
  | cons c l ih =>
    intro st
    simp only [List.cons_append, lockScan]
    cases c.lockStep aggr st with
    | none => rfl
    | some st2 =>
      simp only [Option.some_bind]
      exact ih st2

theorem Traced.nil (aggr : Bool) (P : Call → Prop) (d : Nat) (a : List VideoFrame)
    (s : VideoOutputXv) : Traced env aggr P d a d a s s :=
  ⟨rfl, rfl, [], by simp, rfl, fun _ h => absurd h (by simp), fun _ => rfl⟩

theorem Traced.seq {aggr : Bool} {P : Call → Prop} {d1 d2 d3 : Nat}
    {a1 a2 a3 : List VideoFrame} {s1 s2 s3 : VideoOutputXv}
    (h12 : Traced env aggr P d1 a1 d2 a2 s1 s2) (h23 : Traced env aggr P d2 a2 d3 a3 s2 s3) :
    Traced env aggr P d1 a1 d3 a3 s1 s3 := by
  obtain ⟨u1, b1, l1, t1, v1, p1, k1⟩ := h12
  obtain ⟨u2, b2, l2, t2, v2, p2, k2⟩ := h23
  refine ⟨u2.trans u1, b2.trans b1, l1 ++ l2, ?_, ?_, ?_, ?_⟩
  · rw [t2, t1, List.append_assoc]
  · rw [v2, v1, runCalls_append]
  · intro c hc
    rcases List.mem_append.1 hc with h | h
    · exact p1 c h
    · exact p2 c h
  · intro h
    rw [lockScan_append, k1 h, Option.some_bind, k2 h]

theorem Traced.weaken {aggr : Bool} {P Q : Call → Prop} {d1 d2 : Nat} {a1 a2 : List VideoFrame}
    {s1 s2 : VideoOutputXv} (h : Traced env aggr P d1 a1 d2 a2 s1 s2) (hPQ : ∀ c, P c → Q c) :
    Traced env aggr Q d1 a1 d2 a2 s1 s2 := by
  obtain ⟨u, b, l, t, v, p, k⟩ := h
  exact ⟨u, b, l, t, v, fun c hc => hPQ c (p c hc), k⟩

/-- Locks held before and not touched can be added on both sides. -/
theorem Traced.frame {aggr : Bool} {P : Call → Prop} {d1 d2 : Nat} {a1 a2 : List VideoFrame}
    {s1 s2 : VideoOutputXv} (h : Traced env aggr P d1 a1 d2 a2 s1 s2) (b : List VideoFrame) :
    Traced env aggr P d1 (a1 ++ b) d2 (a2 ++ b) s1 s2 := by
  obtain ⟨u, b0, l, t, v, p, k⟩ := h
  refine ⟨u, b0, l, t, v, p, fun h => ?_⟩
  rw [List.append_assoc, List.append_assoc]
  exact k (b ++ h)

theorem Traced.call {aggr : Bool} {P : Call → Prop} {d1 d2 : Nat} {a1 a2 : List VideoFrame}
    (s : VideoOutputXv) (c : Call) (hP : P c)
    (hstep : ∀ h : List VideoFrame, c.lockStep aggr { depth := d1, held := a1 ++ h } =
      some { depth := d2, held := a2 ++ h }) :
    Traced env aggr P d1 a1 d2 a2 s (s.vcall env c) := by
  refine ⟨rfl, rfl, [c], rfl, rfl, ?_, fun h => ?_⟩
  · intro c2 hc2
    rw [List.mem_singleton.1 hc2]
    exact hP
  · simp only [lockScan, hstep h, Option.some_bind]

/-- A call that neither takes nor releases a lock. -/
theorem Traced.plain {aggr : Bool} {P : Call → Prop} {d : Nat} {a : List VideoFrame}
    (s : VideoOutputXv) (c : Call) (hP : P c)
    (hc : ∀ st : LockState, c.lockStep aggr st = some st) :
    Traced env aggr P d a d a s (s.vcall env c) :=
  Traced.call env s c hP (fun _ => hc _)

theorem Traced.lock {aggr : Bool} {P : Call → Prop} {d : Nat} {a : List VideoFrame}
    (s : VideoOutputXv) (f : VideoFrame) (hP : P (Call.LockFrame f))
    (hd : d = 0 ∨ aggr = true) :
    Traced env aggr P d a d (f :: a) s (s.vcall env (Call.LockFrame f)) :=
  Traced.call env s _ hP (fun h => by simp [Call.lockStep, hd])

theorem Traced.unlock {aggr : Bool} {P : Call → Prop} {d : Nat} {a : List VideoFrame}
    (s : VideoOutputXv) (f : VideoFrame) (hP : P (Call.UnlockFrame (some f))) :
    Traced env aggr P d (f :: a) d a s (s.vcall env (Call.UnlockFrame (some f))) :=
  Traced.call env s _ hP (fun h => by simp [Call.lockStep])

theorem Traced.trylock {aggr : Bool} {P : Call → Prop} {d : Nat} {a : List VideoFrame}
    (s : VideoOutputXv) (f : VideoFrame) (ok : Bool) (hP : P (Call.TryLockFrame f ok)) :
    Traced env aggr P d a d (if ok then f :: a else a) s
      (s.vcall env (Call.TryLockFrame f ok)) :=
  Traced.call env s _ hP (fun h => by cases ok <;> simp [Call.lockStep])

theorem Traced.begin_lock {aggr : Bool} {P : Call → Prop} {d : Nat} {a : List VideoFrame}
    (s : VideoOutputXv) (t : BufferType) (hP : P (Call.begin_lock t)) :
    Traced env aggr P d a (d + 1) a s (s.vcall env (Call.begin_lock t)) :=
  Traced.call env s _ hP (fun h => by simp [Call.lockStep])

theorem Traced.end_lock {aggr : Bool} {P : Call → Prop} {d : Nat} {a : List VideoFrame}
    (s : VideoOutputXv) (hP : P Call.end_lock) :
    Traced env aggr P (d + 1) a d a s (s.vcall env Call.end_lock) :=
  Traced.call env s _ hP (fun h => by simp [Call.lockStep])

theorem Traced.afterClear (aggr : Bool) (P : Call → Prop) (d : Nat) (a : List VideoFrame)
    (s : VideoOutputXv) (f : VideoFrame) : Traced env aggr P d a d a s (s.clearPastFuture f) :=
  ⟨rfl, rfl, [], by simp, rfl, fun _ h => absurd h (by simp), fun _ => rfl⟩

/-- A loop over a local list whose body keeps the lock discipline keeps it. -/
theorem Traced.loop {α : Type} {aggr : Bool} {P : Call → Prop} {d : Nat} {a : List VideoFrame}
    (step : VideoOutputXv → α → VideoOutputXv) (l : List α) :
    ∀ s : VideoOutputXv, (∀ s2 x, x ∈ l → Traced env aggr P d a d a s2 (step s2 x)) →
      Traced env aggr P d a d a s (l.foldl step s) := by
  induction l with
  | nil => intro s _; exact Traced.nil env _ _ _ _ _
  | cons x l ih =>
    intro s h
    simp only [List.foldl_cons]
    exact Traced.seq env (h s x (List.mem_cons_self _ _))
      (ih _ (fun s2 y hy => h s2 y (List.mem_cons_of_mem _ hy)))

theorem Traced.toSteps {aggr : Bool} {P : Call → Prop} {d1 d2 : Nat} {a1 a2 : List VideoFrame}
    {s1 s2 : VideoOutputXv} (h : Traced env aggr P d1 a1 d2 a2 s1 s2) : Steps env P s1 s2 := by
  obtain ⟨u, b, l, t, v, p, -⟩ := h
  exact ⟨u, b, l, t, v, p⟩

end Traces

/-! ## Lock discipline of the operations -/

section TracedOps

variable (env : Env)

theorem Traced.then_plain {aggr : Bool} {P : Call → Prop} {d1 d : Nat} {a1 a : List VideoFrame}
    {s1 s2 : VideoOutputXv} (h : Traced env aggr P d1 a1 d a s1 s2) (c : Call) (hP : P c)
    (hc : ∀ st : LockState, c.lockStep aggr st = some st) :
    Traced env aggr P d1 a1 d a s1 (s2.vcall env c) :=
  Traced.seq env h (Traced.plain env s2 c hP hc)

theorem Traced.then_lock {aggr : Bool} {P : Call → Prop} {d1 d : Nat} {a1 a : List VideoFrame}
    {s1 s2 : VideoOutputXv} (h : Traced env aggr P d1 a1 d a s1 s2) (f : VideoFrame)
    (hP : P (Call.LockFrame f)) (hd : d = 0 ∨ aggr = true) :
    Traced env aggr P d1 a1 d (f :: a) s1 (s2.vcall env (Call.LockFrame f)) :=
  Traced.seq env h (Traced.lock env s2 f hP hd)

theorem Traced.then_unlock {aggr : Bool} {P : Call → Prop} {d1 d : Nat} {a1 a : List VideoFrame}
    {s1 s2 : VideoOutputXv} {f : VideoFrame} (h : Traced env aggr P d1 a1 d (f :: a) s1 s2)
    (hP : P (Call.UnlockFrame (some f))) :
    Traced env aggr P d1 a1 d a s1 (s2.vcall env (Call.UnlockFrame (some f))) :=
  Traced.seq env h (Traced.unlock env s2 f hP)

theorem Traced.then_begin {aggr : Bool} {P : Call → Prop} {d1 d : Nat} {a1 a : List VideoFrame}
    {s1 s2 : VideoOutputXv} (h : Traced env aggr P d1 a1 d a s1 s2) (t : BufferType)
    (hP : P (Call.begin_lock t)) :
    Traced env aggr P d1 a1 (d + 1) a s1 (s2.vcall env (Call.begin_lock t)) :=
  Traced.seq env h (Traced.begin_lock env s2 t hP)

theorem Traced.then_end {aggr : Bool} {P : Call → Prop} {d1 d : Nat} {a1 a : List VideoFrame}
    {s1 s2 : VideoOutputXv} (h : Traced env aggr P d1 a1 (d + 1) a s1 s2)
    (hP : P Call.end_lock) :
    Traced env aggr P d1 a1 d a s1 (s2.vcall env Call.end_lock) :=
  Traced.seq env h (Traced.end_lock env s2 hP)

/-- The XvMC block of `DiscardFrame` locks the frame and unlocks it again. -/
theorem DiscardFrame_check_traced (aggr : Bool) (s : VideoOutputXv) (f : VideoFrame) :
    Traced env aggr Call.noAttach 0 [] 0 [] s (VideoOutputXv.DiscardFrame_check env f s).2 := by
  have h0 : Traced env aggr Call.noAttach 0 [] 0 [f] s (s.vcall env (Call.LockFrame f)) :=
    Traced.lock env s f trivial (Or.inl rfl)
  unfold VideoOutputXv.DiscardFrame_check
  simp only [SyncSurface_eq]
  split
  · have h1 : Traced env aggr Call.noAttach 0 [] 0 [f] s
        (match (s.vcall env (Call.LockFrame f)).vbuffers.GetOSDFrame (some f) with
          | some _ => (s.vcall env (Call.LockFrame f)).vcall env (Call.SetOSDFrame f none)
          | none => s.vcall env (Call.LockFrame f)) := by
      split
      · exact h0.then_plain env _ trivial (fun _ => by rfl)
      · exact h0
    have h2 := ((h1.then_plain env (Call.SyncSurface (some f) 0) trivial
      (fun _ => by rfl)).then_unlock env trivial).then_plain env
        (Call.SyncSurface ((s.vcall env (Call.LockFrame f)).vbuffers.GetOSDFrame (some f)) 0)
        trivial (fun _ => by rfl)
    split
    · exact h2.then_plain env _ trivial (fun _ => by rfl)
    · exact h2
  · exact h0.then_unlock env trivial

/-- The function `DiscardFrame` releases every lock it takes. -/
theorem DiscardFrame_traced (aggr : Bool) (s : VideoOutputXv) (o : Option VideoFrame) :
    Traced env aggr Call.noAttach 0 [] 0 [] s (VideoOutputXv.DiscardFrame env o s) := by
  cases o with
  | none => exact Traced.nil env _ _ _ _ _
  | some f =>
    have h0 := DiscardFrame_check_traced env aggr s f
    cases hk : keptForLater env s f with
    | true =>
      rw [DiscardFrame_kept env s f hk]
      exact h0.then_plain env _ trivial (fun _ => by rfl)
    | false =>
      rw [DiscardFrame_not_kept env s f hk]
      refine Traced.then_plain env (Traced.then_plain env (Traced.then_unlock env ?_ trivial)
        _ trivial (fun _ => by rfl)) _ trivial (fun _ => by rfl)
      split
      · exact Traced.seq env (h0.then_lock env f trivial (Or.inl rfl))
          (Traced.afterClear env _ _ _ _ _ _)
      · exact h0.then_lock env f trivial (Or.inl rfl)

/-- The loop that empties the pause queue releases every lock it takes. -/
theorem discardPause_traced (aggr : Bool) (n : Nat) :
    ∀ s : VideoOutputXv,
      Traced env aggr Call.noAttach 0 [] 0 [] s (VideoOutputXv.discardPause env n s) := by
  induction n with
  | zero => intro s; exact Traced.nil env _ _ _ _ _
  | succ n ih =>
    intro s
    simp only [VideoOutputXv.discardPause]
    split
    · exact Traced.seq env (Traced.seq env
        (Traced.plain env s (Call.dequeue .kVideoBuffer_pause) trivial (fun _ => by rfl))
        (DiscardFrame_traced env aggr _ _)) (ih _)
    · exact Traced.nil env _ _ _ _ _

/-- The inner loop of the aggressive branch locks frames while the queue-level
lock is held, and releases every lock it takes. -/
theorem aggressiveChildren_traced (d : Nat) (frame : VideoFrame) (fuel : Nat) :
    ∀ (c : List VideoFrame) (cit : Nat) (s : VideoOutputXv),
      Traced env true Call.noAttach d [] d [] s
        (VideoOutputXv.aggressiveChildren env frame fuel c cit s) := by
  induction fuel with
  | zero => intro c cit s; exact Traced.nil env _ _ _ _ _
  | succ fuel ih =>
    intro c cit s
    simp only [VideoOutputXv.aggressiveChildren]
    split
    · exact Traced.nil env _ _ _ _ _
    · rename_i cframe _
      have h1 : Traced env true Call.noAttach d [] d [cframe] s
          (s.vcall env (Call.LockFrame cframe)) := Traced.lock env s cframe trivial (Or.inr rfl)
      split
      · have h2 := (Traced.then_plain env (Traced.seq env h1
          (Traced.afterClear env _ _ _ _ _ cframe)) (Call.RemoveInheritence cframe) trivial
          (fun _ => by rfl)).then_unlock env trivial
        split
        · exact h2
        · exact Traced.seq env h2 (ih _ _ _)
      · exact Traced.seq env (h1.then_unlock env trivial) (ih _ _ _)

/-- The aggressive branch of the sweep. -/
theorem aggressiveSweep_traced (d : Nat) (s : VideoOutputXv) :
    Traced env true Call.noAttach d [] d [] s (VideoOutputXv.aggressiveSweep env s) := by
  unfold VideoOutputXv.aggressiveSweep
  refine Traced.then_end env (Traced.seq env (Traced.begin_lock env s
    .kVideoBuffer_displayed trivial) ?_) trivial
  exact Traced.loop env _ _ _ (fun s2 x _ => aggressiveChildren_traced env _ x _ _ _ s2)

/-- The second loop of the sweep takes no frame lock. -/
theorem removeDisplayedInheritence_traced (aggr : Bool) (d : Nat) (s : VideoOutputXv) :
    Traced env aggr Call.noAttach d [] d [] s
      (VideoOutputXv.removeDisplayedInheritence env s) := by
  unfold VideoOutputXv.removeDisplayedInheritence
  refine Traced.then_end env (Traced.seq env (Traced.begin_lock env s
    .kVideoBuffer_displayed trivial) ?_) trivial
  exact Traced.loop env _ _ _ (fun s2 x _ => Traced.plain env s2 _ trivial (fun _ => by rfl))

/-- The final loop of the sweep takes no frame lock; it runs under the
queue-level lock, which it releases and takes again after each reclaimed
frame. -/
theorem sweepLoop_traced (aggr : Bool) (d : Nat) (fuel : Nat) :
    ∀ (it : Nat) (s s2 : VideoOutputXv), VideoOutputXv.sweepLoop env fuel it s = some s2 →
      Traced env aggr Call.noAttach (d + 1) [] (d + 1) [] s s2 := by
  induction fuel with
  | zero => intro it s s2 h; simp [VideoOutputXv.sweepLoop] at h
  | succ fuel ih =>
    intro it s s2 h
    simp only [VideoOutputXv.sweepLoop, SyncSurface_eq] at h
    split at h
    · cases h
      exact Traced.nil env _ _ _ _ _
    · rename_i pframe hp
      have h1 : Traced env aggr Call.noAttach (d + 1) [] (d + 1) [] s
          (s.vcall env (Call.SyncSurface (some pframe) 0)) :=
        Traced.plain env s _ trivial (fun _ => by rfl)
      split at h
      · split at h
        · exact Traced.seq env h1 (ih _ _ _ h)
        · have h2 := Traced.then_begin env (Traced.then_end env (Traced.then_plain env
            (Traced.then_plain env h1 (Call.RemoveInheritence pframe) trivial (fun _ => by rfl))
            (Call.safeEnqueue .kVideoBuffer_avail (some pframe)) trivial (fun _ => by rfl))
            trivial) .kVideoBuffer_displayed trivial
          exact Traced.seq env h2 (ih _ _ _ h)
      · exact Traced.seq env h1 (ih _ _ _ h)

/-- The reclaim sweep keeps the lock discipline: without the aggressive flag it
takes no frame lock at all; with it, it locks frames under the queue-level
lock. -/
theorem CheckDisplayedFramesForAvailability_traced (aggr : Bool) (d : Nat) (s : VideoOutputXv)
    (ha : s.xvmc_buf_attr.IsAggressive = true → aggr = true) :
    Traced env aggr Call.noAttach d [] d [] s
      (VideoOutputXv.CheckDisplayedFramesForAvailability env s) := by
  have h1 : Traced env aggr Call.noAttach d [] d [] s
      (if s.xvmc_buf_attr.IsAggressive then VideoOutputXv.aggressiveSweep env s else s) := by
    split
    · rename_i hagg
      rw [ha hagg]
      exact aggressiveSweep_traced env d s
    · exact Traced.nil env _ _ _ _ _
  have h2 := Traced.seq env h1 (removeDisplayedInheritence_traced env aggr d _)
  obtain ⟨s4, h4, heq⟩ := sweepDisplayed_eq env (VideoOutputXv.removeDisplayedInheritence env
    (if s.xvmc_buf_attr.IsAggressive then VideoOutputXv.aggressiveSweep env s else s))
  unfold VideoOutputXv.CheckDisplayedFramesForAvailability
  simp only []
  rw [heq]
  exact Traced.then_end env (Traced.seq env (h2.then_begin env .kVideoBuffer_displayed trivial)
    (sweepLoop_traced env aggr d _ _ _ _ h4)) trivial

end TracedOps

section TracedOps2

variable (env : Env)

/-- A call that passes the lock check is not one of the bulk operations of the
pool, so its effect does not depend on the environment. -/
theorem lockStep_apply_env (env2 : Env) (aggr : Bool) (c : Call) (st st2 : LockState)
    (h : c.lockStep aggr st = some st2) (vb : VideoBuffers) :
    c.apply env vb = c.apply env2 vb := by
  cases c with
  | DiscardFrames k => simp [Call.lockStep] at h
  | DoneDisplayingFrame => simp [Call.lockStep] at h
  | _ => rfl

theorem lockScan_runCalls_env (env2 : Env) (aggr : Bool) (l : List Call) :
    ∀ (st st2 : LockState) (vb : VideoBuffers), lockScan aggr st l = some st2 →
      runCalls env l vb = runCalls env2 l vb := by
  induction l with
  | nil => intro st st2 vb _; rfl
  | cons c l ih =>
    intro st st2 vb h
    simp only [lockScan] at h
    cases hc : c.lockStep aggr st with
    | none => simp [hc] at h
    | some st1 =>
      rw [hc, Option.some_bind] at h
      simp only [runCalls_cons]
      rw [lockStep_apply_env env env2 aggr c st st1 hc vb]
      exact ih st1 st2 _ h

/-- The environment only matters through the bulk operations of the pool. -/
theorem Traced.of_env {env2 : Env} {aggr : Bool} {P : Call → Prop} {d1 d2 : Nat}
    {a1 a2 : List VideoFrame} {s1 s2 : VideoOutputXv}
    (h : Traced env2 aggr P d1 a1 d2 a2 s1 s2) : Traced env aggr P d1 a1 d2 a2 s1 s2 := by
  obtain ⟨u, b, l, t, v, p, k⟩ := h
  refine ⟨u, b, l, t, ?_, p, k⟩
  rw [v]
  exact (lockScan_runCalls_env env env2 aggr l _ _ _ (k [])).symm

/-- Assignments outside the pool. -/
theorem Traced.then_silent {aggr : Bool} {P : Call → Prop} {d1 d : Nat} {a1 a : List VideoFrame}
    {s1 s2 s3 : VideoOutputXv} (h : Traced env aggr P d1 a1 d a s1 s2)
    (h1 : s3.trace = s2.trace) (h2 : s3.vbuffers = s2.vbuffers)
    (h3 : s3.video_output_subtype = s2.video_output_subtype)
    (h4 : s3.xvmc_buf_attr = s2.xvmc_buf_attr) : Traced env aggr P d1 a1 d a s1 s3 :=
  Traced.seq env h ⟨h3, h4, [], by simp [h1], by simp [h2], fun _ hc => absurd hc (by simp),
    fun _ => rfl⟩

theorem Traced.then_trylock_ok {aggr : Bool} {P : Call → Prop} {d1 d : Nat}
    {a1 a : List VideoFrame} {s1 s2 : VideoOutputXv} (h : Traced env aggr P d1 a1 d a s1 s2)
    (f : VideoFrame) (hP : P (Call.TryLockFrame f true)) :
    Traced env aggr P d1 a1 d (f :: a) s1 (s2.vcall env (Call.TryLockFrame f true)) :=
  Traced.seq env h (Traced.trylock env s2 f true hP)

theorem Traced.then_CheckDisplayed {aggr : Bool} {d1 d : Nat} {a1 a : List VideoFrame}
    {s1 s2 : VideoOutputXv} (h : Traced env aggr Call.noAttach d1 a1 d a s1 s2)
    (ha : s1.xvmc_buf_attr.IsAggressive = true → aggr = true) :
    Traced env aggr Call.noAttach d1 a1 d a s1
      (VideoOutputXv.CheckDisplayedFramesForAvailability env s2) :=
  Traced.seq env h ((CheckDisplayedFramesForAvailability_traced env aggr d s2
    (fun hx => ha (by rw [← h.2.1]; exact hx))).frame env a)

theorem Traced.then_DiscardFrame {aggr : Bool} {d1 : Nat} {a1 a : List VideoFrame}
    {s1 s2 : VideoOutputXv} (h : Traced env aggr Call.noAttach d1 a1 0 a s1 s2)
    (o : Option VideoFrame) :
    Traced env aggr Call.noAttach d1 a1 0 a s1 (VideoOutputXv.DiscardFrame env o s2) :=
  Traced.seq env h ((DiscardFrame_traced env aggr s2 o).frame env a)

theorem Traced.then_discardPause {aggr : Bool} {d1 : Nat} {a1 a : List VideoFrame}
    {s1 s2 : VideoOutputXv} (h : Traced env aggr Call.noAttach d1 a1 0 a s1 s2) (n : Nat) :
    Traced env aggr Call.noAttach d1 a1 0 a s1 (VideoOutputXv.discardPause env n s2) :=
  Traced.seq env h ((discardPause_traced env aggr n s2).frame env a)

/-- The step of `ShowXvMC` that tries to lock the OSD frame: the lock of the OSD
frame returned is held afterwards. -/
theorem ShowXvMC_lockOSD_traced (aggr : Bool) (frame : VideoFrame) (s : VideoOutputXv) :
    Traced env aggr Call.noAttach 0 [] 0 (VideoOutputXv.ShowXvMC_lockOSD env frame s).1.toList s
      (VideoOutputXv.ShowXvMC_lockOSD env frame s).2 := by
  unfold VideoOutputXv.ShowXvMC_lockOSD
  split
  · rename_i o ho
    cases hok : env.TryLockFrame o with
    | false =>
      simp only [Bool.not_false, if_true, Option.toList]
      exact Traced.then_plain env (Traced.plain env s _ trivial (fun _ => by rfl)) _ trivial
        (fun _ => by rfl)
    | true =>
      simp only [Bool.not_true, Option.toList]
      exact Traced.trylock env s o true trivial
  · exact Traced.nil env _ _ _ _ _

/-- The part of `ShowXvMC` after the selection releases the locks it takes. -/
theorem ShowXvMC_show_traced (aggr : Bool) (frame : VideoFrame) (u : Bool) (s : VideoOutputXv)
    (ha : s.xvmc_buf_attr.IsAggressive = true → aggr = true) :
    Traced env aggr Call.noAttach 0 [] 0 [] s (VideoOutputXv.ShowXvMC_show env frame u s) := by
  have h1 : Traced env aggr Call.noAttach 0 [] 0
      ((VideoOutputXv.ShowXvMC_lockOSD env frame (s.vcall env (Call.LockFrame frame))).1.toList
        ++ [frame]) s
      ((VideoOutputXv.ShowXvMC_lockOSD env frame (s.vcall env (Call.LockFrame frame))).2.vcall env
        (Call.XvMCPutSurface (VideoOutputXv.showingSurface env frame
          (VideoOutputXv.ShowXvMC_lockOSD env frame (s.vcall env (Call.LockFrame frame))).1))) :=
    Traced.then_plain env (Traced.seq env (Traced.lock env s frame trivial (Or.inl rfl))
      ((ShowXvMC_lockOSD_traced env aggr frame _).frame env [frame])) _ trivial
      (fun _ => by rfl)
  have h2 : Traced env aggr Call.noAttach 0 [] 0
      ((VideoOutputXv.ShowXvMC_lockOSD env frame (s.vcall env (Call.LockFrame frame))).1.toList
        ++ [frame]) s
      (VideoOutputXv.CheckDisplayedFramesForAvailability env
        (if !u then VideoOutputXv.discardPause env
          (((VideoOutputXv.ShowXvMC_lockOSD env frame (s.vcall env
            (Call.LockFrame frame))).2.vcall env
            (Call.XvMCPutSurface (VideoOutputXv.showingSurface env frame
              (VideoOutputXv.ShowXvMC_lockOSD env frame (s.vcall env
                (Call.LockFrame frame))).1))).vbuffers.size .kVideoBuffer_pause)
          ((VideoOutputXv.ShowXvMC_lockOSD env frame (s.vcall env
            (Call.LockFrame frame))).2.vcall env
            (Call.XvMCPutSurface (VideoOutputXv.showingSurface env frame
              (VideoOutputXv.ShowXvMC_lockOSD env frame (s.vcall env (Call.LockFrame frame))).1)))
        else ((VideoOutputXv.ShowXvMC_lockOSD env frame (s.vcall env
            (Call.LockFrame frame))).2.vcall env
            (Call.XvMCPutSurface (VideoOutputXv.showingSurface env frame
              (VideoOutputXv.ShowXvMC_lockOSD env frame (s.vcall env
                (Call.LockFrame frame))).1))))) := by
    refine Traced.then_CheckDisplayed env ?_ ha
    split
    · exact h1.then_discardPause env _
    · exact h1
  unfold VideoOutputXv.ShowXvMC_show
  simp only []
  cases hosd : (VideoOutputXv.ShowXvMC_lockOSD env frame (s.vcall env (Call.LockFrame frame))).1
    with
  | none =>
    rw [hosd] at h2
    exact Traced.then_plain env (Traced.then_unlock env (Traced.then_plain env h2
      (Call.UnlockFrame none) trivial (fun _ => by rfl)) trivial) _ trivial (fun _ => by rfl)
  | some o =>
    rw [hosd] at h2
    exact Traced.then_plain env (Traced.then_unlock env (Traced.then_unlock env h2 trivial)
      trivial) _ trivial (fun _ => by rfl)

/-- The function `ShowXvMC` releases every lock it takes. -/
theorem ShowXvMC_traced (aggr : Bool) (s : VideoOutputXv)
    (ha : s.xvmc_buf_attr.IsAggressive = true → aggr = true) :
    Traced env aggr Call.noAttach 0 [] 0 [] s (VideoOutputXv.ShowXvMC env s) := by
  have h0 : Traced env aggr Call.noAttach 0 [] 0 [] s
      ((s.vcall env (Call.begin_lock .kVideoBuffer_pause)).vcall env Call.end_lock) :=
    Traced.then_end env (Traced.begin_lock env s _ trivial) trivial
  unfold VideoOutputXv.ShowXvMC
  simp only []
  split
  · exact h0
  · exact Traced.seq env h0 (ShowXvMC_show_traced env aggr _ _ _ ha)

end TracedOps2

section TracedOps3

variable (env : Env)

theorem Traced.then_CopyFrame {aggr : Bool} {P : Call → Prop} {d1 d : Nat}
    {a1 a : List VideoFrame} {s1 s2 : VideoOutputXv} (h : Traced env aggr P d1 a1 d a s1 s2)
    (dst src : VideoFrame) : Traced env aggr P d1 a1 d a s1 (s2.CopyFrame dst src) :=
  Traced.then_silent env h rfl rfl rfl rfl

theorem Traced.then_setFrameNumber {aggr : Bool} {P : Call → Prop} {d1 d : Nat}
    {a1 a : List VideoFrame} {s1 s2 : VideoOutputXv} (h : Traced env aggr P d1 a1 d a s1 s2)
    (f : VideoFrame) (n : Int) : Traced env aggr P d1 a1 d a s1 (s2.setFrameNumber f n) :=
  Traced.then_silent env h rfl rfl rfl rfl

/-- The XVideo branch of `UpdatePauseFrame` releases every lock it takes; the
lock of the used frame is taken, with `TryLockFrame`, under the queue-level
lock. -/
theorem UpdatePauseFrame_XVideo_traced (aggr : Bool) (s : VideoOutputXv) :
    Traced env aggr Call.noAttach 0 [] 0 [] s (VideoOutputXv.UpdatePauseFrame_XVideo env s) := by
  unfold VideoOutputXv.UpdatePauseFrame_XVideo
  lift_lets
  intro s1 s2 r used_frame s3 s4 s5 ok s6 s7 s8 s9
  have h2 : Traced env aggr Call.noAttach 0 [] 1 [s.av_pause_frame] s s2 :=
    Traced.then_begin env (Traced.lock env s _ trivial (Or.inl rfl)) _ trivial
  have hr : Traced env aggr Call.noAttach 1 [] 1 r.1.toList s2 r.2 := by
    simp only [r]
    split
    · split
      · exact Traced.nil env _ _ _ _ _
      · rename_i u hu
        cases hok : env.TryLockFrame u with
        | false => exact Traced.plain env s2 _ trivial (fun _ => by rfl)
        | true => exact Traced.trylock env s2 u true trivial
    · exact Traced.nil env _ _ _ _ _
  have h3 : Traced env aggr Call.noAttach 0 [] 1 (r.1.toList ++ [s.av_pause_frame]) s s3 :=
    Traced.seq env h2 (hr.frame env [s.av_pause_frame])
  have h5 : Traced env aggr Call.noAttach 0 [] 0 [s.av_pause_frame] s s5 := by
    refine Traced.then_end env ?_ trivial
    simp only [s4, used_frame]
    cases hu : r.1 with
    | none =>
      rw [hu] at h3
      exact h3
    | some u =>
      rw [hu] at h3
      exact Traced.then_unlock env (Traced.then_CopyFrame env h3 _ _) trivial
  have hav5 : s5.av_pause_frame = s.av_pause_frame := by
    simp only [s5, s4, used_frame, s3, vcall_av_pause_frame]
    cases hu : r.1 with
    | none =>
      simp only [r]
      split
      · split <;> rfl
      · rfl
    | some u =>
      simp only [r]
      split
      · split <;> rfl
      · rfl
  have hav9 : s9.av_pause_frame = s.av_pause_frame := by
    simp only [s9]
    split
    · split
      · exact hav5
      · exact hav5
    · exact hav5
  refine Traced.then_unlock env ?_ trivial
  rw [hav9]
  simp only [s9]
  split
  · cases hok : ok with
    | false =>
      simp only [Bool.false_eq_true, if_false]
      exact Traced.then_plain env h5 (Call.TryLockFrame s5.scratch_frame ok) trivial
        (fun _ => by simp [Call.lockStep, hok])
    | true =>
      simp only [if_true]
      have h6 : Traced env aggr Call.noAttach 0 [] 0 [s5.scratch_frame, s.av_pause_frame] s s6 :=
        Traced.seq env h5 (Traced.call env s5 (Call.TryLockFrame s5.scratch_frame ok) trivial
          (fun _ => by simp [Call.lockStep, hok]))
      exact Traced.then_unlock env (Traced.then_CopyFrame env
        (Traced.then_setFrameNumber env h6 _ _) _ _) trivial
  · exact h5

/-- The search for a pause frame in the displayed queue takes no frame lock. -/
theorem UpdatePauseFrame_displayed_traced (aggr : Bool) (d : Nat) (s : VideoOutputXv) :
    Traced env aggr Call.noAttach d [] d [] s
      (VideoOutputXv.UpdatePauseFrame_displayed env s) := by
  unfold VideoOutputXv.UpdatePauseFrame_displayed
  simp only []
  refine Traced.then_end env ?_ trivial
  have h0 : Traced env aggr Call.noAttach d [] (d + 1) [] s
      (s.vcall env (Call.begin_lock .kVideoBuffer_displayed)) :=
    Traced.begin_lock env s _ trivial
  split
  · exact Traced.then_plain env h0 _ trivial (fun _ => by rfl)
  · exact h0

/-- The function `UpdatePauseFrame` releases every lock it takes. -/
theorem UpdatePauseFrame_traced (aggr : Bool) (s : VideoOutputXv)
    (ha : s.xvmc_buf_attr.IsAggressive = true → aggr = true) :
    Traced env aggr Call.noAttach 0 [] 0 [] s (VideoOutputXv.UpdatePauseFrame env s) := by
  unfold VideoOutputXv.UpdatePauseFrame
  split
  · exact UpdatePauseFrame_XVideo_traced env aggr s
  · split
    · simp only []
      exact Traced.seq env (Traced.then_CheckDisplayed env
        (discardPause_traced env aggr _ s) ha) (UpdatePauseFrame_displayed_traced env aggr 0 _)
    · split
      · simp only []
        have h0 : Traced env aggr Call.noAttach 0 [] 0 [] s
            (s.vcall env (Call.dequeue .kVideoBuffer_used)) :=
          Traced.plain env s _ trivial (fun _ => by rfl)
        split
        · exact Traced.then_plain env (h0.then_discardPause env _) _ trivial (fun _ => by rfl)
        · exact h0
      · exact UpdatePauseFrame_displayed_traced env aggr 0 s

/-- The attempt of `ProcessFrameXvMC` to reuse the pause frame: its lock is
taken, with `TryLockFrame`, under the queue-level lock, and is held afterwards
if the attempt succeeded. -/
theorem ProcessFrameXvMC_reuse_traced (aggr : Bool) (s : VideoOutputXv) :
    Traced env aggr Call.noAttach 0 [] 0
      (match (VideoOutputXv.ProcessFrameXvMC_reuse env s).1,
          (VideoOutputXv.ProcessFrameXvMC_reuse env s).2.1 with
        | some p, true => [p]
        | _, _ => []) s (VideoOutputXv.ProcessFrameXvMC_reuse env s).2.2 := by
  have h0 : Traced env aggr Call.noAttach 0 [] 1 [] s
      (s.vcall env (Call.begin_lock .kVideoBuffer_pause)) := Traced.begin_lock env s _ trivial
  unfold VideoOutputXv.ProcessFrameXvMC_reuse
  simp only [vcall_vbuffers, Call.apply]
  by_cases hsz : s.vbuffers.size .kVideoBuffer_pause ≠ 0
  · simp only [if_pos hsz]
    cases hh : s.vbuffers.head .kVideoBuffer_pause with
    | none =>
      simp only []
      exact Traced.then_end env h0 trivial
    | some p =>
      simp only []
      cases hok : env.TryLockFrame p with
      | false =>
        simp only []
        exact Traced.then_end env (Traced.then_plain env h0 (Call.TryLockFrame p false) trivial
          (fun _ => by rfl)) trivial
      | true =>
        simp only []
        exact Traced.then_end env (Traced.then_trylock_ok env h0 p trivial) trivial
  · simp only [if_neg hsz]
    exact Traced.then_end env h0 trivial

/-- The first part of `ProcessFrameXvMC`: the lock of the frame that the rest of
the function works on is held afterwards. -/
theorem ProcessFrameXvMC_frame_traced (aggr : Bool) (frame : Option VideoFrame)
    (s : VideoOutputXv) :
    Traced env aggr Call.noAttach 0 [] 0
      (VideoOutputXv.ProcessFrameXvMC_frame env frame s).1.toList s
      (VideoOutputXv.ProcessFrameXvMC_frame env frame s).2 := by
  unfold VideoOutputXv.ProcessFrameXvMC_frame
  cases frame with
  | some f =>
    exact Traced.then_discardPause env (Traced.lock env s f trivial (Or.inl rfl)) _
  | none =>
    have h0 := ProcessFrameXvMC_reuse_traced env aggr s
    simp only []
    split
    · rename_i p h1 h2
      rw [h1, h2] at h0
      exact Traced.then_plain env h0 _ trivial (fun _ => by rfl)
    · rename_i h1
      have hnil : (match (VideoOutputXv.ProcessFrameXvMC_reuse env s).1,
          (VideoOutputXv.ProcessFrameXvMC_reuse env s).2.1 with
        | some p, true => [p]
        | _, _ => []) = [] := by
        split
        · rename_i p h3 h4
          exact absurd h4 (h1 p h3)
        · rfl
      rw [hnil] at h0
      exact h0

/-- The loop of `ProcessFrameXvMC` that hides the displayed surfaces takes no
frame lock. -/
theorem hideDisplayed_traced (aggr : Bool) (d : Nat) (frame : VideoFrame) (s : VideoOutputXv) :
    Traced env aggr Call.noAttach d [] d [] s (VideoOutputXv.hideDisplayed env frame s) := by
  unfold VideoOutputXv.hideDisplayed
  simp only []
  refine Traced.then_end env (Traced.seq env (Traced.begin_lock env s
    .kVideoBuffer_displayed trivial) ?_) trivial
  refine Traced.loop env _ _ _ (fun s2 x _ => ?_)
  split
  · exact Traced.plain env s2 _ trivial (fun _ => by rfl)
  · exact Traced.nil env _ _ _ _ _

theorem noSelfAttach_of_noAttach (c : Call) (h : c.noAttach) : c.noSelfAttach := by
  cases c with
  | SetOSDFrame p o =>
    cases o with
    | none => trivial
    | some q => exact absurd h id
  | _ => trivial

theorem makeRoom_second_traced (aggr : Bool) (envHidden : Env) (frame : VideoFrame)
    (s x : VideoOutputXv) (ha : s.xvmc_buf_attr.IsAggressive = true → aggr = true)
    (h1 : Traced env aggr Call.noAttach 0 [] 0 [] s x) :
    Traced env aggr Call.noAttach 0 [] 0 [] s (if x.vbuffers.size .kVideoBuffer_avail = 0
      then VideoOutputXv.CheckDisplayedFramesForAvailability envHidden
        (VideoOutputXv.hideDisplayed env frame x) else x) := by
  split
  · have h2 := Traced.seq env h1 (hideDisplayed_traced env aggr 0 frame x)
    exact Traced.seq env h2 (Traced.of_env env
      (CheckDisplayedFramesForAvailability_traced envHidden aggr 0 _
        (fun hx => ha (by rw [← h2.2.1]; exact hx))))
  · exact h1

/-- The steps of `ProcessFrameXvMC` that make room for an OSD frame take no frame
lock. -/
theorem ProcessFrameXvMC_makeRoom_traced (aggr : Bool) (envHidden : Env) (frame : VideoFrame)
    (s : VideoOutputXv) (ha : s.xvmc_buf_attr.IsAggressive = true → aggr = true) :
    Traced env aggr Call.noAttach 0 [] 0 [] s
      (VideoOutputXv.ProcessFrameXvMC_makeRoom env envHidden frame s) := by
  unfold VideoOutputXv.ProcessFrameXvMC_makeRoom
  simp only []
  apply makeRoom_second_traced env aggr envHidden frame s _ ha
  split
  · exact CheckDisplayedFramesForAvailability_traced env aggr 0 s ha
  · exact Traced.nil env _ _ _ _ _

/-- The step of `ProcessFrameXvMC` that grabs a free frame takes no frame lock. -/
theorem ProcessFrameXvMC_grab_traced (aggr : Bool) (d : Nat) (frame : VideoFrame)
    (s : VideoOutputXv) :
    Traced env aggr Call.noAttach d [] d [] s
      (VideoOutputXv.ProcessFrameXvMC_grab env frame s).2 := by
  unfold VideoOutputXv.ProcessFrameXvMC_grab
  split
  · exact Traced.plain env s (Call.GetNextFreeFrame false false) trivial (fun _ => by rfl)
  · exact Traced.nil env _ _ _ _ _

/-- The OSD frame that `ProcessFrameXvMC` grabs is never the frame being
processed: if the pool hands that frame back, the OSD frame is set to null. -/
theorem ProcessFrameXvMC_grab_ne (frame : VideoFrame) (s : VideoOutputXv) :
    (VideoOutputXv.ProcessFrameXvMC_grab env frame s).1 ≠ some frame := by
  unfold VideoOutputXv.ProcessFrameXvMC_grab
  split
  · simp only []
    split
    · exact fun h => Option.noConfusion h
    · rename_i h
      exact fun h2 => h h2.symm
  · exact fun h => Option.noConfusion h

/-- The last step of the OSD block of `ProcessFrameXvMC`: the only attachment is
of an OSD frame other than the frame itself, and the lock of the OSD frame is
released. -/
theorem ProcessFrameXvMC_attach_traced (aggr : Bool) (frame : VideoFrame)
    (o : Option VideoFrame) (s : VideoOutputXv) (hne : o ≠ some frame) :
    Traced env aggr Call.noSelfAttach 0 [] 0 [] s
      (VideoOutputXv.ProcessFrameXvMC_attach env frame o s) := by
  unfold VideoOutputXv.ProcessFrameXvMC_attach
  cases o with
  | none => exact Traced.nil env _ _ _ _ _
  | some q =>
    have hq : q ≠ frame := fun h => hne (congrArg some h)
    simp only []
    cases hok : env.TryLockFrame q with
    | true =>
      simp only [if_true]
      exact Traced.then_plain env (Traced.then_unlock env (Traced.then_plain env
        (Traced.then_plain env (Traced.trylock env s q true trivial)
          (Call.SetOSDFrame q none) trivial (fun _ => by rfl))
          (Call.CompositeOSD frame (some q)) trivial (fun _ => by rfl)) trivial)
        (Call.SetOSDFrame frame (some q)) hq (fun _ => by rfl)
    | false =>
      simp only [Bool.false_eq_true, if_false]
      exact (Traced.then_DiscardFrame env (Traced.plain env s (Call.TryLockFrame q false) trivial
        (fun _ => by rfl)) _).weaken env noSelfAttach_of_noAttach

/-- The OSD block of `ProcessFrameXvMC`. -/
theorem ProcessFrameXvMC_osdframe_traced (aggr : Bool) (envHidden : Env) (frame : VideoFrame)
    (s : VideoOutputXv) (ha : s.xvmc_buf_attr.IsAggressive = true → aggr = true) :
    Traced env aggr Call.noSelfAttach 0 [] 0 [] s
      (VideoOutputXv.ProcessFrameXvMC_osdframe env envHidden frame s) := by
  unfold VideoOutputXv.ProcessFrameXvMC_osdframe
  simp only []
  exact Traced.seq env ((Traced.seq env
    (ProcessFrameXvMC_makeRoom_traced env aggr envHidden frame s ha)
    (ProcessFrameXvMC_grab_traced env aggr 0 frame _)).weaken env noSelfAttach_of_noAttach)
    (ProcessFrameXvMC_attach_traced env aggr frame _ _ (ProcessFrameXvMC_grab_ne env frame _))

/-- The OSD part of `ProcessFrameXvMC`. -/
theorem ProcessFrameXvMC_osd_traced (aggr : Bool) (envHidden : Env) (frame : VideoFrame)
    (osd : Bool) (s : VideoOutputXv) (ha : s.xvmc_buf_attr.IsAggressive = true → aggr = true) :
    Traced env aggr Call.noSelfAttach 0 [] 0 [] s
      (VideoOutputXv.ProcessFrameXvMC_osd env envHidden frame osd s) := by
  have h1 : Traced env aggr Call.noSelfAttach 0 [] 0 [] s
      (if (s.vbuffers.GetOSDFrame (some frame)).isSome
        then s.vcall env (Call.SetOSDFrame frame none) else s) := by
    split
    · exact Traced.plain env s _ trivial (fun _ => by rfl)
    · exact Traced.nil env _ _ _ _ _
  have h2 : ∀ c : Bool, Traced env aggr Call.noSelfAttach 0 [] 0 [] s (if c = true
      then VideoOutputXv.ProcessFrameXvMC_osdframe env envHidden frame
        (if (s.vbuffers.GetOSDFrame (some frame)).isSome
          then s.vcall env (Call.SetOSDFrame frame none) else s)
      else (if (s.vbuffers.GetOSDFrame (some frame)).isSome
          then s.vcall env (Call.SetOSDFrame frame none) else s)) := by
    intro c
    split
    · exact Traced.seq env h1 (ProcessFrameXvMC_osdframe_traced env aggr envHidden frame _
        (fun hx => ha (by rw [← h1.2.1]; exact hx)))
    · exact h1
  unfold VideoOutputXv.ProcessFrameXvMC_osd
  simp only []
  split
  · split
    · split
      · exact Traced.then_plain env (h2 _) (Call.CompositeOSD frame none) trivial
          (fun _ => by rfl)
      · exact h2 _
    · exact h1
  · exact h1

/-- The function `ProcessFrameXvMC` releases every lock it takes, and attaches
no frame to itself. -/
theorem ProcessFrameXvMC_traced (aggr : Bool) (envHidden : Env) (frame : Option VideoFrame)
    (osd : Bool) (s : VideoOutputXv) (ha : s.xvmc_buf_attr.IsAggressive = true → aggr = true) :
    Traced env aggr Call.noSelfAttach 0 [] 0 [] s
      (VideoOutputXv.ProcessFrameXvMC env envHidden frame osd s) := by
  have h0 := (ProcessFrameXvMC_frame_traced env aggr frame s).weaken env noSelfAttach_of_noAttach
  unfold VideoOutputXv.ProcessFrameXvMC
  simp only []
  split
  · rename_i hnone
    rw [hnone] at h0
    exact h0
  · rename_i f hf
    rw [hf] at h0
    split
    · exact Traced.then_unlock env h0 trivial
    · split
      · exact Traced.then_unlock env h0 trivial
      · refine Traced.then_unlock env (Traced.seq env h0 ?_) trivial
        exact (ProcessFrameXvMC_osd_traced env aggr envHidden f osd _
          (fun hx => ha (by rw [← h0.2.1]; exact hx))).frame env [f]

/-- The statement `DQ_COPY` takes and releases the queue-level lock. -/
theorem DQ_COPY_traced (aggr : Bool) (d : Nat) (dst : List VideoFrame) (src : BufferType)
    (s : VideoOutputXv) :
    Traced env aggr Call.noAttach d [] d [] s (VideoOutputXv.DQ_COPY env dst src s).2 := by
  unfold VideoOutputXv.DQ_COPY
  exact Traced.then_end env (Traced.begin_lock env s src trivial) trivial

theorem syncAll_traced (aggr : Bool) (d : Nat) (syncs : List VideoFrame) (s : VideoOutputXv) :
    Traced env aggr Call.noAttach d [] d [] s (VideoOutputXv.syncAll env syncs s) := by
  unfold VideoOutputXv.syncAll
  refine Traced.loop env _ _ _ (fun s2 x _ => ?_)
  simp only [SyncSurface_eq]
  exact Traced.then_plain env (Traced.then_plain env (Traced.plain env s2
    (Call.SyncSurface (some x) (-1)) trivial (fun _ => by rfl))
    (Call.SyncSurface (some x) 1) trivial (fun _ => by rfl))
    (Call.SyncSurface (some x) 0) trivial (fun _ => by rfl)

theorem syncDisplayedPause_traced (aggr : Bool) (d : Nat) (s : VideoOutputXv) :
    Traced env aggr Call.noAttach d [] d [] s (VideoOutputXv.syncDisplayedPause env s) := by
  unfold VideoOutputXv.syncDisplayedPause
  simp only []
  exact Traced.seq env (Traced.seq env (DQ_COPY_traced env aggr d _ _ s)
    (DQ_COPY_traced env aggr d _ _ _)) (syncAll_traced env aggr d _ _)

/-- The first part of the XvMC path of `DiscardFrames` takes no frame lock. -/
theorem DiscardFrames_collect_traced (aggr : Bool) (s : VideoOutputXv)
    (ha : s.xvmc_buf_attr.IsAggressive = true → aggr = true) :
    Traced env aggr Call.noAttach 0 [] 0 [] s (VideoOutputXv.DiscardFrames_collect env s).2 := by
  unfold VideoOutputXv.DiscardFrames_collect
  simp only []
  have h1 : Traced env aggr Call.noAttach 0 [] 1 [] s
      ((VideoOutputXv.CheckDisplayedFramesForAvailability env
        ((s.vcall env (Call.begin_lock .kVideoBuffer_displayed)).vcall env Call.end_lock)).vcall
        env (Call.begin_lock .kVideoBuffer_displayed)) :=
    Traced.then_begin env (Traced.then_CheckDisplayed env (Traced.then_end env
      (Traced.begin_lock env s _ trivial) trivial) ha) _ trivial
  exact Traced.then_end env (Traced.seq env (Traced.seq env (Traced.seq env h1
    (syncDisplayedPause_traced env aggr 1 _)) (DQ_COPY_traced env aggr 1 _ _ _))
    (DQ_COPY_traced env aggr 1 _ _ _)) trivial

/-- The XvMC path of `DiscardFrames` keeps the lock discipline: frame locks are
only taken by `DiscardFrame`, outside the queue-level lock, and are released. -/
theorem DiscardFrames_traced (aggr : Bool) (b : Bool) (s : VideoOutputXv)
    (hm : ¬ s.video_output_subtype.toNat ≤ VOSType.XVideo.toNat)
    (ha : s.xvmc_buf_attr.IsAggressive = true → aggr = true) :
    Traced env aggr Call.noAttach 0 [] 0 [] s (VideoOutputXv.DiscardFrames env b s) := by
  unfold VideoOutputXv.DiscardFrames
  simp only [VideoOutputSubType_eq, if_neg hm]
  refine Traced.then_end env (Traced.seq env (Traced.then_begin env (Traced.seq env
    (DiscardFrames_collect_traced env aggr s ha) ?_) .kVideoBuffer_displayed trivial)
    (syncDisplayedPause_traced env aggr 1 _)) trivial
  exact Traced.loop env _ _ _ (fun s2 x _ => DiscardFrame_traced env aggr s2 (some x))

/-- The XvMC path of `DoneDisplayingFrame` releases every lock it takes. -/
theorem DoneDisplayingFrame_traced (aggr : Bool) (s : VideoOutputXv)
    (hm : ¬ s.video_output_subtype.toNat ≤ VOSType.XVideo.toNat)
    (ha : s.xvmc_buf_attr.IsAggressive = true → aggr = true) :
    Traced env aggr Call.noAttach 0 [] 0 [] s (VideoOutputXv.DoneDisplayingFrame env s) := by
  unfold VideoOutputXv.DoneDisplayingFrame
  simp only [VideoOutputSubType_eq, if_neg hm]
  refine Traced.then_CheckDisplayed env ?_ ha
  split
  · have h1 := DiscardFrame_traced env aggr s (s.vbuffers.head .kVideoBuffer_used)
    split
    · exact Traced.then_DiscardFrame env h1 _
    · exact h1
  · exact Traced.nil env _ _ _ _ _

/-- The function `GetNextFreeFrame` takes no lock. -/
theorem GetNextFreeFrame_traced (aggr : Bool) (d : Nat) (u : Bool) (s : VideoOutputXv) :
    Traced env aggr Call.noAttach d [] d [] s (VideoOutputXv.GetNextFreeFrame env u s).2 :=
  Traced.plain env s (Call.GetNextFreeFrame false false) trivial (fun _ => by rfl)

end TracedOps3

/-! ## What the lock discipline gives -/

section Projections

variable (env : Env)

theorem lockScan_locksHeld (aggr : Bool) (l : List Call) :
    ∀ st st2 : LockState, lockScan aggr st l = some st2 →
      locksHeld st.held l = some st2.held := by
  induction l with
  | nil =>
    intro st st2 h
    simp only [lockScan, Option.some.injEq] at h
    rw [← h]
    rfl
  | cons c l ih =>
    intro st st2 h
    simp only [lockScan] at h
    cases hc : c.lockStep aggr st with
    | none => simp [hc] at h
    | some st1 =>
      rw [hc, Option.some_bind] at h
      have h2 := ih st1 st2 h
      cases c with
      | LockFrame f =>
        simp only [Call.lockStep] at hc
        split at hc
        · simp only [Option.some.injEq] at hc
          rw [← hc] at h2
          simpa [locksHeld] using h2
        · cases hc
      | TryLockFrame f ok =>
        simp only [Call.lockStep, Option.some.injEq] at hc
        rw [← hc] at h2
        cases ok <;> simpa [locksHeld] using h2
      | UnlockFrame o =>
        cases o with
        | none =>
          simp only [Call.lockStep, Option.some.injEq] at hc
          rw [← hc] at h2
          simpa [locksHeld] using h2
        | some f =>
          simp only [Call.lockStep] at hc
          split at hc
          · rename_i hf
            simp only [Option.some.injEq] at hc
            rw [← hc] at h2
            simpa [locksHeld, hf] using h2
          · cases hc
      | begin_lock t =>
        simp only [Call.lockStep, Option.some.injEq] at hc
        rw [← hc] at h2
        simpa [locksHeld] using h2
      | end_lock =>
        simp only [Call.lockStep] at hc
        split at hc
        · cases hc
        · simp only [Option.some.injEq] at hc
          rw [← hc] at h2
          simpa [locksHeld] using h2
      | GetNextFreeFrame wl u =>
        simp only [Call.lockStep] at hc
        split at hc
        · cases hc
        · rename_i hwl
          simp only [Option.some.injEq] at hc
          rw [← hc] at h2
          cases wl with
          | true => exact absurd rfl hwl
          | false => simpa [locksHeld] using h2
      | DiscardFrames k => simp [Call.lockStep] at hc
      | DoneDisplayingFrame => simp [Call.lockStep] at hc
      | _ =>
        simp only [Call.lockStep, Option.some.injEq] at hc
        rw [← hc] at h2
        simpa [locksHeld] using h2

theorem lockScan_lockOrdered (l : List Call) :
    ∀ st st2 : LockState, lockScan false st l = some st2 →
      lockOrdered true st.depth l = true := by
  induction l with
  | nil => intro st st2 _; rfl
  | cons c l ih =>
    intro st st2 h
    simp only [lockScan] at h
    cases hc : c.lockStep false st with
    | none => simp [hc] at h
    | some st1 =>
      rw [hc, Option.some_bind] at h
      have h2 := ih st1 st2 h
      cases c with
      | LockFrame f =>
        simp only [Call.lockStep] at hc
        split at hc
        · rename_i hd
          simp only [Option.some.injEq] at hc
          rw [← hc] at h2
          have hd0 : st.depth = 0 := by simpa using hd
          simpa [lockOrdered, hd0] using h2
        · cases hc
      | TryLockFrame f ok =>
        simp only [Call.lockStep, Option.some.injEq] at hc
        rw [← hc] at h2
        cases ok <;> simpa [lockOrdered] using h2
      | begin_lock t =>
        simp only [Call.lockStep, Option.some.injEq] at hc
        rw [← hc] at h2
        simpa [lockOrdered] using h2
      | end_lock =>
        simp only [Call.lockStep] at hc
        split at hc
        · cases hc
        · simp only [Option.some.injEq] at hc
          rw [← hc] at h2
          simpa [lockOrdered] using h2
      | GetNextFreeFrame wl u =>
        simp only [Call.lockStep] at hc
        split at hc
        · cases hc
        · rename_i hwl
          simp only [Option.some.injEq] at hc
          rw [← hc] at h2
          cases wl with
          | true => exact absurd rfl hwl
          | false => simpa [lockOrdered] using h2
      | UnlockFrame o =>
        cases o with
        | none =>
          simp only [Call.lockStep, Option.some.injEq] at hc
          rw [← hc] at h2
          simpa [lockOrdered] using h2
        | some f =>
          simp only [Call.lockStep] at hc
          split at hc
          · simp only [Option.some.injEq] at hc
            rw [← hc] at h2
            simpa [lockOrdered] using h2
          · cases hc
      | DiscardFrames k => simp [Call.lockStep] at hc
      | DoneDisplayingFrame => simp [Call.lockStep] at hc
      | _ =>
        simp only [Call.lockStep, Option.some.injEq] at hc
        rw [← hc] at h2
        simpa [lockOrdered] using h2

theorem lockAcquisitions_cons (f : VideoFrame) (c : Call) (l : List Call) :
    lockAcquisitions f (c :: l) = lockAcquisitions f l +
      (if c = Call.LockFrame f ∨ c = Call.TryLockFrame f true then 1 else 0) := by
  simp [lockAcquisitions, List.countP_cons]

theorem lockReleases_cons (f : VideoFrame) (c : Call) (l : List Call) :
    lockReleases f (c :: l) = lockReleases f l +
      (if c = Call.UnlockFrame (some f) then 1 else 0) := by
  simp [lockReleases, List.countP_cons]

/-- Along a trace that passes the check of the frame locks, the locks held plus
the acquisitions equal the locks held at the end plus the releases. -/
theorem locksHeld_count (l : List Call) :
    ∀ a a2 : List VideoFrame, locksHeld a l = some a2 → ∀ f : VideoFrame,
      a.count f + lockAcquisitions f l = a2.count f + lockReleases f l := by
  induction l with
  | nil =>
    intro a a2 h f
    simp only [locksHeld, Option.some.injEq] at h
    simp [h, lockAcquisitions, lockReleases]
  | cons c l ih =>
    intro a a2 h f
    rw [lockAcquisitions_cons, lockReleases_cons]
    cases c with
    | LockFrame g =>
      simp only [locksHeld] at h
      have := ih _ _ h f
      by_cases hg : g = f
      · subst hg
        simp at this ⊢
        omega
      · have hg2 : ¬ f = g := fun h => hg h.symm
        simp [hg, hg2, List.count_cons] at this ⊢
        omega
    | TryLockFrame g ok =>
      simp only [locksHeld] at h
      have := ih _ _ h f
      cases ok with
      | false =>
        simp at this ⊢
        omega
      | true =>
        by_cases hg : g = f
        · subst hg
          simp at this ⊢
          omega
        · have hg2 : ¬ f = g := fun h => hg h.symm
          simp [hg, hg2, List.count_cons] at this ⊢
          omega
    | UnlockFrame o =>
      cases o with
      | none =>
        simp only [locksHeld] at h
        have := ih _ _ h f
        simp at this ⊢
        omega
      | some g =>
        simp only [locksHeld] at h
        split at h
        · rename_i hmem
          have := ih _ _ h f
          by_cases hg : g = f
          · subst hg
            have hpos : 0 < a.count g := List.count_pos_iff.2 hmem
            rw [List.count_erase_self] at this
            simp at this ⊢
            omega
          · have hg2 : ¬ f = g := fun h => hg h.symm
            rw [List.count_erase_of_ne hg2] at this
            simp [hg] at this ⊢
            omega
        · cases h
    | GetNextFreeFrame wl u =>
      cases wl with
      | true => simp [locksHeld] at h
      | false =>
        simp only [locksHeld] at h
        have := ih _ _ h f
        simp at this ⊢
        omega
    | _ =>
      simp only [locksHeld] at h
      have := ih _ _ h f
      simp at this ⊢
      omega

theorem locksHeld_prefix (l1 l2 : List Call) :
    ∀ a a2 : List VideoFrame, locksHeld a (l1 ++ l2) = some a2 →
      ∃ a1, locksHeld a l1 = some a1 := by
  induction l1 with
  | nil => intro a a2 _; exact ⟨a, rfl⟩
  | cons c l ih =>
    intro a a2 h
    simp only [List.cons_append] at h
    cases c with
    | UnlockFrame o =>
      cases o with
      | none =>
        simp only [locksHeld] at h ⊢
        exact ih _ _ h
      | some g =>
        simp only [locksHeld] at h ⊢
        split at h
        · rename_i hmem
          rw [if_pos hmem]
          exact ih _ _ h
        · cases h
    | GetNextFreeFrame wl u =>
      cases wl with
      | true => simp [locksHeld] at h
      | false =>
        simp only [locksHeld] at h ⊢
        exact ih _ _ h
    | _ =>
      simp only [locksHeld] at h ⊢
      exact ih _ _ h

/-- A trace that passes the check of the frame locks from no lock held to no
lock held is balanced. -/
theorem lockBalanced_of_locksHeld (l : List Call) (h : locksHeld [] l = some []) :
    lockBalanced l := by
  constructor
  · intro f
    have := locksHeld_count l [] [] h f
    simpa using this
  · intro l1 l2 hl f
    rw [hl] at h
    obtain ⟨a1, h1⟩ := locksHeld_prefix l1 l2 [] [] h
    have := locksHeld_count l1 [] a1 h1 f
    simp at this
    omega

theorem poolGetNextFreeFrame_lockCount (vb : VideoBuffers) (u : Bool) :
    (vb.GetNextFreeFrame false u).lockCount = vb.lockCount := by
  unfold VideoBuffers.GetNextFreeFrame
  split
  · rfl
  · simp

/-- One call that passes the lock check changes the lock counts as it changes
the locks held. -/
theorem lockStep_lockCount (aggr : Bool) (c : Call) (st st2 : LockState)
    (hc : c.lockStep aggr st = some st2) (vb : VideoBuffers)
    (hle : ∀ f, st.held.count f ≤ vb.lockCount f) (f : VideoFrame) :
    (c.apply env vb).lockCount f + st.held.count f = vb.lockCount f + st2.held.count f := by
  cases c with
  | LockFrame g =>
    simp only [Call.lockStep] at hc
    split at hc
    · simp only [Option.some.injEq] at hc
      rw [← hc]
      by_cases hg : g = f
      · subst hg
        simp [Call.apply]
        omega
      · have hg2 : ¬ f = g := fun h => hg h.symm
        simp [Call.apply, hg, hg2, List.count_cons]
    · cases hc
  | TryLockFrame g ok =>
    simp only [Call.lockStep, Option.some.injEq] at hc
    rw [← hc]
    cases ok with
    | false => simp [Call.apply]
    | true =>
      by_cases hg : g = f
      · subst hg
        simp [Call.apply]
        omega
      · have hg2 : ¬ f = g := fun h => hg h.symm
        simp [Call.apply, hg, hg2, List.count_cons]
  | UnlockFrame o =>
    cases o with
    | none =>
      simp only [Call.lockStep, Option.some.injEq] at hc
      rw [← hc]
      simp [Call.apply]
    | some g =>
      simp only [Call.lockStep] at hc
      split at hc
      · rename_i hmem
        simp only [Option.some.injEq] at hc
        rw [← hc]
        by_cases hg : g = f
        · subst hg
          have hpos : 0 < st.held.count g := List.count_pos_iff.2 hmem
          have := hle g
          simp [Call.apply, List.count_erase_self]
          omega
        · have hg2 : ¬ f = g := fun h => hg h.symm
          simp [Call.apply, hg2, List.count_erase_of_ne hg2]
      · cases hc
  | GetNextFreeFrame wl u =>
    simp only [Call.lockStep] at hc
    split at hc
    · cases hc
    · rename_i hwl
      simp only [Option.some.injEq] at hc
      rw [← hc]
      cases wl with
      | true => exact absurd rfl hwl
      | false => simp [Call.apply, poolGetNextFreeFrame_lockCount]
  | DiscardFrames k => simp [Call.lockStep] at hc
  | DoneDisplayingFrame => simp [Call.lockStep] at hc
  | begin_lock t =>
    simp only [Call.lockStep, Option.some.injEq] at hc
    rw [← hc]
    simp [Call.apply]
  | end_lock =>
    simp only [Call.lockStep] at hc
    split at hc
    · cases hc
    · simp only [Option.some.injEq] at hc
      rw [← hc]
      simp [Call.apply]
  | _ =>
    simp only [Call.lockStep, Option.some.injEq] at hc
    rw [← hc]
    simp [Call.apply]

theorem lockScan_lockCount (aggr : Bool) (l : List Call) :
    ∀ (st st2 : LockState) (vb : VideoBuffers), lockScan aggr st l = some st2 →
      (∀ f, st.held.count f ≤ vb.lockCount f) → ∀ f : VideoFrame,
      (runCalls env l vb).lockCount f + st.held.count f = vb.lockCount f + st2.held.count f := by
  induction l with
  | nil =>
    intro st st2 vb h _ f
    simp only [lockScan, Option.some.injEq] at h
    rw [← h]
    rfl
  | cons c l ih =>
    intro st st2 vb h hle f
    simp only [lockScan] at h
    cases hc : c.lockStep aggr st with
    | none => simp [hc] at h
    | some st1 =>
      rw [hc, Option.some_bind] at h
      have h1 := lockStep_lockCount env aggr c st st1 hc vb hle
      have hle1 : ∀ g, st1.held.count g ≤ (c.apply env vb).lockCount g := by
        intro g
        have := h1 g
        have := hle g
        omega
      have h2 := ih st1 st2 (c.apply env vb) h hle1 f
      have := h1 f
      simp only [runCalls_cons]
      omega

/-- Steps that release every lock they take leave every lock count as it
was, and their calls are balanced. -/
theorem Traced.balanced {aggr : Bool} {P : Call → Prop} {d1 d2 : Nat} {s1 s2 : VideoOutputXv}
    (h : Traced env aggr P d1 [] d2 [] s1 s2) :
    ∃ l : List Call, s2.trace = s1.trace ++ l ∧ lockBalanced l ∧
      s2.vbuffers.lockCount = s1.vbuffers.lockCount := by
  obtain ⟨-, -, l, t, v, -, k⟩ := h
  have k0 := k []
  refine ⟨l, t, lockBalanced_of_locksHeld l
    (by simpa using lockScan_locksHeld aggr l _ _ k0), ?_⟩
  funext f
  have := lockScan_lockCount env aggr l _ _ s1.vbuffers k0 (by simp) f
  rw [v]
  simpa using this

/-- Steps that pass the strict lock check never acquire a frame lock with a
blocking call while a queue-level lock is held. -/
theorem Traced.ordered {P : Call → Prop} {d1 d2 : Nat} {a1 a2 : List VideoFrame}
    {s1 s2 : VideoOutputXv} (h : Traced env false P d1 a1 d2 a2 s1 s2) :
    ∃ l : List Call, s2.trace = s1.trace ++ l ∧ lockOrdered true d1 l = true := by
  obtain ⟨-, -, l, t, -, -, k⟩ := h
  exact ⟨l, t, lockScan_lockOrdered l _ _ (k [])⟩

end Projections

/-! ## Lock balance -/

/-- C16. On every path through `ProcessFrameXvMC`, `ShowXvMC`, `DiscardFrame` and
`UpdatePauseFrame` (every early return and every failed `TryLockFrame`
included, with or without the aggressive flag) the calls made are balanced per
frame: every frame is unlocked exactly as often as its lock was acquired by
`LockFrame` or a successful `TryLockFrame`, and at no point was a frame unlocked
more often than its lock had been acquired; the lock count of every frame is
the same at exit as at entry. -/
theorem lock_balance (env envHidden : Env) (s : VideoOutputXv) (frame : Option VideoFrame)
    (osd : Bool) :
    (∃ l : List Call,
      (VideoOutputXv.ProcessFrameXvMC env envHidden frame osd s).trace = s.trace ++ l ∧
      lockBalanced l ∧
      (VideoOutputXv.ProcessFrameXvMC env envHidden frame osd s).vbuffers.lockCount =
        s.vbuffers.lockCount) ∧
    (∃ l : List Call, (VideoOutputXv.ShowXvMC env s).trace = s.trace ++ l ∧ lockBalanced l ∧
      (VideoOutputXv.ShowXvMC env s).vbuffers.lockCount = s.vbuffers.lockCount) ∧
    (∃ l : List Call, (VideoOutputXv.DiscardFrame env frame s).trace = s.trace ++ l ∧
      lockBalanced l ∧
      (VideoOutputXv.DiscardFrame env frame s).vbuffers.lockCount = s.vbuffers.lockCount) ∧
    (∃ l : List Call, (VideoOutputXv.UpdatePauseFrame env s).trace = s.trace ++ l ∧
      lockBalanced l ∧
      (VideoOutputXv.UpdatePauseFrame env s).vbuffers.lockCount = s.vbuffers.lockCount) :=
  ⟨Traced.balanced env (ProcessFrameXvMC_traced env true envHidden frame osd s (fun _ => rfl)),
    Traced.balanced env (ShowXvMC_traced env true s (fun _ => rfl)),
    Traced.balanced env (DiscardFrame_traced env true s frame),
    Traced.balanced env (UpdatePauseFrame_traced env true s (fun _ => rfl))⟩

/-! ## Lock ordering -/

/-- C14, as stated, fails.  On the XVideo path `UpdatePauseFrame` acquires the
lock of the used frame (`TryLockFrame`) between `begin_lock(kVideoBuffer_used)`
and `end_lock`, and holds the lock of `av_pause_frame` across that section;
`ProcessFrameXvMC` without a frame acquires the lock of the pause frame under
`begin_lock(kVideoBuffer_pause)`. -/
theorem lock_ordering_fails :
    (VideoOutputXv.UpdatePauseFrame idleEnv scenarioC_XVideo).trace =
      [Call.LockFrame 1000, Call.begin_lock .kVideoBuffer_used, Call.TryLockFrame 1 true,
        Call.UnlockFrame (some 1), Call.end_lock, Call.UnlockFrame (some 1000)] ∧
    lockOrdered false 0 (VideoOutputXv.UpdatePauseFrame idleEnv scenarioC_XVideo).trace = false ∧
    (VideoOutputXv.ProcessFrameXvMC idleEnv idleEnv none false pausedState).trace =
      [Call.begin_lock .kVideoBuffer_pause, Call.TryLockFrame 1 true, Call.end_lock,
        Call.SetOSDFrame 1 none, Call.UnlockFrame (some 1)] ∧
    lockOrdered false 0
      (VideoOutputXv.ProcessFrameXvMC idleEnv idleEnv none false pausedState).trace = false := by
  decide

/-- C14, amended.  Without the aggressive flag (which no reachable buffer
settings have), `UpdatePauseFrame`, `ProcessFrameXvMC`,
`CheckDisplayedFramesForAvailability` and `DiscardFrames` never acquire a frame
lock with a blocking call (`LockFrame`, or a locking `GetNextFreeFrame`) while a
queue-level lock is held: under a queue-level lock, frame locks are acquired
only with the non-blocking `TryLockFrame`. -/
theorem lock_ordering (env envHidden : Env) (s : VideoOutputXv) (frame : Option VideoFrame)
    (osd b : Bool) (hagg : s.xvmc_buf_attr.IsAggressive = false) :
    (∃ l : List Call, (VideoOutputXv.UpdatePauseFrame env s).trace = s.trace ++ l ∧
      lockOrdered true 0 l = true) ∧
    (∃ l : List Call,
      (VideoOutputXv.ProcessFrameXvMC env envHidden frame osd s).trace = s.trace ++ l ∧
      lockOrdered true 0 l = true) ∧
    (∃ l : List Call,
      (VideoOutputXv.CheckDisplayedFramesForAvailability env s).trace = s.trace ++ l ∧
      lockOrdered true 0 l = true) ∧
    (∃ l : List Call, (VideoOutputXv.DiscardFrames env b s).trace = s.trace ++ l ∧
      lockOrdered true 0 l = true) := by
  have ha : s.xvmc_buf_attr.IsAggressive = true → false = true := by
    intro h
    rw [hagg] at h
    cases h
  refine ⟨Traced.ordered env (UpdatePauseFrame_traced env false s ha),
    Traced.ordered env (ProcessFrameXvMC_traced env false envHidden frame osd s ha),
    Traced.ordered env (CheckDisplayedFramesForAvailability_traced env false 0 s ha), ?_⟩
  by_cases hm : s.video_output_subtype.toNat ≤ VOSType.XVideo.toNat
  · refine ⟨[Call.DiscardFrames b], ?_, rfl⟩
    simp [VideoOutputXv.DiscardFrames, hm]
  · exact Traced.ordered env (DiscardFrames_traced env false b s hm ha)

/-- C14, amended, at a concrete state: the calls of `UpdatePauseFrame` on the
XVideo path pass the check that tolerates `TryLockFrame`. -/
theorem lock_ordering_witness :
    scenarioC_XVideo.xvmc_buf_attr.IsAggressive = false ∧
    ∃ l : List Call,
      (VideoOutputXv.UpdatePauseFrame idleEnv scenarioC_XVideo).trace =
        scenarioC_XVideo.trace ++ l ∧
      lockOrdered true 0 l = true :=
  ⟨rfl, (lock_ordering idleEnv idleEnv scenarioC_XVideo none false false rfl).1⟩

/-! ## Overlay attachment in ProcessFrameXvMC -/

theorem attachments_append (l1 l2 : List Call) :
    attachments (l1 ++ l2) = attachments l1 ++ attachments l2 := by
  induction l1 with
  | nil => rfl
  | cons c l ih =>
    cases c with
    | SetOSDFrame p o =>
      cases o with
      | none => simpa [attachments] using ih
      | some q => simpa [attachments] using ih
    | _ => simpa [attachments] using ih

theorem attachments_noSelf (l : List Call) (h : ∀ c ∈ l, c.noSelfAttach) :
    ∀ po ∈ attachments l, po.2 ≠ po.1 := by
  induction l with
  | nil => intro po hpo; simp [attachments] at hpo
  | cons c l ih =>
    have ih2 := ih (fun c2 hc2 => h c2 (List.mem_cons_of_mem _ hc2))
    have hc := h c (List.mem_cons_self _ _)
    cases c with
    | SetOSDFrame p o =>
      cases o with
      | none => simpa [attachments] using ih2
      | some q =>
        intro po hpo
        simp only [attachments, List.mem_cons] at hpo
        rcases hpo with rfl | hpo
        · exact hc
        · exact ih2 po hpo
    | _ => simpa [attachments] using ih2

theorem attachments_noAttach (l : List Call) (h : ∀ c ∈ l, c.noAttach) : attachments l = [] := by
  induction l with
  | nil => rfl
  | cons c l ih =>
    have ih2 := ih (fun c2 hc2 => h c2 (List.mem_cons_of_mem _ hc2))
    have hc := h c (List.mem_cons_self _ _)
    cases c with
    | SetOSDFrame p o =>
      cases o with
      | none => simpa [attachments] using ih2
      | some q => exact absurd hc id
    | _ => simpa [attachments] using ih2

/-- C13. On every path through `ProcessFrameXvMC` no frame is attached as its own
overlay: every attaching call `SetOSDFrame(parent, osdframe)` among the calls
made has `osdframe` different from `parent`.  The OSD frame that the function
grabs is never the frame being processed (if the pool hands that frame back,
the OSD frame is set to null), and with a null OSD frame the attach step makes
no call at all. -/
theorem ProcessFrameXvMC_no_self_attach (env envHidden : Env) (frame : Option VideoFrame)
    (osd : Bool) (s : VideoOutputXv) :
    (∃ l : List Call,
      (VideoOutputXv.ProcessFrameXvMC env envHidden frame osd s).trace = s.trace ++ l ∧
      ∀ po ∈ attachments l, po.2 ≠ po.1) ∧
    (∀ (f : VideoFrame) (σ : VideoOutputXv),
      (VideoOutputXv.ProcessFrameXvMC_grab env f σ).1 ≠ some f) ∧
    (∀ (f : VideoFrame) (σ : VideoOutputXv),
      VideoOutputXv.ProcessFrameXvMC_attach env f none σ = σ) := by
  refine ⟨?_, fun f σ => ProcessFrameXvMC_grab_ne env f σ, fun f σ => rfl⟩
  obtain ⟨-, -, l, t, -, p, -⟩ :=
    ProcessFrameXvMC_traced env true envHidden frame osd s (fun _ => rfl)
  exact ⟨l, t, attachments_noSelf l p⟩

/-- C13 at a concrete state: the pool would hand out frame 1, the frame being
processed, as the free frame; the OSD frame is then null and nothing is
attached. -/
theorem ProcessFrameXvMC_no_self_attach_witness :
    selfFreeState.vbuffers.nextFree false = some 1 ∧
    (VideoOutputXv.ProcessFrameXvMC_grab osdEnv 1 selfFreeState).1 = none ∧
    attachments (VideoOutputXv.ProcessFrameXvMC osdEnv osdEnv (some 1) true selfFreeState).trace
      = [] ∧
    (VideoOutputXv.ProcessFrameXvMC_grab osdEnv 1 selfFreeState).1 ≠ some 1 :=
  ⟨by decide, by decide, by decide,
    (ProcessFrameXvMC_no_self_attach osdEnv osdEnv (some 1) true selfFreeState).2.1 1
      selfFreeState⟩

section Attach

variable (env : Env)

theorem poolGetNextFreeFrame_osd (vb : VideoBuffers) (wl u : Bool) :
    (vb.GetNextFreeFrame wl u).osd_child = vb.osd_child ∧
    (vb.GetNextFreeFrame wl u).osd_parent = vb.osd_parent := by
  unfold VideoBuffers.GetNextFreeFrame
  split
  · exact ⟨rfl, rfl⟩
  · simp only []
    split <;> simp

/-- A call that attaches nothing leaves a frame without OSD child without OSD
child. -/
theorem apply_osd_child_none (aggr : Bool) (c : Call) (st st2 : LockState)
    (hc : c.lockStep aggr st = some st2) (hn : c.noAttach) (vb : VideoBuffers)
    (f : VideoFrame) (h : vb.osd_child f = none) : (c.apply env vb).osd_child f = none := by
  cases c with
  | SetOSDFrame p o =>
    cases o with
    | some q => exact absurd hn id
    | none =>
      simp only [Call.apply, VideoBuffers.SetOSDFrame]
      split
      · exact h
      · simp only []
        split
        · rfl
        · exact h
  | TryLockFrame g ok => cases ok <;> simpa [Call.apply] using h
  | GetNextFreeFrame wl u =>
    simp only [Call.apply, (poolGetNextFreeFrame_osd vb wl u).1]
    exact h
  | DiscardFrames k => simp [Call.lockStep] at hc
  | DoneDisplayingFrame => simp [Call.lockStep] at hc
  | _ => simpa [Call.apply] using h

theorem runCalls_osd_child_none (aggr : Bool) (f : VideoFrame) (l : List Call) :
    ∀ (st st2 : LockState) (vb : VideoBuffers), lockScan aggr st l = some st2 →
      (∀ c ∈ l, c.noAttach) → vb.osd_child f = none →
      (runCalls env l vb).osd_child f = none := by
  induction l with
  | nil => intro st st2 vb _ _ h; exact h
  | cons c l ih =>
    intro st st2 vb hs hn h
    simp only [lockScan] at hs
    cases hc : c.lockStep aggr st with
    | none => simp [hc] at hs
    | some st1 =>
      rw [hc, Option.some_bind] at hs
      simp only [runCalls_cons]
      exact ih st1 st2 _ hs (fun c2 hc2 => hn c2 (List.mem_cons_of_mem _ hc2))
        (apply_osd_child_none env aggr c st st1 hc (hn c (List.mem_cons_self _ _)) vb f h)

/-- Steps that attach nothing leave a frame without OSD child without OSD
child. -/
theorem Traced.osd_child_none {aggr : Bool} {d1 d2 : Nat} {a1 a2 : List VideoFrame}
    {s1 s2 : VideoOutputXv} (h : Traced env aggr Call.noAttach d1 a1 d2 a2 s1 s2)
    (f : VideoFrame) (hf : s1.vbuffers.osd_child f = none) :
    s2.vbuffers.osd_child f = none := by
  obtain ⟨-, -, l, -, v, p, k⟩ := h
  rw [v]
  exact runCalls_osd_child_none env aggr f l _ _ _ (k []) p hf

theorem Attaches.of_traced {aggr : Bool} {d1 d2 : Nat} {a1 a2 : List VideoFrame}
    {s1 s2 : VideoOutputXv} (h : Traced env aggr Call.noAttach d1 a1 d2 a2 s1 s2)
    (f : VideoFrame) (hf : s1.vbuffers.osd_child f = none) : Attaches f s1 s2 := by
  have h2 := Traced.osd_child_none env h f hf
  obtain ⟨-, -, l, t, -, p, -⟩ := h
  exact ⟨l, t, Or.inl ⟨attachments_noAttach l p, h2⟩⟩

theorem Attaches.after_traced {aggr : Bool} {d1 d2 : Nat} {a1 a2 : List VideoFrame}
    {s0 s1 s2 : VideoOutputXv} {f : VideoFrame}
    (h : Traced env aggr Call.noAttach d1 a1 d2 a2 s0 s1) (h2 : Attaches f s1 s2) :
    Attaches f s0 s2 := by
  obtain ⟨-, -, l0, t0, -, p0, -⟩ := h
  obtain ⟨l, t, ho⟩ := h2
  refine ⟨l0 ++ l, by rw [t, t0, List.append_assoc], ?_⟩
  unfold attachOutcome at ho ⊢
  rw [attachments_append, attachments_noAttach l0 p0, List.nil_append]
  exact ho

/-- A further call that leaves the overlay relation alone. -/
theorem Attaches.then_quiet {s1 s2 : VideoOutputXv} {f : VideoFrame} (h : Attaches f s1 s2)
    (c : Call) (hc : attachments [c] = [])
    (h1 : (c.apply env s2.vbuffers).osd_child = s2.vbuffers.osd_child)
    (h2 : (c.apply env s2.vbuffers).osd_parent = s2.vbuffers.osd_parent) :
    Attaches f s1 (s2.vcall env c) := by
  obtain ⟨l, t, ho⟩ := h
  refine ⟨l ++ [c], by simp [t], ?_⟩
  unfold attachOutcome at ho ⊢
  rw [attachments_append, hc, List.append_nil, vcall_vbuffers, h1, h2]
  exact ho

/-- The attach step of `ProcessFrameXvMC` on a frame without OSD child: the
attachment is made on a parent without child, so it takes effect. -/
theorem ProcessFrameXvMC_attach_attaches (frame : VideoFrame) (o : Option VideoFrame)
    (s : VideoOutputXv) (hne : o ≠ some frame) (hf : s.vbuffers.osd_child frame = none) :
    Attaches frame s (VideoOutputXv.ProcessFrameXvMC_attach env frame o s) := by
  cases o with
  | none =>
    exact Attaches.of_traced env (Traced.nil env true Call.noAttach 0 [] s) frame hf
  | some q =>
    have hq : q ≠ frame := fun h => hne (congrArg some h)
    have hq2 : ¬ frame = q := fun h => hq h.symm
    unfold VideoOutputXv.ProcessFrameXvMC_attach
    simp only []
    cases hok : env.TryLockFrame q with
    | true =>
      simp only [if_true]
      refine ⟨[Call.TryLockFrame q true, Call.SetOSDFrame q none,
        Call.CompositeOSD frame (some q), Call.UnlockFrame (some q),
        Call.SetOSDFrame frame (some q)], by simp, Or.inr ⟨q, rfl, hq, ?_, ?_⟩⟩
      · cases hqc : s.vbuffers.osd_child q <;>
          simp [Call.apply, VideoBuffers.SetOSDFrame, hqc, hf, hq2]
      · cases hqc : s.vbuffers.osd_child q <;>
          simp [Call.apply, VideoBuffers.SetOSDFrame, hqc, hf, hq2]
    | false =>
      simp only [Bool.false_eq_true, if_false]
      have ht : Traced env true Call.noAttach 0 [] 0 [] s
          (VideoOutputXv.DiscardFrame env (some q) (s.vcall env (Call.TryLockFrame q false))) :=
        Traced.then_DiscardFrame env
          (Traced.plain env s (Call.TryLockFrame q false) trivial (fun _ => by rfl)) (some q)
      exact Attaches.of_traced env ht frame hf

/-- The OSD block of `ProcessFrameXvMC` on a frame without OSD child. -/
theorem ProcessFrameXvMC_osdframe_attaches (envHidden : Env) (frame : VideoFrame)
    (s : VideoOutputXv) (hf : s.vbuffers.osd_child frame = none) :
    Attaches frame s (VideoOutputXv.ProcessFrameXvMC_osdframe env envHidden frame s) := by
  have h1 := Traced.seq env
    (ProcessFrameXvMC_makeRoom_traced env true envHidden frame s (fun _ => rfl))
    (ProcessFrameXvMC_grab_traced env true 0 frame _)
  unfold VideoOutputXv.ProcessFrameXvMC_osdframe
  simp only []
  exact Attaches.after_traced env h1 (ProcessFrameXvMC_attach_attaches env frame _ _
    (ProcessFrameXvMC_grab_ne env frame _) (Traced.osd_child_none env h1 frame hf))

/-- The OSD part of `ProcessFrameXvMC`: a stale OSD child is detached first, so
the frame ends with the newly attached OSD frame or with none. -/
theorem ProcessFrameXvMC_osd_attaches (envHidden : Env) (frame : VideoFrame) (osd : Bool)
    (s : VideoOutputXv) :
    Attaches frame s (VideoOutputXv.ProcessFrameXvMC_osd env envHidden frame osd s) := by
  have h1 : Traced env true Call.noAttach 0 [] 0 [] s
      (if (s.vbuffers.GetOSDFrame (some frame)).isSome
        then s.vcall env (Call.SetOSDFrame frame none) else s) := by
    split
    · exact Traced.plain env s _ trivial (fun _ => by rfl)
    · exact Traced.nil env _ _ _ _ _
  have hx : (if (s.vbuffers.GetOSDFrame (some frame)).isSome
      then s.vcall env (Call.SetOSDFrame frame none) else s).vbuffers.osd_child frame
      = none := by
    cases hc : s.vbuffers.osd_child frame with
    | none => simp [VideoBuffers.GetOSDFrame, hc]
    | some c => simp [VideoBuffers.GetOSDFrame, hc, Call.apply, VideoBuffers.SetOSDFrame]
  refine Attaches.after_traced env h1 ?_
  unfold VideoOutputXv.ProcessFrameXvMC_osd
  simp only []
  generalize (if (s.vbuffers.GetOSDFrame (some frame)).isSome
      then s.vcall env (Call.SetOSDFrame frame none) else s) = X at hx ⊢
  have h0 : Attaches frame X X :=
    Attaches.of_traced env (Traced.nil env true Call.noAttach 0 [] _) frame hx
  have h2 : ∀ c : Bool, Attaches frame X (if c = true
      then VideoOutputXv.ProcessFrameXvMC_osdframe env envHidden frame X else X) := by
    intro c
    split
    · exact ProcessFrameXvMC_osdframe_attaches env envHidden frame _ hx
    · exact h0
  split
  · split
    · split
      · exact Attaches.then_quiet env (h2 _) (Call.CompositeOSD frame none) rfl rfl rfl
      · exact h2 _
    · exact h0
  · exact h0

end Attach

/-- C12, as stated, fails.  Frame 1 is still marked as having the OSD frame 2
when `ProcessFrameXvMC` processes it; the function detaches frame 2
(`SetOSDFrame(frame, NULL)`) and attaches the newly grabbed frame 3, which takes
effect: the old relation is replaced, not kept. -/
theorem ProcessFrameXvMC_attach_rejected_fails :
    staleOsdState.vbuffers.osd_child 1 = some 2 ∧
    (VideoOutputXv.ProcessFrameXvMC osdEnv osdEnv (some 1) true
      staleOsdState).vbuffers.osd_child 1 = some 3 ∧
    (VideoOutputXv.ProcessFrameXvMC osdEnv osdEnv (some 1) true
      staleOsdState).vbuffers.osd_parent 3 = some 1 ∧
    (VideoOutputXv.ProcessFrameXvMC osdEnv osdEnv (some 1) true
      staleOsdState).vbuffers.osd_parent 2 = none ∧
    attachments (VideoOutputXv.ProcessFrameXvMC osdEnv osdEnv (some 1) true
      staleOsdState).trace = [(1, 3)] ∧
    Call.SetOSDFrame 1 none ∈ (VideoOutputXv.ProcessFrameXvMC osdEnv osdEnv (some 1) true
      staleOsdState).trace := by
  decide

/-- The OSD part of `ProcessFrameXvMC`: when the function has a frame `f` to work
on, no chroma-key OSD is in use and the number of OSD surfaces is not zero, then
among its calls there is at most one attachment, of a frame `q` other than `f`
to `f`, and it takes effect; if there is none, `f` has no OSD child at return. -/
theorem ProcessFrameXvMC_osd_path (env envHidden : Env) (frame : Option VideoFrame)
    (f : VideoFrame) (osd : Bool) (s : VideoOutputXv)
    (hframe : (VideoOutputXv.ProcessFrameXvMC_frame env frame s).1 = some f)
    (hchroma : env.chroma_osd = false) (hnum : s.xvmc_buf_attr.GetOSDNum ≠ 0) :
    Attaches f s (VideoOutputXv.ProcessFrameXvMC env envHidden frame osd s) := by
  have h0 := ProcessFrameXvMC_frame_traced env true frame s
  have hnum2 : ¬ (VideoOutputXv.ProcessFrameXvMC_frame env frame s).2.xvmc_buf_attr.GetOSDNum
      = 0 := by
    rw [h0.2.1]
    exact hnum
  have hres : VideoOutputXv.ProcessFrameXvMC env envHidden frame osd s =
      (VideoOutputXv.ProcessFrameXvMC_osd env envHidden f osd
        (VideoOutputXv.ProcessFrameXvMC_frame env frame s).2).vcall env
        (Call.UnlockFrame (some f)) := by
    unfold VideoOutputXv.ProcessFrameXvMC
    simp only [hframe, hchroma, Bool.false_eq_true, if_false, if_neg hnum2]
  rw [hres]
  exact Attaches.after_traced env h0 (Attaches.then_quiet env
    (ProcessFrameXvMC_osd_attaches env envHidden f osd _) (Call.UnlockFrame (some f)) rfl rfl rfl)

/-- The early returns of `ProcessFrameXvMC`: without a frame to work on, with a
chroma-key OSD, or without OSD surfaces the function makes no attachment. -/
theorem ProcessFrameXvMC_early (env envHidden : Env) (frame : Option VideoFrame)
    (osd : Bool) (s : VideoOutputXv)
    (h : (VideoOutputXv.ProcessFrameXvMC_frame env frame s).1 = none ∨
      env.chroma_osd = true ∨ s.xvmc_buf_attr.GetOSDNum = 0) :
    ∃ l : List Call,
      (VideoOutputXv.ProcessFrameXvMC env envHidden frame osd s).trace = s.trace ++ l ∧
      attachments l = [] := by
  have h0 := ProcessFrameXvMC_frame_traced env true frame s
  obtain ⟨-, hattr, l0, t0, -, p0, -⟩ := h0
  have hquiet : ∀ f : VideoFrame,
      ((VideoOutputXv.ProcessFrameXvMC_frame env frame s).2.vcall env
        (Call.UnlockFrame (some f))).trace = s.trace ++ (l0 ++ [Call.UnlockFrame (some f)]) ∧
      attachments (l0 ++ [Call.UnlockFrame (some f)]) = [] := by
    intro f
    refine ⟨by rw [vcall_trace, t0, List.append_assoc], ?_⟩
    rw [attachments_append, attachments_noAttach l0 p0]
    rfl
  unfold VideoOutputXv.ProcessFrameXvMC
  simp only []
  cases hf : (VideoOutputXv.ProcessFrameXvMC_frame env frame s).1 with
  | none => exact ⟨l0, t0, attachments_noAttach l0 p0⟩
  | some f =>
    simp only []
    rcases h with h | h | h
    · rw [hf] at h
      cases h
    · rw [if_pos h]
      exact ⟨_, hquiet f⟩
    · split
      · exact ⟨_, hquiet f⟩
      · rw [hattr, if_pos h]
        exact ⟨_, hquiet f⟩

/-- C12, amended.  `ProcessFrameXvMC` never attaches an overlay to a parent that
still has one.  When it comes to its OSD part (it has a frame `f` to work on, no
chroma-key OSD is in use and the number of OSD surfaces is not zero), a stale OSD
child of `f` is detached before anything is attached; among the calls made there
is at most one attachment, of a frame `q` other than `f` to `f`, and it takes
effect (at return `q` is the OSD child of `f` and `f` the OSD parent of `q`); if
there is none, `f` has no OSD child at return: an existing relation is replaced
or dropped there.  When it returns before its OSD part (no frame to work on, a
chroma-key OSD, or no OSD surfaces), it makes no attachment. -/
theorem ProcessFrameXvMC_replaces_osd (env envHidden : Env) (frame : Option VideoFrame)
    (osd : Bool) (s : VideoOutputXv) :
    ∃ l : List Call,
      (VideoOutputXv.ProcessFrameXvMC env envHidden frame osd s).trace = s.trace ++ l ∧
      (∀ f : VideoFrame, (VideoOutputXv.ProcessFrameXvMC_frame env frame s).1 = some f →
        env.chroma_osd = false → s.xvmc_buf_attr.GetOSDNum ≠ 0 →
        (attachments l = [] ∧
          (VideoOutputXv.ProcessFrameXvMC env envHidden frame osd s).vbuffers.osd_child f
            = none) ∨
        ∃ q : VideoFrame, attachments l = [(f, q)] ∧ q ≠ f ∧
          (VideoOutputXv.ProcessFrameXvMC env envHidden frame osd s).vbuffers.osd_child f
            = some q ∧
          (VideoOutputXv.ProcessFrameXvMC env envHidden frame osd s).vbuffers.osd_parent q
            = some f) ∧
      ((VideoOutputXv.ProcessFrameXvMC_frame env frame s).1 = none ∨
        env.chroma_osd = true ∨ s.xvmc_buf_attr.GetOSDNum = 0 → attachments l = []) := by
  by_cases hearly : (VideoOutputXv.ProcessFrameXvMC_frame env frame s).1 = none ∨
      env.chroma_osd = true ∨ s.xvmc_buf_attr.GetOSDNum = 0
  · obtain ⟨l, ht, ha⟩ := ProcessFrameXvMC_early env envHidden frame osd s hearly
    refine ⟨l, ht, fun f hf hc hn => ?_, fun _ => ha⟩
    rcases hearly with h | h | h
    · rw [hf] at h
      cases h
    · rw [hc] at h
      cases h
    · exact absurd h hn
  · have h1 : (VideoOutputXv.ProcessFrameXvMC_frame env frame s).1 ≠ none :=
      fun h => hearly (Or.inl h)
    have h2 : env.chroma_osd = false := by
      cases hc : env.chroma_osd with
      | false => rfl
      | true => exact absurd (Or.inr (Or.inl hc)) hearly
    have h3 : s.xvmc_buf_attr.GetOSDNum ≠ 0 := fun h => hearly (Or.inr (Or.inr h))
    have hex : ∃ f0 : VideoFrame,
        (VideoOutputXv.ProcessFrameXvMC_frame env frame s).1 = some f0 := by
      cases hx : (VideoOutputXv.ProcessFrameXvMC_frame env frame s).1 with
      | none => exact absurd hx h1
      | some f0 => exact ⟨f0, rfl⟩
    obtain ⟨f0, hf0⟩ := hex
    obtain ⟨l, ht, ho⟩ := ProcessFrameXvMC_osd_path env envHidden frame f0 osd s hf0 h2 h3
    refine ⟨l, ht, fun f hf _ _ => ?_, fun h => absurd h hearly⟩
    have hff : f = f0 := Option.some.inj (hf.symm.trans hf0)
    subst hff
    exact ho

/-- C12, amended, at the concrete state of the counterexample: the only
attachment made is of frame 3 to frame 1, and it took effect; with a chroma-key
OSD in use the function returns early, attaches nothing, and frame 1 still has
its stale OSD child 2. -/
theorem ProcessFrameXvMC_replaces_osd_witness :
    ((VideoOutputXv.ProcessFrameXvMC_frame osdEnv (some 1) staleOsdState).1 = some 1 ∧
      osdEnv.chroma_osd = false ∧ staleOsdState.xvmc_buf_attr.GetOSDNum ≠ 0 ∧
      ∃ l : List Call,
        (VideoOutputXv.ProcessFrameXvMC osdEnv osdEnv (some 1) true staleOsdState).trace =
          staleOsdState.trace ++ l ∧
        ((attachments l = [] ∧
          (VideoOutputXv.ProcessFrameXvMC osdEnv osdEnv (some 1) true
            staleOsdState).vbuffers.osd_child 1 = none) ∨
        ∃ q : VideoFrame, attachments l = [(1, q)] ∧ q ≠ 1 ∧
          (VideoOutputXv.ProcessFrameXvMC osdEnv osdEnv (some 1) true
            staleOsdState).vbuffers.osd_child 1 = some q ∧
          (VideoOutputXv.ProcessFrameXvMC osdEnv osdEnv (some 1) true
            staleOsdState).vbuffers.osd_parent q = some 1)) ∧
    (chromaOsdEnv.chroma_osd = true ∧
      (VideoOutputXv.ProcessFrameXvMC chromaOsdEnv chromaOsdEnv (some 1) true
        staleOsdState).vbuffers.osd_child 1 = some 2 ∧
      ∃ l : List Call,
        (VideoOutputXv.ProcessFrameXvMC chromaOsdEnv chromaOsdEnv (some 1) true
          staleOsdState).trace = staleOsdState.trace ++ l ∧ attachments l = []) :=
  ⟨⟨rfl, rfl, by decide,
    (ProcessFrameXvMC_replaces_osd osdEnv osdEnv (some 1) true staleOsdState).elim
      (fun l h => ⟨l, h.1, h.2.1 1 rfl rfl (by decide)⟩)⟩,
   ⟨rfl, by decide,
    (ProcessFrameXvMC_replaces_osd chromaOsdEnv chromaOsdEnv (some 1) true staleOsdState).elim
      (fun l h => ⟨l, h.1, h.2.2 (Or.inr (Or.inl rfl))⟩)⟩⟩

/-! ## Locked frames and the reclaim sweep -/

section LockedFrames

variable (env : Env)

/-- The final loop of the sweep reclaims only displayed frames that are reported
not displaying. -/
theorem sweepLoop_steps_status (D : List VideoFrame) (fuel : Nat) :
    ∀ (it : Nat) (s s2 : VideoOutputXv), VideoOutputXv.sweepLoop env fuel it s = some s2 →
      (∀ f ∈ s.vbuffers.displayed, f ∈ D) →
      Steps env (Call.within (fun g => g ∈ D ∧ IsDisplaying env (some g) = false)
        false false) s s2 := by
  induction fuel with
  | zero => intro it s s2 h; simp [VideoOutputXv.sweepLoop] at h
  | succ fuel ih =>
    intro it s s2 h hD
    simp only [VideoOutputXv.sweepLoop, SyncSurface_eq] at h
    split at h
    · cases h
      exact Steps.refl env _ _
    · rename_i pframe hp
      have hmem : pframe ∈ s.vbuffers.displayed := List.get?_mem hp
      have h1 : Steps env (Call.within (fun g => g ∈ D ∧ IsDisplaying env (some g) = false)
          false false) s (s.vcall env (Call.SyncSurface (some pframe) 0)) :=
        Steps.vcall env s _ trivial
      split at h
      · rename_i hnd
        split at h
        · exact Steps.trans env h1 (ih _ _ _ h hD)
        · have hnd2 : IsDisplaying env (some pframe) = false := by simpa using hnd
          have h2 := Steps.then_vcall env (Steps.then_vcall env (Steps.then_vcall env
            (Steps.then_vcall env h1 (Call.RemoveInheritence pframe) trivial)
            (Call.safeEnqueue .kVideoBuffer_avail (some pframe))
            ⟨Or.inl rfl, hD _ hmem, hnd2⟩)
            Call.end_lock trivial) (Call.begin_lock .kVideoBuffer_displayed) trivial
          refine Steps.trans env h2 (ih _ _ _ h ?_)
          intro g hg
          apply hD
          have hg2 : g ∈ s.vbuffers.displayed.filter (fun g => g != pframe) := by
            simpa [Call.apply, VideoBuffers.safeEnqueue, VideoBuffers.enqueue,
              VideoBuffers.setQueue, VideoBuffers.queue, VideoBuffers.removeAll] using hg
          exact (List.mem_filter.1 hg2).1
      · exact Steps.trans env h1 (ih _ _ _ h hD)

/-- The reclaim sweep moves only displayed frames that are reported not
displaying, and moves them to the available queue. -/
theorem CheckDisplayedFramesForAvailability_steps_status (s : VideoOutputXv) :
    Steps env (Call.within
      (fun g => g ∈ s.vbuffers.displayed ∧ IsDisplaying env (some g) = false) false false) s
      (VideoOutputXv.CheckDisplayedFramesForAvailability env s) := by
  have h1 := sweepPrepare_steps env s
  have hd := Steps.queue_eq env h1 .kVideoBuffer_displayed (by simp) (by simp) (by simp)
    (fun _ _ h => h)
  obtain ⟨s4, h4, heq⟩ := sweepDisplayed_eq env (VideoOutputXv.removeDisplayedInheritence env
    (if s.xvmc_buf_attr.IsAggressive then VideoOutputXv.aggressiveSweep env s else s))
  unfold VideoOutputXv.CheckDisplayedFramesForAvailability
  simp only []
  rw [heq]
  have h5 := sweepLoop_steps_status env s.vbuffers.displayed _ _ _ _ h4 (by
    intro f hf
    have hf2 : f ∈ (VideoOutputXv.removeDisplayedInheritence env
      (if s.xvmc_buf_attr.IsAggressive then VideoOutputXv.aggressiveSweep env s
        else s)).vbuffers.queue .kVideoBuffer_displayed := hf
    rw [hd] at hf2
    exact hf2)
  refine Steps.then_vcall env (Steps.trans env (Steps.then_vcall env (h1.mono env
    (within_mono (fun _ h => absurd h id) (fun h => h) (fun h => h)))
    (Call.begin_lock .kVideoBuffer_displayed) trivial) h5) Call.end_lock trivial

/-- The step of `ShowXvMC` that tries to lock the OSD frame, when the lock is
taken. -/
theorem ShowXvMC_lockOSD_ok (frame o : VideoFrame) (s : VideoOutputXv)
    (hosd : s.vbuffers.GetOSDFrame (some frame) = some o) (hok : env.TryLockFrame o = true) :
    VideoOutputXv.ShowXvMC_lockOSD env frame s =
      (some o, s.vcall env (Call.TryLockFrame o true)) := by
  unfold VideoOutputXv.ShowXvMC_lockOSD
  rw [hosd]
  simp [hok]

/-- When `ShowXvMC` has locked the OSD frame of the frame it shows, its last
call is `safeEnqueue(kVideoBuffer_displayed, osdframe)`. -/
theorem ShowXvMC_ok_last (s : VideoOutputXv) (frame o : VideoFrame) (u : Bool)
    (hsel : VideoOutputXv.ShowXvMC_select s = (some frame, u))
    (hosd : s.vbuffers.GetOSDFrame (some frame) = some o)
    (hok : env.TryLockFrame o = true) :
    ∃ σ : VideoOutputXv, VideoOutputXv.ShowXvMC env s =
      σ.vcall env (Call.safeEnqueue .kVideoBuffer_displayed (some o)) := by
  have hsel2 : VideoOutputXv.ShowXvMC_select (s.vcall env (Call.begin_lock .kVideoBuffer_pause))
      = (some frame, u) := hsel
  have hosd2 : (((s.vcall env (Call.begin_lock .kVideoBuffer_pause)).vcall env
      Call.end_lock).vcall env (Call.LockFrame frame)).vbuffers.GetOSDFrame (some frame)
      = some o := hosd
  unfold VideoOutputXv.ShowXvMC
  simp only [hsel2]
  unfold VideoOutputXv.ShowXvMC_show
  simp only [ShowXvMC_lockOSD_ok env frame o _ hosd2 hok]
  exact ⟨_, rfl⟩

end LockedFrames

/-- C15, as stated, fails.  `ShowXvMC` on the paused state locks the pause
frame 1 and its OSD frame 2, which is in the displayed queue since it was shown;
the back-end reports nothing displaying, and the reclaim sweep called before the
locks are released enqueues frame 2 into the available queue.  After unlocking,
`ShowXvMC` moves frame 2 back to the displayed queue. -/
theorem sweep_enqueues_locked_frame :
    (VideoOutputXv.ShowXvMC idleEnv pausedState).trace =
      [Call.begin_lock .kVideoBuffer_pause, Call.end_lock, Call.LockFrame 1,
        Call.TryLockFrame 2 true, Call.XvMCPutSurface (some 2),
        Call.begin_lock .kVideoBuffer_displayed, Call.RemoveInheritence 2, Call.end_lock,
        Call.begin_lock .kVideoBuffer_displayed, Call.SyncSurface (some 2) 0,
        Call.RemoveInheritence 2, Call.safeEnqueue .kVideoBuffer_avail (some 2), Call.end_lock,
        Call.begin_lock .kVideoBuffer_displayed, Call.end_lock,
        Call.UnlockFrame (some 2), Call.UnlockFrame (some 1),
        Call.safeEnqueue .kVideoBuffer_displayed (some 2)] ∧
    enqueuesLocked idleEnv pausedState.vbuffers
      (VideoOutputXv.ShowXvMC idleEnv pausedState).trace = true ∧
    pausedLockedState.vbuffers.lockCount 2 = 1 ∧
    enqueuesLocked idleEnv pausedLockedState.vbuffers
      (VideoOutputXv.CheckDisplayedFramesForAvailability idleEnv pausedLockedState).trace
      = true ∧
    (VideoOutputXv.ShowXvMC idleEnv pausedState).vbuffers.displayed = [2] := by
  decide

/-- C15, amended.  The reclaim sweep does not look at lock counts, which it
leaves unchanged; what keeps a frame out of the available queue is the back-end
status.  A frame of the displayed queue that is reported not displaying and has
no children is in the available queue after the sweep, locked or not.  A frame
is in the available queue after the sweep only if it was there before or was in
the displayed queue and is reported not displaying; so a frame outside the
available queue that the back-end reports as displaying is never put there.
When `ShowXvMC` has locked the OSD frame of the frame it shows, that OSD frame is
in the displayed queue and not in the available queue at return. -/
theorem sweep_ignores_lock_counts (env : Env) (s : VideoOutputXv) (f frame o : VideoFrame)
    (u : Bool) :
    (f ∈ s.vbuffers.displayed → IsDisplaying env (some f) = false →
      s.vbuffers.HasChildren f = false →
      f ∈ (VideoOutputXv.CheckDisplayedFramesForAvailability env s).vbuffers.available) ∧
    (f ∈ (VideoOutputXv.CheckDisplayedFramesForAvailability env s).vbuffers.available →
      f ∈ s.vbuffers.available ∨
      (f ∈ s.vbuffers.displayed ∧ IsDisplaying env (some f) = false)) ∧
    (IsDisplaying env (some f) = true → f ∉ s.vbuffers.available →
      f ∉ (VideoOutputXv.CheckDisplayedFramesForAvailability env s).vbuffers.available) ∧
    (VideoOutputXv.CheckDisplayedFramesForAvailability env s).vbuffers.lockCount =
      s.vbuffers.lockCount ∧
    (VideoOutputXv.ShowXvMC_select s = (some frame, u) →
      s.vbuffers.GetOSDFrame (some frame) = some o → env.TryLockFrame o = true →
      o ∈ (VideoOutputXv.ShowXvMC env s).vbuffers.displayed ∧
      o ∉ (VideoOutputXv.ShowXvMC env s).vbuffers.available) := by
  have horigin : f ∈ (VideoOutputXv.CheckDisplayedFramesForAvailability env
      s).vbuffers.available →
      f ∈ s.vbuffers.available ∨
      (f ∈ s.vbuffers.displayed ∧ IsDisplaying env (some f) = false) := fun hf =>
    Steps.mem_origin env (CheckDisplayedFramesForAvailability_steps_status env s)
      .kVideoBuffer_avail f hf
  refine ⟨CheckDisplayedFramesForAvailability_reclaims env s f, horigin, ?_,
    CheckDisplayedFramesForAvailability_lockCount env s, ?_⟩
  · intro hd hna hf
    rcases horigin hf with h | h
    · exact hna h
    · rw [hd] at h
      exact absurd h.2 (by simp)
  · intro hsel hosd hok
    obtain ⟨σ, hσ⟩ := ShowXvMC_ok_last env s frame o u hsel hosd hok
    rw [hσ]
    constructor
    · simp [Call.apply, VideoBuffers.safeEnqueue, VideoBuffers.enqueue, VideoBuffers.setQueue,
        VideoBuffers.queue]
    · simp [Call.apply, VideoBuffers.safeEnqueue, VideoBuffers.enqueue, VideoBuffers.setQueue,
        VideoBuffers.queue, VideoBuffers.removeAll]

/-- C15, amended, at the concrete states of the counterexample: the locked OSD
frame 2, displayed and reported not displaying, is put into the available queue
by the sweep; at the return of `ShowXvMC` it is in the displayed queue. -/
theorem sweep_ignores_lock_counts_witness :
    pausedLockedState.vbuffers.lockCount 2 = 1 ∧
    2 ∈ (VideoOutputXv.CheckDisplayedFramesForAvailability idleEnv
      pausedLockedState).vbuffers.available ∧
    2 ∈ (VideoOutputXv.ShowXvMC idleEnv pausedState).vbuffers.displayed ∧
    2 ∉ (VideoOutputXv.ShowXvMC idleEnv pausedState).vbuffers.available :=
  ⟨by decide,
    (sweep_ignores_lock_counts idleEnv pausedLockedState 2 1 2 true).1 (by decide) (by decide)
      (by decide),
    (sweep_ignores_lock_counts idleEnv pausedState 2 1 2 true).2.2.2.2 (by decide) (by decide)
      (by decide)⟩

/-! ## Queue membership -/

section Membership

variable (env : Env)

theorem memberships_eq (vb : VideoBuffers) (g : VideoFrame) :
    vb.memberships g = (vb.queue .kVideoBuffer_avail).count g +
      (vb.queue .kVideoBuffer_limbo).count g + (vb.queue .kVideoBuffer_used).count g +
      (vb.queue .kVideoBuffer_pause).count g + (vb.queue .kVideoBuffer_displayed).count g := by
  simp only [VideoBuffers.memberships, VideoBuffers.allQueues, VideoBuffers.queue,
    List.count_append]

/-- Pools with the same queues give the same memberships. -/
theorem memberships_congr (vb1 vb2 : VideoBuffers) (h : ∀ t, vb1.queue t = vb2.queue t)
    (g : VideoFrame) : vb1.memberships g = vb2.memberships g := by
  rw [memberships_eq, memberships_eq, h, h, h, h, h]

theorem count_filter_ne (l : List VideoFrame) (f g : VideoFrame) :
    (l.filter (fun x => x != f)).count g = if g = f then 0 else l.count g := by
  by_cases hg : g = f
  · subst hg
    rw [if_pos rfl]
    apply List.count_eq_zero.2
    intro hmem
    have := (List.mem_filter.1 hmem).2
    simp at this
  · rw [if_neg hg]
    exact List.count_filter (by simpa using hg)

/-- The call `safeEnqueue` leaves the frame it is given in exactly one queue, and
changes the membership of no other frame. -/
theorem safeEnqueue_memberships (vb : VideoBuffers) (dst : BufferType) (f g : VideoFrame) :
    (vb.safeEnqueue dst (some f)).memberships g = if g = f then 1 else vb.memberships g := by
  rw [memberships_eq, memberships_eq]
  by_cases hg : g = f
  · subst hg
    cases dst <;> simp [safeEnqueue_queue, List.count_append, count_filter_ne]
  · have hg2 : ¬ f = g := fun h => hg h.symm
    cases dst <;> simp [safeEnqueue_queue, List.count_append, count_filter_ne, hg, hg2]

theorem poolDiscardFrame_memberships (vb : VideoBuffers) (f g : VideoFrame)
    (hf : vb.memberships f = 1) : (vb.DiscardFrame f).memberships g = vb.memberships g := by
  unfold VideoBuffers.DiscardFrame
  split
  · rw [safeEnqueue_memberships]
    split
    · rename_i hg
      rw [hg, hf]
    · rfl
  · rfl

/-- A reclaiming call that is no `dequeue` changes no membership, provided the
frames it may move are in exactly one queue. -/
theorem apply_memberships_of_within (F : VideoFrame → Prop) (td : Bool) (c : Call)
    (hc : c.within F false td) (vb : VideoBuffers)
    (hF : ∀ f, F f → vb.memberships f = 1) (g : VideoFrame) :
    (c.apply env vb).memberships g = vb.memberships g := by
  cases c with
  | safeEnqueue dst o =>
    cases o with
    | none => rfl
    | some f =>
      simp only [Call.apply, safeEnqueue_memberships]
      split
      · rename_i hg
        rw [hg, hF f hc.2]
      · rfl
  | DiscardFrame f => exact poolDiscardFrame_memberships vb f g (hF f hc)
  | dequeue t => exact absurd hc.2 (by simp)
  | DiscardFrames k => exact absurd hc id
  | DoneDisplayingFrame => exact absurd hc id
  | GetNextFreeFrame l u => exact absurd hc id
  | XvMCPutSurface sf => exact absurd hc id
  | TryLockFrame f ok =>
    cases ok
    · rfl
    · exact memberships_congr _ _ (fun t => LockFrame_queue vb f t) g
  | LockFrame f => exact memberships_congr _ _ (fun t => LockFrame_queue vb f t) g
  | UnlockFrame o => exact memberships_congr _ _ (fun t => UnlockFrame_queue vb o t) g
  | SetOSDFrame f o => exact memberships_congr _ _ (fun t => SetOSDFrame_queue vb f o t) g
  | RemoveInheritence f =>
    exact memberships_congr _ _ (fun t => RemoveInheritence_queue vb f t) g
  | _ => rfl

theorem runCalls_memberships_of_within (F : VideoFrame → Prop) (td : Bool) (l : List Call) :
    ∀ vb : VideoBuffers, (∀ c ∈ l, c.within F false td) →
      (∀ f, F f → vb.memberships f = 1) →
      ∀ g, (runCalls env l vb).memberships g = vb.memberships g := by
  induction l with
  | nil => intro vb _ _ g; rfl
  | cons c l ih =>
    intro vb hl hF g
    simp only [runCalls_cons]
    have hc := hl c (List.mem_cons_self _ _)
    have h1 := apply_memberships_of_within env F td c hc vb hF
    rw [ih (c.apply env vb) (fun c2 hc2 => hl c2 (List.mem_cons_of_mem _ hc2))
      (fun f hf => by rw [h1 f]; exact hF f hf) g, h1 g]

/-- Reclaiming steps without `dequeue` change no membership, provided the frames
they may move are in exactly one queue. -/
theorem Steps.memberships {F : VideoFrame → Prop} {td : Bool} {s1 s2 : VideoOutputXv}
    (h : Steps env (Call.within F false td) s1 s2)
    (hF : ∀ f, F f → s1.vbuffers.memberships f = 1) (g : VideoFrame) :
    s2.vbuffers.memberships g = s1.vbuffers.memberships g := by
  obtain ⟨-, -, l, -, v, p⟩ := h
  rw [v]
  exact runCalls_memberships_of_within env F td l s1.vbuffers p hF g

theorem mem_queue_memberships (vb : VideoBuffers) (t : BufferType) (f : VideoFrame)
    (hf : f ∈ vb.queue t) : 0 < vb.memberships f := by
  rw [memberships_eq]
  have := List.count_pos_iff.2 hf
  cases t <;> omega

theorem count_tail (l : List VideoFrame) (g : VideoFrame) :
    l.tail.count g = l.count g - (if l.head? = some g then 1 else 0) := by
  cases l with
  | nil => simp
  | cons a l =>
    by_cases hg : a = g
    · subst hg
      simp
    · simp [List.count_cons, hg]

/-- The call `dequeue` takes the head of the queue out of the queues. -/
theorem dequeue_memberships (vb : VideoBuffers) (t : BufferType) (g : VideoFrame) :
    (vb.dequeue t).memberships g =
      vb.memberships g - (if vb.head t = some g then 1 else 0) := by
  rw [memberships_eq, memberships_eq]
  simp only [dequeue_queue, VideoBuffers.head]
  by_cases hh : (vb.queue t).head? = some g
  · have hpos : 0 < (vb.queue t).count g :=
      List.count_pos_iff.2 (List.mem_of_mem_head? hh)
    cases t <;> simp [count_tail, hh] <;> omega
  · cases t <;> simp [count_tail, hh]

/-- The function `DiscardFrame(f)` leaves `f` in exactly one queue if `f` was in
one, or was in none and is not locked; it changes the membership of no other
frame. -/
theorem DiscardFrame_memberships (s : VideoOutputXv) (f g : VideoFrame)
    (hf : s.vbuffers.memberships f = 1 ∨ s.vbuffers.lockCount f = 0) :
    (VideoOutputXv.DiscardFrame env (some f) s).vbuffers.memberships g =
      if g = f then 1 else s.vbuffers.memberships g := by
  have hq := DiscardFrame_queue env s f
  by_cases hk : keptForLater env s f = true
  · simp only [hk, if_true] at hq
    rw [memberships_congr _ _ hq, safeEnqueue_memberships]
  · simp only [hk] at hq
    by_cases hl : s.vbuffers.lockCount f = 0
    · simp only [hl, if_true, Bool.false_eq_true, if_false] at hq
      rw [memberships_congr _ _ hq, safeEnqueue_memberships]
    · simp only [hl, if_false, Bool.false_eq_true] at hq
      rw [memberships_congr _ _ hq]
      split
      · rename_i hg
        rcases hf with h | h
        · rw [hg, h]
        · exact absurd h hl
      · rfl

theorem within_keepsQueued (F : VideoFrame → Prop) (td : Bool) (c : Call)
    (h : c.within F false td) : c.keepsQueued = true := by
  cases c with
  | dequeue t => exact absurd h.2 (by simp)
  | DiscardFrames k => exact absurd h id
  | DoneDisplayingFrame => exact absurd h id
  | _ => rfl

/-- A call that takes no frame out of the queues keeps a frame that is in
exactly one queue in exactly one queue. -/
theorem apply_keeps (c : Call) (hc : c.keepsQueued = true) (vb : VideoBuffers) (g : VideoFrame)
    (hg : vb.memberships g = 1) : (c.apply env vb).memberships g = 1 := by
  have hse : ∀ (dst : BufferType) (f : VideoFrame),
      (vb.safeEnqueue dst (some f)).memberships g = 1 := by
    intro dst f
    rw [safeEnqueue_memberships]
    split
    · rfl
    · exact hg
  cases c with
  | safeEnqueue dst o =>
    cases o with
    | none => exact hg
    | some f => exact hse dst f
  | DiscardFrame f =>
    simp only [Call.apply, VideoBuffers.DiscardFrame]
    split
    · exact hse _ f
    · exact hg
  | GetNextFreeFrame l u =>
    show (vb.GetNextFreeFrame l u).memberships g = 1
    cases hn : vb.nextFree u with
    | none =>
      rw [memberships_congr (vb.GetNextFreeFrame l u) vb
        (fun t => by rw [poolGetNextFreeFrame_queue, hn])]
      exact hg
    | some f =>
      rw [memberships_congr (vb.GetNextFreeFrame l u)
        (vb.safeEnqueue .kVideoBuffer_limbo (some f))
        (fun t => by rw [poolGetNextFreeFrame_queue, hn])]
      exact hse _ f
  | dequeue t => exact absurd hc (by simp [Call.keepsQueued])
  | DiscardFrames k => exact absurd hc (by simp [Call.keepsQueued])
  | DoneDisplayingFrame => exact absurd hc (by simp [Call.keepsQueued])
  | TryLockFrame f ok =>
    cases ok
    · exact hg
    · rw [← hg]
      exact memberships_congr _ _ (fun t => LockFrame_queue vb f t) g
  | LockFrame f =>
    rw [← hg]
    exact memberships_congr _ _ (fun t => LockFrame_queue vb f t) g
  | UnlockFrame o =>
    rw [← hg]
    exact memberships_congr _ _ (fun t => UnlockFrame_queue vb o t) g
  | SetOSDFrame f o =>
    rw [← hg]
    exact memberships_congr _ _ (fun t => SetOSDFrame_queue vb f o t) g
  | RemoveInheritence f =>
    rw [← hg]
    exact memberships_congr _ _ (fun t => RemoveInheritence_queue vb f t) g
  | _ => exact hg

theorem runCalls_keeps (l : List Call) (g : VideoFrame) :
    ∀ vb : VideoBuffers, (∀ c ∈ l, c.keepsQueued = true) → vb.memberships g = 1 →
      (runCalls env l vb).memberships g = 1 := by
  induction l with
  | nil => intro vb _ hg; exact hg
  | cons c l ih =>
    intro vb hl hg
    simp only [runCalls_cons]
    exact ih _ (fun c2 hc2 => hl c2 (List.mem_cons_of_mem _ hc2))
      (apply_keeps env c (hl c (List.mem_cons_self _ _)) vb g hg)

/-- Steps that take no frame out of the queues keep a frame that is in exactly
one queue in exactly one queue. -/
theorem Steps.keeps {P : Call → Prop} {s1 s2 : VideoOutputXv} (h : Steps env P s1 s2)
    (hP : ∀ c, P c → c.keepsQueued = true) (g : VideoFrame)
    (hg : s1.vbuffers.memberships g = 1) : s2.vbuffers.memberships g = 1 := by
  obtain ⟨-, -, l, -, v, p⟩ := h
  rw [v]
  exact runCalls_keeps env l g s1.vbuffers (fun c hc => hP c (p c hc)) hg

theorem vcall_keeps (s : VideoOutputXv) (c : Call) (hc : c.keepsQueued = true) (g : VideoFrame)
    (hg : s.vbuffers.memberships g = 1) : (s.vcall env c).vbuffers.memberships g = 1 :=
  apply_keeps env c hc s.vbuffers g hg

/-- The function `DiscardFrame` keeps a frame that is in exactly one queue in
exactly one queue. -/
theorem DiscardFrame_keeps (s : VideoOutputXv) (o : Option VideoFrame) (g : VideoFrame)
    (hg : s.vbuffers.memberships g = 1) :
    (VideoOutputXv.DiscardFrame env o s).vbuffers.memberships g = 1 :=
  Steps.keeps env (DiscardFrame_steps_opt env s o) (within_keepsQueued _ _) g hg

/-- The reclaim sweep keeps a frame that is in exactly one queue in exactly one
queue. -/
theorem CheckDisplayedFramesForAvailability_keeps (s : VideoOutputXv) (g : VideoFrame)
    (hg : s.vbuffers.memberships g = 1) :
    (VideoOutputXv.CheckDisplayedFramesForAvailability env s).vbuffers.memberships g = 1 :=
  Steps.keeps env (CheckDisplayedFramesForAvailability_steps env s) (within_keepsQueued _ _) g hg

/-- The loop that empties the pause queue puts every frame it dequeues back into
a queue, provided the frame is not locked. -/
theorem discardPause_keeps (g : VideoFrame) (n : Nat) :
    ∀ s : VideoOutputXv, s.vbuffers.memberships g = 1 → s.vbuffers.lockCount g = 0 →
      (VideoOutputXv.discardPause env n s).vbuffers.memberships g = 1 := by
  induction n with
  | zero => intro s hg _; exact hg
  | succ n ih =>
    intro s hg hl
    simp only [VideoOutputXv.discardPause]
    split
    · have hl1 : (s.vcall env (Call.dequeue .kVideoBuffer_pause)).vbuffers.lockCount g = 0 := hl
      have hd := dequeue_memberships s.vbuffers .kVideoBuffer_pause g
      refine ih _ ?_ (by rw [DiscardFrame_lockCount]; exact hl1)
      cases hh : s.vbuffers.head .kVideoBuffer_pause with
      | none =>
        rw [hh] at hd
        simp only [VideoOutputXv.DiscardFrame]
        show (s.vbuffers.dequeue .kVideoBuffer_pause).memberships g = 1
        rw [hd, hg]
        simp
      | some p =>
        by_cases hp : p = g
        · subst hp
          rw [DiscardFrame_memberships env _ p p (Or.inr hl1), if_pos rfl]
        · refine DiscardFrame_keeps env _ _ g ?_
          show (s.vbuffers.dequeue .kVideoBuffer_pause).memberships g = 1
          rw [hd, hh, hg]
          simp [hp]
    · exact hg

theorem discardPause_nil (n : Nat) (s : VideoOutputXv) (hp : s.vbuffers.pause = []) :
    VideoOutputXv.discardPause env n s = s := by
  cases n with
  | zero => rfl
  | succ n => simp [VideoOutputXv.discardPause, VideoBuffers.size, VideoBuffers.queue, hp]

theorem UpdatePauseFrame_displayed_keeps (s : VideoOutputXv) (g : VideoFrame)
    (hg : s.vbuffers.memberships g = 1) :
    (VideoOutputXv.UpdatePauseFrame_displayed env s).vbuffers.memberships g = 1 := by
  unfold VideoOutputXv.UpdatePauseFrame_displayed
  simp only []
  refine vcall_keeps env _ _ (by rfl) g ?_
  have h1 := vcall_keeps env s (Call.begin_lock .kVideoBuffer_displayed) (by rfl) g hg
  split
  · exact vcall_keeps env _ _ (by rfl) g h1
  · exact h1

theorem UpdatePauseFrame_XVideo_keeps (s : VideoOutputXv) (g : VideoFrame)
    (hg : s.vbuffers.memberships g = 1) :
    (VideoOutputXv.UpdatePauseFrame_XVideo env s).vbuffers.memberships g = 1 := by
  unfold VideoOutputXv.UpdatePauseFrame_XVideo
  lift_lets
  intro s1 s2 r used_frame s3 s4 s5 ok s6 s7 s8 s9
  have h2 : s2.vbuffers.memberships g = 1 :=
    vcall_keeps env _ _ (by rfl) g (vcall_keeps env s _ (by rfl) g hg)
  have hr : r.2.vbuffers.memberships g = 1 := by
    simp only [r]
    split
    · split
      · exact h2
      · exact vcall_keeps env _ _ (by rfl) g h2
    · exact h2
  have h5 : s5.vbuffers.memberships g = 1 := by
    refine vcall_keeps env _ _ (by rfl) g ?_
    simp only [s4, used_frame]
    cases hu : r.1 with
    | none => exact hr
    | some u => exact vcall_keeps env _ _ (by rfl) g hr
  refine vcall_keeps env _ _ (by rfl) g ?_
  simp only [s9]
  have h6 : s6.vbuffers.memberships g = 1 := vcall_keeps env _ _ (by rfl) g h5
  split
  · split
    · exact vcall_keeps env _ _ (by rfl) g h6
    · exact h6
  · exact h5

theorem ShowXvMC_show_keeps (frame : VideoFrame) (u : Bool) (s : VideoOutputXv) (g : VideoFrame)
    (hu : u = false → s.vbuffers.pause = []) (hg : s.vbuffers.memberships g = 1) :
    (VideoOutputXv.ShowXvMC_show env frame u s).vbuffers.memberships g = 1 := by
  have hst : Steps env (fun c => c.growsPause = false) s
      ((VideoOutputXv.ShowXvMC_lockOSD env frame (s.vcall env (Call.LockFrame frame))).2.vcall env
        (Call.XvMCPutSurface (VideoOutputXv.showingSurface env frame
          (VideoOutputXv.ShowXvMC_lockOSD env frame (s.vcall env (Call.LockFrame frame))).1))) :=
    ng_then env (Steps.trans env (ng_vcall env s _ (by rfl))
      (ShowXvMC_lockOSD_steps env frame _)) _ (by rfl)
  have h1 : ((VideoOutputXv.ShowXvMC_lockOSD env frame
      (s.vcall env (Call.LockFrame frame))).2.vcall env
        (Call.XvMCPutSurface (VideoOutputXv.showingSurface env frame
          (VideoOutputXv.ShowXvMC_lockOSD env frame
            (s.vcall env (Call.LockFrame frame))).1))).vbuffers.memberships g = 1 :=
    vcall_keeps env _ _ (by rfl) g
      (Steps.keeps env (ShowXvMC_lockOSD_within env frame _) (within_keepsQueued _ _) g
        (vcall_keeps env s _ (by rfl) g hg))
  unfold VideoOutputXv.ShowXvMC_show
  simp only []
  refine vcall_keeps env _ _ (by rfl) g (vcall_keeps env _ _ (by rfl) g
    (vcall_keeps env _ _ (by rfl) g (CheckDisplayedFramesForAvailability_keeps env _ g ?_)))
  cases u with
  | true =>
    simp only [Bool.not_true, Bool.false_eq_true, if_false]
    exact h1
  | false =>
    simp only [Bool.not_false, if_true]
    have hp := Steps.pause_sublist env hst
    rw [hu rfl] at hp
    rw [discardPause_nil env _ _ (List.sublist_nil.1 hp)]
    exact h1

/-- The function `ShowXvMC` keeps a frame that is in exactly one queue in exactly
one queue. -/
theorem ShowXvMC_keeps (s : VideoOutputXv) (g : VideoFrame)
    (hg : s.vbuffers.memberships g = 1) :
    (VideoOutputXv.ShowXvMC env s).vbuffers.memberships g = 1 := by
  have h0 : ((s.vcall env (Call.begin_lock .kVideoBuffer_pause)).vcall env
      Call.end_lock).vbuffers.memberships g = 1 :=
    vcall_keeps env _ _ (by rfl) g (vcall_keeps env s _ (by rfl) g hg)
  unfold VideoOutputXv.ShowXvMC
  simp only []
  split
  · exact h0
  · refine ShowXvMC_show_keeps env _ _ _ g (fun h => ?_) h0
    show s.vbuffers.pause = []
    by_cases hsz : s.vbuffers.size .kVideoBuffer_pause ≠ 0
    · have hsz2 : (s.vcall env (Call.begin_lock .kVideoBuffer_pause)).vbuffers.size
          .kVideoBuffer_pause ≠ 0 := hsz
      unfold VideoOutputXv.ShowXvMC_select at h
      rw [if_pos hsz2] at h
      exact absurd h (by simp)
    · exact List.length_eq_zero.1 (by simpa [VideoBuffers.size, VideoBuffers.queue] using hsz)

/-- The XvMC path of `DoneDisplayingFrame` keeps a frame that is in exactly one
queue in exactly one queue. -/
theorem DoneDisplayingFrame_keeps (s : VideoOutputXv) (g : VideoFrame)
    (hm : ¬ s.video_output_subtype.toNat ≤ VOSType.XVideo.toNat)
    (hg : s.vbuffers.memberships g = 1) :
    (VideoOutputXv.DoneDisplayingFrame env s).vbuffers.memberships g = 1 := by
  unfold VideoOutputXv.DoneDisplayingFrame
  simp only [VideoOutputSubType_eq, if_neg hm]
  refine CheckDisplayedFramesForAvailability_keeps env _ g ?_
  split
  · have h1 := DiscardFrame_keeps env s (s.vbuffers.head .kVideoBuffer_used) g hg
    split
    · exact DiscardFrame_keeps env _ _ g h1
    · exact h1
  · exact hg

/-- The XvMC path of `DiscardFrames` keeps a frame that is in exactly one queue
in exactly one queue. -/
theorem DiscardFrames_keeps (b : Bool) (s : VideoOutputXv) (g : VideoFrame)
    (hm : ¬ s.video_output_subtype.toNat ≤ VOSType.XVideo.toNat)
    (hg : s.vbuffers.memberships g = 1) :
    (VideoOutputXv.DiscardFrames env b s).vbuffers.memberships g = 1 := by
  rw [DiscardFrames_XvMC_vbuffers env b s hm]
  refine Steps.keeps env (fold_discard_leaves env _ _).1 (within_keepsQueued _ _) g ?_
  rw [(DiscardFrames_collect_spec env s).1]
  exact CheckDisplayedFramesForAvailability_keeps env _ g
    (vcall_keeps env _ _ (by rfl) g (vcall_keeps env s _ (by rfl) g hg))

/-- The function `UpdatePauseFrame` keeps a frame that is in exactly one queue
and not locked in exactly one queue. -/
theorem UpdatePauseFrame_keeps (s : VideoOutputXv) (g : VideoFrame)
    (hg : s.vbuffers.memberships g = 1) (hl : s.vbuffers.lockCount g = 0) :
    (VideoOutputXv.UpdatePauseFrame env s).vbuffers.memberships g = 1 := by
  unfold VideoOutputXv.UpdatePauseFrame
  split
  · exact UpdatePauseFrame_XVideo_keeps env s g hg
  · split
    · exact UpdatePauseFrame_displayed_keeps env _ g
        (CheckDisplayedFramesForAvailability_keeps env _ g (discardPause_keeps env g _ s hg hl))
    · split
      · have hd := dequeue_memberships s.vbuffers .kVideoBuffer_used g
        simp only []
        split
        · rename_i f hf
          by_cases hfg : f = g
          · subst hfg
            show (VideoBuffers.safeEnqueue _ .kVideoBuffer_pause (some f)).memberships f = 1
            rw [safeEnqueue_memberships, if_pos rfl]
          · refine vcall_keeps env _ _ (by rfl) g (discardPause_keeps env g _ _ ?_ hl)
            show (s.vbuffers.dequeue .kVideoBuffer_used).memberships g = 1
            rw [hd, hf, hg]
            simp [hfg]
        · rename_i hf
          show (s.vbuffers.dequeue .kVideoBuffer_used).memberships g = 1
          rw [hd, hf, hg]
          simp
      · exact UpdatePauseFrame_displayed_keeps env s g hg

/-- One operation keeps a frame that is in exactly one queue and not locked in
exactly one queue and not locked; the subtype stays the same. -/
theorem PoolOp.run_keeps (op : PoolOp) (s : VideoOutputXv) (g : VideoFrame)
    (henv : s.video_output_subtype.toNat ≤ VOSType.XVideo.toNat → env.keepsQueued g)
    (hg : s.vbuffers.memberships g = 1) (hl : s.vbuffers.lockCount g = 0) :
    (op.run env s).video_output_subtype = s.video_output_subtype ∧
    (op.run env s).vbuffers.memberships g = 1 ∧ (op.run env s).vbuffers.lockCount g = 0 := by
  cases op with
  | GetNextFreeFrame u =>
    have ht := GetNextFreeFrame_traced env true 0 u s
    obtain ⟨_, _, _, hlc⟩ := Traced.balanced env ht
    exact ⟨ht.1, vcall_keeps env s _ (by rfl) g hg, (congrFun hlc g).trans hl⟩
  | DiscardFrame o =>
    have ht := DiscardFrame_traced env true s o
    exact ⟨ht.1, DiscardFrame_keeps env s o g hg, (congrFun (DiscardFrame_lockCount env s o) g).trans hl⟩
  | DoneDisplayingFrame =>
    by_cases hm : s.video_output_subtype.toNat ≤ VOSType.XVideo.toNat
    · have hk := henv hm s.vbuffers hg hl
      simp only [PoolOp.run, VideoOutputXv.DoneDisplayingFrame, VideoOutputSubType_eq, if_pos hm]
      exact ⟨rfl, hk.2.1, hk.2.2⟩
    · have ht := DoneDisplayingFrame_traced env true s hm (fun _ => rfl)
      obtain ⟨_, _, _, hlc⟩ := Traced.balanced env ht
      exact ⟨ht.1, DoneDisplayingFrame_keeps env s g hm hg, (congrFun hlc g).trans hl⟩
  | DiscardFrames k =>
    by_cases hm : s.video_output_subtype.toNat ≤ VOSType.XVideo.toNat
    · have hk := henv hm s.vbuffers hg hl
      simp only [PoolOp.run, VideoOutputXv.DiscardFrames, VideoOutputSubType_eq, if_pos hm]
      exact ⟨rfl, (hk.1 k).1, (hk.1 k).2⟩
    · have ht := DiscardFrames_traced env true k s hm (fun _ => rfl)
      obtain ⟨_, _, _, hlc⟩ := Traced.balanced env ht
      exact ⟨ht.1, DiscardFrames_keeps env k s g hm hg, (congrFun hlc g).trans hl⟩
  | UpdatePauseFrame =>
    have ht := UpdatePauseFrame_traced env true s (fun _ => rfl)
    obtain ⟨_, _, _, hlc⟩ := Traced.balanced env ht
    exact ⟨ht.1, UpdatePauseFrame_keeps env s g hg hl, (congrFun hlc g).trans hl⟩
  | ShowXvMC =>
    have ht := ShowXvMC_traced env true s (fun _ => rfl)
    obtain ⟨_, _, _, hlc⟩ := Traced.balanced env ht
    exact ⟨ht.1, ShowXvMC_keeps env s g hg, (congrFun hlc g).trans hl⟩

/-- A sequence of operations keeps a frame that is in exactly one queue and not
locked in exactly one queue and not locked. -/
theorem runOps_keeps (g : VideoFrame) (ops : List PoolOp) :
    ∀ s : VideoOutputXv,
      (s.video_output_subtype.toNat ≤ VOSType.XVideo.toNat → env.keepsQueued g) →
      s.vbuffers.memberships g = 1 → s.vbuffers.lockCount g = 0 →
      (runOps env ops s).vbuffers.memberships g = 1 ∧
      (runOps env ops s).vbuffers.lockCount g = 0 := by
  induction ops with
  | nil => intro s _ hg hl; exact ⟨hg, hl⟩
  | cons op ops ih =>
    intro s henv hg hl
    obtain ⟨h1, h2, h3⟩ := PoolOp.run_keeps env op s g henv hg hl
    simp only [runOps, List.foldl_cons]
    exact ih (op.run env s) (by rw [h1]; exact henv) h2 h3

end Membership

/-- C21. `ApproveDeintFilter(filtername)` returns true when `filtername` is
"bobdeint" and the subtype is XVideo or one of the XvMC subtypes; it returns
false for every other filter name when the subtype is an XvMC subtype; in the
remaining cases (a subtype below XVideo, or XVideo with another filter name) it
returns what `VideoOutput::ApproveDeintFilter(filtername)` returns. -/
theorem ApproveDeintFilter_cases (base : String → Bool) (s : VideoOutputXv)
    (filtername : String) :
    (filtername = "bobdeint" →
      (s.video_output_subtype = .XVideo ∨ s.video_output_subtype = .XVideoMC ∨
        s.video_output_subtype = .XVideoIDCT ∨ s.video_output_subtype = .XVideoVLD) →
      VideoOutputXv.ApproveDeintFilter base s filtername = true) ∧
    (filtername ≠ "bobdeint" →
      (s.video_output_subtype = .XVideoMC ∨ s.video_output_subtype = .XVideoIDCT ∨
        s.video_output_subtype = .XVideoVLD) →
      VideoOutputXv.ApproveDeintFilter base s filtername = false) ∧
    ((s.video_output_subtype = .XVUnknown ∨ s.video_output_subtype = .Xlib ∨
        s.video_output_subtype = .XShm) ∨
      (s.video_output_subtype = .XVideo ∧ filtername ≠ "bobdeint") →
      VideoOutputXv.ApproveDeintFilter base s filtername = base filtername) := by
  unfold VideoOutputXv.ApproveDeintFilter
  simp only [VideoOutputSubType_eq]
  refine ⟨fun hf hs => ?_, fun hf hs => ?_, fun h => ?_⟩
  · rcases hs with h | h | h | h <;> simp [hf, h, VOSType.toNat]
  · rcases hs with h | h | h <;> simp [hf, h, VOSType.toNat]
  · rcases h with (h | h | h) | ⟨h, hf⟩ <;> simp [h, VOSType.toNat, *]

/-- C21 on examples: in XVideo mode "bobdeint" is approved whatever the base
class says and "linearblend" is left to the base class; in XvMC mode
"linearblend" is rejected although the base class would approve it. -/
theorem ApproveDeintFilter_cases_witness :
    VideoOutputXv.ApproveDeintFilter (fun _ => false) scenarioC_XVideo "bobdeint" = true ∧
    VideoOutputXv.ApproveDeintFilter (fun _ => true) pausedState "linearblend" = false ∧
    VideoOutputXv.ApproveDeintFilter (fun n => n == "linearblend") scenarioC_XVideo
      "linearblend" = true :=
  ⟨(ApproveDeintFilter_cases (fun _ => false) scenarioC_XVideo "bobdeint").1 rfl (Or.inl rfl),
   (ApproveDeintFilter_cases (fun _ => true) pausedState "linearblend").2.1 (by decide)
     (Or.inl rfl),
   ((ApproveDeintFilter_cases (fun n => n == "linearblend") scenarioC_XVideo
     "linearblend").2.2 (Or.inr ⟨rfl, by decide⟩)).trans (by decide)⟩

/-! ## Surface-count clamp -/

/-- Every reachable buffer settings object has the bounds 8 and 16 and a surface
count between them. -/
theorem XvMCBufferSettings.after_bounds (ops : List XvMCBufferSettings.Op) :
    ∀ b : XvMCBufferSettings,
      b.min_num_xvmc_surfaces = 8 → b.max_num_xvmc_surfaces = 16 →
      8 ≤ b.num_xvmc_surfaces → b.num_xvmc_surfaces ≤ 16 →
      (ops.foldl (fun b op => op.apply b) b).min_num_xvmc_surfaces = 8 ∧
      (ops.foldl (fun b op => op.apply b) b).max_num_xvmc_surfaces = 16 ∧
      8 ≤ (ops.foldl (fun b op => op.apply b) b).num_xvmc_surfaces ∧
      (ops.foldl (fun b op => op.apply b) b).num_xvmc_surfaces ≤ 16 := by
  induction ops with
  | nil => intro b h1 h2 h3 h4; exact ⟨h1, h2, h3, h4⟩
  | cons op ops ih =>
    intro b h1 h2 h3 h4
    simp only [List.foldl_cons]
    cases op with
    | SetOSDNum val => exact ih _ h1 h2 h3 h4
    | SetNumSurf val =>
      refine ih _ h1 h2 ?_ ?_
      · simp only [XvMCBufferSettings.Op.apply, XvMCBufferSettings.SetNumSurf, h1, h2]
        omega
      · simp only [XvMCBufferSettings.Op.apply, XvMCBufferSettings.SetNumSurf, h1, h2]
        omega

/-- C26. In every buffer settings object `b` reachable from the constructor,
`GetMinSurf()` is 8 and `GetMaxSurf()` is 16, and for every unsigned `val`, after
`SetNumSurf(val)` the value of `GetNumSurf()` is `val` clamped into
`[GetMinSurf(), GetMaxSurf()]`: `val` itself when `8 <= val <= 16`, 8 when `val`
is below, 16 when it is above.  So `8 <= GetNumSurf() <= 16` in every reachable
object, and `SetNumSurf` is idempotent. -/
theorem SetNumSurf_clamp (ops : List XvMCBufferSettings.Op) (val : Nat) (hval : val < 2 ^ 32) :
    (XvMCBufferSettings.after ops).GetMinSurf = 8 ∧
    (XvMCBufferSettings.after ops).GetMaxSurf = 16 ∧
    ((XvMCBufferSettings.after ops).SetNumSurf val).GetNumSurf =
      min (max val (XvMCBufferSettings.after ops).GetMinSurf)
        (XvMCBufferSettings.after ops).GetMaxSurf ∧
    (8 ≤ val → val ≤ 16 → ((XvMCBufferSettings.after ops).SetNumSurf val).GetNumSurf = val) ∧
    (val < 8 → ((XvMCBufferSettings.after ops).SetNumSurf val).GetNumSurf = 8) ∧
    (16 < val → ((XvMCBufferSettings.after ops).SetNumSurf val).GetNumSurf = 16) ∧
    8 ≤ (XvMCBufferSettings.after ops).GetNumSurf ∧
    (XvMCBufferSettings.after ops).GetNumSurf ≤ 16 ∧
    ((XvMCBufferSettings.after ops).SetNumSurf val).SetNumSurf val =
      (XvMCBufferSettings.after ops).SetNumSurf val := by
  obtain ⟨h1, h2, h3, h4⟩ := XvMCBufferSettings.after_bounds ops XvMCBufferSettings.new
    rfl rfl (by decide) (by decide)
  have hmod : val % 2 ^ 32 = val := Nat.mod_eq_of_lt hval
  unfold XvMCBufferSettings.after
  generalize List.foldl (fun b op => XvMCBufferSettings.Op.apply op b) XvMCBufferSettings.new ops
    = b at h1 h2 h3 h4 ⊢
  obtain ⟨n1, n2, mn, mx, num, ag⟩ := b
  simp only at h1 h2 h3 h4
  subst h1 h2
  simp only [XvMCBufferSettings.GetMinSurf, XvMCBufferSettings.GetMaxSurf,
    XvMCBufferSettings.GetNumSurf, XvMCBufferSettings.SetNumSurf, hmod]
  refine ⟨trivial, trivial, trivial, ?_, ?_, ?_, h3, h4, trivial⟩
  · intro a b; omega
  · intro a; omega
  · intro a; omega

/-- C26 on examples: after the constructor and `SetNumSurf(16)` (what
`InitVideoBuffers` does for a VLD codec), `SetNumSurf(3)` gives 8 surfaces,
`SetNumSurf(12)` gives 12 and `SetNumSurf(40)` gives 16. -/
theorem SetNumSurf_clamp_witness :
    ((XvMCBufferSettings.after [.SetNumSurf 16]).SetNumSurf 3).GetNumSurf = 8 ∧
    ((XvMCBufferSettings.after [.SetNumSurf 16]).SetNumSurf 12).GetNumSurf = 12 ∧
    ((XvMCBufferSettings.after [.SetNumSurf 16]).SetNumSurf 40).GetNumSurf = 16 ∧
    (XvMCBufferSettings.after [.SetNumSurf 16]).GetNumSurf = 16 :=
  ⟨(SetNumSurf_clamp [.SetNumSurf 16] 3 (by decide)).2.2.2.2.1 (by decide),
   (SetNumSurf_clamp [.SetNumSurf 16] 12 (by decide)).2.2.2.1 (by decide) (by decide),
   (SetNumSurf_clamp [.SetNumSurf 16] 40 (by decide)).2.2.2.2.2.1 (by decide),
   by decide⟩

/-! ## calcBPM -/

/-- C27. The function `calcBPM` returns 6 for every `chroma`, also for
`XVMC_CHROMA_FORMAT_444`, whose label assigns `4+4`: the cases fall through to
the assignment of `default`.  So `num_data_blocks` of `CreateXvMCSurfaces` is 6
times `num_mv_blocks` (in `uint` arithmetic, that is, as long as the product is
below `2^32`). -/
theorem calcBPM_always_six (chroma : Int) (XJ_width XJ_height : Nat) :
    calcBPM chroma = 6 ∧
    calcBPM XVMC_CHROMA_FORMAT_444 = 6 ∧
    calcBPM_statements.get? (calcBPM_label XVMC_CHROMA_FORMAT_444) = some (4 + 4) ∧
    num_data_blocks chroma XJ_width XJ_height = (num_mv_blocks XJ_width XJ_height * 6) % 2 ^ 32 ∧
    (num_mv_blocks XJ_width XJ_height * 6 < 2 ^ 32 →
      num_data_blocks chroma XJ_width XJ_height = 6 * num_mv_blocks XJ_width XJ_height) := by
  have h6 : ∀ c : Int, calcBPM c = 6 := by
    intro c
    unfold calcBPM calcBPM_label
    split
    · rfl
    · split
      · rfl
      · split <;> rfl
  refine ⟨h6 chroma, h6 _, by decide, ?_, fun h => ?_⟩
  · unfold num_data_blocks
    rw [h6]
  · unfold num_data_blocks
    rw [h6, Nat.mod_eq_of_lt h, Nat.mul_comm]

/-- C27 on an example: for a 720x576 picture in 4:4:4 the surface gets
`6 * 1620 = 9720` data blocks. -/
theorem calcBPM_always_six_witness :
    num_mv_blocks 720 576 = 1620 ∧
    num_data_blocks XVMC_CHROMA_FORMAT_444 720 576 = 6 * num_mv_blocks 720 576 :=
  ⟨by decide, (calcBPM_always_six XVMC_CHROMA_FORMAT_444 720 576).2.2.2.2 (by decide)⟩

/-! ## calc_bob -/

section CalcBob

variable (fp : BobFloat)

/-- A value that `int32` lets through is the value itself. -/
theorem int32_eq_some (x v : Int) (h : int32 x = some v) : v = x := by
  unfold int32 at h
  split at h
  · exact (Option.some.inj h).symm
  · cases h

/-- A value in the range of `int` is let through. -/
theorem int32_of_range (x : Int) (h1 : -2147483648 ≤ x) (h2 : x ≤ 2147483647) :
    int32 x = some x := by
  unfold int32
  rw [if_pos ⟨h1, h2⟩]

/-- The field that the two branches of `calc_bob` choose depends on `scan` and
`top_field_first` only. -/
theorem calc_bob_select_field (scan : FrameScanType)
    (imgh disphoff imgy frame_height top_field_first xv : Int) (c : Int × Int × Int)
    (h : calc_bob_select fp scan imgh disphoff imgy frame_height top_field_first xv = some c) :
    c.1 = (if (scan = .kScan_Interlaced ∧ top_field_first = 1) ∨
        (scan = .kScan_Intr2ndField ∧ top_field_first = 0) then 1
      else if (scan = .kScan_Interlaced ∧ top_field_first = 0) ∨
        (scan = .kScan_Intr2ndField ∧ top_field_first = 1) then 2 else 3) := by
  unfold calc_bob_select at h
  split at h
  · rename_i h1
    rw [if_pos h1]
    cases ha : int32 (-imgy) with
    | none => rw [ha] at h; cases h
    | some a =>
      rw [ha] at h
      simp only [Option.some_bind, Option.bind_eq_some] at h
      obtain ⟨b, -, hb⟩ := h
      cases hb
      rfl
  · rename_i h1
    rw [if_neg h1]
    split at h
    · rename_i h2
      rw [if_pos h2]
      simp only [Option.bind_eq_some] at h
      obtain ⟨a, -, b, -, d, -, hd⟩ := h
      cases hd
      rfl
    · rename_i h2
      rw [if_neg h2]
      cases h
      rfl

/-- The output `field` of `calc_bob` is the one chosen by its two branches. -/
theorem calc_bob_field_eq (scan : FrameScanType)
    (imgh disphoff imgy dispyoff frame_height top_field_first : Int) (r : BobParams)
    (h : calc_bob fp scan imgh disphoff imgy dispyoff frame_height top_field_first = some r) :
    r.field = (if (scan = .kScan_Interlaced ∧ top_field_first = 1) ∨
        (scan = .kScan_Intr2ndField ∧ top_field_first = 0) then 1
      else if (scan = .kScan_Interlaced ∧ top_field_first = 0) ∨
        (scan = .kScan_Intr2ndField ∧ top_field_first = 1) then 2 else 3) := by
  unfold calc_bob at h
  simp only [Option.bind_eq_some] at h
  obtain ⟨o, -, c, hc, sy, -, dy, -, t, -, h⟩ := h
  rw [← calc_bob_select_field fp scan imgh disphoff imgy frame_height top_field_first _ c hc]
  split at h
  · simp only [Option.bind_eq_some] at h
    obtain ⟨m, -, d2, -, x2, -, h⟩ := h
    cases h
    rfl
  · cases h
    rfl

end CalcBob

/-- Truncating division does not leave a symmetric range. -/
theorem tdiv_range (a b M : Int) (h1 : -M ≤ a) (h2 : a ≤ M) :
    -M ≤ a.tdiv b ∧ a.tdiv b ≤ M := by
  have h : (a.tdiv b).natAbs ≤ a.natAbs := by
    rw [Int.natAbs_tdiv]
    exact Nat.div_le_self _ _
  omega

/-- The product of two values of at most 16 bits is in the range of `int`. -/
theorem mul_range (a b : Int) (ha1 : -32768 ≤ a) (ha2 : a ≤ 32768) (hb1 : -32768 ≤ b)
    (hb2 : b ≤ 32768) : -1073741824 ≤ a * b ∧ a * b ≤ 1073741824 := by
  constructor <;> nlinarith [mul_nonneg (sub_nonneg.2 ha1) (sub_nonneg.2 hb1),
    mul_nonneg (sub_nonneg.2 ha2) (sub_nonneg.2 hb2),
    mul_nonneg (sub_nonneg.2 ha1) (sub_nonneg.2 hb2),
    mul_nonneg (sub_nonneg.2 ha2) (sub_nonneg.2 hb1)]

section CalcBobDefined

variable (fp : BobFloat)

/-- On arguments of at most 16 bits the block under `if (dispyoff < 0)` is
defined when the floating-point conversion is. -/
theorem calc_bob_offset_defined (imgh disphoff dispyoff : Int)
    (hi : -32768 ≤ imgh ∧ imgh ≤ 32768) (hy : -32768 ≤ dispyoff ∧ dispyoff ≤ 32768)
    (hdiv : dispyoff < 0 → disphoff ≠ 0)
    (hA : dispyoff < 0 → ∃ v : Int, fp.half_incr (-dispyoff) imgh disphoff = some v ∧
      -1073741824 ≤ v ∧ v ≤ 1073741824) :
    ∃ o : Int × Int × Int, calc_bob_offset fp imgh disphoff dispyoff = some o ∧
      dispyoff + o.1 = max dispyoff 0 ∧
      (-1073741824 ≤ o.2.1 ∧ o.2.1 ≤ 1073741824) ∧
      (-1073741824 ≤ o.2.2 ∧ o.2.2 ≤ 1073741824) := by
  unfold calc_bob_offset
  by_cases hneg : dispyoff < 0
  · obtain ⟨v, hv, hv1, hv2⟩ := hA hneg
    have hm := mul_range (-dispyoff) imgh (by omega) (by omega) hi.1 hi.2
    have hq := tdiv_range (-dispyoff * imgh) disphoff 1073741824 hm.1 hm.2
    rw [if_pos hneg, int32_of_range (-dispyoff) (by omega) (by omega), Option.some_bind,
      int32_of_range (-dispyoff * imgh) (by omega) (by omega), Option.some_bind]
    unfold int32_div
    rw [if_neg (hdiv hneg), int32_of_range _ (by omega) (by omega), Option.some_bind, hv,
      Option.some_bind, int32_of_range (0 - v) (by omega) (by omega), Option.some_bind]
    refine ⟨_, rfl, ?_, ⟨hq.1, hq.2⟩, ?_⟩
    · show dispyoff + -dispyoff = max dispyoff 0
      rw [max_eq_right (by omega)]
      omega
    · show -1073741824 ≤ 0 - v ∧ 0 - v ≤ 1073741824
      omega
  · rw [if_neg hneg]
    refine ⟨_, rfl, ?_, by decide, by decide⟩
    show dispyoff + 0 = max dispyoff 0
    rw [max_eq_left (by omega)]
    omega

/-- On arguments of at most 16 bits the two branches that choose the field are
defined when the floating-point conversion is. -/
theorem calc_bob_select_defined (scan : FrameScanType)
    (imgh disphoff imgy frame_height top_field_first xv : Int)
    (hy : -32768 ≤ imgy ∧ imgy ≤ 32768) (hf : -32768 ≤ frame_height ∧ frame_height ≤ 32768)
    (hx : -1073741824 ≤ xv ∧ xv ≤ 1073741824)
    (hB : (scan = .kScan_Interlaced ∧ top_field_first = 0) ∨
        (scan = .kScan_Intr2ndField ∧ top_field_first = 1) →
      ∃ v : Int, fp.half_line disphoff imgh = some v ∧ v ≤ 1073741823) :
    ∃ c : Int × Int × Int,
      calc_bob_select fp scan imgh disphoff imgy frame_height top_field_first xv = some c ∧
      0 ≤ c.2.2 ∧ c.2.2 ≤ 1073741823 := by
  unfold calc_bob_select
  split
  · have hq := tdiv_range (-imgy) 2 32768 (by omega) (by omega)
    rw [int32_of_range (-imgy) (by omega) (by omega), Option.some_bind,
      int32_of_range _ (by omega) (by omega), Option.some_bind]
    exact ⟨_, rfl, (by decide : (0 : Int) ≤ 0), (by decide : (0 : Int) ≤ 1073741823)⟩
  · split
    · rename_i h2
      obtain ⟨v, hv, hv2⟩ := hB h2
      have hq := tdiv_range (frame_height - imgy) 2 65536 (by omega) (by omega)
      rw [int32_of_range (frame_height - imgy) (by omega) (by omega), Option.some_bind,
        int32_of_range _ (by omega) (by omega), Option.some_bind, hv, Option.some_bind]
      refine ⟨_, rfl, ?_, ?_⟩
      · exact le_max_right _ _
      · exact max_le hv2 (by decide)
    · exact ⟨_, rfl, (by decide : (0 : Int) ≤ 0), (by decide : (0 : Int) ≤ 1073741823)⟩

end CalcBobDefined

/-- C28. The output `field` of `calc_bob`.  Whenever the function returns,
`field` is 1 exactly when `scan` is `kScan_Interlaced` with `top_field_first == 1`
or `kScan_Intr2ndField` with `top_field_first == 0`; it is 2 exactly when `scan`
is `kScan_Interlaced` with `top_field_first == 0` or `kScan_Intr2ndField` with
`top_field_first == 1`; and it is 3 in every other case.  So for
`top_field_first` in {0, 1} the first and the second field of an interlaced frame
get the two different fields 1 and 2, whatever the other arguments of the two
calls.  The function does return on arguments of at most 16 bits (the size of X
window coordinates) with `disphoff` non-zero when `dispyoff < 0`, provided the
floating-point conversions it makes give `int` values (below `2^30` in absolute
value). -/
theorem calc_bob_field (fp : BobFloat) (scan : FrameScanType)
    (imgh disphoff imgy dispyoff frame_height top_field_first : Int) :
    (∀ r : BobParams,
      calc_bob fp scan imgh disphoff imgy dispyoff frame_height top_field_first = some r →
      (r.field = 1 ↔ (scan = .kScan_Interlaced ∧ top_field_first = 1) ∨
        (scan = .kScan_Intr2ndField ∧ top_field_first = 0)) ∧
      (r.field = 2 ↔ (scan = .kScan_Interlaced ∧ top_field_first = 0) ∨
        (scan = .kScan_Intr2ndField ∧ top_field_first = 1)) ∧
      (r.field = 3 ↔ ¬ ((scan = .kScan_Interlaced ∨ scan = .kScan_Intr2ndField) ∧
        (top_field_first = 0 ∨ top_field_first = 1)))) ∧
    (∀ (imgh2 disphoff2 imgy2 dispyoff2 frame_height2 : Int) (r1 r2 : BobParams),
      (top_field_first = 0 ∨ top_field_first = 1) →
      calc_bob fp .kScan_Interlaced imgh disphoff imgy dispyoff frame_height
        top_field_first = some r1 →
      calc_bob fp .kScan_Intr2ndField imgh2 disphoff2 imgy2 dispyoff2 frame_height2
        top_field_first = some r2 →
      r1.field ≠ r2.field ∧ (r1.field = 1 ∨ r1.field = 2) ∧ (r2.field = 1 ∨ r2.field = 2)) ∧
    ((∀ x ∈ [imgh, disphoff, imgy, dispyoff, frame_height], -32768 ≤ x ∧ x ≤ 32768) →
      (dispyoff < 0 → disphoff ≠ 0) →
      (dispyoff < 0 → ∃ v : Int, fp.half_incr (-dispyoff) imgh disphoff = some v ∧
        -1073741824 ≤ v ∧ v ≤ 1073741824) →
      ((scan = .kScan_Interlaced ∧ top_field_first = 0) ∨
          (scan = .kScan_Intr2ndField ∧ top_field_first = 1) →
        ∃ v : Int, fp.half_line disphoff imgh = some v ∧ v ≤ 1073741823) →
      (∃ t : Int, fp.threshold imgh frame_height = some t) →
      ∃ r : BobParams,
        calc_bob fp scan imgh disphoff imgy dispyoff frame_height top_field_first = some r) := by
  refine ⟨?_, ?_, ?_⟩
  · intro r hr
    have hf := calc_bob_field_eq fp scan imgh disphoff imgy dispyoff frame_height
      top_field_first r hr
    rw [hf]
    by_cases h1 : (scan = .kScan_Interlaced ∧ top_field_first = 1) ∨
        (scan = .kScan_Intr2ndField ∧ top_field_first = 0)
    · rw [if_pos h1]
      refine ⟨by simp [h1], ?_, ?_⟩
      · rcases h1 with ⟨a, b⟩ | ⟨a, b⟩ <;> simp [a, b]
      · rcases h1 with ⟨a, b⟩ | ⟨a, b⟩ <;> simp [a, b]
    · rw [if_neg h1]
      by_cases h2 : (scan = .kScan_Interlaced ∧ top_field_first = 0) ∨
          (scan = .kScan_Intr2ndField ∧ top_field_first = 1)
      · rw [if_pos h2]
        refine ⟨by simpa using h1, by simp [h2], ?_⟩
        rcases h2 with ⟨a, b⟩ | ⟨a, b⟩ <;> simp [a, b]
      · rw [if_neg h2]
        refine ⟨by simpa using h1, by simpa using h2, ?_⟩
        simp only [true_iff]
        rintro ⟨hs, ht⟩
        rcases hs with hs | hs <;> rcases ht with ht | ht <;> simp [hs, ht] at h1 h2
  · intro imgh2 disphoff2 imgy2 dispyoff2 frame_height2 r1 r2 ht h1 h2
    have e1 := calc_bob_field_eq fp _ _ _ _ _ _ _ r1 h1
    have e2 := calc_bob_field_eq fp _ _ _ _ _ _ _ r2 h2
    rw [e1, e2]
    rcases ht with ht | ht <;> subst ht <;> simp
  · intro hbox hdiv hA hB hC
    have hi := hbox imgh (by simp)
    have hy := hbox imgy (by simp)
    have hd := hbox dispyoff (by simp)
    have hf := hbox frame_height (by simp)
    obtain ⟨t, ht⟩ := hC
    obtain ⟨o, ho, ho1, ho2, ho3⟩ := calc_bob_offset_defined fp imgh disphoff dispyoff hi hd
      hdiv hA
    obtain ⟨c, hc, hc1, hc2⟩ := calc_bob_select_defined fp scan imgh disphoff imgy frame_height
      top_field_first o.2.2 hy hf ho3 hB
    have hmax : 0 ≤ max dispyoff 0 ∧ max dispyoff 0 ≤ 32768 :=
      ⟨le_max_right _ _, max_le hd.2 (by decide)⟩
    unfold calc_bob
    simp only [ho, hc, Option.some_bind, ht]
    rw [int32_of_range (imgy + o.2.1) (by omega) (by omega), Option.some_bind,
      int32_of_range (dispyoff + o.1) (by omega) (by omega), Option.some_bind]
    split
    · rw [int32_of_range (-c.2.2) (by omega) (by omega), Option.some_bind,
        int32_of_range (dispyoff + o.1 + -c.2.2) (by omega) (by omega), Option.some_bind,
        int32_of_range (c.2.2 - -c.2.2) (by omega) (by omega), Option.some_bind]
      exact ⟨_, rfl⟩
    · exact ⟨_, rfl⟩

/-- C28 on examples, for a picture of 480 lines shown 480 lines high, two lines
above the window, the frame having 576 lines: with the bottom field first the
first field of an interlaced frame is field 2, and the whole frame is shown for a
progressive frame; with a display height of 0, and where the quotient
`INT_MIN / -1` is asked for, the function does not return. -/
theorem calc_bob_field_witness :
    calc_bob exactBobFloat .kScan_Interlaced 480 480 0 (-2) 576 0 =
      some { field := 2, src_y := 2, dest_y := -1, xv_src_y_incr := 287, xv_dest_y_incr := 2 } ∧
    calc_bob exactBobFloat .kScan_Progressive 480 480 0 (-2) 576 0 =
      some { field := 3, src_y := 2, dest_y := 0, xv_src_y_incr := -1, xv_dest_y_incr := 0 } ∧
    calc_bob exactBobFloat .kScan_Interlaced 480 0 0 (-2) 576 0 = none ∧
    calc_bob exactBobFloat .kScan_Interlaced (-32768) (-1) 0 (-65536) 576 1 = none ∧
    ∃ r : BobParams,
      calc_bob exactBobFloat .kScan_Interlaced 480 480 0 (-2) 576 0 = some r ∧ r.field = 2 :=
  ⟨by decide, by decide, by decide, by decide,
   ((calc_bob_field exactBobFloat .kScan_Interlaced 480 480 0 (-2) 576 0).2.2
      (by decide) (by decide) (fun _ => ⟨1, by decide, by decide, by decide⟩)
      (fun _ => ⟨1, by decide, by decide⟩) ⟨508, by decide⟩).elim
     (fun r hr => ⟨r, hr,
       ((calc_bob_field exactBobFloat .kScan_Interlaced 480 480 0 (-2) 576 0).1 r hr).2.1.2
         (Or.inl ⟨rfl, rfl⟩)⟩)⟩

/-! ## ChromaKeyOSD -/

/-- C24. `ChromaKeyOSD::ProcessOSD` returns false exactly when there is no OSD
surface and no current image (`current < 0`), or there is a surface whose
revision equals the stored revision; in both cases the object is unchanged.
With no surface but a current image it resets (`current = -1`,
`revision = -1`) and returns true.  With a surface that has another revision it
returns true, stores that revision and sets `current` to `(current+1) & 1`,
which is one of the two buffers 0 and 1 and differs from the old `current`:
buffer 1 after 0, buffer 0 after 1 (and buffer 0 when there was none). -/
theorem ProcessOSD_repaint (osd : Option (Option Int)) (c : ChromaKeyOSD) :
    ((c.ProcessOSD osd).1 = false ↔
      (ChromaKeyOSD.osdsurf osd = none ∧ c.current < 0) ∨
        ChromaKeyOSD.osdsurf osd = some c.revision) ∧
    ((c.ProcessOSD osd).1 = false → (c.ProcessOSD osd).2 = c) ∧
    (ChromaKeyOSD.osdsurf osd = none → 0 ≤ c.current →
      (c.ProcessOSD osd).1 = true ∧ (c.ProcessOSD osd).2.current = -1 ∧
      (c.ProcessOSD osd).2.revision = -1) ∧
    (∀ r : Int, ChromaKeyOSD.osdsurf osd = some r → r ≠ c.revision →
      (c.ProcessOSD osd).1 = true ∧ (c.ProcessOSD osd).2.revision = r ∧
      ((c.ProcessOSD osd).2.current = 0 ∨ (c.ProcessOSD osd).2.current = 1) ∧
      (c.ProcessOSD osd).2.current ≠ c.current ∧
      (c.current = 0 → (c.ProcessOSD osd).2.current = 1) ∧
      (c.current = 1 → (c.ProcessOSD osd).2.current = 0) ∧
      (c.current = -1 → (c.ProcessOSD osd).2.current = 0)) := by
  cases ho : ChromaKeyOSD.osdsurf osd with
  | none =>
    by_cases hc : c.current ≥ 0
    · have he : c.ProcessOSD osd = (true, c.Reset) := by
        simp only [ChromaKeyOSD.ProcessOSD, ho, true_and, if_pos hc]
      rw [he]
      refine ⟨?_, ?_, fun _ _ => ⟨rfl, rfl, rfl⟩, fun r h => by cases h⟩
      · constructor
        · intro h; cases h
        · rintro (⟨-, h⟩ | h)
          · omega
          · cases h
      · intro h; cases h
    · have he : c.ProcessOSD osd = (false, c) := by
        simp only [ChromaKeyOSD.ProcessOSD, ho, true_and, if_neg hc]
      rw [he]
      refine ⟨?_, fun _ => rfl, fun _ h => absurd h hc, fun r h => by cases h⟩
      exact ⟨fun _ => Or.inl ⟨rfl, by omega⟩, fun _ => rfl⟩
  | some r =>
    have hn : ¬ ((some r : Option Int) = none ∧ c.current ≥ 0) := fun h => by cases h.1
    by_cases hr : c.revision = r
    · have he : c.ProcessOSD osd = (false, c) := by
        simp only [ChromaKeyOSD.ProcessOSD, ho, if_neg hn, if_pos hr]
      rw [he]
      refine ⟨?_, fun _ => rfl, (fun h => by cases h), fun r2 h hne => ?_⟩
      · exact ⟨fun _ => Or.inr (by rw [hr]), fun _ => rfl⟩
      · cases h
        exact absurd hr.symm hne
    · have he : c.ProcessOSD osd = (true,
          { current := (c.current + 1) % 2, revision := r,
            painted := c.painted ++ [ChromaKeyCall.Reinit ((c.current + 1) % 2),
              ChromaKeyCall.BlendToARGB ((c.current + 1) % 2)] }) := by
        simp only [ChromaKeyOSD.ProcessOSD, ho, if_neg hn, if_neg hr]
      rw [he]
      refine ⟨?_, (fun h => by cases h), (fun h => by cases h), fun r2 h _ => ?_⟩
      · constructor
        · intro h; cases h
        · rintro (⟨h, -⟩ | h)
          · cases h
          · cases h
            exact absurd rfl hr
      · cases h
        refine ⟨rfl, rfl, ?_, ?_, ?_, ?_, ?_⟩
        · show (c.current + 1) % 2 = 0 ∨ (c.current + 1) % 2 = 1
          omega
        · show (c.current + 1) % 2 ≠ c.current
          omega
        · intro h
          show (c.current + 1) % 2 = 1
          omega
        · intro h
          show (c.current + 1) % 2 = 0
          omega
        · intro h
          show (c.current + 1) % 2 = 0
          omega

/-- C24 on a run from the constructor: the first surface (revision 7) goes to
buffer 0, the same revision needs no repaint, revision 8 goes to buffer 1, and
when the surface goes away the object is reset. -/
theorem ProcessOSD_repaint_witness :
    (ChromaKeyOSD.new.ProcessOSD (some (some 7))).1 = true ∧
    (ChromaKeyOSD.new.ProcessOSD (some (some 7))).2.current = 0 ∧
    ((ChromaKeyOSD.new.ProcessOSD (some (some 7))).2.ProcessOSD (some (some 7))).1 = false ∧
    ((ChromaKeyOSD.new.ProcessOSD (some (some 7))).2.ProcessOSD (some (some 8))).2.current = 1 ∧
    ((ChromaKeyOSD.new.ProcessOSD (some (some 7))).2.ProcessOSD (some none)).2.current = -1 ∧
    (ChromaKeyOSD.new.ProcessOSD none).1 = false :=
  ⟨((ProcessOSD_repaint (some (some 7)) ChromaKeyOSD.new).2.2.2 7 rfl (by decide)).1,
   by decide, by decide, by decide, by decide, by decide⟩

/-! ## YV12 plane swap -/

/-- The image bytes after the three copies, in terms of the bytes before: the
two quarter-size ranges that follow the luma range are exchanged. -/
theorem PrepareFrameXv_swap_data (width height : Int) (n : Nat) (m : XvImageMem)
    (hn : width * height = n) (hsz : n * 5 < 2 ^ 31) :
    ∃ r : XvImageMem, PrepareFrameXv_swap width height m = some r ∧
      ∀ i, r.data i =
        if n ≤ i ∧ i < n + n / 4 then m.data (i + n / 4)
        else if n + n / 4 ≤ i ∧ i < n + n / 4 + n / 4 then m.data (i - n / 4)
        else m.data i := by
  have hc : 0 ≤ width * height ∧ width * height * 5 < 2 ^ 31 := by
    rw [hn]
    constructor
    · exact Int.natCast_nonneg n
    · exact_mod_cast hsz
  have ho : n * 5 / 4 = n + n / 4 := by omega
  refine ⟨_, by rw [PrepareFrameXv_swap, if_pos hc], fun i => ?_⟩
  simp only [hn, Int.toNat_ofNat, memcpy, ho]
  by_cases h1 : n ≤ i ∧ i < n + n / 4
  · have h2 : ¬ (n + n / 4 ≤ i ∧ i < n + n / 4 + n / 4) := by omega
    rw [if_neg h2, if_pos h1, if_pos h1]
    congr 1
    omega
  · by_cases h2 : n + n / 4 ≤ i ∧ i < n + n / 4 + n / 4
    · have h3 : 0 ≤ 0 + (i - (n + n / 4)) ∧ 0 + (i - (n + n / 4)) < 0 + n / 4 := by omega
      rw [if_pos h2, if_neg h1, if_pos h2, if_pos h3]
      congr 1
      omega
    · rw [if_neg h2, if_neg h1, if_neg h1, if_neg h2]

/-- C29. For a frame of `width` by `height` pixels (`n = width * height` bytes
of luma, `n * 5` within `int`), the three copies of `PrepareFrameXv` exchange the
two chroma planes: the byte ranges `[n, n + n/4)` and `[n*5/4, n*5/4 + n/4)` of
the image swap contents, the luma range `[0, n)` and the bytes behind the planes
are unchanged, and a second application restores the original bytes.  The
second range starts where the first ends (`n*5/4 = n + n/4`), whether or not `n`
is divisible by 4. -/
theorem PrepareFrameXv_swap_planes (width height : Int) (n : Nat) (m : XvImageMem)
    (hn : width * height = n) (hsz : n * 5 < 2 ^ 31) :
    ∃ r : XvImageMem, PrepareFrameXv_swap width height m = some r ∧
      n * 5 / 4 = n + n / 4 ∧
      (∀ i, i < n → r.data i = m.data i) ∧
      (∀ i, i < n / 4 → r.data (n + i) = m.data (n * 5 / 4 + i)) ∧
      (∀ i, i < n / 4 → r.data (n * 5 / 4 + i) = m.data (n + i)) ∧
      (∀ i, n * 5 / 4 + n / 4 ≤ i → r.data i = m.data i) ∧
      ∃ r2 : XvImageMem, PrepareFrameXv_swap width height r = some r2 ∧ r2.data = m.data := by
  have ho : n * 5 / 4 = n + n / 4 := by omega
  obtain ⟨r, hr, hd⟩ := PrepareFrameXv_swap_data width height n m hn hsz
  obtain ⟨r2, hr2, hd2⟩ := PrepareFrameXv_swap_data width height n r hn hsz
  refine ⟨r, hr, ho, fun i hi => ?_, fun i hi => ?_, fun i hi => ?_, fun i hi => ?_,
    r2, hr2, ?_⟩
  · rw [hd, if_neg (by omega), if_neg (by omega)]
  · rw [hd, if_pos (by omega), ho]
    congr 1
    omega
  · rw [hd, ho, if_neg (by omega), if_pos (by omega)]
    congr 1
    omega
  · rw [hd, if_neg (by omega), if_neg (by omega)]
  · funext i
    rw [hd2]
    by_cases h1 : n ≤ i ∧ i < n + n / 4
    · rw [if_pos h1, hd, if_neg (by omega), if_pos (by omega)]
      congr 1
      omega
    · by_cases h2 : n + n / 4 ≤ i ∧ i < n + n / 4 + n / 4
      · rw [if_neg h1, if_pos h2, hd, if_pos (by omega)]
        congr 1
        omega
      · rw [if_neg h1, if_neg h2, hd, if_neg h1, if_neg h2]

/-- C29 on a 4 by 2 frame whose byte at offset `i` is `i`: after the swap the
chroma bytes 8, 9 hold 10, 11 and the bytes 10, 11 hold 8, 9, the luma byte 3 is
unchanged, and a second swap gives the original bytes. -/
theorem PrepareFrameXv_swap_planes_witness :
    ∃ r : XvImageMem, PrepareFrameXv_convert true GUID_YV12_PLANAR 4 2 rampImage = some r ∧
      r.data 3 = 3 ∧ r.data 8 = 10 ∧ r.data 9 = 11 ∧ r.data 10 = 8 ∧ r.data 11 = 9 ∧
      r.data 12 = 12 ∧
      ∃ r2 : XvImageMem, PrepareFrameXv_swap 4 2 r = some r2 ∧ r2.data = rampImage.data :=
  (PrepareFrameXv_swap_planes 4 2 8 rampImage (by decide) (by decide)).elim
    (fun r h => ⟨r, h.1, h.2.2.1 3 (by decide), h.2.2.2.1 0 (by decide),
      h.2.2.2.1 1 (by decide), h.2.2.2.2.1 0 (by decide), h.2.2.2.2.1 1 (by decide),
      h.2.2.2.2.2.1 12 (by decide), h.2.2.2.2.2.2⟩)

/-! ## Termination of the reclaim sweep -/

section SweepTermination

variable (env : Env)

/-- Once the final loop of the sweep has ended within a bound, a larger bound
gives the same result. -/
theorem sweepLoop_fuel_succ (fuel : Nat) :
    ∀ (it : Nat) (s s2 : VideoOutputXv), VideoOutputXv.sweepLoop env fuel it s = some s2 →
      VideoOutputXv.sweepLoop env (fuel + 1) it s = some s2 := by
  induction fuel with
  | zero => intro it s s2 h; simp [VideoOutputXv.sweepLoop] at h
  | succ fuel ih =>
    intro it s s2 h
    rw [VideoOutputXv.sweepLoop] at h ⊢
    cases hg : s.vbuffers.displayed.get? it with
    | none =>
      simp only [hg] at h ⊢
      exact h
    | some pframe =>
      simp only [hg] at h ⊢
      split at h
      · rename_i hnd
        rw [if_pos hnd]
        split at h
        · rename_i hch
          rw [if_pos hch]
          exact ih _ _ _ h
        · rename_i hch
          rw [if_neg hch]
          exact ih _ _ _ h
      · rename_i hnd
        rw [if_neg hnd]
        exact ih _ _ _ h

theorem sweepLoop_fuel_le (fuel fuel2 : Nat) (hle : fuel ≤ fuel2) (it : Nat)
    (s s2 : VideoOutputXv) (h : VideoOutputXv.sweepLoop env fuel it s = some s2) :
    VideoOutputXv.sweepLoop env fuel2 it s = some s2 := by
  induction fuel2 with
  | zero =>
    have : fuel = 0 := by omega
    subst this
    exact h
  | succ k ih =>
    by_cases hk : fuel ≤ k
    · exact sweepLoop_fuel_succ env k it s s2 (ih hk)
    · have : fuel = k + 1 := by omega
      subst this
      exact h

/-- Every restart of the final loop of the sweep (marked in the trace by the
`end_lock` that precedes it) follows the removal of a frame from the displayed
queue: the queue at the end is shorter than at the start by at least the number
of restarts. -/
theorem sweepLoop_restarts (fuel : Nat) :
    ∀ (it : Nat) (s s2 : VideoOutputXv), VideoOutputXv.sweepLoop env fuel it s = some s2 →
      ∃ l : List Call, s2.trace = s.trace ++ l ∧
        s2.vbuffers.displayed.length + l.count Call.end_lock ≤ s.vbuffers.displayed.length := by
  induction fuel with
  | zero => intro it s s2 h; simp [VideoOutputXv.sweepLoop] at h
  | succ fuel ih =>
    intro it s s2 h
    simp only [VideoOutputXv.sweepLoop, SyncSurface_eq] at h
    split at h
    · cases h
      exact ⟨[], by simp, by simp⟩
    · rename_i pframe hp
      have hmem : pframe ∈ s.vbuffers.displayed := List.get?_mem hp
      split at h
      · split at h
        · obtain ⟨l, ht, hlen⟩ := ih _ _ _ h
          refine ⟨Call.SyncSurface (some pframe) 0 :: l, ?_, ?_⟩
          · rw [ht]; simp
          · have hc : (Call.SyncSurface (some pframe) 0 :: l).count Call.end_lock
                = l.count Call.end_lock := by simp [List.count_cons]
            rw [hc]
            exact hlen
        · obtain ⟨l, ht, hlen⟩ := ih _ _ _ h
          have hlt : (s.vbuffers.displayed.filter (fun g => g != pframe)).length
              < s.vbuffers.displayed.length :=
            List.length_filter_lt_length_iff_exists.2 ⟨pframe, hmem, by simp⟩
          have hd : (((((s.vcall env (Call.SyncSurface (some pframe) 0)).vcall env
              (Call.RemoveInheritence pframe)).vcall env
              (Call.safeEnqueue .kVideoBuffer_avail (some pframe))).vcall env
              Call.end_lock).vcall env (Call.begin_lock .kVideoBuffer_displayed)).vbuffers.displayed
              = s.vbuffers.displayed.filter (fun g => g != pframe) := rfl
          rw [hd] at hlen
          refine ⟨[Call.SyncSurface (some pframe) 0, Call.RemoveInheritence pframe,
            Call.safeEnqueue .kVideoBuffer_avail (some pframe), Call.end_lock,
            Call.begin_lock .kVideoBuffer_displayed] ++ l, ?_, ?_⟩
          · rw [ht]; simp
          · have hc : ([Call.SyncSurface (some pframe) 0, Call.RemoveInheritence pframe,
                Call.safeEnqueue .kVideoBuffer_avail (some pframe), Call.end_lock,
                Call.begin_lock .kVideoBuffer_displayed] ++ l).count Call.end_lock
                = 1 + l.count Call.end_lock := by
              rw [List.count_append]
              simp [List.count_cons]
            rw [hc]
            omega
      · obtain ⟨l, ht, hlen⟩ := ih _ _ _ h
        refine ⟨Call.SyncSurface (some pframe) 0 :: l, ?_, ?_⟩
        · rw [ht]; simp
        · have hc : (Call.SyncSurface (some pframe) 0 :: l).count Call.end_lock
              = l.count Call.end_lock := by simp [List.count_cons]
          rw [hc]
          exact hlen

end SweepTermination

/-! ## InitVideoBuffers -/

theorem tried_append (l1 l2 : List InitCall) : tried (l1 ++ l2) = tried l1 ++ tried l2 := by
  induction l1 with
  | nil => rfl
  | cons c l1 ih => cases c <;> simp [tried, ih]

theorem tried_call (r : InitRun) (c : InitCall) (hc : tried [c] = []) :
    tried (r.call c).trace = tried r.trace ∧ (r.call c).done = r.done := by
  simp [InitRun.call, tried_append, hc]

theorem tried_init (env : InitEnv) (r : InitRun) (b : Backend) :
    tried (r.init env b).trace = tried r.trace ++ [(b, env.Init b)] ∧
    (r.init env b).done = env.Init b := by
  simp [InitRun.init, tried_append, tried]

/-- One step of the fallback chain of `InitVideoBuffers`: an output method is
tried if nothing succeeded before and it is allowed. -/
theorem tried_step (env : InitEnv) (r : InitRun) (b : Backend) (allowed : Bool) :
    tried (if (!r.done && allowed) = true then r.init env b else r).trace =
      tried r.trace ++ (if (!r.done && allowed) = true then [(b, env.Init b)] else []) ∧
    (if (!r.done && allowed) = true then r.init env b else r).done =
      (r.done || (allowed && env.Init b)) := by
  by_cases h : (!r.done && allowed) = true
  · rw [if_pos h, if_pos h]
    refine ⟨(tried_init env r b).1, ?_⟩
    rw [(tried_init env r b).2]
    cases hd : r.done <;> cases ha : allowed <;> simp [hd, ha] at h ⊢
  · rw [if_neg h, if_neg h]
    refine ⟨by simp, ?_⟩
    cases hd : r.done <;> cases ha : allowed <;> simp [hd, ha] at h ⊢

/-- The output methods tried by `InitVideoBuffers` and the value it returns, as a
function of its inputs and of what the `Init...` functions return. -/
theorem InitVideoBuffers_chain (env : InitEnv) (mcodecid : Nat) (use_xv use_shm : Bool) :
    tried (InitVideoBuffers env mcodecid use_xv use_shm).trace =
      fallbackChain (decide (mcodecid > env.kCodec_NORMAL_END)) use_xv use_shm
        env.InitXvMC env.InitXVideo env.InitXShm env.InitXlib ∧
    (InitVideoBuffers env mcodecid use_xv use_shm).done =
      (fallbackChain (decide (mcodecid > env.kCodec_NORMAL_END)) use_xv use_shm
        env.InitXvMC env.InitXVideo env.InitXShm env.InitXlib).any (fun x => x.2) := by
  unfold InitVideoBuffers
  lift_lets
  intro r0 a1 a2 a3 r1 r2 r3 r4 r5 p1 p2 p3
  have h1 : tried r1.trace =
      (if decide (mcodecid > env.kCodec_NORMAL_END) = true then [(Backend.XvMC, env.InitXvMC)]
        else []) ∧
      r1.done = (decide (mcodecid > env.kCodec_NORMAL_END) && env.InitXvMC) := by
    simp only [r1]
    by_cases hc : mcodecid > env.kCodec_NORMAL_END
    · simp only [hc, if_true, decide_True, Bool.true_and]
      have hpre : tried a2.trace = [] := by
        simp only [a2, a1, r0]
        cases env.vld <;> rfl
      have hi : tried a3.trace = tried a2.trace ++ [(Backend.XvMC, env.InitXvMC)] ∧
          a3.done = env.InitXvMC := tried_init env a2 Backend.XvMC
      rw [hpre] at hi
      split
      · obtain ⟨t1, t2⟩ := tried_call a3 InitCall.vbuffersReset rfl
        rw [t1, t2]
        exact hi
      · exact hi
    · simp only [hc, if_false, decide_False, Bool.false_and]
      refine ⟨?_, ?_⟩ <;> first | rfl | trivial
  have h2 : tried r2.trace = tried r1.trace ∧ r2.done = r1.done := by
    simp only [r2]
    split
    · exact tried_call r1 _ rfl
    · exact ⟨rfl, rfl⟩
  have h3 : tried r3.trace = tried r2.trace ++ (if (!r2.done && use_xv) = true
      then [(Backend.XVideo, env.InitXVideo)] else []) ∧
      r3.done = (r2.done || (use_xv && env.InitXVideo)) :=
    tried_step env r2 Backend.XVideo use_xv
  have h4 : tried r4.trace = tried r3.trace ++ (if (!r3.done && use_shm) = true
      then [(Backend.XShm, env.InitXShm)] else []) ∧
      r4.done = (r3.done || (use_shm && env.InitXShm)) :=
    tried_step env r3 Backend.XShm use_shm
  have h5 : tried r5.trace = tried r4.trace ++ (if (!r4.done) = true
      then [(Backend.Xlib, env.InitXlib)] else []) ∧ r5.done = (r4.done || env.InitXlib) := by
    have h := tried_step env r4 Backend.Xlib true
    simp only [Bool.and_true, Bool.true_and] at h
    exact h
  have h6 : tried (if (r5.done && env.pictureControls) = true then
        p3.call (InitCall.ChangePictureAttribute .kPictureAttribute_Hue) else r5).trace
        = tried r5.trace ∧
      (if (r5.done && env.pictureControls) = true then
        p3.call (InitCall.ChangePictureAttribute .kPictureAttribute_Hue) else r5).done
        = r5.done := by
    split
    · simp [p3, p2, p1, InitRun.call, tried_append, tried]
    · exact ⟨rfl, rfl⟩
  rw [h6.1, h6.2, h5.1, h5.2, h4.1, h4.2, h3.1, h3.2, h2.1, h2.2, h1.1, h1.2]
  generalize decide (mcodecid > env.kCodec_NORMAL_END) = c
  generalize env.InitXvMC = o1
  generalize env.InitXVideo = o2
  generalize env.InitXShm = o3
  generalize env.InitXlib = o4
  clear h1 h2 h3 h4 h5 h6 p1 p2 p3 r5 r4 r3 r2 r1 a3 a2 a1 r0
  revert c o1 o2 o3 o4 use_xv use_shm
  decide

theorem fallbackChain_facts (xvmc use_xv use_shm o1 o2 o3 o4 : Bool) :
    List.Sublist ((fallbackChain xvmc use_xv use_shm o1 o2 o3 o4).map Prod.fst)
      [Backend.XvMC, Backend.XVideo, Backend.XShm, Backend.Xlib] ∧
    (Backend.XvMC ∈ (fallbackChain xvmc use_xv use_shm o1 o2 o3 o4).map Prod.fst ↔
      xvmc = true) ∧
    (Backend.XVideo ∈ (fallbackChain xvmc use_xv use_shm o1 o2 o3 o4).map Prod.fst →
      use_xv = true) ∧
    (Backend.XShm ∈ (fallbackChain xvmc use_xv use_shm o1 o2 o3 o4).map Prod.fst →
      use_shm = true) ∧
    (∀ x ∈ (fallbackChain xvmc use_xv use_shm o1 o2 o3 o4).dropLast, x.2 = false) ∧
    ((∀ x ∈ fallbackChain xvmc use_xv use_shm o1 o2 o3 o4, x.1 ≠ Backend.Xlib → x.2 = false) →
      Backend.Xlib ∈ (fallbackChain xvmc use_xv use_shm o1 o2 o3 o4).map Prod.fst) := by
  revert xvmc use_xv use_shm o1 o2 o3 o4
  decide

section GrabPort

variable (env : XvEnv)

theorem toInt32_of_lt (p : Nat) (h : p < 2 ^ 31) : toInt32 p = (p : Int) := by
  unfold toInt32
  have h2 : (p + 2 ^ 31) % 2 ^ 32 = p + 2 ^ 31 := Nat.mod_eq_of_lt (by omega)
  rw [h2]
  push_cast
  ring

theorem firstGrab_done (l : List Nat) (st : PortSearch) (h : st.port ≠ -1) :
    firstGrab env l st = st := by
  cases l with
  | nil => rfl
  | cons p l => simp [firstGrab, h]

theorem firstGrab_append (l1 l2 : List Nat) :
    ∀ st : PortSearch, firstGrab env (l1 ++ l2) st = firstGrab env l2 (firstGrab env l1 st) := by
  induction l1 with
  | nil => intro st; rfl
  | cons p l1 ih =>
    intro st
    by_cases h : st.port = -1
    · simp only [List.cons_append, firstGrab, if_pos h]
      exact ih _
    · simp only [List.cons_append, firstGrab, if_neg h]
      exact (firstGrab_done env l2 st h).symm

/-- The loop over the ports of an adaptor tries the ports `p`, `p + 1`, ... in
order, with as many iterations as the caller passes. -/
theorem grabLoop_eq (fuel : Nat) :
    ∀ (p lastPort : Nat) (st : PortSearch), fuel = lastPort + 1 - p →
      grabLoop env fuel p lastPort st = firstGrab env (List.range' p fuel) st := by
  induction fuel with
  | zero => intro p lastPort st _; rfl
  | succ fuel ih =>
    intro p lastPort st hf
    have hp : p ≤ lastPort := by omega
    simp only [grabLoop, List.range'_succ, firstGrab]
    by_cases h : st.port = -1
    · rw [if_pos ⟨hp, h⟩, if_pos h]
      exact ih _ _ _ (by omega)
    · rw [if_neg (fun hc => h hc.2), if_neg h]

theorem tryAdaptor_eq (j : Nat) (stream_type : Int) (a : XvAdaptorInfo) (st : PortSearch)
    (h : st.port = -1) :
    tryAdaptor env j stream_type a st =
      firstGrab env (adaptorCandidates env j stream_type a) st := by
  unfold tryAdaptor adaptorCandidates
  split
  · rfl
  · split
    · simp only []
      split
      · rfl
      · split
        · rfl
        · simp only [firstGrab, if_pos h]
    · exact grabLoop_eq env _ _ _ _ rfl

theorem adaptorLoop_eq (j : Nat) (stream_type : Int) (ai : List XvAdaptorInfo) :
    ∀ st : PortSearch, adaptorLoop env j stream_type ai st =
      firstGrab env (ai.flatMap (adaptorCandidates env j stream_type)) st := by
  induction ai with
  | nil => intro st; rfl
  | cons a ai ih =>
    intro st
    simp only [adaptorLoop, List.flatMap_cons]
    by_cases h : st.port = -1
    · rw [if_pos h, ih, firstGrab_append, tryAdaptor_eq env j stream_type a st h]
    · rw [if_neg h, firstGrab_done env _ st h]

/-- The function `GrabSuitableXvPort` is one search over the candidate ports of
the tier selected by the codec id: every `case` of its `switch` sets
`end = begin + 1`. -/
theorem GrabSuitableXvPort_eq (mcodecid : MythCodecID) (st : PortSearch) :
    GrabSuitableXvPort env mcodecid st =
      if Success ≠ env.XvQueryAdaptors.1 then { st with port := -1 }
      else firstGrab env (env.XvQueryAdaptors.2.flatMap
        (adaptorCandidates env (codecTier mcodecid).2.1 (codecTier mcodecid).1))
        { st with port := -1 } := by
  unfold GrabSuitableXvPort
  simp only []
  split
  · rfl
  · have h1 : ∀ (j : Nat) (stype : Int) (σ : PortSearch),
        tierLoop env stype env.XvQueryAdaptors.2 1 j (j + 1) σ =
          firstGrab env (env.XvQueryAdaptors.2.flatMap (adaptorCandidates env j stype)) σ := by
      intro j stype σ
      simp only [tierLoop, Nat.lt_succ_self, if_true, adaptorLoop_eq]
      split <;> rfl
    cases mcodecid <;> exact h1 _ _ _

/-- What a search over a list of ports below `2^31` does: the ports are passed
to `XvGrabPort` up to and including the first one for which it returns
`Success`; that port, if there is one, is returned and entered in the registry
of open ports, otherwise -1 is returned. -/
theorem firstGrab_spec (l : List Nat) :
    ∀ st : PortSearch, st.port = -1 → (∀ p ∈ l, p < 2 ^ 31) →
      (firstGrab env l st).grabs =
        st.grabs ++ l.takeWhile (fun p => !decide (Success = env.XvGrabPort p)) ++
          (l.find? (fun p => decide (Success = env.XvGrabPort p))).toList ∧
      (firstGrab env l st).port =
        (match l.find? (fun p => decide (Success = env.XvGrabPort p)) with
          | some p => (p : Int)
          | none => -1) ∧
      (firstGrab env l st).open_xv_ports =
        (match l.find? (fun p => decide (Success = env.XvGrabPort p)) with
          | some p => add_open_xv_port (p : Int) st.open_xv_ports
          | none => st.open_xv_ports) := by
  induction l with
  | nil => intro st h _; simp [firstGrab, h]
  | cons p l ih =>
    intro st h hlt
    have hp : p < 2 ^ 31 := hlt p (List.mem_cons_self _ _)
    simp only [firstGrab, if_pos h]
    by_cases hs : Success = env.XvGrabPort p
    · have hne : ((st.grab env p).2).port ≠ -1 := by
        simp only [PortSearch.grab, if_pos hs, toInt32_of_lt p hp]
        omega
      rw [firstGrab_done env l _ hne]
      simp [PortSearch.grab, hs, toInt32_of_lt p hp, List.find?_cons, List.takeWhile_cons]
    · have hg : (st.grab env p).2 = { st with grabs := st.grabs ++ [p] } := by
        simp [PortSearch.grab, hs]
      rw [hg]
      obtain ⟨i1, i2, i3⟩ := ih { st with grabs := st.grabs ++ [p] } h
        (fun q hq => hlt q (List.mem_cons_of_mem _ hq))
      simp [List.find?_cons, List.takeWhile_cons, hs, i1, i2, i3]

/-- A candidate port of an adaptor lies in the port range of the adaptor, and
the adaptor has the flags needed for the tier, provided that
`XvMCSurfaceTypes::find` names a port of the range it is given. -/
theorem adaptorCandidates_range (j : Nat) (stream_type : Int) (a : XvAdaptorInfo) (p : Nat)
    (hfind : ∀ (vld idct : Bool) (stype : Int) (first last : Nat),
      0 ≤ (env.find vld idct stype first last).2 →
      first ≤ (env.find vld idct stype first last).1 ∧
      (env.find vld idct stype first last).1 ≤ last)
    (hp : p ∈ adaptorCandidates env j stream_type a) :
    a.type &&& neededFlags.getD j 0 = neededFlags.getD j 0 ∧
    a.base_id ≤ p ∧ p ≤ a.base_id + a.num_ports - 1 := by
  unfold adaptorCandidates at hp
  split at hp
  · cases hp
  · rename_i hfl
    refine ⟨by simpa using hfl, ?_⟩
    split at hp
    · simp only [] at hp
      split at hp
      · cases hp
      · rename_i hs
        split at hp
        · cases hp
        · have := hfind (useVLD.getD j false) (useIDCT.getD j false) stream_type a.base_id
            (a.base_id + a.num_ports - 1) (by omega)
          simp only [List.mem_singleton] at hp
          rw [hp]
          exact this
    · rw [List.mem_range'_1] at hp
      omega

/-- In the plain XVideo tier the candidate ports are the ports of the adaptors
with both flags, adaptor by adaptor. -/
theorem plainPorts_eq (stream_type : Int) (ai : List XvAdaptorInfo)
    (hwf : ∀ a ∈ ai, 0 < a.base_id ∧ a.base_id + a.num_ports ≤ 2 ^ 31) :
    ai.flatMap (adaptorCandidates env 3 stream_type) = plainPorts ai := by
  unfold plainPorts
  induction ai with
  | nil => rfl
  | cons a ai ih =>
    have hb := (hwf a (List.mem_cons_self _ _)).1
    have hcnt : a.base_id + a.num_ports - 1 + 1 - a.base_id = a.num_ports := by omega
    have hrest := ih (fun b hb => hwf b (List.mem_cons_of_mem _ hb))
    rw [List.flatMap_cons, hrest]
    by_cases hfl : a.type &&& (XvInputMask ||| XvImageMask) = XvInputMask ||| XvImageMask
    · have hc : adaptorCandidates env 3 stream_type a = List.range' a.base_id a.num_ports := by
        simp [adaptorCandidates, neededFlags, useXVMC, hfl, hcnt]
      rw [hc, List.filter_cons_of_pos (by simpa using hfl), List.flatMap_cons]
    · have hc : adaptorCandidates env 3 stream_type a = [] := by
        simp [adaptorCandidates, neededFlags, hfl]
      rw [hc, List.filter_cons_of_neg (by simpa using hfl), List.nil_append]

end GrabPort

section Waiting

variable (env : Env)

/-- With the status function held fixed, the wait loop of `SyncSurface` has ended
after any number of sleeps exactly when the frame is not rendering at the first
test. -/
theorem waitWhileRendering_eq (frame : Option VideoFrame) (sleeps : Nat) :
    waitWhileRendering env frame sleeps = !IsRendering env frame := by
  induction sleeps with
  | zero => rfl
  | succ n ih =>
    unfold waitWhileRendering
    rw [ih]
    cases IsRendering env frame <;> rfl

/-- Allowing more sleeps does not change whether `SyncSurface` returns. -/
theorem SyncSurface_wait_sleeps (sleeps : Nat) (frame : Option VideoFrame) (pf : Int)
    (s : VideoOutputXv) :
    s.SyncSurface_wait env frame pf sleeps = s.SyncSurface_wait env frame pf 0 := by
  simp only [VideoOutputXv.SyncSurface_wait, waitWhileRendering_eq]

/-- For a frame that is not reported rendering `SyncSurface` returns. -/
theorem SyncSurface_wait_idle (frame : Option VideoFrame) (pf : Int) (sleeps : Nat)
    (s : VideoOutputXv) (h : IsRendering env frame = false) :
    s.SyncSurface_wait env frame pf sleeps = some (s.SyncSurface env frame pf) := by
  simp only [VideoOutputXv.SyncSurface_wait, waitWhileRendering_eq, h, Bool.not_false, if_true]
  (repeat' split) <;> rfl

/-- For a frame that is reported rendering `SyncSurface(frame)` does not return,
however many sleeps are allowed. -/
theorem SyncSurface_wait_rendering (f : VideoFrame) (sleeps : Nat) (s : VideoOutputXv)
    (h : IsRendering env (some f) = true) :
    s.SyncSurface_wait env (some f) 0 sleeps = none := by
  have hw := waitWhileRendering_eq env (some f) sleeps
  rw [h] at hw
  unfold IsRendering at h
  unfold VideoOutputXv.SyncSurface_wait
  cases hr : GetRender env (some f) with
  | none => simp [hr] at h
  | some render =>
    simp only [hr, surfaceStatus] at h
    cases hd : render.disp with
    | none => simp [hd] at h
    | some disp =>
      cases hs : render.p_surface with
      | none => simp [hd, hs] at h
      | some surf =>
        simp only [hd, hs] at h
        have hbit : (env.XvMCGetSurfaceStatus disp surf).2 &&& XVMC_RENDERING ≠ 0 := by
          by_contra hc
          simp [hc] at h
        simp [VideoOutputXv.syncedSurface, hd, hs, hbit, hw]

/-- Allowing more sleeps does not change whether the XvMC block of
`DiscardFrame` returns. -/
theorem DiscardFrame_check_wait_sleeps (sleeps : Nat) (f : VideoFrame) (s : VideoOutputXv) :
    VideoOutputXv.DiscardFrame_check_wait env sleeps f s =
      VideoOutputXv.DiscardFrame_check_wait env 0 f s := by
  simp only [VideoOutputXv.DiscardFrame_check_wait, SyncSurface_wait_sleeps env sleeps]

theorem DiscardFrame_wait_sleeps (sleeps : Nat) (frame : Option VideoFrame)
    (s : VideoOutputXv) :
    VideoOutputXv.DiscardFrame_wait env sleeps frame s =
      VideoOutputXv.DiscardFrame_wait env 0 frame s := by
  cases frame with
  | none => rfl
  | some f =>
    simp only [VideoOutputXv.DiscardFrame_wait, DiscardFrame_check_wait_sleeps env sleeps]

theorem discardPause_wait_sleeps (sleeps fuel : Nat) :
    ∀ s : VideoOutputXv, VideoOutputXv.discardPause_wait env sleeps fuel s =
      VideoOutputXv.discardPause_wait env 0 fuel s := by
  induction fuel with
  | zero => intro s; rfl
  | succ fuel ih =>
    intro s
    simp only [VideoOutputXv.discardPause_wait, DiscardFrame_wait_sleeps env sleeps, ih]

theorem sweepLoop_wait_sleeps (sleeps fuel : Nat) :
    ∀ (it : Nat) (s : VideoOutputXv), VideoOutputXv.sweepLoop_wait env sleeps fuel it s =
      VideoOutputXv.sweepLoop_wait env 0 fuel it s := by
  induction fuel with
  | zero => intro it s; rfl
  | succ fuel ih =>
    intro it s
    simp only [VideoOutputXv.sweepLoop_wait, SyncSurface_wait_sleeps env sleeps, ih]

theorem CheckDisplayedFramesForAvailability_wait_sleeps (sleeps : Nat) (s : VideoOutputXv) :
    VideoOutputXv.CheckDisplayedFramesForAvailability_wait env sleeps s =
      VideoOutputXv.CheckDisplayedFramesForAvailability_wait env 0 s := by
  simp only [VideoOutputXv.CheckDisplayedFramesForAvailability_wait,
    VideoOutputXv.sweepDisplayed_wait, sweepLoop_wait_sleeps env sleeps]

/-- Allowing more sleeps does not change whether `ShowXvMC` returns. -/
theorem ShowXvMC_wait_sleeps (sleeps : Nat) (s : VideoOutputXv) :
    VideoOutputXv.ShowXvMC_wait env sleeps s = VideoOutputXv.ShowXvMC_wait env 0 s := by
  simp only [VideoOutputXv.ShowXvMC_wait, VideoOutputXv.ShowXvMC_show_wait,
    discardPause_wait_sleeps env sleeps, CheckDisplayedFramesForAvailability_wait_sleeps env sleeps]

/-- When the frame at the position of the iterator is reported rendering, the
final loop of the sweep does not return. -/
theorem sweepLoop_wait_blocks (sleeps fuel it : Nat) (s : VideoOutputXv) (p : VideoFrame)
    (hp : s.vbuffers.displayed.get? it = some p) (hr : IsRendering env (some p) = true) :
    VideoOutputXv.sweepLoop_wait env sleeps fuel it s = none := by
  cases fuel with
  | zero => rfl
  | succ fuel =>
    rw [VideoOutputXv.sweepLoop_wait]
    simp only [hp, SyncSurface_wait_rendering env p sleeps s hr]

/-- When a frame of the displayed queue at or after the position of the iterator
is reported rendering, the final loop of the sweep does not return: it reaches
that frame, or a rendering frame before it, and waits there. -/
theorem sweepLoop_wait_never (sleeps fuel : Nat) :
    ∀ (it : Nat) (s : VideoOutputXv),
      (∃ f ∈ s.vbuffers.displayed.drop it, IsRendering env (some f) = true) →
      VideoOutputXv.sweepLoop_wait env sleeps fuel it s = none := by
  induction fuel with
  | zero => intro it s _; rfl
  | succ fuel ih =>
    intro it s hex
    obtain ⟨f, hf, hr⟩ := hex
    rw [VideoOutputXv.sweepLoop_wait]
    cases hg : s.vbuffers.displayed.get? it with
    | none =>
      rw [List.drop_eq_nil_of_le (List.get?_eq_none.1 hg)] at hf
      cases hf
    | some pframe =>
      simp only []
      cases hp : IsRendering env (some pframe) with
      | true => rw [SyncSurface_wait_rendering env pframe sleeps s hp]
      | false =>
        rw [SyncSurface_wait_idle env (some pframe) 0 sleeps s hp]
        simp only []
        have hne : f ≠ pframe := by
          intro he
          rw [he, hp] at hr
          cases hr
        obtain ⟨hlt, he⟩ := List.get?_eq_some.1 hg
        have hdrop : s.vbuffers.displayed.drop it
            = pframe :: s.vbuffers.displayed.drop (it + 1) := by
          rw [List.drop_eq_getElem_cons hlt]
          exact congrArg (fun x => x :: s.vbuffers.displayed.drop (it + 1)) he
        rw [hdrop] at hf
        have hf1 : f ∈ s.vbuffers.displayed.drop (it + 1) := by
          rcases List.mem_cons.1 hf with h | h
          · exact absurd h hne
          · exact h
        have h1 : ∃ g ∈ (s.SyncSurface env (some pframe) 0).vbuffers.displayed.drop (it + 1),
            IsRendering env (some g) = true := ⟨f, hf1, hr⟩
        have h2 : ∃ g ∈ ((((((s.SyncSurface env (some pframe) 0).vcall env
            (Call.RemoveInheritence pframe)).vcall env
            (Call.safeEnqueue .kVideoBuffer_avail (some pframe))).vcall env
            Call.end_lock).vcall env
            (Call.begin_lock .kVideoBuffer_displayed)).vbuffers.displayed).drop 0,
            IsRendering env (some g) = true := by
          have hd : (((((s.SyncSurface env (some pframe) 0).vcall env
              (Call.RemoveInheritence pframe)).vcall env
              (Call.safeEnqueue .kVideoBuffer_avail (some pframe))).vcall env
              Call.end_lock).vcall env
              (Call.begin_lock .kVideoBuffer_displayed)).vbuffers.displayed
              = s.vbuffers.displayed.filter (fun g => g != pframe) := rfl
          rw [hd, List.drop_zero]
          exact ⟨f, List.mem_filter.2 ⟨List.mem_of_mem_drop hf1, by simpa using hne⟩, hr⟩
        split
        · split
          · exact ih _ _ h1
          · exact ih _ _ h2
        · exact ih _ _ h1

/-- While no frame of the displayed queue is reported rendering, the final loop
of the sweep with its waits does what the loop does. -/
theorem sweepLoop_wait_idle (sleeps fuel : Nat) :
    ∀ (it : Nat) (s : VideoOutputXv),
      (∀ f ∈ s.vbuffers.displayed, IsRendering env (some f) = false) →
      VideoOutputXv.sweepLoop_wait env sleeps fuel it s = VideoOutputXv.sweepLoop env fuel it s := by
  induction fuel with
  | zero => intro it s _; rfl
  | succ fuel ih =>
    intro it s hr
    rw [VideoOutputXv.sweepLoop_wait, VideoOutputXv.sweepLoop]
    cases hg : s.vbuffers.displayed.get? it with
    | none => rfl
    | some pframe =>
      have hmem : pframe ∈ s.vbuffers.displayed := List.get?_mem hg
      simp only [SyncSurface_wait_idle env (some pframe) 0 sleeps s (hr pframe hmem)]
      have h1 : ∀ f ∈ (s.SyncSurface env (some pframe) 0).vbuffers.displayed,
          IsRendering env (some f) = false := hr
      have h2 : ∀ f ∈ (((((s.SyncSurface env (some pframe) 0).vcall env
          (Call.RemoveInheritence pframe)).vcall env
          (Call.safeEnqueue .kVideoBuffer_avail (some pframe))).vcall env
          Call.end_lock).vcall env (Call.begin_lock .kVideoBuffer_displayed)).vbuffers.displayed,
          IsRendering env (some f) = false := by
        intro f hf
        have hd : (((((s.SyncSurface env (some pframe) 0).vcall env
            (Call.RemoveInheritence pframe)).vcall env
            (Call.safeEnqueue .kVideoBuffer_avail (some pframe))).vcall env
            Call.end_lock).vcall env (Call.begin_lock .kVideoBuffer_displayed)).vbuffers.displayed
            = s.vbuffers.displayed.filter (fun g => g != pframe) := rfl
        rw [hd] at hf
        exact hr f (List.mem_filter.1 hf).1
      split
      · split
        · exact ih _ _ h1
        · exact ih _ _ h2
      · exact ih _ _ h1

/-- While no frame of the displayed queue is reported rendering, the third part
of the sweep returns, with the state of `sweepDisplayed`. -/
theorem sweepDisplayed_wait_idle (sleeps : Nat) (s : VideoOutputXv)
    (hr : ∀ f ∈ s.vbuffers.displayed, IsRendering env (some f) = false) :
    VideoOutputXv.sweepDisplayed_wait env sleeps s = some (VideoOutputXv.sweepDisplayed env s) := by
  obtain ⟨s2, h2, heq⟩ := sweepDisplayed_eq env s
  have hw := sweepLoop_wait_idle env sleeps
    (VideoOutputXv.sweepBound s.vbuffers.displayed.length) 0
    (s.vcall env (Call.begin_lock .kVideoBuffer_displayed)) hr
  show (VideoOutputXv.sweepLoop_wait env sleeps
    (VideoOutputXv.sweepBound s.vbuffers.displayed.length) 0
    (s.vcall env (Call.begin_lock .kVideoBuffer_displayed))).bind
      (fun s => some (s.vcall env Call.end_lock)) = _
  rw [hw, h2, heq]
  rfl

theorem DiscardFrame_check_wait_idle
    (hall : ∀ frame : Option VideoFrame, IsRendering env frame = false)
    (sleeps : Nat) (f : VideoFrame) (s : VideoOutputXv) :
    VideoOutputXv.DiscardFrame_check_wait env sleeps f s =
      some (VideoOutputXv.DiscardFrame_check env f s) := by
  simp only [VideoOutputXv.DiscardFrame_check_wait, VideoOutputXv.DiscardFrame_check,
    fun frame pf s => SyncSurface_wait_idle env frame pf sleeps s (hall frame), Option.some_bind]
  split <;> rfl

theorem DiscardFrame_wait_idle
    (hall : ∀ frame : Option VideoFrame, IsRendering env frame = false)
    (sleeps : Nat) (frame : Option VideoFrame) (s : VideoOutputXv) :
    VideoOutputXv.DiscardFrame_wait env sleeps frame s =
      some (VideoOutputXv.DiscardFrame env frame s) := by
  cases frame with
  | none => rfl
  | some f =>
    simp only [VideoOutputXv.DiscardFrame_wait, VideoOutputXv.DiscardFrame,
      DiscardFrame_check_wait_idle env hall, Option.some_bind]
    split <;> rfl

theorem discardPause_wait_idle
    (hall : ∀ frame : Option VideoFrame, IsRendering env frame = false)
    (sleeps fuel : Nat) :
    ∀ s : VideoOutputXv, VideoOutputXv.discardPause_wait env sleeps fuel s =
      some (VideoOutputXv.discardPause env fuel s) := by
  induction fuel with
  | zero => intro s; rfl
  | succ fuel ih =>
    intro s
    simp only [VideoOutputXv.discardPause_wait, VideoOutputXv.discardPause,
      DiscardFrame_wait_idle env hall, Option.some_bind, ih]
    split <;> rfl

theorem CheckDisplayedFramesForAvailability_wait_idle
    (hall : ∀ frame : Option VideoFrame, IsRendering env frame = false)
    (sleeps : Nat) (s : VideoOutputXv) :
    VideoOutputXv.CheckDisplayedFramesForAvailability_wait env sleeps s =
      some (VideoOutputXv.CheckDisplayedFramesForAvailability env s) := by
  unfold VideoOutputXv.CheckDisplayedFramesForAvailability_wait
    VideoOutputXv.CheckDisplayedFramesForAvailability
  exact sweepDisplayed_wait_idle env sleeps _ (fun f _ => hall (some f))

/-- While no frame is reported rendering, `ShowXvMC` returns, with the state of
`ShowXvMC`. -/
theorem ShowXvMC_wait_idle
    (hall : ∀ frame : Option VideoFrame, IsRendering env frame = false)
    (sleeps : Nat) (s : VideoOutputXv) :
    VideoOutputXv.ShowXvMC_wait env sleeps s = some (VideoOutputXv.ShowXvMC env s) := by
  unfold VideoOutputXv.ShowXvMC_wait VideoOutputXv.ShowXvMC
  simp only []
  split
  · rfl
  · simp only [VideoOutputXv.ShowXvMC_show_wait, VideoOutputXv.ShowXvMC_show,
      discardPause_wait_idle env hall, CheckDisplayedFramesForAvailability_wait_idle env hall]
    split <;> rfl


end Waiting

/-! ## The reclaim sweep and ShowXvMC with the waits of SyncSurface -/

/-- C25, as stated, fails.  The displayed queue holds the single frame 2, which
the back-end (status function held fixed) reports as rendering: the
`SyncSurface(pframe)` that opens the body of the final loop of
`CheckDisplayedFramesForAvailability` waits in `while (IsRendering(frame))
usleep(50);`, so the loop has no result however many sleeps and loop tests are
allowed. -/
theorem sweep_waits_while_rendering :
    oneDisplayedState.vbuffers.displayed = [2] ∧
    IsRendering renderingEnv (some 2) = true ∧
    ∀ sleeps fuel : Nat,
      VideoOutputXv.sweepLoop_wait renderingEnv sleeps fuel 0
        (oneDisplayedState.vcall renderingEnv (Call.begin_lock .kVideoBuffer_displayed))
        = none :=
  ⟨rfl, by decide,
    fun sleeps fuel => sweepLoop_wait_blocks renderingEnv sleeps fuel 0 _ 2 rfl (by decide)⟩

/-- C25, amended.  For every displayed queue and every environment (the back-end
status function held fixed) in which no frame of the displayed queue is reported
rendering, the final loop of `CheckDisplayedFramesForAvailability` terminates:
started at the head of a displayed queue of `n` frames it ends within
`(n + 1) * (n + 1)` loop tests without a sleep, any larger bounds give the same
final state, and this is the state the sweep continues with.  It does so although
the loop restarts from the head after each frame it frees: every restart follows
the removal of a frame from the displayed queue, so the queue at the end is
shorter than at the start by at least the number of restarts, and there are at
most `n` restarts.  When a frame of the displayed queue is reported rendering,
the loop waits in `SyncSurface` and has no result, whatever the bounds. -/
theorem sweep_terminates (env : Env) (s : VideoOutputXv) :
    ((∀ f ∈ s.vbuffers.displayed, IsRendering env (some f) = false) →
      ∃ s2 : VideoOutputXv,
        (∀ sleeps fuel : Nat, VideoOutputXv.sweepBound s.vbuffers.displayed.length ≤ fuel →
          VideoOutputXv.sweepLoop_wait env sleeps fuel 0
            (s.vcall env (Call.begin_lock .kVideoBuffer_displayed)) = some s2) ∧
        (∀ sleeps : Nat,
          VideoOutputXv.sweepDisplayed_wait env sleeps s = some (s2.vcall env Call.end_lock)) ∧
        VideoOutputXv.sweepDisplayed env s = s2.vcall env Call.end_lock ∧
        ∃ l : List Call,
          s2.trace = (s.vcall env (Call.begin_lock .kVideoBuffer_displayed)).trace ++ l ∧
          s2.vbuffers.displayed.length + l.count Call.end_lock ≤ s.vbuffers.displayed.length ∧
          l.count Call.end_lock ≤ s.vbuffers.displayed.length) ∧
    ((∃ f ∈ s.vbuffers.displayed, IsRendering env (some f) = true) →
      ∀ sleeps fuel : Nat,
        VideoOutputXv.sweepLoop_wait env sleeps fuel 0
          (s.vcall env (Call.begin_lock .kVideoBuffer_displayed)) = none) := by
  refine ⟨fun hidle => ?_, fun hex sleeps fuel => ?_⟩
  · obtain ⟨s2, h2, heq⟩ := sweepDisplayed_eq env s
    obtain ⟨l, ht, hlen⟩ := sweepLoop_restarts env _ _ _ _ h2
    have hlen2 : s2.vbuffers.displayed.length + l.count Call.end_lock
        ≤ s.vbuffers.displayed.length := hlen
    refine ⟨s2, fun sleeps fuel hf => ?_, fun sleeps => ?_, heq, l, ht, hlen2, by omega⟩
    · rw [sweepLoop_wait_idle env sleeps fuel 0
        (s.vcall env (Call.begin_lock .kVideoBuffer_displayed)) hidle]
      exact sweepLoop_fuel_le env _ fuel hf _ _ _ h2
    · rw [sweepDisplayed_wait_idle env sleeps s hidle, heq]
  · obtain ⟨f, hf, hr⟩ := hex
    exact sweepLoop_wait_never env sleeps fuel 0
      (s.vcall env (Call.begin_lock .kVideoBuffer_displayed)) ⟨f, hf, hr⟩

/-- C25, amended, on the state with displayed frames 1 (still referenced) and 2,
none of them rendering: the loop ends within 9 tests, after one restart, with
frame 1 left in the displayed queue. -/
theorem sweep_terminates_witness :
    (∀ f ∈ sweepState.vbuffers.displayed, IsRendering idleEnv (some f) = false) ∧
    ∃ s2 : VideoOutputXv,
      VideoOutputXv.sweepLoop_wait idleEnv 0 9 0
        (sweepState.vcall idleEnv (Call.begin_lock .kVideoBuffer_displayed)) = some s2 ∧
      s2.vbuffers.displayed = [1] := by
  refine ⟨by decide, ?_⟩
  obtain ⟨s2, h, -⟩ := (sweep_terminates idleEnv sweepState).1 (by decide)
  have h9 := h 0 9 (by decide)
  refine ⟨s2, h9, ?_⟩
  have hm : (VideoOutputXv.sweepLoop_wait idleEnv 0 9 0
      (sweepState.vcall idleEnv (Call.begin_lock .kVideoBuffer_displayed))).map
      (fun x => x.vbuffers.displayed) = some [1] := by decide
  rw [h9] at hm
  exact Option.some.inj hm

end MythTV
